import Mathlib

/-!
# QuGate: a shallow embedding of `contract_qugate.cpp`

The registry of payment-routing gates (`QuGateState`), the host context of the
harness (`TestQpiContext`) and the procedures of `QuGateTest` (`createGate`,
`sendToGate`, `closeGate`, `updateGate`, `endEpoch` and the read accessors).

Conventions of the embedding:

* unsigned machine integers (`uint8`, `uint16`, `uint64`) are natural numbers,
  with an explicit `% 2^64` wherever the source computes in `uint64`;
* `sint64` values are integers; a conversion `uint64 → sint64` is `toS64`, a
  conversion `sint64 → uint64` is `toU64`; signed arithmetic itself is computed
  in `ℤ` (signed overflow is undefined in the source, so the two agree wherever
  the source is defined);
* `QPI::Array<T, capacity>` is a total map `Nat → T` (`get` and `set` are
  unchecked in the source; an index at or beyond the capacity is undefined
  there);
* a method of `QuGateTest` that mutates the harness returns its output paired
  with the harness after the call.
-/

namespace QuGate

/-! ## Machine integers and the QPI shim -/

/-- The modulus of 64-bit unsigned arithmetic. -/
abbrev U64 : Nat := 2 ^ 64

/-- Conversion of an integer to `uint64` (two's complement, as `(uint64)x`). -/
def toU64 (x : Int) : Nat := (x % (2 ^ 64 : Int)).toNat

/-- Conversion of an integer to `sint64` (two's complement, as `(sint64)x`). -/
def toS64 (x : Int) : Int := (x + 2 ^ 63) % (2 ^ 64 : Int) - 2 ^ 63

/-- Identities: `typedef m256i id`, a 256-bit value compared bytewise. -/
abbrev m256i : Type := Nat

/-- The all-zero identity `m256i::zero()`. -/
def m256i.zero : m256i := 0

/-- The shim `QPI::Array<T, capacity>`, as a total map from indices. -/
abbrev QArray (α : Type) : Type := Nat → α

/-- The method `Array::get(idx)`. -/
def QArray.get {α : Type} (a : QArray α) (idx : Nat) : α := a idx

/-- The method `Array::set(idx, val)`. -/
def QArray.set {α : Type} (a : QArray α) (idx : Nat) (val : α) : QArray α :=
  Function.update a idx val

/-- The shim `QPI::div(a, b)`: `b ? a / b : 0`. -/
def QPI.div (a b : Nat) : Nat := if b ≠ 0 then a / b else 0

/-- The shim `QPI::mod(a, b)`: `b ? a % b : 0`. -/
def QPI.mod (a b : Nat) : Nat := if b ≠ 0 then a % b else 0

/-! ## Constants -/

abbrev QUGATE_INITIAL_MAX_GATES : Nat := 4096
abbrev QUGATE_MAX_GATES : Nat := QUGATE_INITIAL_MAX_GATES * 1
abbrev QUGATE_MAX_RECIPIENTS : Nat := 8
abbrev QUGATE_MAX_RATIO : Nat := 10000

abbrev QUGATE_DEFAULT_CREATION_FEE : Nat := 1000
abbrev QUGATE_DEFAULT_MIN_SEND : Nat := 10
abbrev QUGATE_FEE_ESCALATION_STEP : Nat := 1024
abbrev QUGATE_DEFAULT_EXPIRY_EPOCHS : Nat := 50

abbrev MODE_SPLIT : Nat := 0
abbrev MODE_ROUND_ROBIN : Nat := 1
abbrev MODE_THRESHOLD : Nat := 2
abbrev MODE_RANDOM : Nat := 3
abbrev MODE_CONDITIONAL : Nat := 4

abbrev QUGATE_SUCCESS : Int := 0
abbrev QUGATE_INVALID_GATE_ID : Int := -1
abbrev QUGATE_GATE_NOT_ACTIVE : Int := -2
abbrev QUGATE_UNAUTHORIZED : Int := -3
abbrev QUGATE_INVALID_MODE : Int := -4
abbrev QUGATE_INVALID_RECIPIENT_COUNT : Int := -5
abbrev QUGATE_INVALID_RATIO : Int := -6
abbrev QUGATE_INSUFFICIENT_FEE : Int := -7
abbrev QUGATE_NO_FREE_SLOTS : Int := -8
abbrev QUGATE_DUST_AMOUNT : Int := -9
abbrev QUGATE_INVALID_THRESHOLD : Int := -10
abbrev QUGATE_INVALID_SENDER_COUNT : Int := -11
abbrev QUGATE_CONDITIONAL_REJECTED : Int := -12

/-! ## The host context of the harness -/

/-- One recorded call of `transfer`: `struct Transfer { id to; sint64 amount; }`
(the field `to` is spelt `to_`, `to` being reserved). -/
structure Transfer where
  to_ : m256i
  amount : Int
deriving DecidableEq, Repr

/-- The harness context `TestQpiContext`. The array `transfers` with its fill
count `transferCount` is the list `transfers` (its length is the count). -/
structure TestQpiContext where
  _invocator : m256i
  _reward : Int
  _epoch : Nat
  _tick : Nat
  transfers : List Transfer
  totalBurned : Int
deriving DecidableEq, Repr

/-- The capacity `TestQpiContext::MAX_TRANSFERS` of the transfer log. -/
abbrev TestQpiContext.MAX_TRANSFERS : Nat := 64

/-- The constructor `TestQpiContext()`: epoch 100, tick 12345, nothing logged. -/
def TestQpiContext.new : TestQpiContext :=
  { _invocator := 0, _reward := 0, _epoch := 100, _tick := 12345, transfers := [], totalBurned := 0 }

/-- The method `epoch()`. -/
def TestQpiContext.epoch (q : TestQpiContext) : Nat := q._epoch

/-- The method `tick()`. -/
def TestQpiContext.tick (q : TestQpiContext) : Nat := q._tick

/-- The method `transferCount`, the number of recorded transfers. -/
def TestQpiContext.transferCount (q : TestQpiContext) : Nat := q.transfers.length

/-- The method `transfer(to, amount)`: recorded while the log has room. -/
def TestQpiContext.transfer (q : TestQpiContext) (to_ : m256i) (amount : Int) : TestQpiContext :=
  if q.transfers.length < TestQpiContext.MAX_TRANSFERS then
    { q with transfers := q.transfers ++ [{ to_ := to_, amount := amount }] }
  else q

/-- The method `burn(amount)`: `totalBurned += amount`. -/
def TestQpiContext.burn (q : TestQpiContext) (amount : Int) : TestQpiContext :=
  { q with totalBurned := q.totalBurned + amount }

/-- The method `reset()`. -/
def TestQpiContext.reset (q : TestQpiContext) : TestQpiContext :=
  { q with transfers := [], totalBurned := 0, _reward := 0 }

/-- The method `totalTransferredTo(addr)`: the sum of the amounts sent to `addr`. -/
def TestQpiContext.totalTransferredTo (q : TestQpiContext) (addr : m256i) : Int :=
  q.transfers.foldl (fun total t => if t.to_ = addr then total + t.amount else total) 0

/-! ## Gate records and the registry -/

/-- The record `GateConfig` of one gate slot. -/
structure GateConfig where
  owner : m256i
  mode : Nat
  recipientCount : Nat
  active : Nat
  allowedSenderCount : Nat
  createdEpoch : Nat
  lastActivityEpoch : Nat
  totalReceived : Nat
  totalForwarded : Nat
  currentBalance : Nat
  threshold : Nat
  roundRobinIndex : Nat
  recipients : QArray m256i
  ratios : QArray Nat
  allowedSenders : QArray m256i

/-- The all-zero record left by `memset(&g, 0, sizeof(g))`. -/
def GateConfig.zero : GateConfig :=
  { owner := 0, mode := 0, recipientCount := 0, active := 0, allowedSenderCount := 0,
    createdEpoch := 0, lastActivityEpoch := 0, totalReceived := 0, totalForwarded := 0,
    currentBalance := 0, threshold := 0, roundRobinIndex := 0,
    recipients := fun _ => 0, ratios := fun _ => 0, allowedSenders := fun _ => 0 }

/-- The registry `QuGateState`. -/
structure QuGateState where
  _gateCount : Nat
  _activeGates : Nat
  _totalBurned : Nat
  _gates : QArray GateConfig
  _freeSlots : QArray Nat
  _freeCount : Nat
  _creationFee : Nat
  _minSendAmount : Nat
  _expiryEpochs : Nat

/-- The input record of `createGate`. -/
structure createGate_input where
  mode : Nat
  recipientCount : Nat
  recipients : QArray m256i
  ratios : QArray Nat
  threshold : Nat
  allowedSenders : QArray m256i
  allowedSenderCount : Nat

/-- The output record of `createGate`. -/
structure createGate_output where
  status : Int
  gateId : Nat
  feePaid : Nat
deriving DecidableEq, Repr

/-- The output record of `sendToGate`. -/
structure sendToGate_output where
  status : Int
deriving DecidableEq, Repr

/-- The output record of `closeGate`. -/
structure closeGate_output where
  status : Int
deriving DecidableEq, Repr

/-- The input record of `updateGate`. -/
structure updateGate_input where
  gateId : Nat
  recipientCount : Nat
  recipients : QArray m256i
  ratios : QArray Nat
  threshold : Nat
  allowedSenders : QArray m256i
  allowedSenderCount : Nat

/-- The output record of `updateGate`. -/
structure updateGate_output where
  status : Int
deriving DecidableEq, Repr

/-- The output record of `getGate`. -/
structure getGate_output where
  mode : Nat
  recipientCount : Nat
  active : Nat
  owner : m256i
  totalReceived : Nat
  totalForwarded : Nat
  currentBalance : Nat
  threshold : Nat
  createdEpoch : Nat
  lastActivityEpoch : Nat
  recipients : QArray m256i
  ratios : QArray Nat

/-- The output record of `getGateCount`. -/
structure getGateCount_output where
  totalGates : Nat
  activeGates : Nat
  totalBurned : Nat
deriving DecidableEq, Repr

/-- The output record of `getFees`. -/
structure getFees_output where
  creationFee : Nat
  currentCreationFee : Nat
  minSendAmount : Nat
  expiryEpochs : Nat
deriving DecidableEq, Repr

/-- The harness `QuGateTest`: the registry and the host context. -/
structure QuGateTest where
  state : QuGateState
  qpi : TestQpiContext

/-- The constructor `QuGateTest()`: a zeroed registry with the default fees. -/
def QuGateTest.new : QuGateTest :=
  { state :=
      { _gateCount := 0, _activeGates := 0, _totalBurned := 0,
        _gates := fun _ => GateConfig.zero, _freeSlots := fun _ => 0, _freeCount := 0,
        _creationFee := QUGATE_DEFAULT_CREATION_FEE,
        _minSendAmount := QUGATE_DEFAULT_MIN_SEND,
        _expiryEpochs := QUGATE_DEFAULT_EXPIRY_EPOCHS },
    qpi := TestQpiContext.new }

/-! ## `createGate` -/

/-- The escalated fee `_creationFee * (1 + div(_activeGates, STEP))`, in `uint64`. -/
def QuGateTest.currentEscalatedFee (env : QuGateTest) : Nat :=
  (env.state._creationFee *
    ((1 + QPI.div env.state._activeGates QUGATE_FEE_ESCALATION_STEP) % U64)) % U64

/-- The loop `for (i = 0; i < n; i++) totalRatio += ratios.get(i)` from `totalRatio = 0`. -/
def sumRatios (ratios : QArray Nat) (n : Nat) : Nat :=
  (List.range n).foldl (fun totalRatio i => (totalRatio + ratios.get i) % U64) 0

/-- The loop of `createGate` looking for a ratio above `QUGATE_MAX_RATIO`
among the first `n`: it returns at the first one it finds. -/
def anyRatioOverMax (ratios : QArray Nat) (n : Nat) : Bool :=
  (List.range n).any (fun i => decide (ratios.get i > QUGATE_MAX_RATIO))

/-- The first population loop of `createGate`: over `i < QUGATE_MAX_RECIPIENTS`,
copy recipient and ratio `i` when `i < recipientCount`, clear them otherwise. -/
def fillRecipients (g : GateConfig) (recipientCount : Nat) (recipients : QArray m256i)
    (ratios : QArray Nat) : GateConfig :=
  (List.range QUGATE_MAX_RECIPIENTS).foldl
    (fun g i =>
      if i < recipientCount then
        { g with recipients := g.recipients.set i (recipients.get i),
                 ratios := g.ratios.set i (ratios.get i) }
      else
        { g with recipients := g.recipients.set i m256i.zero,
                 ratios := g.ratios.set i 0 })
    g

/-- The second population loop of `createGate`: over `i < QUGATE_MAX_RECIPIENTS`,
copy allowed sender `i` when `i < allowedSenderCount`, clear it otherwise. -/
def fillAllowedSenders (g : GateConfig) (allowedSenderCount : Nat)
    (allowedSenders : QArray m256i) : GateConfig :=
  (List.range QUGATE_MAX_RECIPIENTS).foldl
    (fun g i =>
      if i < allowedSenderCount then
        { g with allowedSenders := g.allowedSenders.set i (allowedSenders.get i) }
      else
        { g with allowedSenders := g.allowedSenders.set i m256i.zero })
    g

/-- The record `g` that `createGate` builds before it allocates a slot. -/
def newGate (creator : m256i) (epoch : Nat) (input : createGate_input) : GateConfig :=
  let g : GateConfig :=
    { GateConfig.zero with
      owner := creator, mode := input.mode, recipientCount := input.recipientCount,
      active := 1, allowedSenderCount := input.allowedSenderCount,
      createdEpoch := epoch, lastActivityEpoch := epoch,
      threshold := input.threshold, roundRobinIndex := 0 }
  let g := fillRecipients g input.recipientCount input.recipients input.ratios
  fillAllowedSenders g input.allowedSenderCount input.allowedSenders

/-- The end of `createGate`, past the validation: build the record, take the
slot on top of the free list or else the next fresh one, store the record,
count the gate, burn `currentFee` and refund what was paid above it. -/
def createGateCommit (state : QuGateState) (qpi : TestQpiContext) (creator : m256i) (fee : Int)
    (currentFee : Nat) (input : createGate_input) : createGate_output × QuGateTest :=
  let g := newGate creator qpi.epoch input
  let slotIdx : Nat :=
    if state._freeCount > 0 then state._freeSlots.get (state._freeCount - 1) else state._gateCount
  let state : QuGateState :=
    if state._freeCount > 0 then { state with _freeCount := state._freeCount - 1 }
    else { state with _gateCount := (state._gateCount + 1) % U64 }
  let state := { state with _gates := state._gates.set slotIdx g }
  let gateId := (slotIdx + 1) % U64
  let state := { state with _activeGates := (state._activeGates + 1) % U64 }
  let qpi := qpi.burn (toS64 currentFee)
  let state := { state with _totalBurned := (state._totalBurned + currentFee) % U64 }
  let qpi := if fee > toS64 currentFee then qpi.transfer creator (fee - toS64 currentFee) else qpi
  ({ status := QUGATE_SUCCESS, gateId := gateId, feePaid := currentFee }, { state := state, qpi := qpi })

/-- The method `createGate(creator, fee, input)`: the validation in the order
of the source, each failure returning at once, then `createGateCommit`. -/
def QuGateTest.createGate (env : QuGateTest) (creator : m256i) (fee : Int)
    (input : createGate_input) : createGate_output × QuGateTest :=
  let qpi := { env.qpi.reset with _invocator := creator, _reward := fee }
  let state := env.state
  let currentFee : Nat :=
    (state._creationFee * ((1 + QPI.div state._activeGates QUGATE_FEE_ESCALATION_STEP) % U64)) % U64
  if fee < toS64 currentFee then
    let qpi := if fee > 0 then qpi.transfer creator fee else qpi
    ({ status := QUGATE_INSUFFICIENT_FEE, gateId := 0, feePaid := 0 }, { state := state, qpi := qpi })
  else if input.mode > MODE_CONDITIONAL then
    ({ status := QUGATE_INVALID_MODE, gateId := 0, feePaid := 0 },
      { state := state, qpi := qpi.transfer creator fee })
  else if input.recipientCount = 0 ∨ input.recipientCount > QUGATE_MAX_RECIPIENTS then
    ({ status := QUGATE_INVALID_RECIPIENT_COUNT, gateId := 0, feePaid := 0 },
      { state := state, qpi := qpi.transfer creator fee })
  else if state._freeCount = 0 ∧ state._gateCount ≥ QUGATE_MAX_GATES then
    ({ status := QUGATE_NO_FREE_SLOTS, gateId := 0, feePaid := 0 },
      { state := state, qpi := qpi.transfer creator fee })
  else if input.mode = MODE_SPLIT ∧ sumRatios input.ratios input.recipientCount = 0 then
    ({ status := QUGATE_INVALID_RATIO, gateId := 0, feePaid := 0 },
      { state := state, qpi := qpi.transfer creator fee })
  else if input.mode = MODE_SPLIT ∧ anyRatioOverMax input.ratios input.recipientCount = true then
    ({ status := QUGATE_INVALID_RATIO, gateId := 0, feePaid := 0 },
      { state := state, qpi := qpi.transfer creator fee })
  else if input.mode = MODE_THRESHOLD ∧ input.threshold = 0 then
    ({ status := QUGATE_INVALID_THRESHOLD, gateId := 0, feePaid := 0 },
      { state := state, qpi := qpi.transfer creator fee })
  else if input.allowedSenderCount > QUGATE_MAX_RECIPIENTS then
    ({ status := QUGATE_INVALID_SENDER_COUNT, gateId := 0, feePaid := 0 },
      { state := state, qpi := qpi.transfer creator fee })
  else
    createGateCommit state qpi creator fee currentFee input

/-! ## `sendToGate` -/

/-- One iteration of the Split loop of `sendToGate` at index `i`: the share of
the last index is `amount - distributed`, that of any other index is
`div((uint64)amount * ratios.get(i), totalRatio)`; a positive share is
transferred and added to `distributed`. -/
def splitStep (gate : GateConfig) (amount : Int) (totalRatio : Nat)
    (acc : TestQpiContext × Nat) (i : Nat) : TestQpiContext × Nat :=
  let share : Nat :=
    if i = toU64 ((gate.recipientCount : Int) - 1) then
      (toU64 amount + (U64 - acc.2)) % U64
    else
      QPI.div ((toU64 amount * gate.ratios.get i) % U64) totalRatio
  if share > 0 then
    (acc.1.transfer (gate.recipients.get i) (toS64 share), (acc.2 + share) % U64)
  else acc

/-- The Split loop of `sendToGate`, `for (i = 0; i < gate.recipientCount; i++)`,
from `distributed = 0`: the context and `distributed` after it. -/
def splitLoop (gate : GateConfig) (amount : Int) (totalRatio : Nat) (qpi : TestQpiContext) :
    TestQpiContext × Nat :=
  (List.range gate.recipientCount).foldl (splitStep gate amount totalRatio) (qpi, 0)

/-- The Conditional loop of `sendToGate`: `senderAllowed` is set when one of
the first `allowedSenderCount` allowed senders equals `sender`. -/
def senderAllowed (gate : GateConfig) (sender : m256i) : Bool :=
  (List.range gate.allowedSenderCount).any (fun i => decide (gate.allowedSenders.get i = sender))

/-- What a mode branch of `sendToGate` leaves: the status, the local copy
`gate` of the record and the host context. -/
structure SendResult where
  status : Int
  gate : GateConfig
  qpi : TestQpiContext

/-- The `MODE_SPLIT` branch of `sendToGate`. -/
def sendSplit (gate : GateConfig) (qpi : TestQpiContext) (amount : Int) : SendResult :=
  let totalRatio := sumRatios gate.ratios gate.recipientCount
  let r := splitLoop gate amount totalRatio qpi
  { status := QUGATE_SUCCESS,
    gate := { gate with totalForwarded := (gate.totalForwarded + r.2) % U64 },
    qpi := r.1 }

/-- The `MODE_ROUND_ROBIN` branch of `sendToGate`. -/
def sendRoundRobin (gate : GateConfig) (qpi : TestQpiContext) (amount : Int) : SendResult :=
  { status := QUGATE_SUCCESS,
    gate := { gate with
      totalForwarded := (gate.totalForwarded + toU64 amount) % U64,
      roundRobinIndex := QPI.mod ((gate.roundRobinIndex + 1) % U64) gate.recipientCount },
    qpi := qpi.transfer (gate.recipients.get gate.roundRobinIndex) amount }

/-- The `MODE_THRESHOLD` branch of `sendToGate`. -/
def sendThreshold (gate : GateConfig) (qpi : TestQpiContext) (amount : Int) : SendResult :=
  let gate := { gate with currentBalance := (gate.currentBalance + toU64 amount) % U64 }
  if gate.currentBalance ≥ gate.threshold then
    { status := QUGATE_SUCCESS,
      gate := { gate with
        totalForwarded := (gate.totalForwarded + gate.currentBalance) % U64,
        currentBalance := 0 },
      qpi := qpi.transfer (gate.recipients.get 0) (toS64 gate.currentBalance) }
  else
    { status := QUGATE_SUCCESS, gate := gate, qpi := qpi }

/-- The `MODE_RANDOM` branch of `sendToGate`. -/
def sendRandom (gate : GateConfig) (qpi : TestQpiContext) (amount : Int) : SendResult :=
  let ridx := QPI.mod ((gate.totalReceived + qpi.tick) % U64) gate.recipientCount
  { status := QUGATE_SUCCESS,
    gate := { gate with totalForwarded := (gate.totalForwarded + toU64 amount) % U64 },
    qpi := qpi.transfer (gate.recipients.get ridx) amount }

/-- The `MODE_CONDITIONAL` branch of `sendToGate`. -/
def sendConditional (gate : GateConfig) (qpi : TestQpiContext) (sender : m256i) (amount : Int) :
    SendResult :=
  if senderAllowed gate sender = true then
    { status := QUGATE_SUCCESS,
      gate := { gate with totalForwarded := (gate.totalForwarded + toU64 amount) % U64 },
      qpi := qpi.transfer (gate.recipients.get 0) amount }
  else
    { status := QUGATE_CONDITIONAL_REJECTED, gate := gate, qpi := qpi.transfer sender amount }

/-- The dispatch by mode of `sendToGate`, the `if`/`else if` chain over
`gate.mode`; a mode that is none of the five leaves everything as it is. -/
def sendByMode (gate : GateConfig) (qpi : TestQpiContext) (sender : m256i) (amount : Int) :
    SendResult :=
  if gate.mode = MODE_SPLIT then sendSplit gate qpi amount
  else if gate.mode = MODE_ROUND_ROBIN then sendRoundRobin gate qpi amount
  else if gate.mode = MODE_THRESHOLD then sendThreshold gate qpi amount
  else if gate.mode = MODE_RANDOM then sendRandom gate qpi amount
  else if gate.mode = MODE_CONDITIONAL then sendConditional gate qpi sender amount
  else { status := QUGATE_SUCCESS, gate := gate, qpi := qpi }

/-- The method `sendToGate(sender, gateId, amount)`: the checks, the update of
the activity epoch and of `totalReceived`, the dispatch by mode, and the
write-back of the record. -/
def QuGateTest.sendToGate (env : QuGateTest) (sender : m256i) (gateId : Nat) (amount : Int) :
    sendToGate_output × QuGateTest :=
  let qpi := { env.qpi.reset with _invocator := sender, _reward := amount }
  let state := env.state
  if gateId = 0 ∨ gateId > state._gateCount then
    let qpi := if amount > 0 then qpi.transfer sender amount else qpi
    ({ status := QUGATE_INVALID_GATE_ID }, { state := state, qpi := qpi })
  else
    let idx := gateId - 1
    let gate := state._gates.get idx
    if gate.active = 0 then
      let qpi := if amount > 0 then qpi.transfer sender amount else qpi
      ({ status := QUGATE_GATE_NOT_ACTIVE }, { state := state, qpi := qpi })
    else if amount = 0 then
      ({ status := QUGATE_DUST_AMOUNT }, { state := state, qpi := qpi })
    else if toU64 amount < state._minSendAmount then
      let qpi := qpi.burn amount
      let state := { state with _totalBurned := (state._totalBurned + toU64 amount) % U64 }
      ({ status := QUGATE_DUST_AMOUNT }, { state := state, qpi := qpi })
    else
      let gate := { gate with lastActivityEpoch := qpi.epoch,
                              totalReceived := (gate.totalReceived + toU64 amount) % U64 }
      let r := sendByMode gate qpi sender amount
      ({ status := r.status },
        { state := { state with _gates := state._gates.set (gateId - 1) r.gate }, qpi := r.qpi })

/-! ## `closeGate`, `updateGate`, `endEpoch` -/

/-- The method `closeGate(caller, gateId, reward)`. -/
def QuGateTest.closeGate (env : QuGateTest) (caller : m256i) (gateId : Nat) (reward : Int) :
    closeGate_output × QuGateTest :=
  let qpi := { env.qpi.reset with _invocator := caller, _reward := reward }
  let state := env.state
  if gateId = 0 ∨ gateId > state._gateCount then
    ({ status := QUGATE_INVALID_GATE_ID }, { state := state, qpi := qpi })
  else
    let gate := state._gates.get (gateId - 1)
    if ¬ (gate.owner = caller) then
      ({ status := QUGATE_UNAUTHORIZED }, { state := state, qpi := qpi })
    else if gate.active = 0 then
      ({ status := QUGATE_GATE_NOT_ACTIVE }, { state := state, qpi := qpi })
    else
      let qpi :=
        if gate.currentBalance > 0 then qpi.transfer gate.owner (toS64 gate.currentBalance) else qpi
      let gate := if gate.currentBalance > 0 then { gate with currentBalance := 0 } else gate
      let gate := { gate with active := 0 }
      let state := { state with _gates := state._gates.set (gateId - 1) gate }
      let state := { state with _activeGates := (state._activeGates + (U64 - 1)) % U64 }
      let state := { state with _freeSlots := state._freeSlots.set state._freeCount (gateId - 1) }
      let state := { state with _freeCount := (state._freeCount + 1) % U64 }
      let qpi := if reward > 0 then qpi.transfer caller reward else qpi
      ({ status := QUGATE_SUCCESS }, { state := state, qpi := qpi })

/-- The ratio loop of `updateGate`: it walks the first `n` ratios adding them
up and stops with `none` at the first one above `QUGATE_MAX_RATIO`; otherwise
it ends with the total. -/
def updateRatioLoop (ratios : QArray Nat) (n : Nat) : Option Nat :=
  (List.range n).foldl
    (fun acc i =>
      match acc with
      | none => none
      | some totalRatio =>
        if ratios.get i > QUGATE_MAX_RATIO then none
        else some ((totalRatio + ratios.get i) % U64))
    (some 0)

/-- The population loop of `updateGate`: over `i < QUGATE_MAX_RECIPIENTS`,
recipient, ratio and allowed sender `i` are copied below their counts and
cleared from there on. -/
def updateFill (gate : GateConfig) (input : updateGate_input) : GateConfig :=
  (List.range QUGATE_MAX_RECIPIENTS).foldl
    (fun gate i =>
      let gate :=
        if i < input.recipientCount then
          { gate with recipients := gate.recipients.set i (input.recipients.get i),
                      ratios := gate.ratios.set i (input.ratios.get i) }
        else
          { gate with recipients := gate.recipients.set i m256i.zero,
                      ratios := gate.ratios.set i 0 }
      if i < input.allowedSenderCount then
        { gate with allowedSenders := gate.allowedSenders.set i (input.allowedSenders.get i) }
      else
        { gate with allowedSenders := gate.allowedSenders.set i m256i.zero })
    gate

/-- The method `updateGate(caller, reward, input)`. -/
def QuGateTest.updateGate (env : QuGateTest) (caller : m256i) (reward : Int)
    (input : updateGate_input) : updateGate_output × QuGateTest :=
  let qpi := { env.qpi.reset with _invocator := caller, _reward := reward }
  let state := env.state
  let refund := if reward > 0 then qpi.transfer caller reward else qpi
  if input.gateId = 0 ∨ input.gateId > state._gateCount then
    ({ status := QUGATE_INVALID_GATE_ID }, { state := state, qpi := refund })
  else
    let gate := state._gates.get (input.gateId - 1)
    if ¬ (gate.owner = caller) then
      ({ status := QUGATE_UNAUTHORIZED }, { state := state, qpi := refund })
    else if gate.active = 0 then
      ({ status := QUGATE_GATE_NOT_ACTIVE }, { state := state, qpi := refund })
    else if input.recipientCount = 0 ∨ input.recipientCount > QUGATE_MAX_RECIPIENTS then
      ({ status := QUGATE_INVALID_RECIPIENT_COUNT }, { state := state, qpi := refund })
    else if input.allowedSenderCount > QUGATE_MAX_RECIPIENTS then
      ({ status := QUGATE_INVALID_SENDER_COUNT }, { state := state, qpi := refund })
    else if gate.mode = MODE_SPLIT ∧ updateRatioLoop input.ratios input.recipientCount = none then
      ({ status := QUGATE_INVALID_RATIO }, { state := state, qpi := refund })
    else if gate.mode = MODE_SPLIT ∧ updateRatioLoop input.ratios input.recipientCount = some 0 then
      ({ status := QUGATE_INVALID_RATIO }, { state := state, qpi := refund })
    else if gate.mode = MODE_THRESHOLD ∧ input.threshold = 0 then
      ({ status := QUGATE_INVALID_THRESHOLD }, { state := state, qpi := refund })
    else
      let gate := { gate with
        lastActivityEpoch := qpi.epoch, recipientCount := input.recipientCount,
        threshold := input.threshold, allowedSenderCount := input.allowedSenderCount }
      let gate := updateFill gate input
      let state := { state with _gates := state._gates.set (input.gateId - 1) gate }
      ({ status := QUGATE_SUCCESS }, { state := state, qpi := refund })

/-- The body of the loop of `endEpoch` at slot `i`. -/
def endEpochStep (env : QuGateTest) (i : Nat) : QuGateTest :=
  let state := env.state
  let qpi := env.qpi
  let gate := state._gates.get i
  if gate.active = 1 ∧ state._expiryEpochs > 0 then
    if toU64 (((qpi.epoch : Int) - (gate.lastActivityEpoch : Int)) % 65536) ≥ state._expiryEpochs then
      let qpi :=
        if gate.currentBalance > 0 then qpi.transfer gate.owner (toS64 gate.currentBalance) else qpi
      let gate := if gate.currentBalance > 0 then { gate with currentBalance := 0 } else gate
      let gate := { gate with active := 0 }
      let state := { state with _gates := state._gates.set i gate }
      let state := { state with _activeGates := (state._activeGates + (U64 - 1)) % U64 }
      let state := { state with _freeSlots := state._freeSlots.set state._freeCount i }
      let state := { state with _freeCount := (state._freeCount + 1) % U64 }
      { state := state, qpi := qpi }
    else env
  else env

/-- The method `endEpoch()`: the loop over `i < _gateCount` (the bound is not
changed by the body). The context is not reset. -/
def QuGateTest.endEpoch (env : QuGateTest) : QuGateTest :=
  (List.range env.state._gateCount).foldl endEpochStep env

/-! ## Read accessors -/

/-- The method `getGate(gateId)`. -/
def QuGateTest.getGate (env : QuGateTest) (gateId : Nat) : getGate_output :=
  let zero : getGate_output :=
    { mode := 0, recipientCount := 0, active := 0, owner := 0, totalReceived := 0,
      totalForwarded := 0, currentBalance := 0, threshold := 0, createdEpoch := 0,
      lastActivityEpoch := 0, recipients := fun _ => 0, ratios := fun _ => 0 }
  if gateId = 0 ∨ gateId > env.state._gateCount then zero
  else
    let g := env.state._gates.get (gateId - 1)
    let out := { zero with
      mode := g.mode, recipientCount := g.recipientCount, active := g.active, owner := g.owner,
      totalReceived := g.totalReceived, totalForwarded := g.totalForwarded,
      currentBalance := g.currentBalance, threshold := g.threshold,
      createdEpoch := g.createdEpoch, lastActivityEpoch := g.lastActivityEpoch }
    (List.range QUGATE_MAX_RECIPIENTS).foldl
      (fun out i => { out with recipients := out.recipients.set i (g.recipients.get i),
                               ratios := out.ratios.set i (g.ratios.get i) })
      out

/-- The method `getGateCount()`. -/
def QuGateTest.getGateCount (env : QuGateTest) : getGateCount_output :=
  { totalGates := env.state._gateCount, activeGates := env.state._activeGates,
    totalBurned := env.state._totalBurned }

/-- The method `getFees()`. -/
def QuGateTest.getFees (env : QuGateTest) : getFees_output :=
  { creationFee := env.state._creationFee,
    currentCreationFee :=
      (env.state._creationFee *
        ((1 + QPI.div env.state._activeGates QUGATE_FEE_ESCALATION_STEP) % U64)) % U64,
    minSendAmount := env.state._minSendAmount,
    expiryEpochs := env.state._expiryEpochs }

/-! ## Vocabulary of the properties -/

/-- The sum of the amounts of a transfer log. -/
def sumAmounts (l : List Transfer) : Int := (l.map (fun t => t.amount)).sum

/-- The sum, as a natural number, of the first `n` entries of an array of ratios. -/
def ratioSum (ratios : QArray Nat) (n : Nat) : Nat := ((List.range n).map ratios).sum

/-- The slot of the external gate id `gateId`, which is `gateId - 1`. -/
def QuGateTest.gate (env : QuGateTest) (gateId : Nat) : GateConfig :=
  env.state._gates.get (gateId - 1)

/-- The invariant of a Split gate: between 1 and 8 recipients, every declared
ratio at most `QUGATE_MAX_RATIO`, and a positive sum of the declared ratios. -/
def SplitInvariant (g : GateConfig) : Prop :=
  1 ≤ g.recipientCount ∧ g.recipientCount ≤ QUGATE_MAX_RECIPIENTS ∧
  (∀ i, i < g.recipientCount → g.ratios i ≤ QUGATE_MAX_RATIO) ∧
  0 < ratioSum g.ratios g.recipientCount

instance (g : GateConfig) : Decidable (SplitInvariant g) := by
  unfold SplitInvariant; infer_instance

/-- The gate invariant: a recognised mode, between 1 and 8 recipients, at most
8 allowed senders, the Split invariant on the ratios of a Split gate and a
positive threshold on a Threshold gate. -/
def GateInvariant (g : GateConfig) : Prop :=
  g.mode ≤ MODE_CONDITIONAL ∧
  1 ≤ g.recipientCount ∧ g.recipientCount ≤ QUGATE_MAX_RECIPIENTS ∧
  g.allowedSenderCount ≤ QUGATE_MAX_RECIPIENTS ∧
  (g.mode = MODE_SPLIT → SplitInvariant g) ∧
  (g.mode = MODE_THRESHOLD → 0 < g.threshold)

instance (g : GateConfig) : Decidable (GateInvariant g) := by
  unfold GateInvariant; infer_instance

/-! ## The Split loop in closed form -/

/-- The share of a recipient other than the last, as the Split loop computes it. -/
def splitShare (gate : GateConfig) (amount : Int) (totalRatio : Nat) (i : Nat) : Nat :=
  QPI.div ((toU64 amount * gate.ratios.get i) % U64) totalRatio

/-- The transfers the Split loop records for the recipients below `k`. -/
def splitPrefixTransfers (gate : GateConfig) (amount : Int) (totalRatio : Nat) (k : Nat) :
    List Transfer :=
  (List.range k).filterMap (fun i =>
    if 0 < splitShare gate amount totalRatio i then
      some { to_ := gate.recipients.get i, amount := (splitShare gate amount totalRatio i : Int) }
    else none)

/-- The sum of the shares of the recipients below `k`. -/
def splitPrefixSum (gate : GateConfig) (amount : Int) (totalRatio : Nat) (k : Nat) : Nat :=
  ((List.range k).map (splitShare gate amount totalRatio)).sum

/-- The transfers of a whole Split send: the shares of the recipients before
the last, then the remainder for the last one, zero shares left out. -/
def splitTransfers (gate : GateConfig) (amount : Int) (totalRatio : Nat) : List Transfer :=
  splitPrefixTransfers gate amount totalRatio (gate.recipientCount - 1) ++
    (if splitPrefixSum gate amount totalRatio (gate.recipientCount - 1) < toU64 amount then
      [{ to_ := gate.recipients.get (gate.recipientCount - 1),
         amount := (toU64 amount : Int) -
           (splitPrefixSum gate amount totalRatio (gate.recipientCount - 1) : Int) }]
    else [])

/-- The context in which the body of a call runs: `reset()`, then the
invocator and the reward of the call. -/
def callQpi (q : TestQpiContext) (invocator : m256i) (reward : Int) : TestQpiContext :=
  { q.reset with _invocator := invocator, _reward := reward }

/-- The gate record once `sendToGate` has accepted `amount`: the activity
epoch and `totalReceived` are updated before the dispatch by mode. -/
def receivedGate (gate : GateConfig) (epoch : Nat) (amount : Int) : GateConfig :=
  { gate with lastActivityEpoch := epoch,
              totalReceived := (gate.totalReceived + toU64 amount) % U64 }

/-- An array holding `a`, `b`, `c` at the indices 0, 1, 2 and zero elsewhere. -/
def arrayOf3 (a b c : Nat) : QArray Nat :=
  fun i => if i = 0 then a else if i = 1 then b else if i = 2 then c else 0

/-- A Split gate owned by identity 1 paying the identities 2, 3, 4 in the
ratios 33 : 33 : 34 (the gate of the test `SplitHandlesRoundingDust`). -/
def exampleSplitGate : GateConfig :=
  { GateConfig.zero with
    owner := 1, mode := MODE_SPLIT, recipientCount := 3, active := 1,
    createdEpoch := 100, lastActivityEpoch := 100,
    recipients := arrayOf3 2 3 4, ratios := arrayOf3 33 33 34 }

/-- A registry with the default fees whose only gate, of id 1, is `gate`. -/
def envWithGate (gate : GateConfig) : QuGateTest :=
  { state := { QuGateTest.new.state with
      _gateCount := 1, _activeGates := 1, _totalBurned := 1000,
      _gates := fun i => if i = 0 then gate else GateConfig.zero },
    qpi := TestQpiContext.new }

/-- The share that the specification gives recipient `i` of a Split gate for
`amount`: `floor(amount * ratios[i] / ratioSum)` for a recipient other than
the last, and for the last recipient `amount` minus the shares of the others. -/
def specShare (g : GateConfig) (amount : Nat) (i : Nat) : Nat :=
  if i + 1 = g.recipientCount then
    amount - ((List.range (g.recipientCount - 1)).map
      (fun j => amount * g.ratios j / ratioSum g.ratios g.recipientCount)).sum
  else
    amount * g.ratios i / ratioSum g.ratios g.recipientCount

/-- The transfers of the specification for a Split send: recipient by
recipient in order, the share of each, a recipient with share 0 left out. -/
def specSplitTransfers (g : GateConfig) (amount : Nat) : List Transfer :=
  (List.range g.recipientCount).filterMap (fun i =>
    if 0 < specShare g amount i then
      some { to_ := g.recipients i, amount := (specShare g amount i : Int) }
    else none)

/-- The harness with `_activeGates` set to `n`, as the fee tests do. -/
def QuGateTest.withActiveGates (env : QuGateTest) (n : Nat) : QuGateTest :=
  { env with state := { env.state with _activeGates := n } }

/-- The slot index `createGate` allocates in a registry: the top of the free
list when it is not empty, the high-water mark `_gateCount` otherwise. -/
def allocSlot (state : QuGateState) : Nat :=
  if state._freeCount > 0 then state._freeSlots.get (state._freeCount - 1) else state._gateCount

/-- The input of the test gates: a Split gate for the identities 2, 3, 4 in
the ratios 33 : 33 : 34. -/
def exampleSplitInput : createGate_input :=
  { mode := MODE_SPLIT, recipientCount := 3, recipients := arrayOf3 2 3 4,
    ratios := arrayOf3 33 33 34, threshold := 0, allowedSenders := fun _ => 0,
    allowedSenderCount := 0 }

/-- The status the specification gives `createGate` for a computed fee
`currentFee`: that of the first failing check, in the order of the
specification; Success when no check fails. -/
def specCreateStatus (currentFee : Int) (freeCount gateCount : Nat) (fee : Int)
    (input : createGate_input) : Int :=
  if fee < currentFee then QUGATE_INSUFFICIENT_FEE
  else if input.mode > 4 then QUGATE_INVALID_MODE
  else if input.recipientCount = 0 ∨ input.recipientCount > 8 then QUGATE_INVALID_RECIPIENT_COUNT
  else if freeCount = 0 ∧ gateCount ≥ 4096 then QUGATE_NO_FREE_SLOTS
  else if input.mode = MODE_SPLIT ∧
      ((∃ i, i < input.recipientCount ∧ input.ratios i > 10000) ∨
        ratioSum input.ratios input.recipientCount = 0) then QUGATE_INVALID_RATIO
  else if input.mode = MODE_THRESHOLD ∧ input.threshold = 0 then QUGATE_INVALID_THRESHOLD
  else if input.allowedSenderCount > 8 then QUGATE_INVALID_SENDER_COUNT
  else QUGATE_SUCCESS

/-- A valid input: a RoundRobin gate with the single recipient 2. -/
def exampleRoundRobinInput : createGate_input :=
  { mode := MODE_ROUND_ROBIN, recipientCount := 1, recipients := arrayOf3 2 0 0,
    ratios := fun _ => 0, threshold := 0, allowedSenders := fun _ => 0,
    allowedSenderCount := 0 }

/-- A registry at capacity: 4096 slots allocated, every one holding an active
gate, an empty free list. Its current fee is 5000. -/
def fullEnv : QuGateTest :=
  { QuGateTest.new with
    state := { QuGateTest.new.state with
      _gateCount := 4096, _activeGates := 4096, _gates := fun _ => exampleSplitGate } }

/-- The number of slots below `n` whose `active` flag is 1. -/
def activeCount (gates : QArray GateConfig) : Nat → Nat
  | 0 => 0
  | n + 1 => activeCount gates n + (if (gates n).active = 1 then 1 else 0)

/-- The allocator invariant of the registry: the high-water mark is within the
capacity; `_activeGates` counts the slots below it that are active, and with
`_freeCount` makes up the high-water mark; every slot below it has `active` 0
or 1; the free list holds, without repetition, exactly the inactive slots
below it. -/
def AllocatorInvariant (s : QuGateState) : Prop :=
  s._gateCount ≤ QUGATE_MAX_GATES ∧
  s._activeGates = activeCount s._gates s._gateCount ∧
  s._activeGates + s._freeCount = s._gateCount ∧
  (∀ i, i < s._gateCount → (s._gates i).active = 0 ∨ (s._gates i).active = 1) ∧
  (∀ k, k < s._freeCount →
    s._freeSlots k < s._gateCount ∧ (s._gates (s._freeSlots k)).active = 0) ∧
  (∀ j k, j < s._freeCount → k < s._freeCount → s._freeSlots j = s._freeSlots k → j = k) ∧
  (∀ i, i < s._gateCount → (s._gates i).active = 0 →
    ∃ k, k < s._freeCount ∧ s._freeSlots k = i)

/-- The record a gate is left with when it is closed or expires: the held
balance cleared (it has been refunded when positive) and `active` 0. -/
def closedGate (gate : GateConfig) : GateConfig :=
  { (if gate.currentBalance > 0 then { gate with currentBalance := 0 } else gate) with
    active := 0 }

/-- Two registries with the same allocation: the same high-water mark, counts
and free list, and the same `active` flag in every slot. -/
def SameAllocation (s s' : QuGateState) : Prop :=
  s'._gateCount = s._gateCount ∧ s'._activeGates = s._activeGates ∧
  s'._freeSlots = s._freeSlots ∧ s'._freeCount = s._freeCount ∧
  ∀ i, (s'._gates i).active = (s._gates i).active

/-- The range of `sint64`. -/
def InS64 (x : Int) : Prop := -(2 ^ 63) ≤ x ∧ x < 2 ^ 63

instance (x : Int) : Decidable (InS64 x) := by
  unfold InS64; infer_instance

/-- The ranges of the fields of a `createGate_input`: `uint8` counts and mode,
`uint64` threshold and ratios. -/
def createGate_input.WellTyped (input : createGate_input) : Prop :=
  input.mode < 256 ∧ input.recipientCount < 256 ∧ input.allowedSenderCount < 256 ∧
  input.threshold < U64 ∧ ∀ k, k < 8 → input.ratios k < U64

instance (input : createGate_input) : Decidable input.WellTyped := by
  unfold createGate_input.WellTyped; infer_instance

/-- The ranges of the fields of an `updateGate_input`. -/
def updateGate_input.WellTyped (input : updateGate_input) : Prop :=
  input.gateId < U64 ∧ input.recipientCount < 256 ∧ input.allowedSenderCount < 256 ∧
  input.threshold < U64 ∧ ∀ k, k < 8 → input.ratios k < U64

instance (input : updateGate_input) : Decidable input.WellTyped := by
  unfold updateGate_input.WellTyped; infer_instance

/-- The harnesses reachable from the initial one: by the five procedures on
inputs within the ranges of their types, and by the host setting the epoch and
the tick or resetting its log between calls. -/
inductive Reachable : QuGateTest → Prop
  | init : Reachable QuGateTest.new
  | setTime (env : QuGateTest) (epoch tick : Nat) :
      Reachable env → epoch < 65536 → tick < U64 →
      Reachable { env with qpi := { env.qpi with _epoch := epoch, _tick := tick } }
  | resetQpi (env : QuGateTest) :
      Reachable env → Reachable { env with qpi := env.qpi.reset }
  | createGate (env : QuGateTest) (creator : m256i) (fee : Int) (input : createGate_input) :
      Reachable env → InS64 fee → input.WellTyped →
      Reachable (env.createGate creator fee input).2
  | sendToGate (env : QuGateTest) (sender : m256i) (gateId : Nat) (amount : Int) :
      Reachable env → gateId < U64 → InS64 amount →
      Reachable (env.sendToGate sender gateId amount).2
  | closeGate (env : QuGateTest) (caller : m256i) (gateId : Nat) (reward : Int) :
      Reachable env → gateId < U64 → InS64 reward →
      Reachable (env.closeGate caller gateId reward).2
  | updateGate (env : QuGateTest) (caller : m256i) (reward : Int) (input : updateGate_input) :
      Reachable env → InS64 reward → input.WellTyped →
      Reachable (env.updateGate caller reward input).2
  | endEpoch (env : QuGateTest) :
      Reachable env → Reachable env.endEpoch

/-- The growth of the balance held by the gate `gateId` from `env` to `env2`,
taken as 0 when `gateId` is out of range in `env`. -/
def balanceChange (env env2 : QuGateTest) (gateId : Nat) : Int :=
  if gateId = 0 ∨ gateId > env.state._gateCount then 0
  else ((env2.gate gateId).currentBalance : Int) - ((env.gate gateId).currentBalance : Int)

/-- A valid input: a Threshold gate with the single recipient 2 that releases
at `threshold`. -/
def exampleThresholdInput (threshold : Nat) : createGate_input :=
  { mode := MODE_THRESHOLD, recipientCount := 1, recipients := arrayOf3 2 0 0,
    ratios := fun _ => 0, threshold := threshold, allowedSenders := fun _ => 0,
    allowedSenderCount := 0 }

/-- The harness after two calls on the initial one: a Threshold gate of
threshold `threshold` is created, then `held` is sent to it. -/
def heldEnv (threshold : Nat) (held : Int) : QuGateTest :=
  ((QuGateTest.new.createGate 1 1000 (exampleThresholdInput threshold)).2.sendToGate 9 1 held).2

/-- An amount that `sendToGate` accepts: positive, at least the minimum, and
within `sint64`. -/
def AcceptedAmount (minSend : Nat) (amount : Int) : Prop :=
  0 < amount ∧ (minSend : Int) ≤ amount ∧ amount < 2 ^ 63

instance (minSend : Nat) (amount : Int) : Decidable (AcceptedAmount minSend amount) := by
  unfold AcceptedAmount; infer_instance

/-- A run of calls `sendToGate(sender, gateId, amount)` on one gate, one call
for each pair `(sender, amount)` of the list, in order. -/
def sendAll (env : QuGateTest) (gateId : Nat) : List (m256i × Int) → QuGateTest
  | [] => env
  | p :: rest => sendAll (env.sendToGate p.1 gateId p.2).2 gateId rest

/-- The gate `gateId` of `env` is an active RoundRobin gate in range with `n`
recipients `recipients` and its cursor at `j`, in a registry of minimum send
amount `minSend`. -/
def RoundRobinAt (env : QuGateTest) (gateId : Nat) (recipients : QArray m256i) (n j minSend : Nat) :
    Prop :=
  gateId ≠ 0 ∧ gateId ≤ env.state._gateCount ∧ env.state._minSendAmount = minSend ∧
  (env.gate gateId).active ≠ 0 ∧ (env.gate gateId).mode = MODE_ROUND_ROBIN ∧
  (env.gate gateId).recipientCount = n ∧ (env.gate gateId).recipients = recipients ∧
  (env.gate gateId).roundRobinIndex = j

/-- A valid input: a RoundRobin gate with the three recipients 2, 3, 4. -/
def exampleRoundRobin3Input : createGate_input :=
  { mode := MODE_ROUND_ROBIN, recipientCount := 3, recipients := arrayOf3 2 3 4,
    ratios := fun _ => 0, threshold := 0, allowedSenders := fun _ => 0,
    allowedSenderCount := 0 }

/-- The index a Random gate picks, as a function of the record before the
send, the amount and the tick:
`((totalReceived + amount + tick) mod 2^64) mod recipientCount`. -/
def randomIndex (gate : GateConfig) (amount : Int) (tick : Nat) : Nat :=
  ((gate.totalReceived + amount.toNat + tick) % U64) % gate.recipientCount

/-- A valid input: a Random gate with the three recipients 2, 3, 4. -/
def exampleRandomInput : createGate_input :=
  { mode := MODE_RANDOM, recipientCount := 3, recipients := arrayOf3 2 3 4,
    ratios := fun _ => 0, threshold := 0, allowedSenders := fun _ => 0,
    allowedSenderCount := 0 }

/-- A valid input: a Conditional gate with the recipient 4 and the allowed
senders 1 and 2. -/
def exampleConditionalInput : createGate_input :=
  { mode := MODE_CONDITIONAL, recipientCount := 1, recipients := arrayOf3 4 0 0,
    ratios := fun _ => 0, threshold := 0, allowedSenders := arrayOf3 1 2 0,
    allowedSenderCount := 2 }

/-- The harness after a Conditional gate (recipient 4, allowed senders 1 and 2)
has been created at epoch 100 and the host has moved to epoch 120. -/
def conditionalEnv : QuGateTest :=
  { (QuGateTest.new.createGate 1 1000 exampleConditionalInput).2 with
    qpi := { (QuGateTest.new.createGate 1 1000 exampleConditionalInput).2.qpi with
      _epoch := 120 } }

/-- An update of gate 1 to the single recipient 3 with ratio 100. -/
def exampleUpdateInput : updateGate_input :=
  { gateId := 1, recipientCount := 1, recipients := arrayOf3 3 0 0,
    ratios := arrayOf3 100 0 0, threshold := 0, allowedSenders := fun _ => 0,
    allowedSenderCount := 0 }

/-- The log `closeGate` leaves on success: the refund of a positive held
balance to the owner, as a `sint64` amount, then the refund of a positive
reward to the caller. -/
def closeTransfers (gate : GateConfig) (caller : m256i) (reward : Int) : List Transfer :=
  (if gate.currentBalance > 0 then
    [{ to_ := gate.owner, amount := toS64 (gate.currentBalance : Int) }] else []) ++
  (if reward > 0 then [{ to_ := caller, amount := reward }] else [])

/-- The harness after three calls on the initial one: a Threshold gate of
threshold `threshold` is created, then `held` and then `more` are sent to it. -/
def heldEnv2 (threshold : Nat) (held more : Int) : QuGateTest :=
  ((heldEnv threshold held).sendToGate 9 1 more).2

/-- The record `updateGate` writes on success: the new counts, threshold and
activity epoch, the arrays of the input below their counts and zero from there
to index 7, every other field of `gate`. -/
def updatedGate (gate : GateConfig) (epoch : Nat) (input : updateGate_input) : GateConfig :=
  { gate with
    lastActivityEpoch := epoch, recipientCount := input.recipientCount,
    threshold := input.threshold, allowedSenderCount := input.allowedSenderCount,
    recipients := fun i =>
      if i < 8 then (if i < input.recipientCount then input.recipients i else 0)
      else gate.recipients i,
    ratios := fun i =>
      if i < 8 then (if i < input.recipientCount then input.ratios i else 0)
      else gate.ratios i,
    allowedSenders := fun i =>
      if i < 8 then (if i < input.allowedSenderCount then input.allowedSenders i else 0)
      else gate.allowedSenders i }

/-- The status the specification gives `updateGate`: that of the first failing
check, in the order of the specification; Success when no check fails. -/
def specUpdateStatus (env : QuGateTest) (caller : m256i) (input : updateGate_input) : Int :=
  if input.gateId = 0 ∨ input.gateId > env.state._gateCount then QUGATE_INVALID_GATE_ID
  else if (env.gate input.gateId).owner ≠ caller then QUGATE_UNAUTHORIZED
  else if (env.gate input.gateId).active = 0 then QUGATE_GATE_NOT_ACTIVE
  else if input.recipientCount = 0 ∨ input.recipientCount > 8 then QUGATE_INVALID_RECIPIENT_COUNT
  else if input.allowedSenderCount > 8 then QUGATE_INVALID_SENDER_COUNT
  else if (env.gate input.gateId).mode = MODE_SPLIT ∧
      ((∃ i, i < input.recipientCount ∧ input.ratios i > 10000) ∨
        ratioSum input.ratios input.recipientCount = 0) then QUGATE_INVALID_RATIO
  else if (env.gate input.gateId).mode = MODE_THRESHOLD ∧ input.threshold = 0 then
    QUGATE_INVALID_THRESHOLD
  else QUGATE_SUCCESS

/-- Every active gate record of the registry satisfies `P`. -/
def GatesAll (P : GateConfig → Prop) (s : QuGateState) : Prop :=
  ∀ i, (s._gates i).active ≠ 0 → P (s._gates i)

/-- The harness after four calls on the initial one: a RoundRobin gate with the
recipients 2, 3, 4 is created by 1, two accepted sends move its cursor to 2,
and its owner updates it to the single recipient 3. -/
def shrunkRoundRobinEnv : QuGateTest :=
  ((((QuGateTest.new.createGate 1 1000 exampleRoundRobin3Input).2.sendToGate 9 1 100).2.sendToGate
    9 1 200).2.updateGate 1 0 exampleUpdateInput).2

/-- A call made on the harness: one of the five procedures with its arguments,
or the host setting the epoch and the tick, or resetting its log. -/
inductive Call where
  | setTime (epoch tick : Nat)
  | resetQpi
  | createGate (creator : m256i) (fee : Int) (input : createGate_input)
  | sendToGate (sender : m256i) (gateId : Nat) (amount : Int)
  | closeGate (caller : m256i) (gateId : Nat) (reward : Int)
  | updateGate (caller : m256i) (reward : Int) (input : updateGate_input)
  | endEpoch

/-- The history of a reachable harness: `History h env` holds when `env` is
reached from the initial harness by the calls of `h`, the latest first, each
paired with the harness it was made on. The calls are those of `Reachable`. -/
inductive History : List (QuGateTest × Call) → QuGateTest → Prop
  | init : History [] QuGateTest.new
  | setTime (h : List (QuGateTest × Call)) (env : QuGateTest) (epoch tick : Nat) :
      History h env → epoch < 65536 → tick < U64 →
      History ((env, Call.setTime epoch tick) :: h)
        { env with qpi := { env.qpi with _epoch := epoch, _tick := tick } }
  | resetQpi (h : List (QuGateTest × Call)) (env : QuGateTest) :
      History h env → History ((env, Call.resetQpi) :: h) { env with qpi := env.qpi.reset }
  | createGate (h : List (QuGateTest × Call)) (env : QuGateTest) (creator : m256i) (fee : Int)
      (input : createGate_input) :
      History h env → InS64 fee → input.WellTyped →
      History ((env, Call.createGate creator fee input) :: h)
        (env.createGate creator fee input).2
  | sendToGate (h : List (QuGateTest × Call)) (env : QuGateTest) (sender : m256i)
      (gateId : Nat) (amount : Int) :
      History h env → gateId < U64 → InS64 amount →
      History ((env, Call.sendToGate sender gateId amount) :: h)
        (env.sendToGate sender gateId amount).2
  | closeGate (h : List (QuGateTest × Call)) (env : QuGateTest) (caller : m256i)
      (gateId : Nat) (reward : Int) :
      History h env → gateId < U64 → InS64 reward →
      History ((env, Call.closeGate caller gateId reward) :: h)
        (env.closeGate caller gateId reward).2
  | updateGate (h : List (QuGateTest × Call)) (env : QuGateTest) (caller : m256i)
      (reward : Int) (input : updateGate_input) :
      History h env → InS64 reward → input.WellTyped →
      History ((env, Call.updateGate caller reward input) :: h)
        (env.updateGate caller reward input).2
  | endEpoch (h : List (QuGateTest × Call)) (env : QuGateTest) :
      History h env → History ((env, Call.endEpoch) :: h) env.endEpoch

/-- An update of gate 1 to the single recipient 2 and the threshold
`threshold`. -/
def exampleThresholdUpdate (threshold : Nat) : updateGate_input :=
  { gateId := 1, recipientCount := 1, recipients := arrayOf3 2 0 0,
    ratios := fun _ => 0, threshold := threshold, allowedSenders := fun _ => 0,
    allowedSenderCount := 0 }

/-- A Threshold record holds less than its threshold. -/
def BelowThreshold (g : GateConfig) : Prop :=
  g.mode = MODE_THRESHOLD → g.currentBalance < g.threshold

/-- The three fee parameters of the registry are those of `s`. -/
def SameParams (s s2 : QuGateState) : Prop :=
  s2._creationFee = s._creationFee ∧ s2._minSendAmount = s._minSendAmount ∧
  s2._expiryEpochs = s._expiryEpochs

/-- The condition under which the loop of `endEpoch` releases slot `i`: the
gate is active, expiry is enabled, and the 16-bit difference of the current
epoch and the last activity epoch has reached `_expiryEpochs`. -/
def Expires (env : QuGateTest) (i : Nat) : Prop :=
  (env.state._gates.get i).active = 1 ∧ env.state._expiryEpochs > 0 ∧
  toU64 (((env.qpi.epoch : Int) - ((env.state._gates.get i).lastActivityEpoch : Int)) % 65536)
    ≥ env.state._expiryEpochs

instance (env : QuGateTest) (i : Nat) : Decidable (Expires env i) := by
  unfold Expires
  infer_instance

/-- The slots below `n` that expire, in the order of the loop. -/
def expiredBelow (env : QuGateTest) (n : Nat) : List Nat :=
  (List.range n).filter (fun i => decide (Expires env i))

/-- The call of `transfer` the loop of `endEpoch` makes for an expiring slot:
`qpi.transfer(gate.owner, gate.currentBalance)` when the balance is positive. -/
def expiryRefund (env : QuGateTest) (i : Nat) : List Transfer :=
  if (env.state._gates.get i).currentBalance > 0 then
    [{ to_ := (env.state._gates.get i).owner,
       amount := toS64 (env.state._gates.get i).currentBalance }]
  else []

/-- The calls of `transfer` made for the slots below `n`, in order. -/
def expiryTransfers (env : QuGateTest) (n : Nat) : List Transfer :=
  ((expiredBelow env n).map (expiryRefund env)).flatten

/-- The calls `transfer(t.to, t.amount)` for the entries of a list, in order. -/
def TestQpiContext.transferAll (q : TestQpiContext) (l : List Transfer) : TestQpiContext :=
  l.foldl (fun q t => q.transfer t.to_ t.amount) q

/-- The registry after the loop of `endEpoch` has passed the slots below `n`,
in closed form (proved equal to the loop in `endEpochFold_eq`). -/
def expiredState (env : QuGateTest) (n : Nat) : QuGateState :=
  { env.state with
    _gates := fun i =>
      if i < n ∧ Expires env i then closedGate (env.state._gates i) else env.state._gates i,
    _activeGates := env.state._activeGates - (expiredBelow env n).length,
    _freeSlots := fun k =>
      if env.state._freeCount ≤ k ∧ k < env.state._freeCount + (expiredBelow env n).length then
        (expiredBelow env n).getD (k - env.state._freeCount) 0
      else env.state._freeSlots k,
    _freeCount := env.state._freeCount + (expiredBelow env n).length }

/-- The harness with its epoch set, as by `env.qpi._epoch = epoch`. -/
def atEpoch (env : QuGateTest) (epoch : Nat) : QuGateTest :=
  { env with qpi := { env.qpi with _epoch := epoch, _tick := env.qpi._tick } }

/-- The burn log of a reachable harness: `BurnLog l env` holds when `env` is
reached from the initial harness by calls (those of `Reachable`) that handed
the amounts of `l` to the host burn, the latest first. The amount of a call is
read off the context after it: the four methods reset the context first, so it
is `qpi.totalBurned` after them; `endEpoch` does not, so it is the growth of
`qpi.totalBurned`. The harness settings are no calls and log nothing. -/
inductive BurnLog : List Int → QuGateTest → Prop
  | init : BurnLog [] QuGateTest.new
  | setTime (l : List Int) (env : QuGateTest) (epoch tick : Nat) :
      BurnLog l env → epoch < 65536 → tick < U64 →
      BurnLog l { env with qpi := { env.qpi with _epoch := epoch, _tick := tick } }
  | resetQpi (l : List Int) (env : QuGateTest) :
      BurnLog l env → BurnLog l { env with qpi := env.qpi.reset }
  | createGate (l : List Int) (env : QuGateTest) (creator : m256i) (fee : Int)
      (input : createGate_input) :
      BurnLog l env → InS64 fee → input.WellTyped →
      BurnLog ((env.createGate creator fee input).2.qpi.totalBurned :: l)
        (env.createGate creator fee input).2
  | sendToGate (l : List Int) (env : QuGateTest) (sender : m256i) (gateId : Nat)
      (amount : Int) :
      BurnLog l env → gateId < U64 → InS64 amount →
      BurnLog ((env.sendToGate sender gateId amount).2.qpi.totalBurned :: l)
        (env.sendToGate sender gateId amount).2
  | closeGate (l : List Int) (env : QuGateTest) (caller : m256i) (gateId : Nat)
      (reward : Int) :
      BurnLog l env → gateId < U64 → InS64 reward →
      BurnLog ((env.closeGate caller gateId reward).2.qpi.totalBurned :: l)
        (env.closeGate caller gateId reward).2
  | updateGate (l : List Int) (env : QuGateTest) (caller : m256i) (reward : Int)
      (input : updateGate_input) :
      BurnLog l env → InS64 reward → input.WellTyped →
      BurnLog ((env.updateGate caller reward input).2.qpi.totalBurned :: l)
        (env.updateGate caller reward input).2
  | endEpoch (l : List Int) (env : QuGateTest) :
      BurnLog l env →
      BurnLog ((env.endEpoch.qpi.totalBurned - env.qpi.totalBurned) :: l) env.endEpoch

/-- The harness after a Split gate is created on the initial one and `k` dust
sends of 9 are then made to it. -/
def dustEnv (k : Nat) : QuGateTest :=
  Nat.iterate (fun env => (env.sendToGate 9 1 9).2) k
    (QuGateTest.new.createGate 1 1000 exampleSplitInput).2

/-- The harness of the test `TotalBurnedTracking`: a Split gate is created for
1000, 5 is sent to it, and a second gate is created for 1000. -/
def burnedEnv : QuGateTest :=
  ((((QuGateTest.new.createGate 1 1000 exampleSplitInput).2.sendToGate 1 1 5).2.createGate
    1 1000 exampleSplitInput).2)

/-- The accounting of a gate record against `rej`, the total of the sends the
gate has rejected: forwarded and held amounts are within the received one;
Split, RoundRobin and Random gates have forwarded all and hold nothing;
Threshold gates have forwarded or hold all; Conditional gates hold nothing and
have forwarded all but the rejected sends. -/
def Accounted (rej : Nat) (g : GateConfig) : Prop :=
  g.totalForwarded + g.currentBalance ≤ g.totalReceived ∧
  (g.mode = MODE_SPLIT ∨ g.mode = MODE_ROUND_ROBIN ∨ g.mode = MODE_RANDOM →
    g.totalForwarded = g.totalReceived ∧ g.currentBalance = 0) ∧
  (g.mode = MODE_THRESHOLD → g.totalReceived = g.totalForwarded + g.currentBalance) ∧
  (g.mode = MODE_CONDITIONAL →
    g.currentBalance = 0 ∧ g.totalReceived = g.totalForwarded + rej)

/-- The ledger of a reachable harness: `Ledger rej env` holds when `env` is
reached from the initial harness by calls (those of `Reachable`) in which
every send has a non-negative amount and does not overflow the `totalReceived`
of its target, and `rej i` is the total of the sends that slot `i` has
rejected (status ConditionalRejected) since a gate was last created in it. -/
inductive Ledger : (Nat → Nat) → QuGateTest → Prop
  | init : Ledger (fun _ => 0) QuGateTest.new
  | setTime (rej : Nat → Nat) (env : QuGateTest) (epoch tick : Nat) :
      Ledger rej env → epoch < 65536 → tick < U64 →
      Ledger rej { env with qpi := { env.qpi with _epoch := epoch, _tick := tick } }
  | resetQpi (rej : Nat → Nat) (env : QuGateTest) :
      Ledger rej env → Ledger rej { env with qpi := env.qpi.reset }
  | createGate (rej : Nat → Nat) (env : QuGateTest) (creator : m256i) (fee : Int)
      (input : createGate_input) :
      Ledger rej env → InS64 fee → input.WellTyped →
      Ledger
        (if (env.createGate creator fee input).1.status = QUGATE_SUCCESS then
          Function.update rej ((env.createGate creator fee input).1.gateId - 1) 0
        else rej)
        (env.createGate creator fee input).2
  | sendToGate (rej : Nat → Nat) (env : QuGateTest) (sender : m256i) (gateId : Nat)
      (amount : Int) :
      Ledger rej env → gateId < U64 → InS64 amount → 0 ≤ amount →
      (gateId ≠ 0 → gateId ≤ env.state._gateCount →
        ((env.gate gateId).totalReceived : Int) + amount < 2 ^ 64) →
      Ledger
        (if (env.sendToGate sender gateId amount).1.status = QUGATE_CONDITIONAL_REJECTED then
          Function.update rej (gateId - 1) (rej (gateId - 1) + amount.toNat)
        else rej)
        (env.sendToGate sender gateId amount).2
  | closeGate (rej : Nat → Nat) (env : QuGateTest) (caller : m256i) (gateId : Nat)
      (reward : Int) :
      Ledger rej env → gateId < U64 → InS64 reward →
      Ledger rej (env.closeGate caller gateId reward).2
  | updateGate (rej : Nat → Nat) (env : QuGateTest) (caller : m256i) (reward : Int)
      (input : updateGate_input) :
      Ledger rej env → InS64 reward → input.WellTyped →
      Ledger rej (env.updateGate caller reward input).2
  | endEpoch (rej : Nat → Nat) (env : QuGateTest) :
      Ledger rej env → Ledger rej env.endEpoch

/-- The harness after, on `conditionalEnv`, the stranger 3 has sent 500 to the
Conditional gate 1 (rejected) and the allowed sender 2 has sent 700. -/
def ledgerEnv : QuGateTest :=
  ((conditionalEnv.sendToGate 3 1 500).2.sendToGate 2 1 700).2

/-- An update of gate 1 to the recipients 2, 3, 4 with the ratios 33, 33, 34:
the configuration of `exampleSplitInput`. -/
def exampleSplitUpdate : updateGate_input :=
  { gateId := 1, recipientCount := 3, recipients := arrayOf3 2 3 4,
    ratios := arrayOf3 33 33 34, threshold := 0, allowedSenders := fun _ => 0,
    allowedSenderCount := 0 }

/-- A Split input whose ratios `2^63, 2^63` add up to 0 modulo `2^64`. -/
def wrapSplitInput : createGate_input :=
  { mode := MODE_SPLIT, recipientCount := 2, recipients := arrayOf3 2 3 0,
    ratios := arrayOf3 (2 ^ 63) (2 ^ 63) 0, threshold := 0, allowedSenders := fun _ => 0,
    allowedSenderCount := 0 }

/-- The update of gate 1 to the configuration of `wrapSplitInput`. -/
def wrapSplitUpdate : updateGate_input :=
  { gateId := 1, recipientCount := 2, recipients := arrayOf3 2 3 0,
    ratios := arrayOf3 (2 ^ 63) (2 ^ 63) 0, threshold := 0, allowedSenders := fun _ => 0,
    allowedSenderCount := 0 }

/-! # Theorems -/

/-! ## Machine integers -/

theorem toU64_natCast (n : Nat) (h : n < U64) : toU64 (n : Int) = n := by
  unfold toU64
  have h2 : ((n : Int) % (2 ^ 64 : Int)) = (n : Int) := by
    apply Int.emod_eq_of_lt (by positivity)
    have : (n : Int) < ((2 ^ 64 : Nat) : Int) := by exact_mod_cast h
    simpa using this
  rw [h2]; simp

theorem toU64_lt (x : Int) : toU64 x < U64 := by
  unfold toU64
  have h1 : x % (2 ^ 64 : Int) < 2 ^ 64 := Int.emod_lt_of_pos _ (by positivity)
  have h0 : 0 ≤ x % (2 ^ 64 : Int) := Int.emod_nonneg _ (by positivity)
  have : ((x % (2 ^ 64 : Int)).toNat : Int) < ((2 ^ 64 : Nat) : Int) := by
    rw [Int.toNat_of_nonneg h0]; simpa using h1
  exact_mod_cast this

theorem toS64_of_range (x : Int) (h0 : -(2 ^ 63) ≤ x) (h1 : x < 2 ^ 63) : toS64 x = x := by
  unfold toS64
  rw [Int.emod_eq_of_lt (by linarith) (by linarith)]
  ring

theorem toS64_natCast (n : Nat) (h : n < 2 ^ 63) : toS64 (n : Int) = n := by
  apply toS64_of_range
  · have : (0 : Int) ≤ n := Int.ofNat_nonneg n
    linarith
  · exact_mod_cast h

theorem toU64_of_nonneg (x : Int) (h0 : 0 ≤ x) (h1 : x < 2 ^ 64) : toU64 x = x.toNat := by
  unfold toU64
  rw [Int.emod_eq_of_lt h0 h1]

/-! ## Ratio sums and the Split loop -/

theorem sumRatios_eq (ratios : QArray Nat) (n : Nat) :
    sumRatios ratios n = ratioSum ratios n % U64 := by
  unfold sumRatios ratioSum
  induction n with
  | zero => simp
  | succ k ih =>
    rw [List.range_succ, List.foldl_append, List.map_append, List.sum_append, ih]
    simp [QArray.get, Nat.add_mod]

theorem ratioSum_le (ratios : QArray Nat) (n b : Nat) (h : ∀ i, i < n → ratios i ≤ b) :
    ratioSum ratios n ≤ n * b := by
  unfold ratioSum
  induction n with
  | zero => simp
  | succ k ih =>
    rw [List.range_succ, List.map_append, List.sum_append]
    have h1 := ih (fun i hi => h i (Nat.lt_succ_of_lt hi))
    have h2 := h k (Nat.lt_succ_self k)
    simp only [List.map_cons, List.map_nil, List.sum_cons, List.sum_nil, Nat.add_zero]
    nlinarith

theorem ratioSum_mono (ratios : QArray Nat) (k n : Nat) (h : k ≤ n) :
    ratioSum ratios k ≤ ratioSum ratios n := by
  induction n with
  | zero => simp_all
  | succ m ih =>
    rcases Nat.lt_or_ge k (m + 1) with hk | hk
    · have := ih (Nat.lt_succ_iff.mp hk)
      unfold ratioSum at *
      rw [List.range_succ, List.map_append, List.sum_append]
      omega
    · have : k = m + 1 := by omega
      subst this; exact le_refl _

theorem sumRatios_of_invariant (g : GateConfig) (h : SplitInvariant g) :
    sumRatios g.ratios g.recipientCount = ratioSum g.ratios g.recipientCount := by
  rw [sumRatios_eq]
  apply Nat.mod_eq_of_lt
  have := ratioSum_le g.ratios g.recipientCount QUGATE_MAX_RATIO h.2.2.1
  have h8 := h.2.1
  simp only [QUGATE_MAX_RECIPIENTS, QUGATE_MAX_RATIO, U64] at *
  nlinarith

theorem splitShare_mul_le (g : GateConfig) (a : Nat) (R i : Nat) (ha : a < U64) :
    splitShare g (a : Int) R i * R ≤ a * g.ratios i := by
  unfold splitShare QPI.div
  rw [toU64_natCast a ha]
  split_ifs with h
  · calc (a * g.ratios.get i % U64) / R * R ≤ a * g.ratios.get i % U64 := Nat.div_mul_le_self _ _
      _ ≤ a * g.ratios i := Nat.mod_le _ _
  · simp

theorem splitPrefixSum_mul_le (g : GateConfig) (a : Nat) (R k : Nat) (ha : a < U64) :
    splitPrefixSum g (a : Int) R k * R ≤ a * ratioSum g.ratios k := by
  unfold splitPrefixSum ratioSum
  induction k with
  | zero => simp
  | succ m ih =>
    rw [List.range_succ, List.map_append, List.sum_append, List.map_append, List.sum_append]
    have := splitShare_mul_le g a R m ha
    simp only [List.map_cons, List.map_nil, List.sum_cons, List.sum_nil, Nat.add_zero]
    nlinarith

theorem splitPrefixSum_le (g : GateConfig) (a : Nat) (k : Nat) (ha : a < U64)
    (hk : k ≤ g.recipientCount) (hR : 0 < ratioSum g.ratios g.recipientCount) :
    splitPrefixSum g (a : Int) (ratioSum g.ratios g.recipientCount) k ≤ a := by
  have h1 := splitPrefixSum_mul_le g a (ratioSum g.ratios g.recipientCount) k ha
  have h2 := ratioSum_mono g.ratios k g.recipientCount hk
  have h3 : a * ratioSum g.ratios k ≤ a * ratioSum g.ratios g.recipientCount :=
    Nat.mul_le_mul_left _ h2
  exact Nat.le_of_mul_le_mul_right (le_trans h1 h3) hR

theorem splitShare_le_prefixSum (g : GateConfig) (amount : Int) (R k : Nat) :
    splitPrefixSum g amount R (k + 1) = splitPrefixSum g amount R k + splitShare g amount R k := by
  unfold splitPrefixSum
  rw [List.range_succ, List.map_append, List.sum_append]
  simp

theorem splitPrefixTransfers_length (g : GateConfig) (amount : Int) (R k : Nat) :
    (splitPrefixTransfers g amount R k).length ≤ k := by
  unfold splitPrefixTransfers
  calc _ ≤ (List.range k).length := List.length_filterMap_le _ _
    _ = k := List.length_range k

theorem sumAmounts_append (l1 l2 : List Transfer) :
    sumAmounts (l1 ++ l2) = sumAmounts l1 + sumAmounts l2 := by
  simp [sumAmounts]

theorem sumAmounts_splitPrefixTransfers (g : GateConfig) (amount : Int) (R k : Nat) :
    sumAmounts (splitPrefixTransfers g amount R k) = (splitPrefixSum g amount R k : Int) := by
  induction k with
  | zero => simp [splitPrefixTransfers, splitPrefixSum, sumAmounts]
  | succ m ih =>
    rw [splitShare_le_prefixSum]
    unfold splitPrefixTransfers at *
    rw [List.range_succ, List.filterMap_append, sumAmounts_append, ih]
    by_cases h : 0 < splitShare g amount R m
    · simp [h, sumAmounts]
    · have : splitShare g amount R m = 0 := by omega
      simp [this, sumAmounts]

theorem toU64_pred (n : Nat) (h1 : 1 ≤ n) (h : n < U64) : toU64 ((n : Int) - 1) = n - 1 := by
  have : ((n : Int) - 1) = ((n - 1 : Nat) : Int) := by omega
  rw [this, toU64_natCast]
  omega

theorem splitStep_notLast (g : GateConfig) (amount : Int) (R : Nat) (acc : TestQpiContext × Nat)
    (i : Nat) (hi : i ≠ toU64 ((g.recipientCount : Int) - 1))
    (hpos : 0 < splitShare g amount R i) :
    splitStep g amount R acc i =
      (acc.1.transfer (g.recipients.get i) (toS64 (splitShare g amount R i)),
        (acc.2 + splitShare g amount R i) % U64) := by
  unfold splitStep
  simp only [hi, if_false]
  have : QPI.div (toU64 amount * g.ratios.get i % U64) R = splitShare g amount R i := rfl
  rw [this, if_pos hpos]

theorem splitStep_notLast_zero (g : GateConfig) (amount : Int) (R : Nat) (acc : TestQpiContext × Nat)
    (i : Nat) (hi : i ≠ toU64 ((g.recipientCount : Int) - 1))
    (hz : splitShare g amount R i = 0) :
    splitStep g amount R acc i = acc := by
  unfold splitStep
  simp only [hi, if_false]
  have : QPI.div (toU64 amount * g.ratios.get i % U64) R = splitShare g amount R i := rfl
  rw [this, hz]
  simp

theorem transfer_of_room (q : TestQpiContext) (t : m256i) (x : Int)
    (h : q.transfers.length < TestQpiContext.MAX_TRANSFERS) :
    q.transfer t x = { q with transfers := q.transfers ++ [{ to_ := t, amount := x }] } := by
  unfold TestQpiContext.transfer
  rw [if_pos h]

theorem splitPrefixTransfers_succ (g : GateConfig) (amount : Int) (R k : Nat) :
    splitPrefixTransfers g amount R (k + 1) =
      splitPrefixTransfers g amount R k ++
        (if 0 < splitShare g amount R k then
          [{ to_ := g.recipients.get k, amount := (splitShare g amount R k : Int) }]
        else []) := by
  unfold splitPrefixTransfers
  rw [List.range_succ, List.filterMap_append]
  by_cases h : 0 < splitShare g amount R k
  · simp [h]
  · simp [h]

theorem splitLoop_prefix (g : GateConfig) (a : Nat) (q : TestQpiContext) (k : Nat)
    (hq : q.transfers = []) (hinv : SplitInvariant g) (ha : a < 2 ^ 63)
    (hk : k + 1 ≤ g.recipientCount) :
    (List.range k).foldl (splitStep g (a : Int) (ratioSum g.ratios g.recipientCount)) (q, 0) =
      ({ q with transfers :=
          splitPrefixTransfers g (a : Int) (ratioSum g.ratios g.recipientCount) k },
        splitPrefixSum g (a : Int) (ratioSum g.ratios g.recipientCount) k) := by
  induction k with
  | zero =>
    cases q
    simp only [TestQpiContext.mk.injEq] at hq
    simp [splitPrefixTransfers, splitPrefixSum, hq]
  | succ m ih =>
    have hm : m + 1 ≤ g.recipientCount := by omega
    rw [List.range_succ, List.foldl_append, ih hm]
    have ha64 : a < U64 := by
      have : (2 : Nat) ^ 63 < U64 := by norm_num [U64]
      omega
    have hsum := splitPrefixSum_le g a (m + 1) ha64 (by omega) hinv.2.2.2
    rw [splitShare_le_prefixSum] at hsum
    have hlen := splitPrefixTransfers_length g (a : Int) (ratioSum g.ratios g.recipientCount) m
    have h8 : g.recipientCount ≤ 8 := hinv.2.1
    have hrc64 : g.recipientCount < U64 := by
      have : (8 : Nat) < U64 := by norm_num [U64]
      omega
    have hlast : m ≠ toU64 ((g.recipientCount : Int) - 1) := by
      rw [toU64_pred _ hinv.1 hrc64]
      omega
    rw [splitShare_le_prefixSum, splitPrefixTransfers_succ]
    simp only [List.foldl_cons, List.foldl_nil]
    by_cases hpos : 0 < splitShare g (a : Int) (ratioSum g.ratios g.recipientCount) m
    · rw [splitStep_notLast g _ _ _ m hlast hpos, if_pos hpos]
      have hroom : ({ q with transfers :=
          splitPrefixTransfers g (a : Int) (ratioSum g.ratios g.recipientCount) m } :
            TestQpiContext).transfers.length < TestQpiContext.MAX_TRANSFERS := by
        show (splitPrefixTransfers g (a : Int) (ratioSum g.ratios g.recipientCount) m).length < 64
        omega
      rw [transfer_of_room _ _ _ hroom, toS64_natCast _ (by omega), Nat.mod_eq_of_lt (by omega)]
    · have hz : splitShare g (a : Int) (ratioSum g.ratios g.recipientCount) m = 0 := by omega
      rw [splitStep_notLast_zero g _ _ _ m hlast hz, if_neg hpos, hz]
      simp

theorem splitLastStep (g : GateConfig) (a d : Nat) (R : Nat) (q : TestQpiContext) (P : List Transfer)
    (h1 : 1 ≤ g.recipientCount) (h8 : g.recipientCount ≤ 8) (ha : a < 2 ^ 63)
    (hd : d ≤ a) (hP : P.length ≤ g.recipientCount - 1) :
    splitStep g (a : Int) R ({ q with transfers := P }, d) (g.recipientCount - 1) =
      ({ q with transfers := P ++
          (if d < a then [{ to_ := g.recipients.get (g.recipientCount - 1),
                            amount := (a : Int) - (d : Int) }] else []) }, a) := by
  have ha64 : a < U64 := by
    have : (2 : Nat) ^ 63 < U64 := by norm_num [U64]
    omega
  have hrc64 : g.recipientCount < U64 := by
    have : (8 : Nat) < U64 := by norm_num [U64]
    omega
  unfold splitStep
  rw [if_pos (toU64_pred _ h1 hrc64).symm, toU64_natCast a ha64]
  have hshare : (a + (U64 - d)) % U64 = a - d := by
    have e : a + (U64 - d) = (a - d) + U64 := by omega
    rw [e, Nat.add_mod_right]
    exact Nat.mod_eq_of_lt (by omega)
  simp only [hshare]
  by_cases hlt : d < a
  · have hpos : a - d > 0 := by omega
    rw [if_pos hpos, if_pos hlt]
    have hroom : ({ q with transfers := P } : TestQpiContext).transfers.length
        < TestQpiContext.MAX_TRANSFERS := by
      show P.length < 64
      omega
    rw [transfer_of_room _ _ _ hroom, toS64_natCast _ (by omega)]
    have hmod : (d + (a - d)) % U64 = a := by
      rw [Nat.add_sub_cancel' hd]
      exact Nat.mod_eq_of_lt ha64
    rw [hmod, Nat.cast_sub hd]
  · have hz : ¬ (a - d > 0) := by omega
    rw [if_neg hz, if_neg hlt]
    have : d = a := by omega
    rw [this]
    simp

theorem splitLoop_eq (g : GateConfig) (a : Nat) (q : TestQpiContext)
    (hq : q.transfers = []) (hinv : SplitInvariant g) (ha : a < 2 ^ 63) :
    splitLoop g (a : Int) (ratioSum g.ratios g.recipientCount) q =
      ({ q with transfers := splitTransfers g (a : Int) (ratioSum g.ratios g.recipientCount) },
        a) := by
  have h1 : 1 ≤ g.recipientCount := hinv.1
  have h8 : g.recipientCount ≤ 8 := hinv.2.1
  have hn : g.recipientCount = (g.recipientCount - 1) + 1 := by omega
  have ha64 : a < U64 := by
    have : (2 : Nat) ^ 63 < U64 := by norm_num [U64]
    omega
  unfold splitLoop
  rw [hn, List.range_succ, List.foldl_append, ← hn,
    splitLoop_prefix g a q (g.recipientCount - 1) hq hinv ha (by omega)]
  have hsum := splitPrefixSum_le g a (g.recipientCount - 1) ha64 (by omega) hinv.2.2.2
  have hlen := splitPrefixTransfers_length g (a : Int) (ratioSum g.ratios g.recipientCount)
    (g.recipientCount - 1)
  simp only [List.foldl_cons, List.foldl_nil]
  rw [splitLastStep g a _ _ q _ h1 h8 ha hsum hlen]
  unfold splitTransfers
  rw [toU64_natCast a ha64]

/-! ## Split sends (C1, C2) -/

/-- An accepted send: past the checks, `sendToGate` is the dispatch by mode on
the record with the activity epoch and `totalReceived` updated, written back. -/
theorem sendToGate_accepted (env : QuGateTest) (sender : m256i) (gateId : Nat) (amount : Int)
    (hid : gateId ≠ 0 ∧ gateId ≤ env.state._gateCount)
    (hactive : (env.gate gateId).active ≠ 0)
    (hnz : amount ≠ 0) (hmin : ¬ toU64 amount < env.state._minSendAmount) :
    env.sendToGate sender gateId amount =
      ({ status := (sendByMode (receivedGate (env.gate gateId) env.qpi._epoch amount)
          (callQpi env.qpi sender amount) sender amount).status },
        { state := { env.state with _gates := (env.state._gates.set (gateId - 1)
            (sendByMode (receivedGate (env.gate gateId) env.qpi._epoch amount)
              (callQpi env.qpi sender amount) sender amount).gate) },
          qpi := (sendByMode (receivedGate (env.gate gateId) env.qpi._epoch amount)
              (callQpi env.qpi sender amount) sender amount).qpi }) := by
  unfold QuGateTest.gate at *
  have h1 : ¬ (gateId = 0 ∨ gateId > env.state._gateCount) := by omega
  simp only [QuGateTest.sendToGate, if_neg h1, if_neg hactive, if_neg hnz, if_neg hmin]
  rfl

theorem sendToGate_split_unfold (env : QuGateTest) (sender : m256i) (gateId : Nat) (amount : Int)
    (hid : gateId ≠ 0 ∧ gateId ≤ env.state._gateCount)
    (hactive : (env.gate gateId).active ≠ 0)
    (hmode : (env.gate gateId).mode = MODE_SPLIT)
    (hnz : amount ≠ 0) (hmin : ¬ toU64 amount < env.state._minSendAmount) :
    env.sendToGate sender gateId amount =
      ({ status := QUGATE_SUCCESS },
        { state := { env.state with _gates := (env.state._gates.set (gateId - 1)
            { receivedGate (env.gate gateId) env.qpi._epoch amount with
              totalForwarded := ((env.gate gateId).totalForwarded +
                (splitLoop (receivedGate (env.gate gateId) env.qpi._epoch amount) amount
                  (sumRatios (env.gate gateId).ratios (env.gate gateId).recipientCount)
                  (callQpi env.qpi sender amount)).2) % U64 }) },
          qpi := (splitLoop (receivedGate (env.gate gateId) env.qpi._epoch amount) amount
                  (sumRatios (env.gate gateId).ratios (env.gate gateId).recipientCount)
                  (callQpi env.qpi sender amount)).1 }) := by
  rw [sendToGate_accepted env sender gateId amount hid hactive hnz hmin]
  have hm : (receivedGate (env.gate gateId) env.qpi._epoch amount).mode = MODE_SPLIT := hmode
  unfold sendByMode
  rw [if_pos hm]
  rfl

theorem sumAmounts_splitTransfers (g : GateConfig) (a : Nat) (ha : a < U64)
    (hR : 0 < ratioSum g.ratios g.recipientCount) :
    sumAmounts (splitTransfers g (a : Int) (ratioSum g.ratios g.recipientCount)) = (a : Int) := by
  have hsum := splitPrefixSum_le g a (g.recipientCount - 1) ha (by omega) hR
  unfold splitTransfers
  rw [sumAmounts_append, sumAmounts_splitPrefixTransfers, toU64_natCast a ha]
  by_cases h : splitPrefixSum g (a : Int) (ratioSum g.ratios g.recipientCount)
      (g.recipientCount - 1) < a
  · rw [if_pos h]
    simp [sumAmounts]
  · rw [if_neg h]
    have : splitPrefixSum g (a : Int) (ratioSum g.ratios g.recipientCount)
      (g.recipientCount - 1) = a := by omega
    simp [sumAmounts, this]

theorem sendToGate_split_eq (env : QuGateTest) (sender : m256i) (gateId : Nat) (a : Nat)
    (hid : gateId ≠ 0 ∧ gateId ≤ env.state._gateCount)
    (hactive : (env.gate gateId).active ≠ 0)
    (hmode : (env.gate gateId).mode = MODE_SPLIT)
    (hinv : SplitInvariant (env.gate gateId))
    (hpos : 0 < a) (hmin : env.state._minSendAmount ≤ a) (ha : a < 2 ^ 63) :
    env.sendToGate sender gateId (a : Int) =
      ({ status := QUGATE_SUCCESS },
        { state := { env.state with _gates := (env.state._gates.set (gateId - 1)
            { receivedGate (env.gate gateId) env.qpi._epoch (a : Int) with
              totalForwarded := ((env.gate gateId).totalForwarded + a) % U64 }) },
          qpi := { callQpi env.qpi sender (a : Int) with
            transfers := (splitTransfers (env.gate gateId) (a : Int)
              (ratioSum (env.gate gateId).ratios (env.gate gateId).recipientCount)) } }) := by
  have ha64 : a < U64 := by
    have : (2 : Nat) ^ 63 < U64 := by norm_num [U64]
    omega
  have hU : toU64 (a : Int) = a := toU64_natCast a ha64
  rw [sendToGate_split_unfold env sender gateId (a : Int) hid hactive hmode (by omega)
    (by rw [hU]; omega)]
  rw [sumRatios_of_invariant _ hinv]
  have hloop := splitLoop_eq (receivedGate (env.gate gateId) env.qpi._epoch (a : Int)) a
    (callQpi env.qpi sender (a : Int)) rfl hinv ha
  have e : ratioSum (receivedGate (env.gate gateId) env.qpi._epoch (a : Int)).ratios
      (receivedGate (env.gate gateId) env.qpi._epoch (a : Int)).recipientCount =
      ratioSum (env.gate gateId).ratios (env.gate gateId).recipientCount := rfl
  rw [e] at hloop
  rw [hloop]
  rfl

/-- Claim C1 (Split conservation). On an active Split gate satisfying the
Split invariant, a send of a positive `amount` with
`minSendAmount ≤ amount < 2^63` returns Success, the amounts of the recorded
transfers sum to exactly `amount`, and the gate's `totalForwarded` grows by
`amount` (in `uint64`). The shares are those of the code, product modulo
`2^64` included. -/
theorem split_send_conserves (env : QuGateTest) (sender : m256i) (gateId : Nat) (amount : Int)
    (hid : gateId ≠ 0 ∧ gateId ≤ env.state._gateCount)
    (hactive : (env.gate gateId).active ≠ 0)
    (hmode : (env.gate gateId).mode = MODE_SPLIT)
    (hinv : SplitInvariant (env.gate gateId))
    (hpos : 0 < amount)
    (hmin : (env.state._minSendAmount : Int) ≤ amount) (hlt : amount < 2 ^ 63) :
    (env.sendToGate sender gateId amount).1.status = QUGATE_SUCCESS ∧
    sumAmounts (env.sendToGate sender gateId amount).2.qpi.transfers = amount ∧
    ((env.sendToGate sender gateId amount).2.gate gateId).totalForwarded =
      ((env.gate gateId).totalForwarded + amount.toNat) % U64 := by
  obtain ⟨a, rfl⟩ : ∃ a : Nat, amount = (a : Int) := ⟨amount.toNat, by omega⟩
  have ha : a < 2 ^ 63 := by exact_mod_cast hlt
  have ha64 : a < U64 := by
    have : (2 : Nat) ^ 63 < U64 := by norm_num [U64]
    omega
  rw [sendToGate_split_eq env sender gateId a hid hactive hmode hinv (by omega) (by omega) ha]
  refine ⟨rfl, ?_, ?_⟩
  · exact sumAmounts_splitTransfers _ a ha64 hinv.2.2.2
  · simp [QuGateTest.gate, QArray.get, QArray.set]

theorem split_send_conserves_witness :
    ((envWithGate exampleSplitGate).sendToGate 9 1 100).1.status = QUGATE_SUCCESS ∧
    sumAmounts ((envWithGate exampleSplitGate).sendToGate 9 1 100).2.qpi.transfers = 100 ∧
    (((envWithGate exampleSplitGate).sendToGate 9 1 100).2.gate 1).totalForwarded =
      (((envWithGate exampleSplitGate).gate 1).totalForwarded + (100 : Int).toNat) % U64 :=
  split_send_conserves (envWithGate exampleSplitGate) 9 1 100 (by decide) (by decide) (by decide)
    (by decide) (by decide) (by decide) (by norm_num)

theorem splitShare_exact (g : GateConfig) (a i : Nat) (hinv : SplitInvariant g)
    (ha : a * 10000 < U64) (hi : i < g.recipientCount) :
    splitShare g (a : Int) (ratioSum g.ratios g.recipientCount) i =
      a * g.ratios i / ratioSum g.ratios g.recipientCount := by
  have hr : g.ratios i ≤ 10000 := hinv.2.2.1 i hi
  have hprod : a * g.ratios i < U64 := lt_of_le_of_lt (Nat.mul_le_mul_left a hr) ha
  have ha64 : a < U64 := by omega
  unfold splitShare QPI.div
  rw [toU64_natCast a ha64, if_pos (by have := hinv.2.2.2; omega)]
  show a * g.ratios i % U64 / _ = _
  rw [Nat.mod_eq_of_lt hprod]

theorem splitPrefixSum_exact (g : GateConfig) (a k : Nat) (hinv : SplitInvariant g)
    (ha : a * 10000 < U64) (hk : k ≤ g.recipientCount) :
    splitPrefixSum g (a : Int) (ratioSum g.ratios g.recipientCount) k =
      ((List.range k).map
        (fun j => a * g.ratios j / ratioSum g.ratios g.recipientCount)).sum := by
  induction k with
  | zero => simp [splitPrefixSum]
  | succ m ih =>
    rw [splitShare_le_prefixSum, ih (by omega), splitShare_exact g a m hinv ha (by omega),
      List.range_succ, List.map_append, List.sum_append]
    simp

theorem splitPrefixTransfers_exact (g : GateConfig) (a k : Nat) (hinv : SplitInvariant g)
    (ha : a * 10000 < U64) (hk : k + 1 ≤ g.recipientCount) :
    splitPrefixTransfers g (a : Int) (ratioSum g.ratios g.recipientCount) k =
      (List.range k).filterMap (fun i =>
        if 0 < specShare g a i then
          some { to_ := g.recipients i, amount := (specShare g a i : Int) }
        else none) := by
  induction k with
  | zero => simp [splitPrefixTransfers]
  | succ m ih =>
    rw [splitPrefixTransfers_succ, ih (by omega), List.range_succ, List.filterMap_append,
      splitShare_exact g a m hinv ha (by omega)]
    have hm : specShare g a m = a * g.ratios m / ratioSum g.ratios g.recipientCount := by
      unfold specShare
      rw [if_neg (by omega)]
    congr 1
    by_cases h : 0 < a * g.ratios m / ratioSum g.ratios g.recipientCount
    · simp [hm, h, QArray.get]
    · simp [hm, h]

theorem splitTransfers_exact (g : GateConfig) (a : Nat) (hinv : SplitInvariant g)
    (ha : a * 10000 < U64) :
    splitTransfers g (a : Int) (ratioSum g.ratios g.recipientCount) = specSplitTransfers g a := by
  have h1 : 1 ≤ g.recipientCount := hinv.1
  have hn : g.recipientCount = (g.recipientCount - 1) + 1 := by omega
  have ha64 : a < U64 := by omega
  have hsum := splitPrefixSum_le g a (g.recipientCount - 1) ha64 (by omega) hinv.2.2.2
  unfold splitTransfers specSplitTransfers
  rw [splitPrefixTransfers_exact g a _ hinv ha (by omega), toU64_natCast a ha64]
  have hr : List.range g.recipientCount =
      List.range (g.recipientCount - 1) ++ [g.recipientCount - 1] := by
    conv_lhs => rw [hn]
    exact List.range_succ _
  rw [hr, List.filterMap_append]
  congr 1
  have hlast : specShare g a (g.recipientCount - 1) =
      a - splitPrefixSum g (a : Int) (ratioSum g.ratios g.recipientCount)
        (g.recipientCount - 1) := by
    unfold specShare
    rw [if_pos (by omega), splitPrefixSum_exact g a _ hinv ha (by omega)]
  by_cases h : splitPrefixSum g (a : Int) (ratioSum g.ratios g.recipientCount)
      (g.recipientCount - 1) < a
  · have h2 : 0 < a - splitPrefixSum g (a : Int) (ratioSum g.ratios g.recipientCount)
        (g.recipientCount - 1) := by omega
    simp [hlast, h, h2, QArray.get, Nat.cast_sub hsum]
  · have h2 : ¬ 0 < a - splitPrefixSum g (a : Int) (ratioSum g.ratios g.recipientCount)
        (g.recipientCount - 1) := by omega
    simp [hlast, h, h2]

theorem specSplitTransfers_zero (g : GateConfig) : specSplitTransfers g 0 = [] := by
  unfold specSplitTransfers
  have h : ∀ i, specShare g 0 i = 0 := by
    intro i
    unfold specShare
    split_ifs <;> simp
  simp [h]

theorem specSplitTransfers_pos (g : GateConfig) (a : Nat) (t : Transfer)
    (ht : t ∈ specSplitTransfers g a) : 0 < t.amount := by
  unfold specSplitTransfers at ht
  rw [List.mem_filterMap] at ht
  obtain ⟨i, _, hi⟩ := ht
  by_cases h : 0 < specShare g a i
  · rw [if_pos h] at hi
    cases hi
    show (0 : Int) < (specShare g a i : Int)
    exact_mod_cast h
  · rw [if_neg h] at hi
    cases hi

/-- Claim C2 (Split shares). On an active Split gate satisfying the Split
invariant, for an amount at least `minSendAmount` with
`amount * 10000 < 2^64`, the transfers recorded by `sendToGate` are, recipient
by recipient in order, `floor(amount * ratios[i] / ratioSum)` for each
recipient before the last and `amount` minus those shares for the last one,
with no transfer for a share of 0: every recorded amount is positive. -/
theorem split_send_shares (env : QuGateTest) (sender : m256i) (gateId : Nat) (amount : Int)
    (hid : gateId ≠ 0 ∧ gateId ≤ env.state._gateCount)
    (hactive : (env.gate gateId).active ≠ 0)
    (hmode : (env.gate gateId).mode = MODE_SPLIT)
    (hinv : SplitInvariant (env.gate gateId))
    (hmin : (env.state._minSendAmount : Int) ≤ amount) (hprod : amount * 10000 < 2 ^ 64) :
    (env.sendToGate sender gateId amount).2.qpi.transfers =
      specSplitTransfers (env.gate gateId) amount.toNat ∧
    ∀ t, t ∈ (env.sendToGate sender gateId amount).2.qpi.transfers → 0 < t.amount := by
  obtain ⟨a, rfl⟩ : ∃ a : Nat, amount = (a : Int) := ⟨amount.toNat, by omega⟩
  have ha : a * 10000 < U64 := by
    have : ((a * 10000 : Nat) : Int) < ((2 ^ 64 : Nat) : Int) := by push_cast; exact hprod
    exact_mod_cast this
  have key : (env.sendToGate sender gateId (a : Int)).2.qpi.transfers =
      specSplitTransfers (env.gate gateId) a := by
    rcases Nat.eq_zero_or_pos a with h0 | hpos
    · subst h0
      rw [specSplitTransfers_zero]
      have h1 : ¬ (gateId = 0 ∨ gateId > env.state._gateCount) := by omega
      unfold QuGateTest.gate at hactive
      unfold QuGateTest.sendToGate
      simp only [h1, hactive, if_false]
      rfl
    · rw [sendToGate_split_eq env sender gateId a hid hactive hmode hinv hpos (by omega)
        (by have : (2 : Nat) ^ 63 * 2 = U64 := by norm_num [U64]
            omega)]
      exact splitTransfers_exact _ a hinv ha
  refine ⟨by simpa using key, ?_⟩
  intro t ht
  rw [key] at ht
  exact specSplitTransfers_pos _ _ t ht

theorem split_send_shares_witness :
    ((envWithGate exampleSplitGate).sendToGate 9 1 100).2.qpi.transfers =
      specSplitTransfers ((envWithGate exampleSplitGate).gate 1) (100 : Int).toNat ∧
    ∀ t, t ∈ ((envWithGate exampleSplitGate).sendToGate 9 1 100).2.qpi.transfers → 0 < t.amount :=
  split_send_shares (envWithGate exampleSplitGate) 9 1 100 (by decide) (by decide) (by decide)
    (by decide) (by decide) (by norm_num)

theorem specSplitTransfers_example :
    specSplitTransfers exampleSplitGate 100 =
      [{ to_ := 2, amount := 33 }, { to_ := 3, amount := 33 }, { to_ := 4, amount := 34 }] := by
  decide

/-! ## Fee escalation (C4) -/

theorem getFees_currentCreationFee (env : QuGateTest) :
    env.getFees.currentCreationFee = env.currentEscalatedFee := rfl

theorem currentEscalatedFee_exact (env : QuGateTest)
    (h : env.state._creationFee * (1 + env.state._activeGates / 1024) < U64) :
    env.currentEscalatedFee = env.state._creationFee * (1 + env.state._activeGates / 1024) := by
  unfold QuGateTest.currentEscalatedFee QPI.div
  rw [if_pos (by decide)]
  rcases Nat.eq_zero_or_pos env.state._creationFee with h0 | hpos
  · simp [h0]
  · have h1 : 1 + env.state._activeGates / 1024 < U64 := by
      calc 1 + env.state._activeGates / 1024
          ≤ env.state._creationFee * (1 + env.state._activeGates / 1024) :=
            Nat.le_mul_of_pos_left _ hpos
        _ < U64 := h
    show env.state._creationFee * ((1 + env.state._activeGates / 1024) % U64) % U64 = _
    rw [Nat.mod_eq_of_lt h1, Nat.mod_eq_of_lt h]

theorem createGateCommit_status (state : QuGateState) (qpi : TestQpiContext) (creator : m256i)
    (fee : Int) (currentFee : Nat) (input : createGate_input) :
    (createGateCommit state qpi creator fee currentFee input).1.status = QUGATE_SUCCESS := rfl

theorem createGateCommit_feePaid (state : QuGateState) (qpi : TestQpiContext) (creator : m256i)
    (fee : Int) (currentFee : Nat) (input : createGate_input) :
    (createGateCommit state qpi creator fee currentFee input).1.feePaid = currentFee := rfl

theorem createGate_status_insufficient_iff (env : QuGateTest) (creator : m256i) (fee : Int)
    (input : createGate_input) :
    (env.createGate creator fee input).1.status = QUGATE_INSUFFICIENT_FEE ↔
      fee < toS64 env.currentEscalatedFee := by
  simp only [QuGateTest.createGate, QuGateTest.currentEscalatedFee]
  split_ifs with h1 <;> simp only [createGateCommit_status, h1] <;> decide

/-- The checks of `createGate` that a successful call has passed, and the
commit it then equals. -/
theorem createGate_success (env : QuGateTest) (creator : m256i) (fee : Int)
    (input : createGate_input)
    (h : (env.createGate creator fee input).1.status = QUGATE_SUCCESS) :
    env.createGate creator fee input =
      createGateCommit env.state (callQpi env.qpi creator fee) creator fee
        env.currentEscalatedFee input ∧
    ¬ fee < toS64 env.currentEscalatedFee ∧
    input.mode ≤ MODE_CONDITIONAL ∧
    1 ≤ input.recipientCount ∧ input.recipientCount ≤ QUGATE_MAX_RECIPIENTS ∧
    ¬ (env.state._freeCount = 0 ∧ env.state._gateCount ≥ QUGATE_MAX_GATES) ∧
    ¬ (input.mode = MODE_SPLIT ∧ sumRatios input.ratios input.recipientCount = 0) ∧
    ¬ (input.mode = MODE_SPLIT ∧ anyRatioOverMax input.ratios input.recipientCount = true) ∧
    ¬ (input.mode = MODE_THRESHOLD ∧ input.threshold = 0) ∧
    input.allowedSenderCount ≤ QUGATE_MAX_RECIPIENTS := by
  revert h
  simp only [QuGateTest.createGate, QuGateTest.currentEscalatedFee, callQpi]
  split_ifs
  all_goals intro h
  all_goals first
    | exact absurd h (by dsimp only; decide)
    | exact ⟨rfl, by assumption, by omega, by omega, by omega, by assumption, by assumption,
        by assumption, by assumption, by omega⟩

/-- Claim C4 (fee escalation). The fee reported by `getFees` is
`creationFee * (1 + activeGates / 1024)` absent 64-bit overflow; as a function
of `activeGates` it is non-decreasing (absent overflow at the larger count) and
constant on each block of 1024 counts; from the initial registry it is 1000 at
0, 2000 at 1024 and 3000 at 2048; and it is the value `createGate` compares the
payment against (as `sint64`) and reports as `feePaid` on success. -/
theorem fee_escalation (env : QuGateTest) (a b : Nat) (creator : m256i) (fee : Int)
    (input : createGate_input) :
    (env.state._creationFee * (1 + env.state._activeGates / 1024) < U64 →
      env.getFees.currentCreationFee =
        env.state._creationFee * (1 + env.state._activeGates / 1024)) ∧
    (a ≤ b → env.state._creationFee * (1 + b / 1024) < U64 →
      (env.withActiveGates a).getFees.currentCreationFee ≤
        (env.withActiveGates b).getFees.currentCreationFee) ∧
    (a / 1024 = b / 1024 →
      (env.withActiveGates a).getFees.currentCreationFee =
        (env.withActiveGates b).getFees.currentCreationFee) ∧
    (QuGateTest.new.withActiveGates 0).getFees.currentCreationFee = 1000 ∧
    (QuGateTest.new.withActiveGates 1024).getFees.currentCreationFee = 2000 ∧
    (QuGateTest.new.withActiveGates 2048).getFees.currentCreationFee = 3000 ∧
    ((env.createGate creator fee input).1.status = QUGATE_INSUFFICIENT_FEE ↔
      fee < toS64 env.getFees.currentCreationFee) ∧
    ((env.createGate creator fee input).1.status = QUGATE_SUCCESS →
      (env.createGate creator fee input).1.feePaid = env.getFees.currentCreationFee) := by
  refine ⟨?_, ?_, ?_, by decide, by decide, by decide, ?_, ?_⟩
  · intro h
    rw [getFees_currentCreationFee]
    exact currentEscalatedFee_exact env h
  · intro hab hb
    have hmono : env.state._creationFee * (1 + a / 1024) ≤
        env.state._creationFee * (1 + b / 1024) :=
      Nat.mul_le_mul_left _ (by have := Nat.div_le_div_right (c := 1024) hab; omega)
    rw [getFees_currentCreationFee, getFees_currentCreationFee,
      currentEscalatedFee_exact (env.withActiveGates a) (lt_of_le_of_lt hmono hb),
      currentEscalatedFee_exact (env.withActiveGates b) hb]
    exact hmono
  · intro hab
    rw [getFees_currentCreationFee, getFees_currentCreationFee]
    unfold QuGateTest.currentEscalatedFee QPI.div QuGateTest.withActiveGates
    simp only [hab, QUGATE_FEE_ESCALATION_STEP]
  · rw [getFees_currentCreationFee]
    exact createGate_status_insufficient_iff env creator fee input
  · intro h
    rw [getFees_currentCreationFee, (createGate_success env creator fee input h).1]
    rfl

theorem fee_escalation_witness :
    (QuGateTest.new.withActiveGates 3072).getFees.currentCreationFee = 1000 * (1 + 3072 / 1024) ∧
    (QuGateTest.new.withActiveGates 1023).getFees.currentCreationFee ≤
      (QuGateTest.new.withActiveGates 1024).getFees.currentCreationFee ∧
    (QuGateTest.new.withActiveGates 1024).getFees.currentCreationFee =
      (QuGateTest.new.withActiveGates 2047).getFees.currentCreationFee :=
  ⟨(fee_escalation (QuGateTest.new.withActiveGates 3072) 0 0 0 0
      { mode := 0, recipientCount := 0, recipients := fun _ => 0, ratios := fun _ => 0,
        threshold := 0, allowedSenders := fun _ => 0, allowedSenderCount := 0 }).1 (by decide),
   (fee_escalation QuGateTest.new 1023 1024 0 0
      { mode := 0, recipientCount := 0, recipients := fun _ => 0, ratios := fun _ => 0,
        threshold := 0, allowedSenders := fun _ => 0, allowedSenderCount := 0 }).2.1
      (by decide) (by decide),
   (fee_escalation QuGateTest.new 1024 2047 0 0
      { mode := 0, recipientCount := 0, recipients := fun _ => 0, ratios := fun _ => 0,
        threshold := 0, allowedSenders := fun _ => 0, allowedSenderCount := 0 }).2.2.1
      (by decide)⟩

/-! ## createGate: refund, validation order, failure (C5, C6, C7) -/

theorem callQpi_transfer (q : TestQpiContext) (invocator : m256i) (reward : Int) (t : m256i)
    (x : Int) :
    (callQpi q invocator reward).transfer t x =
      { callQpi q invocator reward with transfers := [{ to_ := t, amount := x }] } := by
  rw [transfer_of_room _ _ _ (by show ([] : List Transfer).length < 64; decide)]
  rfl

/-- What every failing `createGate` leaves behind: the registry as it was,
nothing burned, a zero `gateId` and `feePaid`, and one refund of a positive
payment. -/
theorem createGate_failure (env : QuGateTest) (creator : m256i) (fee : Int)
    (input : createGate_input)
    (h : (env.createGate creator fee input).1.status ≠ QUGATE_SUCCESS) :
    (env.createGate creator fee input).2.state = env.state ∧
    (env.createGate creator fee input).2.qpi.totalBurned = 0 ∧
    (env.createGate creator fee input).1.gateId = 0 ∧
    (env.createGate creator fee input).1.feePaid = 0 ∧
    (0 < fee →
      (env.createGate creator fee input).2.qpi.transfers = [{ to_ := creator, amount := fee }]) := by
  revert h
  simp only [QuGateTest.createGate]
  split_ifs
  all_goals intro h
  all_goals first
    | exact absurd (createGateCommit_status _ _ _ _ _ _) h
    | (refine ⟨rfl, rfl, rfl, rfl, fun hpos => ?_⟩
       first
         | (show ((callQpi env.qpi creator fee).transfer creator fee).transfers = _
            rw [callQpi_transfer])
         | exact absurd hpos (by assumption))

theorem fillRecipients_loop (g : GateConfig) (rc : Nat) (recipients : QArray m256i)
    (ratios : QArray Nat) (n : Nat) :
    (List.range n).foldl
      (fun g i =>
        if i < rc then
          { g with recipients := g.recipients.set i (recipients.get i),
                   ratios := g.ratios.set i (ratios.get i) }
        else
          { g with recipients := g.recipients.set i m256i.zero,
                   ratios := g.ratios.set i 0 })
      g =
    { g with
      recipients := fun i =>
        if i < n then (if i < rc then recipients i else 0) else g.recipients i,
      ratios := fun i =>
        if i < n then (if i < rc then ratios i else 0) else g.ratios i } := by
  induction n with
  | zero => simp
  | succ m ih =>
    rw [List.range_succ, List.foldl_append, ih]
    simp only [List.foldl_cons, List.foldl_nil, QArray.set, QArray.get, m256i.zero]
    by_cases hm : m < rc
    · rw [if_pos hm]
      congr 1 <;> funext i <;> by_cases hi : i = m
      · subst hi; simp [hm]
      · have : (i < m + 1) = (i < m) := by apply propext; omega
        simp [Function.update_noteq hi, this]
      · subst hi; simp [hm]
      · have : (i < m + 1) = (i < m) := by apply propext; omega
        simp [Function.update_noteq hi, this]
    · rw [if_neg hm]
      congr 1 <;> funext i <;> by_cases hi : i = m
      · subst hi; simp [hm]
      · have : (i < m + 1) = (i < m) := by apply propext; omega
        simp [Function.update_noteq hi, this]
      · subst hi; simp [hm]
      · have : (i < m + 1) = (i < m) := by apply propext; omega
        simp [Function.update_noteq hi, this]

theorem fillAllowedSenders_loop (g : GateConfig) (asc : Nat) (allowedSenders : QArray m256i)
    (n : Nat) :
    (List.range n).foldl
      (fun g i =>
        if i < asc then
          { g with allowedSenders := g.allowedSenders.set i (allowedSenders.get i) }
        else
          { g with allowedSenders := g.allowedSenders.set i m256i.zero })
      g =
    { g with
      allowedSenders := fun i =>
        if i < n then (if i < asc then allowedSenders i else 0) else g.allowedSenders i } := by
  induction n with
  | zero => simp
  | succ m ih =>
    rw [List.range_succ, List.foldl_append, ih]
    simp only [List.foldl_cons, List.foldl_nil, QArray.set, QArray.get, m256i.zero]
    by_cases hm : m < asc
    · rw [if_pos hm]
      congr 1; funext i; by_cases hi : i = m
      · subst hi; simp [hm]
      · have : (i < m + 1) = (i < m) := by apply propext; omega
        simp [Function.update_noteq hi, this]
    · rw [if_neg hm]
      congr 1; funext i; by_cases hi : i = m
      · subst hi; simp [hm]
      · have : (i < m + 1) = (i < m) := by apply propext; omega
        simp [Function.update_noteq hi, this]

/-- The record built by `createGate`, field by field. -/
theorem newGate_eq (creator : m256i) (epoch : Nat) (input : createGate_input) :
    newGate creator epoch input =
      { owner := creator, mode := input.mode, recipientCount := input.recipientCount,
        active := 1, allowedSenderCount := input.allowedSenderCount,
        createdEpoch := epoch, lastActivityEpoch := epoch,
        totalReceived := 0, totalForwarded := 0, currentBalance := 0,
        threshold := input.threshold, roundRobinIndex := 0,
        recipients := fun i =>
          if i < 8 then (if i < input.recipientCount then input.recipients i else 0) else 0,
        ratios := fun i =>
          if i < 8 then (if i < input.recipientCount then input.ratios i else 0) else 0,
        allowedSenders := fun i =>
          if i < 8 then (if i < input.allowedSenderCount then input.allowedSenders i else 0)
          else 0 } := by
  unfold newGate fillAllowedSenders fillRecipients
  simp only [QUGATE_MAX_RECIPIENTS]
  rw [fillRecipients_loop, fillAllowedSenders_loop]
  rfl

theorem createGateCommit_gateId (state : QuGateState) (qpi : TestQpiContext) (creator : m256i)
    (fee : Int) (currentFee : Nat) (input : createGate_input) :
    (createGateCommit state qpi creator fee currentFee input).1.gateId =
      (allocSlot state + 1) % U64 := rfl

theorem createGateCommit_state (state : QuGateState) (qpi : TestQpiContext) (creator : m256i)
    (fee : Int) (currentFee : Nat) (input : createGate_input) :
    (createGateCommit state qpi creator fee currentFee input).2.state =
      { state with
        _gateCount := if state._freeCount > 0 then state._gateCount
                      else (state._gateCount + 1) % U64,
        _freeCount := state._freeCount - 1,
        _gates := Function.update state._gates (allocSlot state)
          (newGate creator qpi.epoch input),
        _activeGates := (state._activeGates + 1) % U64,
        _totalBurned := (state._totalBurned + currentFee) % U64 } := by
  unfold createGateCommit allocSlot
  by_cases h : state._freeCount > 0
  · simp only [h, if_true]
    rfl
  · have h0 : state._freeCount = 0 := by omega
    simp only [h, if_false]
    cases state
    simp only at h0
    subst h0
    rfl

theorem createGateCommit_qpi (state : QuGateState) (q : TestQpiContext) (creator : m256i)
    (fee : Int) (currentFee : Nat) (input : createGate_input) (hq : q.transfers = []) :
    (createGateCommit state q creator fee currentFee input).2.qpi =
      { q with
        totalBurned := q.totalBurned + toS64 currentFee,
        transfers := if fee > toS64 currentFee then
            [{ to_ := creator, amount := fee - toS64 currentFee }] else [] } := by
  unfold createGateCommit
  by_cases h : fee > toS64 currentFee
  · simp only [h, if_true]
    rw [transfer_of_room _ _ _ (by show q.transfers.length < 64; rw [hq]; decide)]
    simp [TestQpiContext.burn, hq]
  · simp only [h, if_false]
    simp [TestQpiContext.burn, hq]

/-- Claim C5 (refund correctness of a successful `createGate`). When
`createGate` returns Success, the computed fee fitting the signed payment type,
the payment is at least the fee, `feePaid` is the fee, exactly the fee is
burned and added to `_totalBurned` (in `uint64`), the only transfer is the
refund of `paidAmount - currentFee` to the creator when that is positive, and
burn plus refund is the payment. -/
theorem createGate_success_refund (env : QuGateTest) (creator : m256i) (fee : Int)
    (input : createGate_input)
    (h : (env.createGate creator fee input).1.status = QUGATE_SUCCESS)
    (hfee : env.currentEscalatedFee < 2 ^ 63) :
    (env.currentEscalatedFee : Int) ≤ fee ∧
    (env.createGate creator fee input).1.feePaid = env.currentEscalatedFee ∧
    (env.createGate creator fee input).2.qpi.totalBurned = (env.currentEscalatedFee : Int) ∧
    (env.createGate creator fee input).2.state._totalBurned =
      (env.state._totalBurned + env.currentEscalatedFee) % U64 ∧
    (env.createGate creator fee input).2.qpi.transfers =
      (if (env.currentEscalatedFee : Int) < fee then
        [{ to_ := creator, amount := fee - (env.currentEscalatedFee : Int) }] else []) ∧
    (env.createGate creator fee input).2.qpi.totalBurned +
      sumAmounts (env.createGate creator fee input).2.qpi.transfers = fee := by
  obtain ⟨heq, hge, -⟩ := createGate_success env creator fee input h
  have hs : toS64 (env.currentEscalatedFee : Int) = (env.currentEscalatedFee : Int) :=
    toS64_natCast _ hfee
  rw [hs] at hge
  rw [heq, createGateCommit_state, createGateCommit_qpi _ _ _ _ _ _ rfl, hs]
  refine ⟨by omega, rfl, ?_, rfl, rfl, ?_⟩
  · show (callQpi env.qpi creator fee).totalBurned + _ = _
    simp [callQpi, TestQpiContext.reset]
  · show (callQpi env.qpi creator fee).totalBurned + _ + sumAmounts _ = _
    by_cases hlt : (env.currentEscalatedFee : Int) < fee
    · simp [callQpi, TestQpiContext.reset, hlt, sumAmounts]
    · have : fee = env.currentEscalatedFee := by omega
      simp [callQpi, TestQpiContext.reset, hlt, sumAmounts, this]

theorem createGate_success_refund_witness :
    ((QuGateTest.new.currentEscalatedFee : Nat) : Int) ≤ 5000 ∧
    (QuGateTest.new.createGate 1 5000 exampleSplitInput).1.feePaid = 1000 ∧
    (QuGateTest.new.createGate 1 5000 exampleSplitInput).2.qpi.totalBurned = 1000 ∧
    (QuGateTest.new.createGate 1 5000 exampleSplitInput).2.qpi.transfers =
      [{ to_ := 1, amount := 4000 }] := by
  have h := createGate_success_refund QuGateTest.new 1 5000 exampleSplitInput (by decide)
    (by decide)
  exact ⟨h.1, h.2.1, h.2.2.1, h.2.2.2.2.1⟩

theorem anyRatioOverMax_iff (ratios : QArray Nat) (n : Nat) :
    anyRatioOverMax ratios n = true ↔ ∃ i, i < n ∧ ratios i > 10000 := by
  unfold anyRatioOverMax
  simp [List.any_eq_true, QArray.get]

theorem ratio_checks_iff (ratios : QArray Nat) (n : Nat) (hn : n ≤ 8) :
    (sumRatios ratios n = 0 ∨ anyRatioOverMax ratios n = true) ↔
      ((∃ i, i < n ∧ ratios i > 10000) ∨ ratioSum ratios n = 0) := by
  rw [anyRatioOverMax_iff, sumRatios_eq]
  constructor
  · rintro (h | h)
    · by_cases hover : ∃ i, i < n ∧ ratios i > 10000
      · exact Or.inl hover
      · right
        have hall : ∀ i, i < n → ratios i ≤ 10000 := by
          intro i hi
          by_contra hc
          exact hover ⟨i, hi, by omega⟩
        have hle := ratioSum_le ratios n 10000 hall
        have hlt : ratioSum ratios n < U64 := by
          have : n * 10000 ≤ 80000 := by omega
          have : (80000 : Nat) < U64 := by norm_num [U64]
          omega
        rwa [Nat.mod_eq_of_lt hlt] at h
    · exact Or.inl h
  · rintro (h | h)
    · exact Or.inr h
    · left
      rw [h]
      rfl

/-- The status of `createGate` is that of the first failing check, in the
order of the specification, for the fee read as `sint64`. -/
theorem createGate_status_signed (env : QuGateTest) (creator : m256i) (fee : Int)
    (input : createGate_input) :
    (env.createGate creator fee input).1.status =
      specCreateStatus (toS64 env.currentEscalatedFee) env.state._freeCount
        env.state._gateCount fee input := by
  simp only [QuGateTest.createGate, QuGateTest.currentEscalatedFee, specCreateStatus]
  by_cases h1 : fee < toS64 ((env.state._creationFee *
      ((1 + QPI.div env.state._activeGates QUGATE_FEE_ESCALATION_STEP) % U64) % U64 : Nat) : Int)
  · simp only [if_pos h1]
  simp only [if_neg h1]
  by_cases h2 : input.mode > 4
  · have h2c : input.mode > MODE_CONDITIONAL := h2
    simp only [if_pos h2, if_pos h2c]
  have h2c : ¬ input.mode > MODE_CONDITIONAL := h2
  simp only [if_neg h2, if_neg h2c]
  by_cases h3 : input.recipientCount = 0 ∨ input.recipientCount > 8
  · have h3c : input.recipientCount = 0 ∨ input.recipientCount > QUGATE_MAX_RECIPIENTS := h3
    simp only [if_pos h3, if_pos h3c]
  have h3c : ¬ (input.recipientCount = 0 ∨ input.recipientCount > QUGATE_MAX_RECIPIENTS) := h3
  simp only [if_neg h3, if_neg h3c]
  by_cases h4 : env.state._freeCount = 0 ∧ env.state._gateCount ≥ 4096
  · have h4c : env.state._freeCount = 0 ∧ env.state._gateCount ≥ QUGATE_MAX_GATES := h4
    simp only [if_pos h4, if_pos h4c]
  have h4c : ¬ (env.state._freeCount = 0 ∧ env.state._gateCount ≥ QUGATE_MAX_GATES) := h4
  simp only [if_neg h4, if_neg h4c]
  have hr := ratio_checks_iff input.ratios input.recipientCount (by omega)
  by_cases h5 : input.mode = MODE_SPLIT ∧
      ((∃ i, i < input.recipientCount ∧ input.ratios i > 10000) ∨
        ratioSum input.ratios input.recipientCount = 0)
  · simp only [if_pos h5]
    by_cases h5a : input.mode = MODE_SPLIT ∧ sumRatios input.ratios input.recipientCount = 0
    · simp only [if_pos h5a]
    · have h5b : input.mode = MODE_SPLIT ∧
          anyRatioOverMax input.ratios input.recipientCount = true :=
        ⟨h5.1, (hr.mpr h5.2).resolve_left (fun hc => h5a ⟨h5.1, hc⟩)⟩
      simp only [if_neg h5a, if_pos h5b]
  have h5a : ¬ (input.mode = MODE_SPLIT ∧ sumRatios input.ratios input.recipientCount = 0) :=
    fun hc => h5 ⟨hc.1, hr.mp (Or.inl hc.2)⟩
  have h5b : ¬ (input.mode = MODE_SPLIT ∧
      anyRatioOverMax input.ratios input.recipientCount = true) :=
    fun hc => h5 ⟨hc.1, hr.mp (Or.inr hc.2)⟩
  simp only [if_neg h5, if_neg h5a, if_neg h5b]
  by_cases h7 : input.mode = MODE_THRESHOLD ∧ input.threshold = 0
  · simp only [if_pos h7]
  simp only [if_neg h7]
  by_cases h8 : input.allowedSenderCount > 8
  · have h8c : input.allowedSenderCount > QUGATE_MAX_RECIPIENTS := h8
    simp only [if_pos h8, if_pos h8c]
  have h8c : ¬ input.allowedSenderCount > QUGATE_MAX_RECIPIENTS := h8
  simp only [if_neg h8, if_neg h8c]
  rfl

theorem specCreateStatus_success_iff (currentFee : Int) (freeCount gateCount : Nat) (fee : Int)
    (input : createGate_input) :
    specCreateStatus currentFee freeCount gateCount fee input = QUGATE_SUCCESS ↔
      (¬ fee < currentFee ∧ ¬ input.mode > 4 ∧
        ¬ (input.recipientCount = 0 ∨ input.recipientCount > 8) ∧
        ¬ (freeCount = 0 ∧ gateCount ≥ 4096) ∧
        ¬ (input.mode = MODE_SPLIT ∧
          ((∃ i, i < input.recipientCount ∧ input.ratios i > 10000) ∨
            ratioSum input.ratios input.recipientCount = 0)) ∧
        ¬ (input.mode = MODE_THRESHOLD ∧ input.threshold = 0) ∧
        ¬ input.allowedSenderCount > 8) := by
  unfold specCreateStatus
  by_cases h1 : fee < currentFee
  · simp only [if_pos h1]
    exact ⟨fun h => absurd h (by decide), fun h => absurd h1 h.1⟩
  simp only [if_neg h1]
  by_cases h2 : input.mode > 4
  · simp only [if_pos h2]
    exact ⟨fun h => absurd h (by decide), fun h => absurd h2 h.2.1⟩
  simp only [if_neg h2]
  by_cases h3 : input.recipientCount = 0 ∨ input.recipientCount > 8
  · simp only [if_pos h3]
    exact ⟨fun h => absurd h (by decide), fun h => absurd h3 h.2.2.1⟩
  simp only [if_neg h3]
  by_cases h4 : freeCount = 0 ∧ gateCount ≥ 4096
  · simp only [if_pos h4]
    exact ⟨fun h => absurd h (by decide), fun h => absurd h4 h.2.2.2.1⟩
  simp only [if_neg h4]
  by_cases h5 : input.mode = MODE_SPLIT ∧
      ((∃ i, i < input.recipientCount ∧ input.ratios i > 10000) ∨
        ratioSum input.ratios input.recipientCount = 0)
  · simp only [if_pos h5]
    exact ⟨fun h => absurd h (by decide), fun h => absurd h5 h.2.2.2.2.1⟩
  simp only [if_neg h5]
  by_cases h7 : input.mode = MODE_THRESHOLD ∧ input.threshold = 0
  · simp only [if_pos h7]
    exact ⟨fun h => absurd h (by decide), fun h => absurd h7 h.2.2.2.2.2.1⟩
  simp only [if_neg h7]
  by_cases h8 : input.allowedSenderCount > 8
  · simp only [if_pos h8]
    exact ⟨fun h => absurd h (by decide), fun h => absurd h8 h.2.2.2.2.2.2⟩
  simp only [if_neg h8]
  exact ⟨fun _ => ⟨h1, h2, h3, h4, h5, h7, h8⟩, fun _ => trivial⟩

/-- Claim C6 (validation order of `createGate`). For every input, the status
returned by `createGate` is that of the first failing check in the order:
payment below the fee, mode above 4, recipient count 0 or above 8, no free slot
at capacity, Split with a ratio above 10000 or a zero ratio sum, Threshold with
a zero threshold, more than 8 allowed senders; it is Success exactly when no
check fails. The current fee is below `2^63`, the range of the `sint64` payment
it is compared with: in every reachable registry it is at most 5000
(`reachable_fee`), the fee parameters being set once by the constructor. -/
theorem createGate_validation_order (env : QuGateTest) (creator : m256i) (fee : Int)
    (input : createGate_input) (hfee : env.currentEscalatedFee < 2 ^ 63) :
    (env.createGate creator fee input).1.status =
      specCreateStatus (env.currentEscalatedFee : Int) env.state._freeCount
        env.state._gateCount fee input ∧
    ((env.createGate creator fee input).1.status = QUGATE_SUCCESS ↔
      (¬ fee < (env.currentEscalatedFee : Int) ∧ ¬ input.mode > 4 ∧
        ¬ (input.recipientCount = 0 ∨ input.recipientCount > 8) ∧
        ¬ (env.state._freeCount = 0 ∧ env.state._gateCount ≥ 4096) ∧
        ¬ (input.mode = MODE_SPLIT ∧
          ((∃ i, i < input.recipientCount ∧ input.ratios i > 10000) ∨
            ratioSum input.ratios input.recipientCount = 0)) ∧
        ¬ (input.mode = MODE_THRESHOLD ∧ input.threshold = 0) ∧
        ¬ input.allowedSenderCount > 8)) := by
  have h := createGate_status_signed env creator fee input
  rw [toS64_natCast _ hfee] at h
  refine ⟨h, ?_⟩
  rw [h]
  exact specCreateStatus_success_iff _ _ _ _ _

theorem createGate_validation_order_witness :
    (QuGateTest.new.createGate 1 500 exampleSplitInput).1.status =
      specCreateStatus (QuGateTest.new.currentEscalatedFee : Int) QuGateTest.new.state._freeCount
        QuGateTest.new.state._gateCount 500 exampleSplitInput ∧
    (QuGateTest.new.createGate 1 500 exampleSplitInput).1.status = QUGATE_INSUFFICIENT_FEE :=
  ⟨(createGate_validation_order QuGateTest.new 1 500 exampleSplitInput (by decide)).1,
    by decide⟩

/-- Claim C7 (a failing `createGate` is atomic and refunds). Whenever
`createGate` returns a status other than Success (NoFreeSlots included), the
registry is unchanged, nothing is burned, `gateId` and `feePaid` are 0, and a
positive payment is refunded by exactly one transfer, of the full payment to
the creator. -/
theorem createGate_failure_atomic (env : QuGateTest) (creator : m256i) (fee : Int)
    (input : createGate_input)
    (h : (env.createGate creator fee input).1.status ≠ QUGATE_SUCCESS) :
    (env.createGate creator fee input).2.state = env.state ∧
    (env.createGate creator fee input).2.qpi.totalBurned = 0 ∧
    (env.createGate creator fee input).1.gateId = 0 ∧
    (env.createGate creator fee input).1.feePaid = 0 ∧
    (0 < fee →
      (env.createGate creator fee input).2.qpi.transfers =
        [{ to_ := creator, amount := fee }]) :=
  createGate_failure env creator fee input h

theorem createGate_failure_atomic_witness :
    (fullEnv.createGate 1 6000 exampleSplitInput).1.status = QUGATE_NO_FREE_SLOTS ∧
    (fullEnv.createGate 1 6000 exampleSplitInput).2.state = fullEnv.state ∧
    (fullEnv.createGate 1 6000 exampleSplitInput).2.qpi.totalBurned = 0 ∧
    (fullEnv.createGate 1 6000 exampleSplitInput).1.gateId = 0 ∧
    (fullEnv.createGate 1 6000 exampleSplitInput).1.feePaid = 0 ∧
    (fullEnv.createGate 1 6000 exampleSplitInput).2.qpi.transfers =
      [{ to_ := 1, amount := 6000 }] := by
  have h := createGate_failure_atomic fullEnv 1 6000 exampleSplitInput (by decide)
  exact ⟨by decide, h.1, h.2.1, h.2.2.1, h.2.2.2.1, h.2.2.2.2 (by decide)⟩

/-! ## The allocator invariant and reachable registries -/

theorem activeCount_le (gates : QArray GateConfig) (n : Nat) : activeCount gates n ≤ n := by
  induction n with
  | zero => simp [activeCount]
  | succ m ih =>
    unfold activeCount
    split_ifs <;> omega

theorem activeCount_congr (g1 g2 : QArray GateConfig) (n : Nat)
    (h : ∀ i, i < n → (g1 i).active = (g2 i).active) :
    activeCount g1 n = activeCount g2 n := by
  induction n with
  | zero => simp [activeCount]
  | succ m ih =>
    unfold activeCount
    rw [ih (fun i hi => h i (by omega)), h m (by omega)]

theorem activeCount_update_ge (gates : QArray GateConfig) (idx : Nat) (g : GateConfig) (n : Nat)
    (h : n ≤ idx) : activeCount (Function.update gates idx g) n = activeCount gates n :=
  activeCount_congr _ _ n (fun i hi => by rw [Function.update_noteq (by omega)])

theorem activeCount_update_lt (gates : QArray GateConfig) (idx : Nat) (g : GateConfig) (n : Nat)
    (h : idx < n) :
    activeCount (Function.update gates idx g) n + (if (gates idx).active = 1 then 1 else 0) =
      activeCount gates n + (if g.active = 1 then 1 else 0) := by
  induction n with
  | zero => omega
  | succ m ih =>
    unfold activeCount
    rcases Nat.lt_or_ge idx m with hlt | hge
    · have := ih hlt
      rw [Function.update_noteq (by omega : m ≠ idx)]
      omega
    · have hm : idx = m := by omega
      subst hm
      rw [activeCount_update_ge _ _ _ _ (le_refl _), Function.update_same]
      omega

theorem activeCount_pos (gates : QArray GateConfig) (idx n : Nat) (h : idx < n)
    (ha : (gates idx).active = 1) : 1 ≤ activeCount gates n := by
  induction n with
  | zero => omega
  | succ m ih =>
    unfold activeCount
    rcases Nat.lt_or_ge idx m with hlt | hge
    · have := ih hlt
      omega
    · have hm : idx = m := by omega
      subst hm
      rw [if_pos ha]
      omega

theorem allocatorInvariant_new : AllocatorInvariant QuGateTest.new.state := by
  refine ⟨by decide, rfl, rfl, ?_, ?_, ?_, ?_⟩
  · intro i hi; exact absurd hi (Nat.not_lt_zero _)
  · intro k hk; exact absurd hk (Nat.not_lt_zero _)
  · intro j k hj; exact absurd hj (Nat.not_lt_zero _)
  · intro i hi; exact absurd hi (Nat.not_lt_zero _)

theorem allocatorInvariant_alloc (s : QuGateState) (g : GateConfig) (tb : Nat)
    (hg : g.active = 1) (h : AllocatorInvariant s)
    (hroom : ¬ (s._freeCount = 0 ∧ s._gateCount ≥ QUGATE_MAX_GATES)) :
    AllocatorInvariant
      { s with
        _gateCount := if s._freeCount > 0 then s._gateCount else (s._gateCount + 1) % U64,
        _freeCount := s._freeCount - 1,
        _gates := Function.update s._gates (allocSlot s) g,
        _activeGates := (s._activeGates + 1) % U64,
        _totalBurned := tb } := by
  obtain ⟨h1, h2, h3, h4, h5, h6, h7⟩ := h
  have hcap : QUGATE_MAX_GATES = 4096 := rfl
  have hU : (4096 : Nat) + 1 < U64 := by norm_num [U64]
  have hag : (s._activeGates + 1) % U64 = s._activeGates + 1 :=
    Nat.mod_eq_of_lt (by omega)
  by_cases hfc : s._freeCount > 0
  · -- reuse of the slot on top of the free list
    have hslot : allocSlot s = s._freeSlots (s._freeCount - 1) := by
      unfold allocSlot; rw [if_pos hfc]; rfl
    obtain ⟨hlt, hin⟩ := h5 (s._freeCount - 1) (by omega)
    rw [← hslot] at hlt hin
    have hne : ∀ k, k < s._freeCount - 1 → s._freeSlots k ≠ allocSlot s := by
      intro k hk hc
      have := h6 k (s._freeCount - 1) (by omega) (by omega) (by rw [hc, hslot])
      omega
    refine ⟨?_, ?_, ?_, ?_, ?_, ?_, ?_⟩
    all_goals dsimp only
    · rw [if_pos hfc]; exact h1
    · rw [if_pos hfc, hag]
      have := activeCount_update_lt s._gates (allocSlot s) g s._gateCount hlt
      rw [if_neg (by omega), if_pos hg] at this
      omega
    · rw [if_pos hfc, hag]; omega
    · intro i hi
      rw [if_pos hfc] at hi
      by_cases hi2 : i = allocSlot s
      · rw [hi2, Function.update_same]; exact Or.inr hg
      · rw [Function.update_noteq hi2]; exact h4 i hi
    · intro k hk
      rw [if_pos hfc, Function.update_noteq (hne k hk)]
      exact h5 k (by omega)
    · intro j k hj hk hjk
      exact h6 j k (by omega) (by omega) hjk
    · intro i hi hia
      rw [if_pos hfc] at hi
      have hi2 : i ≠ allocSlot s := by
        intro hc
        rw [hc, Function.update_same] at hia
        omega
      rw [Function.update_noteq hi2] at hia
      obtain ⟨k, hk, hki⟩ := h7 i hi hia
      refine ⟨k, ?_, hki⟩
      have : k ≠ s._freeCount - 1 := by
        intro hc
        rw [hc, ← hslot] at hki
        exact hi2 hki.symm
      omega
  · -- a fresh slot at the high-water mark
    have hfc0 : s._freeCount = 0 := by omega
    have hgc : s._gateCount < 4096 := by
      have : ¬ s._gateCount ≥ QUGATE_MAX_GATES := fun hc => hroom ⟨hfc0, hc⟩
      omega
    have hslot : allocSlot s = s._gateCount := by
      unfold allocSlot; rw [if_neg hfc]
    have hgc' : (s._gateCount + 1) % U64 = s._gateCount + 1 := Nat.mod_eq_of_lt (by omega)
    have hall : ∀ i, i < s._gateCount → (s._gates i).active = 1 := by
      intro i hi
      rcases h4 i hi with h0 | h1'
      · obtain ⟨k, hk, -⟩ := h7 i hi h0
        omega
      · exact h1'
    refine ⟨?_, ?_, ?_, ?_, ?_, ?_, ?_⟩
    all_goals dsimp only
    · rw [if_neg hfc, hgc']; omega
    · rw [if_neg hfc, hag, hgc', hslot, activeCount,
        activeCount_update_ge _ _ _ _ (le_refl _), Function.update_same, if_pos hg, ← h2]
    · rw [if_neg hfc, hag, hgc']; omega
    · intro i hi
      rw [if_neg hfc, hgc'] at hi
      by_cases hi2 : i = allocSlot s
      · rw [hi2, Function.update_same]; exact Or.inr hg
      · rw [Function.update_noteq hi2]
        rw [hslot] at hi2
        exact h4 i (by omega)
    · intro k hk
      omega
    · intro j k hj
      omega
    · intro i hi hia
      rw [if_neg hfc, hgc'] at hi
      exfalso
      by_cases hi2 : i = allocSlot s
      · rw [hi2, Function.update_same] at hia
        omega
      · rw [Function.update_noteq hi2] at hia
        rw [hslot] at hi2
        have := hall i (by omega)
        omega

theorem newGate_active (creator : m256i) (epoch : Nat) (input : createGate_input) :
    (newGate creator epoch input).active = 1 := by
  rw [newGate_eq]

theorem allocatorInvariant_createGate (env : QuGateTest) (creator : m256i) (fee : Int)
    (input : createGate_input) (h : AllocatorInvariant env.state) :
    AllocatorInvariant (env.createGate creator fee input).2.state := by
  by_cases hs : (env.createGate creator fee input).1.status = QUGATE_SUCCESS
  · obtain ⟨heq, -, -, -, -, hroom, -⟩ := createGate_success env creator fee input hs
    rw [heq, createGateCommit_state]
    exact allocatorInvariant_alloc env.state _ _ (newGate_active _ _ _) h hroom
  · rw [(createGate_failure env creator fee input hs).1]
    exact h

theorem allocatorInvariant_release (s : QuGateState) (idx : Nat) (g : GateConfig)
    (hidx : idx < s._gateCount) (hact : (s._gates idx).active = 1) (hg : g.active = 0)
    (h : AllocatorInvariant s) :
    AllocatorInvariant
      { s with
        _gates := Function.update s._gates idx g,
        _activeGates := (s._activeGates + (U64 - 1)) % U64,
        _freeSlots := Function.update s._freeSlots s._freeCount idx,
        _freeCount := (s._freeCount + 1) % U64 } := by
  obtain ⟨h1, h2, h3, h4, h5, h6, h7⟩ := h
  have hcap : QUGATE_MAX_GATES = 4096 := rfl
  have hU : (4096 : Nat) + 1 < U64 := by norm_num [U64]
  have hpos : 1 ≤ s._activeGates := by
    rw [h2]; exact activeCount_pos s._gates idx s._gateCount hidx hact
  have hag : (s._activeGates + (U64 - 1)) % U64 = s._activeGates - 1 := by
    have e : s._activeGates + (U64 - 1) = (s._activeGates - 1) + U64 := by omega
    rw [e, Nat.add_mod_right]
    exact Nat.mod_eq_of_lt (by omega)
  have hfc : (s._freeCount + 1) % U64 = s._freeCount + 1 := Nat.mod_eq_of_lt (by omega)
  have hnotfree : ∀ k, k < s._freeCount → s._freeSlots k ≠ idx := by
    intro k hk hc
    have := (h5 k hk).2
    rw [hc] at this
    omega
  refine ⟨?_, ?_, ?_, ?_, ?_, ?_, ?_⟩
  all_goals dsimp only
  · exact h1
  · rw [hag]
    have := activeCount_update_lt s._gates idx g s._gateCount hidx
    rw [if_pos hact, if_neg (by omega)] at this
    omega
  · rw [hag, hfc]; omega
  · intro i hi
    by_cases hi2 : i = idx
    · rw [hi2, Function.update_same]; exact Or.inl hg
    · rw [Function.update_noteq hi2]; exact h4 i hi
  · intro k hk
    rw [hfc] at hk
    by_cases hk2 : k = s._freeCount
    · rw [hk2, Function.update_same, Function.update_same]
      exact ⟨hidx, hg⟩
    · rw [Function.update_noteq hk2, Function.update_noteq (hnotfree k (by omega))]
      exact h5 k (by omega)
  · intro j k hj hk hjk
    rw [hfc] at hj hk
    by_cases hj2 : j = s._freeCount
    · by_cases hk2 : k = s._freeCount
      · omega
      · rw [hj2, Function.update_same, Function.update_noteq hk2] at hjk
        exact absurd hjk.symm (hnotfree k (by omega))
    · by_cases hk2 : k = s._freeCount
      · rw [hk2, Function.update_same, Function.update_noteq hj2] at hjk
        exact absurd hjk (hnotfree j (by omega))
      · rw [Function.update_noteq hj2, Function.update_noteq hk2] at hjk
        exact h6 j k (by omega) (by omega) hjk
  · intro i hi hia
    rw [hfc]
    by_cases hi2 : i = idx
    · exact ⟨s._freeCount, by omega, by rw [Function.update_same, hi2]⟩
    · rw [Function.update_noteq hi2] at hia
      obtain ⟨k, hk, hki⟩ := h7 i hi hia
      exact ⟨k, by omega, by rw [Function.update_noteq (by omega : k ≠ s._freeCount)]; exact hki⟩

theorem closedGate_eq (gate : GateConfig) :
    closedGate gate = { gate with currentBalance := 0, active := 0 } := by
  unfold closedGate
  by_cases h : gate.currentBalance > 0
  · rw [if_pos h]
  · rw [if_neg h]
    have h0 : gate.currentBalance = 0 := by omega
    cases gate
    simp only at h0
    subst h0
    rfl

theorem closeGate_failure (env : QuGateTest) (caller : m256i) (gateId : Nat) (reward : Int)
    (h : (env.closeGate caller gateId reward).1.status ≠ QUGATE_SUCCESS) :
    (env.closeGate caller gateId reward).2.state = env.state := by
  simp only [QuGateTest.closeGate] at h ⊢
  by_cases h1 : gateId = 0 ∨ gateId > env.state._gateCount
  · simp only [if_pos h1]
  simp only [if_neg h1] at h ⊢
  by_cases h2 : ¬ (env.state._gates.get (gateId - 1)).owner = caller
  · simp only [if_pos h2]
  simp only [if_neg h2] at h ⊢
  by_cases h3 : (env.state._gates.get (gateId - 1)).active = 0
  · simp only [if_pos h3]
  simp only [if_neg h3] at h
  exact absurd rfl h

theorem closeGate_success (env : QuGateTest) (caller : m256i) (gateId : Nat) (reward : Int)
    (h : (env.closeGate caller gateId reward).1.status = QUGATE_SUCCESS) :
    gateId ≠ 0 ∧ gateId ≤ env.state._gateCount ∧
    (env.gate gateId).owner = caller ∧ (env.gate gateId).active ≠ 0 ∧
    (env.closeGate caller gateId reward).2.state =
      { env.state with
        _gates := Function.update env.state._gates (gateId - 1) (closedGate (env.gate gateId)),
        _activeGates := (env.state._activeGates + (U64 - 1)) % U64,
        _freeSlots := Function.update env.state._freeSlots env.state._freeCount (gateId - 1),
        _freeCount := (env.state._freeCount + 1) % U64 } := by
  simp only [QuGateTest.closeGate, QuGateTest.gate] at h ⊢
  by_cases h1 : gateId = 0 ∨ gateId > env.state._gateCount
  · simp only [if_pos h1] at h
    exact absurd h (by decide)
  simp only [if_neg h1] at h ⊢
  by_cases h2 : ¬ (env.state._gates.get (gateId - 1)).owner = caller
  · simp only [if_pos h2] at h
    exact absurd h (by decide)
  simp only [if_neg h2] at h ⊢
  by_cases h3 : (env.state._gates.get (gateId - 1)).active = 0
  · simp only [if_pos h3] at h
    exact absurd h (by decide)
  simp only [if_neg h3] at h ⊢
  exact ⟨by omega, by omega, not_not.mp h2, h3, rfl⟩

theorem allocatorInvariant_closeGate (env : QuGateTest) (caller : m256i) (gateId : Nat)
    (reward : Int) (h : AllocatorInvariant env.state) :
    AllocatorInvariant (env.closeGate caller gateId reward).2.state := by
  by_cases hs : (env.closeGate caller gateId reward).1.status = QUGATE_SUCCESS
  · obtain ⟨h0, hle, -, hact, heq⟩ := closeGate_success env caller gateId reward hs
    rw [heq]
    have hidx : gateId - 1 < env.state._gateCount := by omega
    have hact1 : (env.state._gates (gateId - 1)).active = 1 := by
      rcases h.2.2.2.1 (gateId - 1) hidx with h0 | h1
      · exact absurd h0 hact
      · exact h1
    exact allocatorInvariant_release env.state (gateId - 1) _ hidx hact1
      (by rw [closedGate_eq]) h
  · rw [closeGate_failure env caller gateId reward hs]
    exact h

theorem sameAllocation_refl (s : QuGateState) : SameAllocation s s :=
  ⟨rfl, rfl, rfl, rfl, fun _ => rfl⟩

theorem sameAllocation_setGate (s : QuGateState) (idx : Nat) (g : GateConfig)
    (h : g.active = (s._gates.get idx).active) :
    SameAllocation s { s with _gates := s._gates.set idx g } := by
  refine ⟨rfl, rfl, rfl, rfl, fun i => ?_⟩
  show (Function.update s._gates idx g i).active = _
  by_cases hi : i = idx
  · rw [hi, Function.update_same]; exact h
  · rw [Function.update_noteq hi]

theorem sameAllocation_burn (s : QuGateState) (tb : Nat) :
    SameAllocation s { s with _totalBurned := tb } :=
  ⟨rfl, rfl, rfl, rfl, fun _ => rfl⟩

theorem allocatorInvariant_of_sameAllocation (s s' : QuGateState) (hs : SameAllocation s s')
    (h : AllocatorInvariant s) : AllocatorInvariant s' := by
  obtain ⟨e1, e2, e3, e4, e5⟩ := hs
  obtain ⟨h1, h2, h3, h4, h5, h6, h7⟩ := h
  refine ⟨?_, ?_, ?_, ?_, ?_, ?_, ?_⟩
  · rw [e1]; exact h1
  · rw [e1, e2, h2]
    exact (activeCount_congr _ _ _ (fun i _ => e5 i)).symm
  · rw [e1, e2, e4]; exact h3
  · intro i hi
    rw [e1] at hi
    rw [e5]; exact h4 i hi
  · intro k hk
    rw [e4] at hk
    rw [e3, e1, e5]; exact h5 k hk
  · intro j k hj hk
    rw [e4] at hj hk
    rw [e3]; exact h6 j k hj hk
  · intro i hi hia
    rw [e1] at hi
    rw [e5] at hia
    rw [e3, e4]; exact h7 i hi hia

theorem sendSplit_active (gate : GateConfig) (qpi : TestQpiContext) (amount : Int) :
    (sendSplit gate qpi amount).gate.active = gate.active := rfl

theorem sendRoundRobin_active (gate : GateConfig) (qpi : TestQpiContext) (amount : Int) :
    (sendRoundRobin gate qpi amount).gate.active = gate.active := rfl

theorem sendThreshold_active (gate : GateConfig) (qpi : TestQpiContext) (amount : Int) :
    (sendThreshold gate qpi amount).gate.active = gate.active := by
  unfold sendThreshold
  dsimp only
  split_ifs <;> rfl

theorem sendRandom_active (gate : GateConfig) (qpi : TestQpiContext) (amount : Int) :
    (sendRandom gate qpi amount).gate.active = gate.active := rfl

theorem sendConditional_active (gate : GateConfig) (qpi : TestQpiContext) (sender : m256i)
    (amount : Int) : (sendConditional gate qpi sender amount).gate.active = gate.active := by
  unfold sendConditional
  split_ifs <;> rfl

theorem sendByMode_active (gate : GateConfig) (qpi : TestQpiContext) (sender : m256i)
    (amount : Int) : (sendByMode gate qpi sender amount).gate.active = gate.active := by
  unfold sendByMode
  split_ifs
  · exact sendSplit_active _ _ _
  · exact sendRoundRobin_active _ _ _
  · exact sendThreshold_active _ _ _
  · exact sendRandom_active _ _ _
  · exact sendConditional_active _ _ _ _
  · rfl

theorem sendToGate_sameAllocation (env : QuGateTest) (sender : m256i) (gateId : Nat)
    (amount : Int) :
    SameAllocation env.state (env.sendToGate sender gateId amount).2.state := by
  simp only [QuGateTest.sendToGate]
  by_cases h1 : gateId = 0 ∨ gateId > env.state._gateCount
  · simp only [if_pos h1]
    exact sameAllocation_refl _
  simp only [if_neg h1]
  by_cases h2 : (env.state._gates.get (gateId - 1)).active = 0
  · simp only [if_pos h2]
    exact sameAllocation_refl _
  simp only [if_neg h2]
  by_cases h3 : amount = 0
  · simp only [if_pos h3]
    exact sameAllocation_refl _
  simp only [if_neg h3]
  by_cases h4 : toU64 amount < env.state._minSendAmount
  · simp only [if_pos h4]
    exact sameAllocation_burn _ _
  simp only [if_neg h4]
  exact sameAllocation_setGate _ _ _ (sendByMode_active _ _ _ _)

theorem allocatorInvariant_sendToGate (env : QuGateTest) (sender : m256i) (gateId : Nat)
    (amount : Int) (h : AllocatorInvariant env.state) :
    AllocatorInvariant (env.sendToGate sender gateId amount).2.state :=
  allocatorInvariant_of_sameAllocation _ _ (sendToGate_sameAllocation env sender gateId amount) h

theorem updateFill_active (gate : GateConfig) (input : updateGate_input) :
    (updateFill gate input).active = gate.active := by
  unfold updateFill
  generalize List.range QUGATE_MAX_RECIPIENTS = l
  induction l generalizing gate with
  | nil => rfl
  | cons i l ih =>
    rw [List.foldl_cons, ih]
    dsimp only
    split_ifs <;> rfl

theorem updateGate_sameAllocation (env : QuGateTest) (caller : m256i) (reward : Int)
    (input : updateGate_input) :
    SameAllocation env.state (env.updateGate caller reward input).2.state := by
  simp only [QuGateTest.updateGate]
  by_cases h1 : input.gateId = 0 ∨ input.gateId > env.state._gateCount
  · simp only [if_pos h1]
    exact sameAllocation_refl _
  simp only [if_neg h1]
  by_cases h2 : ¬ (env.state._gates.get (input.gateId - 1)).owner = caller
  · simp only [if_pos h2]
    exact sameAllocation_refl _
  simp only [if_neg h2]
  by_cases h3 : (env.state._gates.get (input.gateId - 1)).active = 0
  · simp only [if_pos h3]
    exact sameAllocation_refl _
  simp only [if_neg h3]
  by_cases h4 : input.recipientCount = 0 ∨ input.recipientCount > QUGATE_MAX_RECIPIENTS
  · simp only [if_pos h4]
    exact sameAllocation_refl _
  simp only [if_neg h4]
  by_cases h5 : input.allowedSenderCount > QUGATE_MAX_RECIPIENTS
  · simp only [if_pos h5]
    exact sameAllocation_refl _
  simp only [if_neg h5]
  by_cases h6 : (env.state._gates.get (input.gateId - 1)).mode = MODE_SPLIT ∧
      updateRatioLoop input.ratios input.recipientCount = none
  · simp only [if_pos h6]
    exact sameAllocation_refl _
  simp only [if_neg h6]
  by_cases h7 : (env.state._gates.get (input.gateId - 1)).mode = MODE_SPLIT ∧
      updateRatioLoop input.ratios input.recipientCount = some 0
  · simp only [if_pos h7]
    exact sameAllocation_refl _
  simp only [if_neg h7]
  by_cases h8 : (env.state._gates.get (input.gateId - 1)).mode = MODE_THRESHOLD ∧
      input.threshold = 0
  · simp only [if_pos h8]
    exact sameAllocation_refl _
  simp only [if_neg h8]
  exact sameAllocation_setGate _ _ _ (updateFill_active _ _)

theorem allocatorInvariant_updateGate (env : QuGateTest) (caller : m256i) (reward : Int)
    (input : updateGate_input) (h : AllocatorInvariant env.state) :
    AllocatorInvariant (env.updateGate caller reward input).2.state :=
  allocatorInvariant_of_sameAllocation _ _ (updateGate_sameAllocation env caller reward input) h

/-- The two outcomes of the body of the loop of `endEpoch` at slot `i`: the
slot expires and is released, or nothing changes. -/
theorem endEpochStep_cases (env : QuGateTest) (i : Nat) :
    ((env.state._gates.get i).active = 1 ∧ env.state._expiryEpochs > 0 ∧
      toU64 (((env.qpi.epoch : Int) - ((env.state._gates.get i).lastActivityEpoch : Int))
        % 65536) ≥ env.state._expiryEpochs ∧
      (endEpochStep env i).state =
        { env.state with
          _gates := Function.update env.state._gates i (closedGate (env.state._gates.get i)),
          _activeGates := (env.state._activeGates + (U64 - 1)) % U64,
          _freeSlots := Function.update env.state._freeSlots env.state._freeCount i,
          _freeCount := (env.state._freeCount + 1) % U64 }) ∨
    (¬ ((env.state._gates.get i).active = 1 ∧ env.state._expiryEpochs > 0 ∧
      toU64 (((env.qpi.epoch : Int) - ((env.state._gates.get i).lastActivityEpoch : Int))
        % 65536) ≥ env.state._expiryEpochs) ∧
      endEpochStep env i = env) := by
  simp only [endEpochStep]
  by_cases h1 : (env.state._gates.get i).active = 1 ∧ env.state._expiryEpochs > 0
  · by_cases h2 : toU64 (((env.qpi.epoch : Int) -
        ((env.state._gates.get i).lastActivityEpoch : Int)) % 65536) ≥ env.state._expiryEpochs
    · left
      simp only [if_pos h1, if_pos h2]
      exact ⟨h1.1, h1.2, h2, rfl⟩
    · right
      simp only [if_pos h1, if_neg h2]
      exact ⟨fun hc => h2 hc.2.2, trivial⟩
  · right
    simp only [if_neg h1]
    exact ⟨fun hc => h1 ⟨hc.1, hc.2.1⟩, trivial⟩

theorem endEpochStep_gateCount (env : QuGateTest) (i : Nat) :
    (endEpochStep env i).state._gateCount = env.state._gateCount := by
  rcases endEpochStep_cases env i with ⟨-, -, -, h⟩ | ⟨-, h⟩
  · rw [h]
  · rw [h]

theorem allocatorInvariant_endEpochStep (env : QuGateTest) (i : Nat)
    (hi : i < env.state._gateCount) (h : AllocatorInvariant env.state) :
    AllocatorInvariant (endEpochStep env i).state := by
  rcases endEpochStep_cases env i with ⟨ha, -, -, heq⟩ | ⟨-, heq⟩
  · rw [heq]
    exact allocatorInvariant_release env.state i _ hi ha (by rw [closedGate_eq]) h
  · rw [heq]
    exact h

theorem allocatorInvariant_endEpoch_loop (l : List Nat) (env : QuGateTest)
    (hl : ∀ i, i ∈ l → i < env.state._gateCount) (h : AllocatorInvariant env.state) :
    AllocatorInvariant (l.foldl endEpochStep env).state := by
  induction l generalizing env with
  | nil => exact h
  | cons i l ih =>
    rw [List.foldl_cons]
    apply ih
    · intro j hj
      rw [endEpochStep_gateCount]
      exact hl j (List.mem_cons_of_mem _ hj)
    · exact allocatorInvariant_endEpochStep env i (hl i (List.mem_cons_self _ _)) h

theorem allocatorInvariant_endEpoch (env : QuGateTest) (h : AllocatorInvariant env.state) :
    AllocatorInvariant env.endEpoch.state := by
  unfold QuGateTest.endEpoch
  exact allocatorInvariant_endEpoch_loop _ env (fun i hi => List.mem_range.mp hi) h

/-- Every reachable registry satisfies the allocator invariant. -/
theorem reachable_allocatorInvariant (env : QuGateTest) (h : Reachable env) :
    AllocatorInvariant env.state := by
  induction h with
  | init => exact allocatorInvariant_new
  | setTime env epoch tick _ _ _ ih => exact ih
  | resetQpi env _ ih => exact ih
  | createGate env creator fee input _ _ _ ih =>
    exact allocatorInvariant_createGate env creator fee input ih
  | sendToGate env sender gateId amount _ _ _ ih =>
    exact allocatorInvariant_sendToGate env sender gateId amount ih
  | closeGate env caller gateId reward _ _ _ ih =>
    exact allocatorInvariant_closeGate env caller gateId reward ih
  | updateGate env caller reward input _ _ _ ih =>
    exact allocatorInvariant_updateGate env caller reward input ih
  | endEpoch env _ ih => exact allocatorInvariant_endEpoch env ih

/-! ## The record written by createGate -/

theorem allocSlot_lt (s : QuGateState) (h : AllocatorInvariant s)
    (hroom : ¬ (s._freeCount = 0 ∧ s._gateCount ≥ QUGATE_MAX_GATES)) :
    allocSlot s < QUGATE_MAX_GATES := by
  obtain ⟨h1, -, -, -, h5, -, -⟩ := h
  unfold allocSlot
  by_cases hfc : s._freeCount > 0
  · rw [if_pos hfc]
    have := (h5 (s._freeCount - 1) (by omega)).1
    exact lt_of_lt_of_le this h1
  · rw [if_neg hfc]
    have hfc0 : s._freeCount = 0 := by omega
    have : ¬ s._gateCount ≥ QUGATE_MAX_GATES := fun hc => hroom ⟨hfc0, hc⟩
    omega

/-- What a successful `createGate` does to the registry, the allocator
invariant holding before: the id is the allocated slot plus one, that slot
holds the new record, and the counters move as the allocation requires. -/
theorem createGate_success_state (env : QuGateTest) (creator : m256i) (fee : Int)
    (input : createGate_input) (hinv : AllocatorInvariant env.state)
    (h : (env.createGate creator fee input).1.status = QUGATE_SUCCESS) :
    (env.createGate creator fee input).1.gateId = allocSlot env.state + 1 ∧
    (env.createGate creator fee input).2.state._gates =
      Function.update env.state._gates (allocSlot env.state)
        (newGate creator env.qpi._epoch input) ∧
    (env.createGate creator fee input).2.state._activeGates = env.state._activeGates + 1 ∧
    (env.createGate creator fee input).2.state._freeCount = env.state._freeCount - 1 ∧
    (env.createGate creator fee input).2.state._gateCount =
      (if env.state._freeCount > 0 then env.state._gateCount else env.state._gateCount + 1) ∧
    (env.createGate creator fee input).2.state._freeSlots = env.state._freeSlots := by
  obtain ⟨heq, -, -, -, -, hroom, -⟩ := createGate_success env creator fee input h
  have hslot := allocSlot_lt env.state hinv hroom
  have hcap : QUGATE_MAX_GATES = 4096 := rfl
  have hU : (4096 : Nat) + 1 < U64 := by norm_num [U64]
  have hgc := hinv.1
  have hag : env.state._activeGates ≤ env.state._gateCount := by
    have := hinv.2.2.1
    omega
  rw [heq, createGateCommit_gateId, createGateCommit_state]
  refine ⟨Nat.mod_eq_of_lt (by omega), rfl, Nat.mod_eq_of_lt (by omega), rfl, ?_, rfl⟩
  dsimp only
  by_cases hfc : env.state._freeCount > 0
  · rw [if_pos hfc, if_pos hfc]
  · rw [if_neg hfc, if_neg hfc]
    exact Nat.mod_eq_of_lt (by omega)

theorem createGateCommit_gate (state : QuGateState) (qpi : TestQpiContext) (creator : m256i)
    (fee : Int) (currentFee : Nat) (input : createGate_input)
    (h : allocSlot state + 1 < U64) :
    (createGateCommit state qpi creator fee currentFee input).2.gate
      (createGateCommit state qpi creator fee currentFee input).1.gateId =
      newGate creator qpi.epoch input := by
  show (createGateCommit state qpi creator fee currentFee input).2.state._gates
    ((createGateCommit state qpi creator fee currentFee input).1.gateId - 1) = _
  rw [createGateCommit_state, createGateCommit_gateId, Nat.mod_eq_of_lt h, Nat.add_sub_cancel]
  exact Function.update_same _ _ _

/-- Claim C8 (the record written by a successful `createGate`). In a registry
satisfying the allocator invariant, after a successful `createGate` the slot
`gateId - 1` holds: owner, mode, counts and threshold of the call, `active` 1,
both epochs the current epoch, zero counters, balance and cursor, recipients
and ratios of the input below `recipientCount` and zero from there to 7,
allowed senders of the input below `allowedSenderCount` and zero beyond;
`_activeGates` has grown by 1 and the id is at least 1. -/
theorem createGate_record (env : QuGateTest) (creator : m256i) (fee : Int)
    (input : createGate_input) (hinv : AllocatorInvariant env.state)
    (h : (env.createGate creator fee input).1.status = QUGATE_SUCCESS) :
    1 ≤ (env.createGate creator fee input).1.gateId ∧
    (env.createGate creator fee input).2.state._activeGates = env.state._activeGates + 1 ∧
    ((env.createGate creator fee input).2.gate
        (env.createGate creator fee input).1.gateId).owner = creator ∧
    ((env.createGate creator fee input).2.gate
        (env.createGate creator fee input).1.gateId).mode = input.mode ∧
    ((env.createGate creator fee input).2.gate
        (env.createGate creator fee input).1.gateId).active = 1 ∧
    ((env.createGate creator fee input).2.gate
        (env.createGate creator fee input).1.gateId).recipientCount = input.recipientCount ∧
    ((env.createGate creator fee input).2.gate
        (env.createGate creator fee input).1.gateId).allowedSenderCount =
      input.allowedSenderCount ∧
    ((env.createGate creator fee input).2.gate
        (env.createGate creator fee input).1.gateId).threshold = input.threshold ∧
    ((env.createGate creator fee input).2.gate
        (env.createGate creator fee input).1.gateId).createdEpoch = env.qpi._epoch ∧
    ((env.createGate creator fee input).2.gate
        (env.createGate creator fee input).1.gateId).lastActivityEpoch = env.qpi._epoch ∧
    ((env.createGate creator fee input).2.gate
        (env.createGate creator fee input).1.gateId).totalReceived = 0 ∧
    ((env.createGate creator fee input).2.gate
        (env.createGate creator fee input).1.gateId).totalForwarded = 0 ∧
    ((env.createGate creator fee input).2.gate
        (env.createGate creator fee input).1.gateId).currentBalance = 0 ∧
    ((env.createGate creator fee input).2.gate
        (env.createGate creator fee input).1.gateId).roundRobinIndex = 0 ∧
    (∀ i, i < input.recipientCount →
      ((env.createGate creator fee input).2.gate
          (env.createGate creator fee input).1.gateId).recipients i = input.recipients i ∧
      ((env.createGate creator fee input).2.gate
          (env.createGate creator fee input).1.gateId).ratios i = input.ratios i) ∧
    (∀ i, input.recipientCount ≤ i → i < 8 →
      ((env.createGate creator fee input).2.gate
          (env.createGate creator fee input).1.gateId).recipients i = 0 ∧
      ((env.createGate creator fee input).2.gate
          (env.createGate creator fee input).1.gateId).ratios i = 0) ∧
    (∀ i, i < input.allowedSenderCount →
      ((env.createGate creator fee input).2.gate
          (env.createGate creator fee input).1.gateId).allowedSenders i =
        input.allowedSenders i) ∧
    (∀ i, input.allowedSenderCount ≤ i → i < 8 →
      ((env.createGate creator fee input).2.gate
          (env.createGate creator fee input).1.gateId).allowedSenders i = 0) := by
  obtain ⟨hid, -, hag, -, -, -⟩ := createGate_success_state env creator fee input hinv h
  obtain ⟨heq, -, -, -, hrc, hroom, -, -, -, hasc⟩ := createGate_success env creator fee input h
  have hslot := allocSlot_lt env.state hinv hroom
  have hU : QUGATE_MAX_GATES + 1 < U64 := by norm_num [U64]
  have h8 : QUGATE_MAX_RECIPIENTS = 8 := rfl
  rw [heq] at hid hag ⊢
  rw [createGateCommit_gate _ _ _ _ _ _ (by omega), hid, newGate_eq]
  refine ⟨by omega, hag, rfl, rfl, rfl, rfl, rfl, rfl, rfl, rfl, rfl, rfl, rfl, rfl, ?_, ?_, ?_, ?_⟩
  · intro i hi
    dsimp only
    rw [if_pos (by omega), if_pos hi, if_pos (by omega), if_pos hi]
    exact ⟨rfl, rfl⟩
  · intro i hi hi8
    dsimp only
    rw [if_pos hi8, if_neg (by omega), if_pos hi8, if_neg (by omega)]
    exact ⟨rfl, rfl⟩
  · intro i hi
    dsimp only
    rw [if_pos (by omega), if_pos hi]
  · intro i hi hi8
    dsimp only
    rw [if_pos hi8, if_neg (by omega)]

theorem createGate_record_witness :
    1 ≤ (QuGateTest.new.createGate 1 1000 exampleSplitInput).1.gateId ∧
    ((QuGateTest.new.createGate 1 1000 exampleSplitInput).2.gate
      (QuGateTest.new.createGate 1 1000 exampleSplitInput).1.gateId).owner = 1 ∧
    ((QuGateTest.new.createGate 1 1000 exampleSplitInput).2.gate
      (QuGateTest.new.createGate 1 1000 exampleSplitInput).1.gateId).active = 1 := by
  have h := createGate_record QuGateTest.new 1 1000 exampleSplitInput allocatorInvariant_new
    (by decide)
  exact ⟨h.1, h.2.2.1, h.2.2.2.2.1⟩

/-! ## LIFO slot reuse -/

theorem freeCount_le (s : QuGateState) (h : AllocatorInvariant s) :
    s._freeCount ≤ QUGATE_MAX_GATES := by
  obtain ⟨h1, -, h3, -, -, -, -⟩ := h
  omega

theorem allocSlot_release (s : QuGateState) (h : AllocatorInvariant s) (g : QArray GateConfig)
    (a i : Nat) :
    allocSlot { s with
      _gates := g, _activeGates := a,
      _freeSlots := Function.update s._freeSlots s._freeCount i,
      _freeCount := (s._freeCount + 1) % U64 } = i := by
  have hfc := freeCount_le s h
  have hU : QUGATE_MAX_GATES + 1 < U64 := by norm_num [U64]
  have hmod : (s._freeCount + 1) % U64 = s._freeCount + 1 := Nat.mod_eq_of_lt (by omega)
  unfold allocSlot
  dsimp only
  rw [hmod, if_pos (by omega), Nat.add_sub_cancel]
  exact Function.update_same _ _ _

/-- Claim C9 (LIFO slot reuse). In every reachable harness: when `closeGate`
of gate `id` succeeds, a successful `createGate` right after it returns `id`
and the high-water mark `_gateCount` is the one before the two calls; and any
successful `createGate` returns `_freeSlots[_freeCount - 1] + 1`, decrements
`_freeCount` and keeps `_gateCount` when the free list is not empty, and
returns `_gateCount + 1` and increments `_gateCount` when it is empty. -/
theorem lifo_slot_reuse (env : QuGateTest) (hr : Reachable env) :
    (∀ (owner : m256i) (id : Nat) (reward : Int) (creator : m256i) (fee : Int)
        (input : createGate_input),
      (env.closeGate owner id reward).1.status = QUGATE_SUCCESS →
      ((env.closeGate owner id reward).2.createGate creator fee input).1.status =
        QUGATE_SUCCESS →
      ((env.closeGate owner id reward).2.createGate creator fee input).1.gateId = id ∧
      ((env.closeGate owner id reward).2.createGate creator fee input).2.state._gateCount =
        (env.closeGate owner id reward).2.state._gateCount ∧
      (env.closeGate owner id reward).2.state._gateCount = env.state._gateCount) ∧
    (∀ (creator : m256i) (fee : Int) (input : createGate_input),
      (env.createGate creator fee input).1.status = QUGATE_SUCCESS →
      (env.state._freeCount > 0 →
        (env.createGate creator fee input).1.gateId =
          env.state._freeSlots.get (env.state._freeCount - 1) + 1 ∧
        (env.createGate creator fee input).2.state._freeCount = env.state._freeCount - 1 ∧
        (env.createGate creator fee input).2.state._gateCount = env.state._gateCount) ∧
      (env.state._freeCount = 0 →
        (env.createGate creator fee input).1.gateId = env.state._gateCount + 1 ∧
        (env.createGate creator fee input).2.state._gateCount =
          env.state._gateCount + 1)) := by
  have hinv := reachable_allocatorInvariant env hr
  constructor
  · intro owner id reward creator fee input hc hs
    have hinv2 := allocatorInvariant_closeGate env owner id reward hinv
    obtain ⟨hid, -, -, -, hgc, -⟩ :=
      createGate_success_state (env.closeGate owner id reward).2 creator fee input hinv2 hs
    obtain ⟨h0, -, -, -, heq⟩ := closeGate_success env owner id reward hc
    have hfc := freeCount_le env.state hinv
    have hU : QUGATE_MAX_GATES + 1 < U64 := by norm_num [U64]
    have hmod : (env.state._freeCount + 1) % U64 = env.state._freeCount + 1 :=
      Nat.mod_eq_of_lt (by omega)
    have hslot : allocSlot (env.closeGate owner id reward).2.state = id - 1 := by
      rw [heq]
      exact allocSlot_release env.state hinv _ _ _
    have hfree : (env.closeGate owner id reward).2.state._freeCount > 0 := by
      rw [heq]
      show (env.state._freeCount + 1) % U64 > 0
      omega
    have hcount : (env.closeGate owner id reward).2.state._gateCount = env.state._gateCount := by
      rw [heq]
    rw [hid, hgc, hslot, if_pos hfree]
    exact ⟨by omega, rfl, hcount⟩
  · intro creator fee input hs
    obtain ⟨hid, -, -, hfc, hgc, -⟩ := createGate_success_state env creator fee input hinv hs
    constructor
    · intro hpos
      rw [hid, hfc, hgc, if_pos hpos]
      unfold allocSlot
      rw [if_pos hpos]
      exact ⟨rfl, rfl, rfl⟩
    · intro hzero
      rw [hid, hgc, if_neg (by omega)]
      unfold allocSlot
      rw [if_neg (by omega)]
      exact ⟨rfl, rfl⟩

theorem lifo_slot_reuse_witness :
    Reachable (QuGateTest.new.createGate 1 1000 exampleSplitInput).2 ∧
    ((QuGateTest.new.createGate 1 1000 exampleSplitInput).2.closeGate 1 1 0).1.status =
      QUGATE_SUCCESS ∧
    (((QuGateTest.new.createGate 1 1000 exampleSplitInput).2.closeGate 1 1 0).2.createGate
      5 1000 exampleSplitInput).1.status = QUGATE_SUCCESS ∧
    (((QuGateTest.new.createGate 1 1000 exampleSplitInput).2.closeGate 1 1 0).2.createGate
      5 1000 exampleSplitInput).1.gateId = 1 := by
  have hr : Reachable (QuGateTest.new.createGate 1 1000 exampleSplitInput).2 :=
    Reachable.createGate QuGateTest.new 1 1000 exampleSplitInput Reachable.init
      (by decide) (by decide)
  have hc : ((QuGateTest.new.createGate 1 1000 exampleSplitInput).2.closeGate 1 1 0).1.status =
      QUGATE_SUCCESS := by decide
  have hs : (((QuGateTest.new.createGate 1 1000 exampleSplitInput).2.closeGate 1 1 0).2.createGate
      5 1000 exampleSplitInput).1.status = QUGATE_SUCCESS := by decide
  exact ⟨hr, hc, hs,
    ((lifo_slot_reuse _ hr).1 1 1 0 5 1000 exampleSplitInput hc hs).1⟩

/-! ## sendToGate to a bad target -/

/-- What `sendToGate` does when the id is out of range or the slot inactive:
the whole body in closed form. -/
theorem sendToGate_badTarget_eq (env : QuGateTest) (sender : m256i) (gateId : Nat)
    (amount : Int)
    (hbad : gateId = 0 ∨ gateId > env.state._gateCount ∨ (env.gate gateId).active = 0) :
    env.sendToGate sender gateId amount =
      ({ status := if gateId = 0 ∨ gateId > env.state._gateCount then QUGATE_INVALID_GATE_ID
                   else QUGATE_GATE_NOT_ACTIVE },
       { state := env.state,
         qpi := if amount > 0 then (callQpi env.qpi sender amount).transfer sender amount
                else callQpi env.qpi sender amount }) := by
  simp only [QuGateTest.sendToGate, QuGateTest.gate, callQpi] at hbad ⊢
  by_cases h1 : gateId = 0 ∨ gateId > env.state._gateCount
  · simp only [if_pos h1]
  · have h2 : (env.state._gates.get (gateId - 1)).active = 0 := by
      rcases hbad with h | h | h
      · exact absurd (Or.inl h) h1
      · exact absurd (Or.inr h) h1
      · exact h
    simp only [if_neg h1, if_pos h2]

/-- Claim C10 (`sendToGate` to a bad target). With `gateId` 0 or above
`_gateCount` the status is `QUGATE_INVALID_GATE_ID`, and otherwise with slot
`gateId - 1` inactive it is `QUGATE_GATE_NOT_ACTIVE`; either way the registry
is as before, nothing is burned, and the transfers of the call are the one
refund of `amount` to the sender when `amount > 0` and none otherwise. -/
theorem sendToGate_bad_target (env : QuGateTest) (sender : m256i) (gateId : Nat)
    (amount : Int)
    (hbad : gateId = 0 ∨ gateId > env.state._gateCount ∨ (env.gate gateId).active = 0) :
    (env.sendToGate sender gateId amount).1.status =
      (if gateId = 0 ∨ gateId > env.state._gateCount then QUGATE_INVALID_GATE_ID
       else QUGATE_GATE_NOT_ACTIVE) ∧
    (env.sendToGate sender gateId amount).2.state = env.state ∧
    (env.sendToGate sender gateId amount).2.qpi.totalBurned = 0 ∧
    (env.sendToGate sender gateId amount).2.qpi.transfers =
      (if amount > 0 then [{ to_ := sender, amount := amount }] else []) := by
  rw [sendToGate_badTarget_eq env sender gateId amount hbad]
  refine ⟨rfl, rfl, ?_, ?_⟩
  · by_cases ha : amount > 0
    · simp only [if_pos ha, callQpi_transfer]
      rfl
    · simp only [if_neg ha]
      rfl
  · by_cases ha : amount > 0
    · simp only [if_pos ha, callQpi_transfer]
    · simp only [if_neg ha]
      rfl

theorem sendToGate_bad_target_witness :
    (999 = 0 ∨ 999 > QuGateTest.new.state._gateCount ∨
      (QuGateTest.new.gate 999).active = 0) ∧
    (QuGateTest.new.sendToGate 1 999 1000).1.status = QUGATE_INVALID_GATE_ID ∧
    (QuGateTest.new.sendToGate 1 999 1000).2.state = QuGateTest.new.state ∧
    (QuGateTest.new.sendToGate 1 999 1000).2.qpi.totalBurned = 0 ∧
    (QuGateTest.new.sendToGate 1 999 1000).2.qpi.transfers = [{ to_ := 1, amount := 1000 }] :=
  ⟨by decide, sendToGate_bad_target QuGateTest.new 1 999 1000 (by decide)⟩

/-! ## Value conservation of sendToGate -/

theorem sumAmounts_single (q : TestQpiContext) (hq : q.transfers = []) (t : m256i) (x : Int) :
    sumAmounts (q.transfer t x).transfers = x ∧ (q.transfer t x).totalBurned = q.totalBurned := by
  rw [transfer_of_room q t x (by rw [hq]; decide), hq]
  exact ⟨by simp [sumAmounts], rfl⟩

theorem sendSplit_conserves (g : GateConfig) (q : TestQpiContext) (a : Nat)
    (hq : q.transfers = []) (hinv : SplitInvariant g) (ha : a < 2 ^ 63) :
    sumAmounts (sendSplit g q (a : Int)).qpi.transfers = (a : Int) ∧
    (sendSplit g q (a : Int)).qpi.totalBurned = q.totalBurned ∧
    (sendSplit g q (a : Int)).gate.currentBalance = g.currentBalance := by
  have ha64 : a < U64 := by
    have : (2 : Nat) ^ 63 < U64 := by norm_num [U64]
    omega
  unfold sendSplit
  dsimp only
  rw [sumRatios_of_invariant g hinv, splitLoop_eq g a q hq hinv ha]
  exact ⟨sumAmounts_splitTransfers g a ha64 hinv.2.2.2, rfl, rfl⟩

theorem sendThreshold_conserves (g : GateConfig) (q : TestQpiContext) (a : Nat)
    (hq : q.transfers = [])
    (hbal : g.currentBalance + a < U64 ∧
      (g.threshold ≤ g.currentBalance + a → g.currentBalance + a < 2 ^ 63)) :
    sumAmounts (sendThreshold g q (a : Int)).qpi.transfers +
      (((sendThreshold g q (a : Int)).gate.currentBalance : Int) - (g.currentBalance : Int)) =
      (a : Int) ∧
    (sendThreshold g q (a : Int)).qpi.totalBurned = q.totalBurned := by
  have ha64 : a < U64 := by
    have := hbal.1
    omega
  have hU : toU64 (a : Int) = a := toU64_natCast a ha64
  have hmod : (g.currentBalance + a) % U64 = g.currentBalance + a := Nat.mod_eq_of_lt hbal.1
  unfold sendThreshold
  dsimp only
  rw [hU, hmod]
  by_cases hrel : g.currentBalance + a ≥ g.threshold
  · rw [if_pos hrel]
    dsimp only
    obtain ⟨h1, h2⟩ := sumAmounts_single q hq (g.recipients.get 0)
      (toS64 ((g.currentBalance + a : Nat) : Int))
    rw [h1, h2, toS64_natCast _ (hbal.2 hrel)]
    refine ⟨?_, rfl⟩
    push_cast
    ring
  · rw [if_neg hrel]
    dsimp only
    rw [hq]
    refine ⟨?_, rfl⟩
    simp [sumAmounts]

/-- Conservation through the dispatch by mode: on a record satisfying the gate
invariant and a context with an empty log, the transfers of the branch plus
the growth of the held balance make `amount`, and the branch burns nothing. -/
theorem sendByMode_conserves (g : GateConfig) (q : TestQpiContext) (sender : m256i) (a : Nat)
    (hq : q.transfers = []) (hinv : GateInvariant g) (ha : a < 2 ^ 63)
    (hbal : g.mode = MODE_THRESHOLD → g.currentBalance + a < U64 ∧
      (g.threshold ≤ g.currentBalance + a → g.currentBalance + a < 2 ^ 63)) :
    sumAmounts (sendByMode g q sender (a : Int)).qpi.transfers +
      (((sendByMode g q sender (a : Int)).gate.currentBalance : Int) - (g.currentBalance : Int)) =
      (a : Int) ∧
    (sendByMode g q sender (a : Int)).qpi.totalBurned = q.totalBurned := by
  unfold sendByMode
  by_cases h0 : g.mode = MODE_SPLIT
  · rw [if_pos h0]
    obtain ⟨h1, h2, h3⟩ := sendSplit_conserves g q a hq (hinv.2.2.2.2.1 h0) ha
    rw [h1, h2, h3]
    exact ⟨by ring, rfl⟩
  rw [if_neg h0]
  by_cases h1 : g.mode = MODE_ROUND_ROBIN
  · rw [if_pos h1]
    unfold sendRoundRobin
    dsimp only
    obtain ⟨e1, e2⟩ := sumAmounts_single q hq (g.recipients.get g.roundRobinIndex) (a : Int)
    rw [e1, e2]
    exact ⟨by ring, rfl⟩
  rw [if_neg h1]
  by_cases h2 : g.mode = MODE_THRESHOLD
  · rw [if_pos h2]
    exact sendThreshold_conserves g q a hq (hbal h2)
  rw [if_neg h2]
  by_cases h3 : g.mode = MODE_RANDOM
  · rw [if_pos h3]
    unfold sendRandom
    dsimp only
    obtain ⟨e1, e2⟩ := sumAmounts_single q hq
      (g.recipients.get (QPI.mod ((g.totalReceived + q.tick) % U64) g.recipientCount)) (a : Int)
    rw [e1, e2]
    exact ⟨by ring, rfl⟩
  rw [if_neg h3]
  have h4 : g.mode = MODE_CONDITIONAL := by
    have := hinv.1
    show g.mode = 4
    have h0c : ¬ g.mode = 0 := h0
    have h1c : ¬ g.mode = 1 := h1
    have h2c : ¬ g.mode = 2 := h2
    have h3c : ¬ g.mode = 3 := h3
    have h4c : g.mode ≤ 4 := this
    omega
  rw [if_pos h4]
  unfold sendConditional
  by_cases hs : senderAllowed g sender = true
  · rw [if_pos hs]
    dsimp only
    obtain ⟨e1, e2⟩ := sumAmounts_single q hq (g.recipients.get 0) (a : Int)
    rw [e1, e2]
    exact ⟨by ring, rfl⟩
  · rw [if_neg hs]
    dsimp only
    obtain ⟨e1, e2⟩ := sumAmounts_single q hq sender (a : Int)
    rw [e1, e2]
    exact ⟨by ring, rfl⟩

theorem balanceChange_same (env env2 : QuGateTest) (gateId : Nat)
    (h : (env2.gate gateId).currentBalance = (env.gate gateId).currentBalance) :
    balanceChange env env2 gateId = 0 := by
  unfold balanceChange
  by_cases h1 : gateId = 0 ∨ gateId > env.state._gateCount
  · rw [if_pos h1]
  · rw [if_neg h1, h]
    exact sub_self _

/-- A send that stops at the dust checks, in closed form. -/
theorem sendToGate_dust_eq (env : QuGateTest) (sender : m256i) (gateId : Nat) (amount : Int)
    (hid : gateId ≠ 0 ∧ gateId ≤ env.state._gateCount)
    (hactive : (env.gate gateId).active ≠ 0)
    (hdust : amount = 0 ∨ toU64 amount < env.state._minSendAmount) :
    env.sendToGate sender gateId amount =
      ({ status := QUGATE_DUST_AMOUNT },
       { state := if amount = 0 then env.state
                  else { env.state with
                    _totalBurned := (env.state._totalBurned + toU64 amount) % U64 },
         qpi := if amount = 0 then callQpi env.qpi sender amount
                else (callQpi env.qpi sender amount).burn amount }) := by
  unfold QuGateTest.gate at hactive
  have h1 : ¬ (gateId = 0 ∨ gateId > env.state._gateCount) := by omega
  simp only [QuGateTest.sendToGate, callQpi, if_neg h1, if_neg hactive]
  by_cases hz : amount = 0
  · simp only [if_pos hz]
  · have hm : toU64 amount < env.state._minSendAmount := by
      rcases hdust with h | h
      · exact absurd h hz
      · exact h
    simp only [if_neg hz, if_pos hm]

/-- Claim C3, as amended (value conservation of `sendToGate`). For a target
that satisfies the gate invariant when it is in range and active, and
`0 ≤ amount < 2^63`, where on a Threshold gate `currentBalance + amount` stays
below `2^64` and, when it reaches the threshold, below `2^63`: the amounts of
the transfers of the call, plus what the call burned, plus the growth of the
balance held by the target (0 for an id out of range) make `amount`. -/
theorem sendToGate_conserves (env : QuGateTest) (sender : m256i) (gateId : Nat) (amount : Int)
    (hinv : gateId ≠ 0 → gateId ≤ env.state._gateCount → (env.gate gateId).active ≠ 0 →
      GateInvariant (env.gate gateId))
    (h0 : 0 ≤ amount) (hlt : amount < 2 ^ 63)
    (hbal : (env.gate gateId).mode = MODE_THRESHOLD →
      ((env.gate gateId).currentBalance : Int) + amount < 2 ^ 64 ∧
      (((env.gate gateId).threshold : Int) ≤ ((env.gate gateId).currentBalance : Int) + amount →
        ((env.gate gateId).currentBalance : Int) + amount < 2 ^ 63)) :
    sumAmounts (env.sendToGate sender gateId amount).2.qpi.transfers +
      (env.sendToGate sender gateId amount).2.qpi.totalBurned +
      balanceChange env (env.sendToGate sender gateId amount).2 gateId = amount := by
  obtain ⟨a, rfl⟩ : ∃ a : Nat, amount = (a : Int) := ⟨amount.toNat, by omega⟩
  have ha : a < 2 ^ 63 := by exact_mod_cast hlt
  have ha64 : a < U64 := by
    have : (2 : Nat) ^ 63 < U64 := by norm_num [U64]
    omega
  have hU : toU64 (a : Int) = a := toU64_natCast a ha64
  have key : ∀ q : TestQpiContext,
      balanceChange env { state := env.state, qpi := q } gateId = 0 :=
    fun q => balanceChange_same env { state := env.state, qpi := q } gateId rfl
  have key2 : ∀ (b : Nat) (q : TestQpiContext),
      balanceChange env { state := { env.state with _totalBurned := b }, qpi := q } gateId = 0 :=
    fun b q => balanceChange_same env
      { state := { env.state with _totalBurned := b }, qpi := q } gateId rfl
  by_cases hbad : gateId = 0 ∨ gateId > env.state._gateCount ∨ (env.gate gateId).active = 0
  · rw [sendToGate_badTarget_eq env sender gateId (a : Int) hbad]
    dsimp only
    rw [key]
    by_cases hpos : (a : Int) > 0
    · rw [if_pos hpos, callQpi_transfer]
      simp [sumAmounts, callQpi, TestQpiContext.reset]
    · rw [if_neg hpos]
      have : (a : Int) = 0 := by omega
      rw [this]
      simp [sumAmounts, callQpi, TestQpiContext.reset]
  have hid : gateId ≠ 0 ∧ gateId ≤ env.state._gateCount := by
    constructor
    · intro h; exact hbad (Or.inl h)
    · by_contra h; exact hbad (Or.inr (Or.inl (by omega)))
  have hactive : (env.gate gateId).active ≠ 0 := fun h => hbad (Or.inr (Or.inr h))
  have hidx : ¬ (gateId = 0 ∨ gateId > env.state._gateCount) := by omega
  by_cases hdust : (a : Int) = 0 ∨ toU64 (a : Int) < env.state._minSendAmount
  · rw [sendToGate_dust_eq env sender gateId (a : Int) hid hactive hdust]
    by_cases hz : (a : Int) = 0
    · simp only [if_pos hz]
      rw [key]
      simp [sumAmounts, callQpi, TestQpiContext.reset]
      omega
    · simp only [if_neg hz]
      rw [key2]
      simp [sumAmounts, callQpi, TestQpiContext.reset, TestQpiContext.burn]
  · have hnz : (a : Int) ≠ 0 := fun h => hdust (Or.inl h)
    have hmin : ¬ toU64 (a : Int) < env.state._minSendAmount := fun h => hdust (Or.inr h)
    have hg := hinv hid.1 hid.2 hactive
    have hcons := sendByMode_conserves (receivedGate (env.gate gateId) env.qpi._epoch (a : Int))
      (callQpi env.qpi sender (a : Int)) sender a rfl hg ha
      (fun hm => by
        obtain ⟨hb1, hb2⟩ := hbal hm
        have e1 : (receivedGate (env.gate gateId) env.qpi._epoch (a : Int)).currentBalance =
          (env.gate gateId).currentBalance := rfl
        have e2 : (receivedGate (env.gate gateId) env.qpi._epoch (a : Int)).threshold =
          (env.gate gateId).threshold := rfl
        rw [e1, e2]
        have hU64 : U64 = 2 ^ 64 := rfl
        rw [hU64]
        constructor
        · omega
        · intro hthr
          have h3 := hb2 (by omega)
          omega)
    rw [sendToGate_accepted env sender gateId (a : Int) hid hactive hnz hmin]
    unfold balanceChange
    rw [if_neg hidx]
    have hgate : (QuGateTest.gate
        { state := { env.state with _gates := (env.state._gates.set (gateId - 1)
            (sendByMode (receivedGate (env.gate gateId) env.qpi._epoch (a : Int))
              (callQpi env.qpi sender (a : Int)) sender (a : Int)).gate) },
          qpi := (sendByMode (receivedGate (env.gate gateId) env.qpi._epoch (a : Int))
              (callQpi env.qpi sender (a : Int)) sender (a : Int)).qpi } gateId) =
        (sendByMode (receivedGate (env.gate gateId) env.qpi._epoch (a : Int))
              (callQpi env.qpi sender (a : Int)) sender (a : Int)).gate :=
      Function.update_same _ _ _
    rw [hgate]
    dsimp only
    have e1 : (receivedGate (env.gate gateId) env.qpi._epoch (a : Int)).currentBalance =
      (env.gate gateId).currentBalance := rfl
    rw [e1] at hcons
    rw [hcons.2]
    have hb0 : (callQpi env.qpi sender (a : Int)).totalBurned = 0 := rfl
    rw [hb0]
    linarith [hcons.1]

theorem sendToGate_conserves_witness :
    GateInvariant ((heldEnv 500 300).gate 1) ∧
    sumAmounts ((heldEnv 500 300).sendToGate 9 1 300).2.qpi.transfers +
      ((heldEnv 500 300).sendToGate 9 1 300).2.qpi.totalBurned +
      balanceChange (heldEnv 500 300) ((heldEnv 500 300).sendToGate 9 1 300).2 1 = 300 :=
  ⟨by decide,
    sendToGate_conserves (heldEnv 500 300) 9 1 300 (fun _ _ _ => by decide) (by decide)
      (by decide) (fun _ => ⟨by decide, fun _ => by decide⟩)⟩

/-- Claim C3 as stated fails where a Threshold gate releases `2^63`: after a
gate of threshold `2^63` has been created and `2^63 - 10` sent to it, the gate
satisfies the gate invariant and a send of 10 overflows none of its `uint64`
counters, yet the one transfer of the call has the amount `-(2^63)` and the
three terms make `10 - 2^64`. -/
theorem sendToGate_conserves_counterexample :
    Reachable (heldEnv (2 ^ 63) (2 ^ 63 - 10)) ∧
    (heldEnv (2 ^ 63) (2 ^ 63 - 10)).state._gateCount = 1 ∧
    GateInvariant ((heldEnv (2 ^ 63) (2 ^ 63 - 10)).gate 1) ∧
    ((heldEnv (2 ^ 63) (2 ^ 63 - 10)).gate 1).totalReceived + 10 < U64 ∧
    ((heldEnv (2 ^ 63) (2 ^ 63 - 10)).gate 1).currentBalance + 10 < U64 ∧
    ((heldEnv (2 ^ 63) (2 ^ 63 - 10)).gate 1).totalForwarded +
      (((heldEnv (2 ^ 63) (2 ^ 63 - 10)).gate 1).currentBalance + 10) < U64 ∧
    ((heldEnv (2 ^ 63) (2 ^ 63 - 10)).sendToGate 9 1 10).2.qpi.transfers =
      [{ to_ := 2, amount := -(2 ^ 63) }] ∧
    sumAmounts ((heldEnv (2 ^ 63) (2 ^ 63 - 10)).sendToGate 9 1 10).2.qpi.transfers +
      ((heldEnv (2 ^ 63) (2 ^ 63 - 10)).sendToGate 9 1 10).2.qpi.totalBurned +
      balanceChange (heldEnv (2 ^ 63) (2 ^ 63 - 10))
        ((heldEnv (2 ^ 63) (2 ^ 63 - 10)).sendToGate 9 1 10).2 1 ≠ 10 := by
  refine ⟨?_, by decide, by decide, by decide, by decide, by decide, by decide, by decide⟩
  exact Reachable.sendToGate _ 9 1 (2 ^ 63 - 10)
    (Reachable.createGate _ 1 1000 (exampleThresholdInput (2 ^ 63)) Reachable.init
      (by decide) (by decide))
    (by decide) (by decide)

/-! ## The dust boundary -/

/-- An amount in `(0, 2^63)` at or above the minimum passes both dust checks. -/
theorem accepted_of_range (minSend : Nat) (amount : Int) (hpos : 0 < amount)
    (hmin : (minSend : Int) ≤ amount) (hlt : amount < 2 ^ 63) :
    amount ≠ 0 ∧ ¬ toU64 amount < minSend := by
  have h64 : amount < 2 ^ 64 := by linarith
  rw [toU64_of_nonneg amount (le_of_lt hpos) h64]
  constructor
  · omega
  · omega

theorem toU64_below (minSend : Nat) (amount : Int) (hpos : 0 < amount)
    (hlt : amount < (minSend : Int)) (hmin : minSend ≤ U64) :
    toU64 amount = amount.toNat ∧ toU64 amount < minSend := by
  have hU : (U64 : Int) = 2 ^ 64 := by norm_num [U64]
  have h64 : amount < 2 ^ 64 := by
    have : (minSend : Int) ≤ (U64 : Int) := by exact_mod_cast hmin
    linarith
  rw [toU64_of_nonneg amount (le_of_lt hpos) h64]
  exact ⟨rfl, by omega⟩

theorem sendSplit_status (gate : GateConfig) (qpi : TestQpiContext) (amount : Int) :
    (sendSplit gate qpi amount).status = QUGATE_SUCCESS ∧
    (sendSplit gate qpi amount).gate.totalReceived = gate.totalReceived ∧
    (sendSplit gate qpi amount).gate.lastActivityEpoch = gate.lastActivityEpoch :=
  ⟨rfl, rfl, rfl⟩

theorem sendThreshold_status (gate : GateConfig) (qpi : TestQpiContext) (amount : Int) :
    (sendThreshold gate qpi amount).status = QUGATE_SUCCESS ∧
    (sendThreshold gate qpi amount).gate.totalReceived = gate.totalReceived ∧
    (sendThreshold gate qpi amount).gate.lastActivityEpoch = gate.lastActivityEpoch := by
  unfold sendThreshold
  dsimp only
  split_ifs <;> exact ⟨rfl, rfl, rfl⟩

theorem sendConditional_status (gate : GateConfig) (qpi : TestQpiContext) (sender : m256i)
    (amount : Int) :
    ((sendConditional gate qpi sender amount).status = QUGATE_SUCCESS ∨
      (sendConditional gate qpi sender amount).status = QUGATE_CONDITIONAL_REJECTED) ∧
    (sendConditional gate qpi sender amount).gate.totalReceived = gate.totalReceived ∧
    (sendConditional gate qpi sender amount).gate.lastActivityEpoch = gate.lastActivityEpoch := by
  unfold sendConditional
  split_ifs
  · exact ⟨Or.inl rfl, rfl, rfl⟩
  · exact ⟨Or.inr rfl, rfl, rfl⟩

/-- No branch of the dispatch by mode answers DustAmount, and none touches
`totalReceived` or `lastActivityEpoch`. -/
theorem sendByMode_status (gate : GateConfig) (qpi : TestQpiContext) (sender : m256i)
    (amount : Int) :
    ((sendByMode gate qpi sender amount).status = QUGATE_SUCCESS ∨
      (sendByMode gate qpi sender amount).status = QUGATE_CONDITIONAL_REJECTED) ∧
    (sendByMode gate qpi sender amount).gate.totalReceived = gate.totalReceived ∧
    (sendByMode gate qpi sender amount).gate.lastActivityEpoch = gate.lastActivityEpoch := by
  unfold sendByMode
  split_ifs
  · exact ⟨Or.inl rfl, rfl, rfl⟩
  · exact ⟨Or.inl rfl, rfl, rfl⟩
  · have h := sendThreshold_status gate qpi amount
    exact ⟨Or.inl h.1, h.2⟩
  · exact ⟨Or.inl rfl, rfl, rfl⟩
  · exact sendConditional_status gate qpi sender amount
  · exact ⟨Or.inl rfl, rfl, rfl⟩

theorem transfer_totalBurned (q : TestQpiContext) (t : m256i) (x : Int) :
    (q.transfer t x).totalBurned = q.totalBurned := by
  unfold TestQpiContext.transfer
  split_ifs <;> rfl

theorem splitStep_totalBurned (gate : GateConfig) (amount : Int) (totalRatio : Nat)
    (acc : TestQpiContext × Nat) (i : Nat) :
    (splitStep gate amount totalRatio acc i).1.totalBurned = acc.1.totalBurned := by
  unfold splitStep
  dsimp only
  split_ifs
  · exact transfer_totalBurned _ _ _
  · rfl
  · exact transfer_totalBurned _ _ _
  · rfl

theorem splitFold_totalBurned (gate : GateConfig) (amount : Int) (totalRatio : Nat)
    (l : List Nat) (acc : TestQpiContext × Nat) :
    (l.foldl (splitStep gate amount totalRatio) acc).1.totalBurned = acc.1.totalBurned := by
  induction l generalizing acc with
  | nil => rfl
  | cons i l ih =>
    rw [List.foldl_cons, ih, splitStep_totalBurned]

/-- No branch of the dispatch by mode burns anything. -/
theorem sendByMode_totalBurned (gate : GateConfig) (qpi : TestQpiContext) (sender : m256i)
    (amount : Int) :
    (sendByMode gate qpi sender amount).qpi.totalBurned = qpi.totalBurned := by
  unfold sendByMode
  split_ifs
  · exact splitFold_totalBurned _ _ _ _ _
  · exact transfer_totalBurned _ _ _
  · unfold sendThreshold
    dsimp only
    split_ifs
    · exact transfer_totalBurned _ _ _
    · rfl
  · exact transfer_totalBurned _ _ _
  · unfold sendConditional
    split_ifs
    · exact transfer_totalBurned _ _ _
    · exact transfer_totalBurned _ _ _
  · rfl

/-- Claim C11 (dust boundary). On an active gate in range: a send of 0 returns
DustAmount with no transfer, nothing burned and the registry as it was; a send
of `0 < amount < _minSendAmount` returns DustAmount with no transfer, burns
exactly `amount`, and the registry differs only by `_totalBurned`, grown by
`amount` (in `uint64`), so that every gate record is as before; and, the
minimum being positive and below `2^63`, a send of exactly `_minSendAmount` is
not answered DustAmount: nothing is burned, the record of the dispatch by mode
is written back with `totalReceived` grown by the amount (in `uint64`), and on
a Split gate satisfying the Split invariant the status is Success and the
transfers sum to the whole amount. -/
theorem dust_boundary (env : QuGateTest) (sender : m256i) (gateId : Nat)
    (hid : gateId ≠ 0 ∧ gateId ≤ env.state._gateCount)
    (hactive : (env.gate gateId).active ≠ 0) (hU : env.state._minSendAmount < U64) :
    ((env.sendToGate sender gateId 0).1.status = QUGATE_DUST_AMOUNT ∧
      (env.sendToGate sender gateId 0).2.qpi.transfers = [] ∧
      (env.sendToGate sender gateId 0).2.qpi.totalBurned = 0 ∧
      (env.sendToGate sender gateId 0).2.state = env.state) ∧
    (∀ amount : Int, 0 < amount → amount < (env.state._minSendAmount : Int) →
      (env.sendToGate sender gateId amount).1.status = QUGATE_DUST_AMOUNT ∧
      (env.sendToGate sender gateId amount).2.qpi.transfers = [] ∧
      (env.sendToGate sender gateId amount).2.qpi.totalBurned = amount ∧
      (env.sendToGate sender gateId amount).2.state =
        { env.state with _totalBurned := (env.state._totalBurned + amount.toNat) % U64 } ∧
      (env.sendToGate sender gateId amount).2.state._gates = env.state._gates) ∧
    (0 < env.state._minSendAmount → env.state._minSendAmount < 2 ^ 63 →
      (env.sendToGate sender gateId (env.state._minSendAmount : Int)).1.status ≠
        QUGATE_DUST_AMOUNT ∧
      (env.sendToGate sender gateId (env.state._minSendAmount : Int)).1.status =
        (sendByMode (receivedGate (env.gate gateId) env.qpi._epoch env.state._minSendAmount)
          (callQpi env.qpi sender env.state._minSendAmount) sender
          env.state._minSendAmount).status ∧
      (env.sendToGate sender gateId (env.state._minSendAmount : Int)).2.gate gateId =
        (sendByMode (receivedGate (env.gate gateId) env.qpi._epoch env.state._minSendAmount)
          (callQpi env.qpi sender env.state._minSendAmount) sender
          env.state._minSendAmount).gate ∧
      ((env.sendToGate sender gateId (env.state._minSendAmount : Int)).2.gate
          gateId).totalReceived =
        ((env.gate gateId).totalReceived + env.state._minSendAmount) % U64 ∧
      (env.sendToGate sender gateId (env.state._minSendAmount : Int)).2.qpi.totalBurned = 0 ∧
      (env.sendToGate sender gateId (env.state._minSendAmount : Int)).2.state._totalBurned =
        env.state._totalBurned ∧
      ((env.gate gateId).mode = MODE_SPLIT → SplitInvariant (env.gate gateId) →
        (env.sendToGate sender gateId (env.state._minSendAmount : Int)).1.status =
          QUGATE_SUCCESS ∧
        sumAmounts (env.sendToGate sender gateId
          (env.state._minSendAmount : Int)).2.qpi.transfers =
          (env.state._minSendAmount : Int))) := by
  refine ⟨?_, ?_, ?_⟩
  · rw [sendToGate_dust_eq env sender gateId 0 hid hactive (Or.inl rfl)]
    exact ⟨rfl, rfl, rfl, rfl⟩
  · intro amount hpos hlt
    obtain ⟨e1, e2⟩ := toU64_below env.state._minSendAmount amount hpos hlt (le_of_lt hU)
    have hnz : amount ≠ 0 := by omega
    rw [sendToGate_dust_eq env sender gateId amount hid hactive (Or.inr e2)]
    dsimp only
    rw [if_neg hnz, if_neg hnz, e1]
    refine ⟨rfl, rfl, ?_, rfl, rfl⟩
    show (0 : Int) + amount = amount
    omega
  · intro hpos hlt
    have hposI : (0 : Int) < (env.state._minSendAmount : Int) := by exact_mod_cast hpos
    have hltI : (env.state._minSendAmount : Int) < 2 ^ 63 := by exact_mod_cast hlt
    obtain ⟨hnz, hmin⟩ := accepted_of_range env.state._minSendAmount
      (env.state._minSendAmount : Int) hposI le_rfl hltI
    have hU64 : toU64 (env.state._minSendAmount : Int) = env.state._minSendAmount :=
      toU64_natCast _ hU
    have hst := sendByMode_status
      (receivedGate (env.gate gateId) env.qpi._epoch env.state._minSendAmount)
      (callQpi env.qpi sender env.state._minSendAmount) sender env.state._minSendAmount
    have hacc := sendToGate_accepted env sender gateId (env.state._minSendAmount : Int)
      hid hactive hnz hmin
    have hgate : (env.sendToGate sender gateId (env.state._minSendAmount : Int)).2.gate gateId =
        (sendByMode (receivedGate (env.gate gateId) env.qpi._epoch env.state._minSendAmount)
          (callQpi env.qpi sender env.state._minSendAmount) sender
          env.state._minSendAmount).gate := by
      rw [hacc]
      exact Function.update_same _ _ _
    refine ⟨?_, ?_, hgate, ?_, ?_, ?_, ?_⟩
    · rw [hacc]
      rcases hst.1 with h | h
      · show (sendByMode _ _ _ _).status ≠ _
        rw [h]; decide
      · show (sendByMode _ _ _ _).status ≠ _
        rw [h]; decide
    · rw [hacc]
    · rw [hgate, hst.2.1]
      show ((env.gate gateId).totalReceived + toU64 (env.state._minSendAmount : Int)) % U64 = _
      rw [hU64]
    · rw [hacc]
      exact sendByMode_totalBurned _ _ _ _
    · rw [hacc]
    · intro hmode hinv
      rw [sendToGate_split_eq env sender gateId env.state._minSendAmount hid hactive hmode hinv
        hpos le_rfl hlt]
      exact ⟨rfl, sumAmounts_splitTransfers _ _ hU hinv.2.2.2⟩

theorem dust_boundary_witness :
    ((envWithGate exampleSplitGate).sendToGate 9 1 0).1.status = QUGATE_DUST_AMOUNT ∧
    ((envWithGate exampleSplitGate).sendToGate 9 1 5).1.status = QUGATE_DUST_AMOUNT ∧
    ((envWithGate exampleSplitGate).sendToGate 9 1 5).2.qpi.transfers = [] ∧
    ((envWithGate exampleSplitGate).sendToGate 9 1 5).2.qpi.totalBurned = 5 ∧
    ((envWithGate exampleSplitGate).sendToGate 9 1 10).1.status = QUGATE_SUCCESS ∧
    sumAmounts ((envWithGate exampleSplitGate).sendToGate 9 1 10).2.qpi.transfers = 10 := by
  have h := dust_boundary (envWithGate exampleSplitGate) 9 1 (by decide) (by decide) (by decide)
  have hb := h.2.1 5 (by decide) (by decide)
  have hc := (h.2.2 (by decide) (by decide)).2.2.2.2.2.2 (by decide) (by decide)
  exact ⟨h.1.1, hb.1, hb.2.1, hb.2.2.1, hc.1, hc.2⟩

/-! ## Round-robin cycling -/

theorem sendByMode_roundRobin (gate : GateConfig) (qpi : TestQpiContext) (sender : m256i)
    (amount : Int) (h : gate.mode = MODE_ROUND_ROBIN) :
    sendByMode gate qpi sender amount = sendRoundRobin gate qpi amount := by
  unfold sendByMode
  rw [if_neg (by rw [h]; decide), if_pos h]

/-- An accepted send to a RoundRobin gate, in closed form. -/
theorem sendToGate_roundRobin_eq (env : QuGateTest) (sender : m256i) (gateId : Nat)
    (amount : Int)
    (hid : gateId ≠ 0 ∧ gateId ≤ env.state._gateCount)
    (hactive : (env.gate gateId).active ≠ 0)
    (hmode : (env.gate gateId).mode = MODE_ROUND_ROBIN)
    (hacc : AcceptedAmount env.state._minSendAmount amount) :
    env.sendToGate sender gateId amount =
      ({ status := QUGATE_SUCCESS },
        { state := { env.state with _gates := (env.state._gates.set (gateId - 1)
            { receivedGate (env.gate gateId) env.qpi._epoch amount with
              totalForwarded := ((env.gate gateId).totalForwarded + toU64 amount) % U64,
              roundRobinIndex :=
                QPI.mod (((env.gate gateId).roundRobinIndex + 1) % U64)
                  (env.gate gateId).recipientCount }) },
          qpi := { callQpi env.qpi sender amount with
            transfers := [{ to_ := ((env.gate gateId).recipients.get
              (env.gate gateId).roundRobinIndex), amount := amount }] } }) := by
  obtain ⟨hnz, hmin⟩ := accepted_of_range _ amount hacc.1 hacc.2.1 hacc.2.2
  have hm : (receivedGate (env.gate gateId) env.qpi._epoch amount).mode = MODE_ROUND_ROBIN :=
    hmode
  rw [sendToGate_accepted env sender gateId amount hid hactive hnz hmin,
    sendByMode_roundRobin _ _ _ _ hm]
  unfold sendRoundRobin
  rw [callQpi_transfer]
  rfl

theorem gate_set_same (s : QuGateState) (q : TestQpiContext) (gateId : Nat) (g : GateConfig) :
    QuGateTest.gate { state := { s with _gates := s._gates.set (gateId - 1) g }, qpi := q }
      gateId = g :=
  Function.update_same _ _ _

/-- One accepted send to a RoundRobin gate with its cursor at `j`: one
transfer, to recipient `j`, and the cursor moves to `(j + 1) mod n`. -/
theorem roundRobin_step (env : QuGateTest) (gateId : Nat) (recipients : QArray m256i)
    (n j minSend : Nat) (sender : m256i) (amount : Int)
    (h : RoundRobinAt env gateId recipients n j minSend) (hn : 1 ≤ n) (hj : j < n)
    (hn8 : n ≤ 8) (hacc : AcceptedAmount minSend amount) :
    (env.sendToGate sender gateId amount).1.status = QUGATE_SUCCESS ∧
    (env.sendToGate sender gateId amount).2.qpi.transfers =
      [{ to_ := recipients j, amount := amount }] ∧
    RoundRobinAt (env.sendToGate sender gateId amount).2 gateId recipients n ((j + 1) % n)
      minSend := by
  obtain ⟨h1, h2, h3, h4, h5, h6, h7, h8⟩ := h
  rw [← h3] at hacc
  rw [sendToGate_roundRobin_eq env sender gateId amount ⟨h1, h2⟩ h4 h5 hacc]
  have hU : j + 1 < U64 := by
    have : (9 : Nat) < U64 := by norm_num [U64]
    omega
  unfold RoundRobinAt
  dsimp only
  rw [gate_set_same]
  refine ⟨rfl, ?_, h1, h2, h3, h4, h5, h6, h7, ?_⟩
  · rw [h7, h8]
    rfl
  · dsimp only
    rw [h8, h6, Nat.mod_eq_of_lt hU]
    unfold QPI.mod
    rw [if_pos (by omega)]

/-- A run of accepted sends to a RoundRobin gate moves its cursor by the number
of sends, modulo the number of recipients. -/
theorem roundRobin_sendAll (gateId : Nat) (recipients : QArray m256i) (n minSend : Nat)
    (hn : 1 ≤ n) (hn8 : n ≤ 8) (sends : List (m256i × Int)) :
    ∀ (env : QuGateTest) (j : Nat), RoundRobinAt env gateId recipients n j minSend → j < n →
      (∀ p ∈ sends, AcceptedAmount minSend p.2) →
      RoundRobinAt (sendAll env gateId sends) gateId recipients n ((j + sends.length) % n)
        minSend := by
  induction sends with
  | nil =>
    intro env j h hj _
    rw [List.length_nil, Nat.add_zero, Nat.mod_eq_of_lt hj]
    exact h
  | cons p rest ih =>
    intro env j h hj hall
    have hp := hall p (List.mem_cons_self _ _)
    have hstep := (roundRobin_step env gateId recipients n j minSend p.1 p.2 h hn hj hn8 hp).2.2
    have hrest := ih (env.sendToGate p.1 gateId p.2).2 ((j + 1) % n) hstep
      (Nat.mod_lt _ (by omega)) (fun q hq => hall q (List.mem_cons_of_mem _ hq))
    have e : ((j + 1) % n + rest.length) % n = (j + (p :: rest).length) % n := by
      rw [List.length_cons, Nat.add_mod, Nat.mod_mod, ← Nat.add_mod]
      congr 1
      omega
    rw [← e]
    exact hrest

/-- Where a successful `createGate` leaves its gate: a non-zero id within the
high-water mark, the new record in its slot, the minimum send amount as it was. -/
theorem createGate_success_gate (env : QuGateTest) (creator : m256i) (fee : Int)
    (input : createGate_input) (hinv : AllocatorInvariant env.state)
    (h : (env.createGate creator fee input).1.status = QUGATE_SUCCESS) :
    (env.createGate creator fee input).1.gateId ≠ 0 ∧
    (env.createGate creator fee input).1.gateId ≤
      (env.createGate creator fee input).2.state._gateCount ∧
    (env.createGate creator fee input).2.gate (env.createGate creator fee input).1.gateId =
      newGate creator env.qpi._epoch input ∧
    (env.createGate creator fee input).2.state._minSendAmount = env.state._minSendAmount := by
  obtain ⟨hid, -, -, -, hgc, -⟩ := createGate_success_state env creator fee input hinv h
  obtain ⟨heq, -, -, -, -, hroom, -⟩ := createGate_success env creator fee input h
  have hslot := allocSlot_lt env.state hinv hroom
  have hU : QUGATE_MAX_GATES + 1 < U64 := by norm_num [U64]
  have hle : allocSlot env.state + 1 ≤
      (if env.state._freeCount > 0 then env.state._gateCount else env.state._gateCount + 1) := by
    unfold allocSlot
    by_cases hf : env.state._freeCount > 0
    · rw [if_pos hf, if_pos hf]
      have := (hinv.2.2.2.2.1 (env.state._freeCount - 1) (by omega)).1
      unfold QArray.get
      omega
    · rw [if_neg hf, if_neg hf]
  refine ⟨by rw [hid]; omega, by rw [hid, hgc]; exact hle, ?_, ?_⟩
  · rw [heq, createGateCommit_gate _ _ _ _ _ _ (by omega)]
    rfl
  · rw [heq, createGateCommit_state]

/-- Claim C12 (round-robin cycling). A RoundRobin gate is created with
`recipientCount` recipients, then `sends` accepted sends are made to it and
nothing else; the next accepted send, the one of rank `k = sends.length + 1`,
returns Success and makes one transfer, of the whole amount, to
`recipients[(k - 1) mod recipientCount]`, and leaves `roundRobinIndex` at
`k mod recipientCount`; so the send of rank `recipientCount + 1` goes to
`recipients[0]`. -/
theorem roundRobin_cycles (env : QuGateTest) (creator : m256i) (fee : Int)
    (input : createGate_input) (sends : List (m256i × Int)) (sender : m256i) (amount : Int)
    (hinv : AllocatorInvariant env.state)
    (hc : (env.createGate creator fee input).1.status = QUGATE_SUCCESS)
    (hmode : input.mode = MODE_ROUND_ROBIN)
    (hsends : ∀ p ∈ sends, AcceptedAmount env.state._minSendAmount p.2)
    (hacc : AcceptedAmount env.state._minSendAmount amount) :
    1 ≤ input.recipientCount ∧ input.recipientCount ≤ 8 ∧
    ((sendAll (env.createGate creator fee input).2 (env.createGate creator fee input).1.gateId
        sends).sendToGate sender (env.createGate creator fee input).1.gateId amount).1.status =
      QUGATE_SUCCESS ∧
    ((sendAll (env.createGate creator fee input).2 (env.createGate creator fee input).1.gateId
        sends).sendToGate sender
          (env.createGate creator fee input).1.gateId amount).2.qpi.transfers =
      [{ to_ := input.recipients (sends.length % input.recipientCount), amount := amount }] ∧
    (((sendAll (env.createGate creator fee input).2 (env.createGate creator fee input).1.gateId
        sends).sendToGate sender (env.createGate creator fee input).1.gateId amount).2.gate
          (env.createGate creator fee input).1.gateId).roundRobinIndex =
      (sends.length + 1) % input.recipientCount ∧
    (sends.length = input.recipientCount →
      ((sendAll (env.createGate creator fee input).2 (env.createGate creator fee input).1.gateId
          sends).sendToGate sender
            (env.createGate creator fee input).1.gateId amount).2.qpi.transfers =
        [{ to_ := input.recipients 0, amount := amount }]) := by
  obtain ⟨-, -, -, hn1, hn8, -⟩ := createGate_success env creator fee input hc
  have hn8c : input.recipientCount ≤ 8 := hn8
  obtain ⟨g1, g2, g3, g4⟩ := createGate_success_gate env creator fee input hinv hc
  have hstart : RoundRobinAt (env.createGate creator fee input).2
      (env.createGate creator fee input).1.gateId
      (newGate creator env.qpi._epoch input).recipients input.recipientCount 0
      env.state._minSendAmount := by
    unfold RoundRobinAt
    rw [g3, newGate_eq]
    exact ⟨g1, g2, g4, by dsimp only; decide, hmode, rfl, rfl, rfl⟩
  have hrun := roundRobin_sendAll (env.createGate creator fee input).1.gateId
    (newGate creator env.qpi._epoch input).recipients input.recipientCount
    env.state._minSendAmount hn1 hn8c sends (env.createGate creator fee input).2 0 hstart
    (by omega) hsends
  rw [Nat.zero_add] at hrun
  have hlt : sends.length % input.recipientCount < input.recipientCount :=
    Nat.mod_lt _ (by omega)
  obtain ⟨s1, s2, s3⟩ := roundRobin_step _ _ _ _ _ _ sender amount hrun hn1 hlt hn8c hacc
  have hrec : (newGate creator env.qpi._epoch input).recipients
      (sends.length % input.recipientCount) =
      input.recipients (sends.length % input.recipientCount) := by
    rw [newGate_eq]
    dsimp only
    rw [if_pos (by omega), if_pos hlt]
  rw [hrec] at s2
  refine ⟨hn1, hn8c, s1, s2, ?_, ?_⟩
  · rw [s3.2.2.2.2.2.2.2, Nat.mod_add_mod]
  · intro hlen
    rw [s2, hlen, Nat.mod_self]

theorem roundRobin_cycles_witness :
    (QuGateTest.new.createGate 1 1000 exampleRoundRobin3Input).1.status = QUGATE_SUCCESS ∧
    ((sendAll (QuGateTest.new.createGate 1 1000 exampleRoundRobin3Input).2 1
      [(1, 100), (1, 200), (1, 300)]).sendToGate 1 1 400).1.status = QUGATE_SUCCESS ∧
    ((sendAll (QuGateTest.new.createGate 1 1000 exampleRoundRobin3Input).2 1
      [(1, 100), (1, 200), (1, 300)]).sendToGate 1 1 400).2.qpi.transfers =
      [{ to_ := 2, amount := 400 }] := by
  have hc : (QuGateTest.new.createGate 1 1000 exampleRoundRobin3Input).1.status =
    QUGATE_SUCCESS := by decide
  have h := roundRobin_cycles QuGateTest.new 1 1000 exampleRoundRobin3Input
    [(1, 100), (1, 200), (1, 300)] 1 400 allocatorInvariant_new hc (by decide) (by decide)
    (by decide)
  exact ⟨hc, h.2.2.1, h.2.2.2.2.2 (by decide)⟩

/-! ## Threshold release -/

theorem sendByMode_threshold (gate : GateConfig) (qpi : TestQpiContext) (sender : m256i)
    (amount : Int) (h : gate.mode = MODE_THRESHOLD) :
    sendByMode gate qpi sender amount = sendThreshold gate qpi amount := by
  unfold sendByMode
  rw [if_neg (by rw [h]; decide), if_neg (by rw [h]; decide), if_pos h]

/-- An accepted send to a Threshold gate, in closed form: the balance after
the addition is `(currentBalance + amount) mod 2^64`; at or above the
threshold it is released whole, as the `sint64` amount of one transfer. -/
theorem sendToGate_threshold_eq (env : QuGateTest) (sender : m256i) (gateId : Nat)
    (amount : Int)
    (hid : gateId ≠ 0 ∧ gateId ≤ env.state._gateCount)
    (hactive : (env.gate gateId).active ≠ 0)
    (hmode : (env.gate gateId).mode = MODE_THRESHOLD)
    (hacc : AcceptedAmount env.state._minSendAmount amount) :
    env.sendToGate sender gateId amount =
      ({ status := QUGATE_SUCCESS },
        { state := { env.state with _gates := (env.state._gates.set (gateId - 1)
            (if ((env.gate gateId).currentBalance + amount.toNat) % U64 ≥
                (env.gate gateId).threshold then
              { receivedGate (env.gate gateId) env.qpi._epoch amount with
                totalForwarded := ((env.gate gateId).totalForwarded +
                  ((env.gate gateId).currentBalance + amount.toNat) % U64) % U64,
                currentBalance := 0 }
            else
              { receivedGate (env.gate gateId) env.qpi._epoch amount with
                currentBalance := ((env.gate gateId).currentBalance + amount.toNat) % U64 })) },
          qpi := { callQpi env.qpi sender amount with
            transfers :=
              (if ((env.gate gateId).currentBalance + amount.toNat) % U64 ≥
                  (env.gate gateId).threshold then
                [{ to_ := ((env.gate gateId).recipients.get 0),
                   amount := (toS64 ((((env.gate gateId).currentBalance + amount.toNat) % U64 :
                     Nat) : Int)) }]
              else []) } }) := by
  obtain ⟨hnz, hmin⟩ := accepted_of_range _ amount hacc.1 hacc.2.1 hacc.2.2
  have hm : (receivedGate (env.gate gateId) env.qpi._epoch amount).mode = MODE_THRESHOLD :=
    hmode
  have hU : toU64 amount = amount.toNat :=
    toU64_of_nonneg amount (le_of_lt hacc.1) (by linarith [hacc.2.2])
  rw [sendToGate_accepted env sender gateId amount hid hactive hnz hmin,
    sendByMode_threshold _ _ _ _ hm]
  unfold sendThreshold
  dsimp only
  have e1 : (receivedGate (env.gate gateId) env.qpi._epoch amount).currentBalance =
      (env.gate gateId).currentBalance := rfl
  have e2 : (receivedGate (env.gate gateId) env.qpi._epoch amount).threshold =
      (env.gate gateId).threshold := rfl
  rw [e1, e2, hU]
  by_cases hrel : ((env.gate gateId).currentBalance + amount.toNat) % U64 ≥
      (env.gate gateId).threshold
  · rw [if_pos hrel, if_pos hrel, if_pos hrel]
    dsimp only
    rw [callQpi_transfer]
    rfl
  · rw [if_neg hrel, if_neg hrel, if_neg hrel]
    rfl

/-- Claim C13, as amended (Threshold release). On an active Threshold gate
holding `b`, with threshold `t`, an accepted `amount` with `b + amount < 2^64`
returns Success; below the threshold nothing is transferred, `currentBalance`
becomes `b + amount` and `totalForwarded` is as before; at or above it there
is one transfer, to `recipients[0]`, of `(sint64)(b + amount)`, which is
`b + amount` when `b + amount < 2^63`, `totalForwarded` grows by `b + amount`
(in `uint64`) and `currentBalance` becomes 0. -/
theorem threshold_release (env : QuGateTest) (sender : m256i) (gateId : Nat) (amount : Int)
    (hid : gateId ≠ 0 ∧ gateId ≤ env.state._gateCount)
    (hactive : (env.gate gateId).active ≠ 0)
    (hmode : (env.gate gateId).mode = MODE_THRESHOLD)
    (hacc : AcceptedAmount env.state._minSendAmount amount)
    (hno : ((env.gate gateId).currentBalance : Int) + amount < 2 ^ 64) :
    (env.sendToGate sender gateId amount).1.status = QUGATE_SUCCESS ∧
    (((env.gate gateId).currentBalance : Int) + amount < ((env.gate gateId).threshold : Int) →
      (env.sendToGate sender gateId amount).2.qpi.transfers = [] ∧
      (((env.sendToGate sender gateId amount).2.gate gateId).currentBalance : Int) =
        ((env.gate gateId).currentBalance : Int) + amount ∧
      ((env.sendToGate sender gateId amount).2.gate gateId).totalForwarded =
        (env.gate gateId).totalForwarded) ∧
    (((env.gate gateId).threshold : Int) ≤ ((env.gate gateId).currentBalance : Int) + amount →
      (env.sendToGate sender gateId amount).2.qpi.transfers =
        [{ to_ := ((env.gate gateId).recipients.get 0),
           amount := toS64 (((env.gate gateId).currentBalance : Int) + amount) }] ∧
      ((env.sendToGate sender gateId amount).2.gate gateId).totalForwarded =
        ((env.gate gateId).totalForwarded +
          ((env.gate gateId).currentBalance + amount.toNat)) % U64 ∧
      ((env.sendToGate sender gateId amount).2.gate gateId).currentBalance = 0 ∧
      (((env.gate gateId).currentBalance : Int) + amount < 2 ^ 63 →
        (env.sendToGate sender gateId amount).2.qpi.transfers =
          [{ to_ := ((env.gate gateId).recipients.get 0),
             amount := ((env.gate gateId).currentBalance : Int) + amount }])) := by
  have hU64 : U64 = 2 ^ 64 := rfl
  have hpos := hacc.1
  have hmod : ((env.gate gateId).currentBalance + amount.toNat) % U64 =
      (env.gate gateId).currentBalance + amount.toNat :=
    Nat.mod_eq_of_lt (by rw [hU64]; omega)
  have hcast : ((((env.gate gateId).currentBalance + amount.toNat : Nat)) : Int) =
      ((env.gate gateId).currentBalance : Int) + amount := by omega
  rw [sendToGate_threshold_eq env sender gateId amount hid hactive hmode hacc, hmod]
  dsimp only
  rw [gate_set_same]
  refine ⟨rfl, ?_, ?_⟩
  · intro hlt
    have hnr : ¬ ((env.gate gateId).currentBalance + amount.toNat ≥ (env.gate gateId).threshold) := by
      omega
    rw [if_neg hnr, if_neg hnr]
    exact ⟨rfl, hcast, rfl⟩
  · intro hge
    have hr : (env.gate gateId).currentBalance + amount.toNat ≥ (env.gate gateId).threshold := by
      omega
    rw [if_pos hr, if_pos hr, hcast]
    refine ⟨rfl, rfl, rfl, ?_⟩
    intro h63
    rw [toS64_of_range _ (by omega) h63]

theorem threshold_release_witness :
    ((heldEnv 500 300).sendToGate 9 1 300).1.status = QUGATE_SUCCESS ∧
    ((heldEnv 500 300).sendToGate 9 1 300).2.qpi.transfers = [{ to_ := 2, amount := 600 }] ∧
    (((heldEnv 500 300).sendToGate 9 1 300).2.gate 1).currentBalance = 0 := by
  have h := threshold_release (heldEnv 500 300) 9 1 300 (by decide) (by decide) (by decide)
    (by decide) (by decide)
  have h2 := h.2.2 (by decide)
  exact ⟨h.1, h2.2.2.2 (by decide), h2.2.2.1⟩

/-- Claim C13 as stated fails where the released balance does not fit
`sint64`: the gate of `heldEnv` is an active Threshold gate with `t = 2^63`
holding `b = 2^63 - 10`; the amount 10 is at least the minimum,
`b + 10 = 2^63 < 2^64` reaches the threshold, and the transfer made is of
`-(2^63)`, not of `b + 10`. -/
theorem threshold_release_counterexample :
    ((heldEnv (2 ^ 63) (2 ^ 63 - 10)).gate 1).active = 1 ∧
    ((heldEnv (2 ^ 63) (2 ^ 63 - 10)).gate 1).mode = MODE_THRESHOLD ∧
    0 < ((heldEnv (2 ^ 63) (2 ^ 63 - 10)).gate 1).threshold ∧
    (heldEnv (2 ^ 63) (2 ^ 63 - 10)).state._minSendAmount ≤ 10 ∧
    ((heldEnv (2 ^ 63) (2 ^ 63 - 10)).gate 1).currentBalance + 10 < 2 ^ 64 ∧
    ((heldEnv (2 ^ 63) (2 ^ 63 - 10)).gate 1).threshold ≤
      ((heldEnv (2 ^ 63) (2 ^ 63 - 10)).gate 1).currentBalance + 10 ∧
    ((heldEnv (2 ^ 63) (2 ^ 63 - 10)).sendToGate 9 1 10).2.qpi.transfers =
      [{ to_ := 2, amount := -(2 ^ 63) }] ∧
    ((heldEnv (2 ^ 63) (2 ^ 63 - 10)).sendToGate 9 1 10).2.qpi.transfers ≠
      [{ to_ := (((heldEnv (2 ^ 63) (2 ^ 63 - 10)).gate 1).recipients.get 0),
         amount := ((((heldEnv (2 ^ 63) (2 ^ 63 - 10)).gate 1).currentBalance + 10 : Nat) :
           Int) }] := by
  refine ⟨by decide, by decide, by decide, by decide, by decide, by decide, by decide,
    by decide⟩

/-! ## Random selection -/

theorem sendByMode_random (gate : GateConfig) (qpi : TestQpiContext) (sender : m256i)
    (amount : Int) (h : gate.mode = MODE_RANDOM) :
    sendByMode gate qpi sender amount = sendRandom gate qpi amount := by
  unfold sendByMode
  rw [if_neg (by rw [h]; decide), if_neg (by rw [h]; decide), if_neg (by rw [h]; decide),
    if_pos h]

theorem sendByMode_conditional (gate : GateConfig) (qpi : TestQpiContext) (sender : m256i)
    (amount : Int) (h : gate.mode = MODE_CONDITIONAL) :
    sendByMode gate qpi sender amount = sendConditional gate qpi sender amount := by
  unfold sendByMode
  rw [if_neg (by rw [h]; decide), if_neg (by rw [h]; decide), if_neg (by rw [h]; decide),
    if_neg (by rw [h]; decide), if_pos h]

/-- An accepted send to a Random gate, in closed form. -/
theorem sendToGate_random_eq (env : QuGateTest) (sender : m256i) (gateId : Nat)
    (amount : Int)
    (hid : gateId ≠ 0 ∧ gateId ≤ env.state._gateCount)
    (hactive : (env.gate gateId).active ≠ 0)
    (hmode : (env.gate gateId).mode = MODE_RANDOM)
    (hn : 1 ≤ (env.gate gateId).recipientCount)
    (hacc : AcceptedAmount env.state._minSendAmount amount) :
    env.sendToGate sender gateId amount =
      ({ status := QUGATE_SUCCESS },
        { state := { env.state with _gates := (env.state._gates.set (gateId - 1)
            { receivedGate (env.gate gateId) env.qpi._epoch amount with
              totalForwarded := ((env.gate gateId).totalForwarded + amount.toNat) % U64 }) },
          qpi := { callQpi env.qpi sender amount with
            transfers := [{ to_ := ((env.gate gateId).recipients.get
              (randomIndex (env.gate gateId) amount env.qpi._tick)), amount := amount }] } }) := by
  obtain ⟨hnz, hmin⟩ := accepted_of_range _ amount hacc.1 hacc.2.1 hacc.2.2
  have hm : (receivedGate (env.gate gateId) env.qpi._epoch amount).mode = MODE_RANDOM := hmode
  have hU : toU64 amount = amount.toNat :=
    toU64_of_nonneg amount (le_of_lt hacc.1) (by linarith [hacc.2.2])
  have hidx : QPI.mod (((receivedGate (env.gate gateId) env.qpi._epoch amount).totalReceived +
      (callQpi env.qpi sender amount).tick) % U64)
      (receivedGate (env.gate gateId) env.qpi._epoch amount).recipientCount =
      randomIndex (env.gate gateId) amount env.qpi._tick := by
    unfold QPI.mod randomIndex
    rw [if_pos (by show (env.gate gateId).recipientCount ≠ 0; omega)]
    show ((((env.gate gateId).totalReceived + toU64 amount) % U64 + env.qpi._tick) % U64) %
      (env.gate gateId).recipientCount = _
    rw [hU, Nat.mod_add_mod]
  rw [sendToGate_accepted env sender gateId amount hid hactive hnz hmin,
    sendByMode_random _ _ _ _ hm]
  unfold sendRandom
  dsimp only
  rw [hidx, callQpi_transfer, hU]
  rfl

/-- Claim C14 (Random selection). On an active Random gate with at least one
recipient, an accepted send returns Success and makes one transfer, of the
whole amount, to `recipients[r]` with
`r = ((totalReceived + amount + tick) mod 2^64) mod recipientCount`, the
`totalReceived` being the one before the send; `r < recipientCount`; and a
second harness with the same registry and the same tick makes the same
transfer, whoever sends. -/
theorem random_selection (env : QuGateTest) (sender : m256i) (gateId : Nat) (amount : Int)
    (hid : gateId ≠ 0 ∧ gateId ≤ env.state._gateCount)
    (hactive : (env.gate gateId).active ≠ 0)
    (hmode : (env.gate gateId).mode = MODE_RANDOM)
    (hn : 1 ≤ (env.gate gateId).recipientCount)
    (hacc : AcceptedAmount env.state._minSendAmount amount) :
    (env.sendToGate sender gateId amount).1.status = QUGATE_SUCCESS ∧
    (env.sendToGate sender gateId amount).2.qpi.transfers =
      [{ to_ := ((env.gate gateId).recipients.get
          ((((env.gate gateId).totalReceived + amount.toNat + env.qpi._tick) % 2 ^ 64) %
            (env.gate gateId).recipientCount)), amount := amount }] ∧
    (((env.gate gateId).totalReceived + amount.toNat + env.qpi._tick) % 2 ^ 64) %
      (env.gate gateId).recipientCount < (env.gate gateId).recipientCount ∧
    (∀ (env2 : QuGateTest) (sender2 : m256i), env2.state = env.state →
      env2.qpi._tick = env.qpi._tick →
      (env2.sendToGate sender2 gateId amount).2.qpi.transfers =
        (env.sendToGate sender gateId amount).2.qpi.transfers) := by
  have hr : ∀ (e : QuGateTest), randomIndex (e.gate gateId) amount e.qpi._tick =
      (((e.gate gateId).totalReceived + amount.toNat + e.qpi._tick) % 2 ^ 64) %
        (e.gate gateId).recipientCount := fun _ => rfl
  refine ⟨?_, ?_, Nat.mod_lt _ (by omega), ?_⟩
  · rw [sendToGate_random_eq env sender gateId amount hid hactive hmode hn hacc]
  · rw [sendToGate_random_eq env sender gateId amount hid hactive hmode hn hacc, hr]
  · intro env2 sender2 hst htick
    have hg : env2.gate gateId = env.gate gateId := by
      unfold QuGateTest.gate
      rw [hst]
    rw [sendToGate_random_eq env sender gateId amount hid hactive hmode hn hacc,
      sendToGate_random_eq env2 sender2 gateId amount (by rw [hst]; exact hid)
        (by rw [hg]; exact hactive) (by rw [hg]; exact hmode) (by rw [hg]; exact hn)
        (by rw [hst]; exact hacc)]
    dsimp only
    rw [hg, htick]

theorem random_selection_witness :
    ((QuGateTest.new.createGate 1 1000 exampleRandomInput).2.sendToGate 9 1 100).1.status =
      QUGATE_SUCCESS ∧
    ((QuGateTest.new.createGate 1 1000 exampleRandomInput).2.sendToGate 9 1 100).2.qpi.transfers =
      [{ to_ := 3, amount := 100 }] := by
  have h := random_selection (QuGateTest.new.createGate 1 1000 exampleRandomInput).2 9 1 100
    (by decide) (by decide) (by decide) (by decide) (by decide)
  exact ⟨h.1, h.2.1⟩

/-! ## Conditional forwarding -/

theorem senderAllowed_iff (gate : GateConfig) (sender : m256i) :
    senderAllowed gate sender = true ↔
      ∃ i, i < gate.allowedSenderCount ∧ gate.allowedSenders i = sender := by
  unfold senderAllowed
  simp [List.any_eq_true, QArray.get]

/-- An accepted send to a Conditional gate, in closed form. -/
theorem sendToGate_conditional_eq (env : QuGateTest) (sender : m256i) (gateId : Nat)
    (amount : Int)
    (hid : gateId ≠ 0 ∧ gateId ≤ env.state._gateCount)
    (hactive : (env.gate gateId).active ≠ 0)
    (hmode : (env.gate gateId).mode = MODE_CONDITIONAL)
    (hacc : AcceptedAmount env.state._minSendAmount amount) :
    env.sendToGate sender gateId amount =
      ({ status := if senderAllowed (env.gate gateId) sender = true then QUGATE_SUCCESS
                   else QUGATE_CONDITIONAL_REJECTED },
        { state := { env.state with _gates := (env.state._gates.set (gateId - 1)
            (if senderAllowed (env.gate gateId) sender = true then
              { receivedGate (env.gate gateId) env.qpi._epoch amount with
                totalForwarded := ((env.gate gateId).totalForwarded + amount.toNat) % U64 }
            else receivedGate (env.gate gateId) env.qpi._epoch amount)) },
          qpi := { callQpi env.qpi sender amount with
            transfers :=
              [{ to_ := (if senderAllowed (env.gate gateId) sender = true then
                   (env.gate gateId).recipients.get 0 else sender), amount := amount }] } }) := by
  obtain ⟨hnz, hmin⟩ := accepted_of_range _ amount hacc.1 hacc.2.1 hacc.2.2
  have hm : (receivedGate (env.gate gateId) env.qpi._epoch amount).mode = MODE_CONDITIONAL :=
    hmode
  have hU : toU64 amount = amount.toNat :=
    toU64_of_nonneg amount (le_of_lt hacc.1) (by linarith [hacc.2.2])
  have hsa : senderAllowed (receivedGate (env.gate gateId) env.qpi._epoch amount) sender =
      senderAllowed (env.gate gateId) sender := rfl
  rw [sendToGate_accepted env sender gateId amount hid hactive hnz hmin,
    sendByMode_conditional _ _ _ _ hm]
  unfold sendConditional
  rw [hsa]
  by_cases hs : senderAllowed (env.gate gateId) sender = true
  · rw [if_pos hs, if_pos hs, if_pos hs, if_pos hs]
    dsimp only
    rw [callQpi_transfer, hU]
    rfl
  · rw [if_neg hs, if_neg hs, if_neg hs, if_neg hs]
    dsimp only
    rw [callQpi_transfer]

/-- Claim C15 (Conditional forwarding). On an active Conditional gate and for
an accepted amount: when the sender is one of the first `allowedSenderCount`
allowed senders, the send returns Success, makes one transfer, of the whole
amount, to `recipients[0]`, and `totalForwarded` grows by the amount (in
`uint64`); otherwise it returns ConditionalRejected, makes one transfer, of
the whole amount, back to the sender, and leaves `totalForwarded` and the
`active` flag as they were. -/
theorem conditional_forwarding (env : QuGateTest) (sender : m256i) (gateId : Nat)
    (amount : Int)
    (hid : gateId ≠ 0 ∧ gateId ≤ env.state._gateCount)
    (hactive : (env.gate gateId).active ≠ 0)
    (hmode : (env.gate gateId).mode = MODE_CONDITIONAL)
    (hacc : AcceptedAmount env.state._minSendAmount amount) :
    ((∃ i, i < (env.gate gateId).allowedSenderCount ∧
        (env.gate gateId).allowedSenders i = sender) →
      (env.sendToGate sender gateId amount).1.status = QUGATE_SUCCESS ∧
      (env.sendToGate sender gateId amount).2.qpi.transfers =
        [{ to_ := ((env.gate gateId).recipients.get 0), amount := amount }] ∧
      ((env.sendToGate sender gateId amount).2.gate gateId).totalForwarded =
        ((env.gate gateId).totalForwarded + amount.toNat) % U64) ∧
    (¬ (∃ i, i < (env.gate gateId).allowedSenderCount ∧
        (env.gate gateId).allowedSenders i = sender) →
      (env.sendToGate sender gateId amount).1.status = QUGATE_CONDITIONAL_REJECTED ∧
      (env.sendToGate sender gateId amount).2.qpi.transfers =
        [{ to_ := sender, amount := amount }] ∧
      ((env.sendToGate sender gateId amount).2.gate gateId).totalForwarded =
        (env.gate gateId).totalForwarded ∧
      ((env.sendToGate sender gateId amount).2.gate gateId).active =
        (env.gate gateId).active) := by
  rw [sendToGate_conditional_eq env sender gateId amount hid hactive hmode hacc]
  dsimp only
  rw [gate_set_same]
  constructor
  · intro hin
    have hs := (senderAllowed_iff (env.gate gateId) sender).mpr hin
    rw [if_pos hs, if_pos hs, if_pos hs]
    exact ⟨rfl, rfl, rfl⟩
  · intro hout
    have hs : ¬ senderAllowed (env.gate gateId) sender = true :=
      fun h => hout ((senderAllowed_iff (env.gate gateId) sender).mp h)
    rw [if_neg hs, if_neg hs, if_neg hs]
    exact ⟨rfl, rfl, rfl, rfl⟩

theorem conditional_forwarding_witness :
    ((QuGateTest.new.createGate 1 1000 exampleConditionalInput).2.sendToGate 1 1 500).1.status =
      QUGATE_SUCCESS ∧
    ((QuGateTest.new.createGate 1 1000 exampleConditionalInput).2.sendToGate
      1 1 500).2.qpi.transfers = [{ to_ := 4, amount := 500 }] ∧
    ((QuGateTest.new.createGate 1 1000 exampleConditionalInput).2.sendToGate 3 1 500).1.status =
      QUGATE_CONDITIONAL_REJECTED ∧
    ((QuGateTest.new.createGate 1 1000 exampleConditionalInput).2.sendToGate
      3 1 500).2.qpi.transfers = [{ to_ := 3, amount := 500 }] := by
  have h1 := (conditional_forwarding (QuGateTest.new.createGate 1 1000 exampleConditionalInput).2
    1 1 500 (by decide) (by decide) (by decide) (by decide)).1 ⟨0, by decide, by decide⟩
  have h2 := (conditional_forwarding (QuGateTest.new.createGate 1 1000 exampleConditionalInput).2
    3 1 500 (by decide) (by decide) (by decide) (by decide)).2 (by decide)
  exact ⟨h1.1, h1.2.1, h2.1, h2.2.1⟩

/-! ## Rejected sends and the registry -/

/-- A branch of the dispatch by mode that does not answer Success is the
rejection of a Conditional gate, and leaves the record it was given. -/
theorem sendByMode_rejected (gate : GateConfig) (qpi : TestQpiContext) (sender : m256i)
    (amount : Int) (h : (sendByMode gate qpi sender amount).status ≠ QUGATE_SUCCESS) :
    (sendByMode gate qpi sender amount).status = QUGATE_CONDITIONAL_REJECTED ∧
    (sendByMode gate qpi sender amount).gate = gate ∧
    gate.mode = MODE_CONDITIONAL ∧ ¬ senderAllowed gate sender = true := by
  revert h
  unfold sendByMode
  split_ifs with h0 h1 h2 h3 h4
  · intro h; exact absurd rfl h
  · intro h; exact absurd rfl h
  · intro h; exact absurd (sendThreshold_status gate qpi amount).1 h
  · intro h; exact absurd rfl h
  · unfold sendConditional
    split_ifs with hs
    · intro h; exact absurd rfl h
    · intro _; exact ⟨rfl, rfl, h4, hs⟩
  · intro h; exact absurd rfl h

/-- Claim C16, as amended (rejected sends and the registry). For
`0 ≤ amount < 2^63`, a `sendToGate` that does not return Success returns
InvalidGateId, GateNotActive, DustAmount or ConditionalRejected. In the first
three cases the registry is as before, or, when a positive amount below the
minimum was burned, as before but for `_totalBurned`, grown by the amount (in
`uint64`). In the last case the gate is an active Conditional gate, the sender
is not allowed, and the registry is as before but for the target record, whose
`lastActivityEpoch` is the current epoch and whose `totalReceived` has grown by
the amount (in `uint64`). -/
theorem rejected_send_registry (env : QuGateTest) (sender : m256i) (gateId : Nat)
    (amount : Int) (h0 : 0 ≤ amount) (hlt : amount < 2 ^ 63)
    (hrej : (env.sendToGate sender gateId amount).1.status ≠ QUGATE_SUCCESS) :
    ((env.sendToGate sender gateId amount).1.status = QUGATE_INVALID_GATE_ID ∨
      (env.sendToGate sender gateId amount).1.status = QUGATE_GATE_NOT_ACTIVE ∨
      (env.sendToGate sender gateId amount).1.status = QUGATE_DUST_AMOUNT ∨
      (env.sendToGate sender gateId amount).1.status = QUGATE_CONDITIONAL_REJECTED) ∧
    ((env.sendToGate sender gateId amount).1.status ≠ QUGATE_CONDITIONAL_REJECTED →
      ((env.sendToGate sender gateId amount).2.qpi.totalBurned = 0 ∧
        (env.sendToGate sender gateId amount).2.state = env.state) ∨
      (0 < amount ∧ (env.sendToGate sender gateId amount).2.qpi.totalBurned = amount ∧
        (env.sendToGate sender gateId amount).2.state =
          { env.state with
            _totalBurned := (env.state._totalBurned + amount.toNat) % U64 })) ∧
    ((env.sendToGate sender gateId amount).1.status = QUGATE_CONDITIONAL_REJECTED →
      (env.gate gateId).mode = MODE_CONDITIONAL ∧
      ¬ (∃ i, i < (env.gate gateId).allowedSenderCount ∧
          (env.gate gateId).allowedSenders i = sender) ∧
      (env.sendToGate sender gateId amount).2.qpi.totalBurned = 0 ∧
      (env.sendToGate sender gateId amount).2.state =
        { env.state with _gates := (env.state._gates.set (gateId - 1)
          { env.gate gateId with
            lastActivityEpoch := env.qpi._epoch,
            totalReceived := ((env.gate gateId).totalReceived + amount.toNat) % U64 }) }) := by
  have hU : toU64 amount = amount.toNat := toU64_of_nonneg amount h0 (by linarith)
  by_cases hbad : gateId = 0 ∨ gateId > env.state._gateCount ∨ (env.gate gateId).active = 0
  · have hb0 : (if amount > 0 then (callQpi env.qpi sender amount).transfer sender amount
        else callQpi env.qpi sender amount).totalBurned = 0 := by
      split_ifs
      · rw [transfer_totalBurned]; rfl
      · rfl
    rw [sendToGate_badTarget_eq env sender gateId amount hbad]
    dsimp only
    by_cases h1 : gateId = 0 ∨ gateId > env.state._gateCount
    · rw [if_pos h1]
      exact ⟨Or.inl rfl, fun _ => Or.inl ⟨hb0, rfl⟩, fun h => absurd h (by decide)⟩
    · rw [if_neg h1]
      exact ⟨Or.inr (Or.inl rfl), fun _ => Or.inl ⟨hb0, rfl⟩, fun h => absurd h (by decide)⟩
  have hid : gateId ≠ 0 ∧ gateId ≤ env.state._gateCount := by
    constructor
    · intro h; exact hbad (Or.inl h)
    · by_contra h; exact hbad (Or.inr (Or.inl (by omega)))
  have hactive : (env.gate gateId).active ≠ 0 := fun h => hbad (Or.inr (Or.inr h))
  by_cases hdust : amount = 0 ∨ toU64 amount < env.state._minSendAmount
  · rw [sendToGate_dust_eq env sender gateId amount hid hactive hdust]
    dsimp only
    refine ⟨Or.inr (Or.inr (Or.inl rfl)), fun _ => ?_, fun h => absurd h (by decide)⟩
    by_cases hz : amount = 0
    · rw [if_pos hz, if_pos hz]
      exact Or.inl ⟨rfl, rfl⟩
    · rw [if_neg hz, if_neg hz, hU]
      refine Or.inr ⟨by omega, ?_, rfl⟩
      show (0 : Int) + amount = amount
      omega
  · have hnz : amount ≠ 0 := fun h => hdust (Or.inl h)
    have hmin : ¬ toU64 amount < env.state._minSendAmount := fun h => hdust (Or.inr h)
    have hacc := sendToGate_accepted env sender gateId amount hid hactive hnz hmin
    rw [hacc] at hrej
    obtain ⟨r1, r2, r3, r4⟩ := sendByMode_rejected _ _ _ _ hrej
    have hb := sendByMode_totalBurned (receivedGate (env.gate gateId) env.qpi._epoch amount)
      (callQpi env.qpi sender amount) sender amount
    rw [hacc]
    dsimp only
    rw [r1, r2, hb]
    refine ⟨Or.inr (Or.inr (Or.inr rfl)), fun h => absurd rfl h, fun _ => ⟨r3, ?_, rfl, ?_⟩⟩
    · intro hex
      exact r4 ((senderAllowed_iff (env.gate gateId) sender).mpr hex)
    · unfold receivedGate
      rw [hU]

theorem rejected_send_registry_witness :
    (conditionalEnv.sendToGate 3 1 500).1.status = QUGATE_CONDITIONAL_REJECTED ∧
    (conditionalEnv.sendToGate 3 1 500).2.state =
      { conditionalEnv.state with _gates := (conditionalEnv.state._gates.set (1 - 1)
        { conditionalEnv.gate 1 with
          lastActivityEpoch := conditionalEnv.qpi._epoch,
          totalReceived := ((conditionalEnv.gate 1).totalReceived + (500 : Int).toNat) % U64 }) } :=
  ⟨by decide,
    ((rejected_send_registry conditionalEnv 3 1 500 (by decide) (by decide) (by decide)).2.2
      (by decide)).2.2.2⟩

/-- Claim C16 as stated fails on a rejected send to a Conditional gate: the
sender 3 is not allowed, the call returns ConditionalRejected and burns
nothing, yet the record of the gate is written back with `totalReceived` 500
instead of 0 and `lastActivityEpoch` 120 instead of 100, so the registry is not
the one before the call. -/
theorem rejected_send_registry_counterexample :
    (conditionalEnv.sendToGate 3 1 500).1.status = QUGATE_CONDITIONAL_REJECTED ∧
    (conditionalEnv.sendToGate 3 1 500).2.qpi.totalBurned = 0 ∧
    (conditionalEnv.gate 1).totalReceived = 0 ∧
    ((conditionalEnv.sendToGate 3 1 500).2.gate 1).totalReceived = 500 ∧
    (conditionalEnv.gate 1).lastActivityEpoch = 100 ∧
    ((conditionalEnv.sendToGate 3 1 500).2.gate 1).lastActivityEpoch = 120 ∧
    (conditionalEnv.sendToGate 3 1 500).2.state ≠ conditionalEnv.state := by
  refine ⟨by decide, by decide, by decide, by decide, by decide, by decide, ?_⟩
  intro h
  have h2 : ((conditionalEnv.sendToGate 3 1 500).2.gate 1).totalReceived =
      (conditionalEnv.gate 1).totalReceived := by
    unfold QuGateTest.gate
    rw [h]
  exact absurd h2 (by decide)

/-! ## Authorization -/

/-- Claim C17 (authorization). For a gate id in `[1, _gateCount]` and a caller
that is not the owner recorded in slot `gateId - 1`, `closeGate` and
`updateGate` (for any reward and any new configuration of that gate) return
Unauthorized, whatever the `active` flag, and leave the registry as it was. -/
theorem authorization (env : QuGateTest) (caller : m256i) (gateId : Nat)
    (reward reward2 : Int) (input : updateGate_input)
    (hid : 1 ≤ gateId ∧ gateId ≤ env.state._gateCount)
    (hown : (env.gate gateId).owner ≠ caller) (hin : input.gateId = gateId) :
    (env.closeGate caller gateId reward).1.status = QUGATE_UNAUTHORIZED ∧
    (env.closeGate caller gateId reward).2.state = env.state ∧
    (env.updateGate caller reward2 input).1.status = QUGATE_UNAUTHORIZED ∧
    (env.updateGate caller reward2 input).2.state = env.state := by
  unfold QuGateTest.gate at hown
  have h1 : ¬ (gateId = 0 ∨ gateId > env.state._gateCount) := by omega
  have h2 : ¬ (env.state._gates.get (gateId - 1)).owner = caller := hown
  refine ⟨?_, ?_, ?_, ?_⟩
  · simp only [QuGateTest.closeGate, if_neg h1, if_pos h2]
  · simp only [QuGateTest.closeGate, if_neg h1, if_pos h2]
  · simp only [QuGateTest.updateGate, hin, if_neg h1, if_pos h2]
  · simp only [QuGateTest.updateGate, hin, if_neg h1, if_pos h2]

theorem authorization_witness :
    ((QuGateTest.new.createGate 1 1000 exampleSplitInput).2.closeGate 2 1 0).1.status =
      QUGATE_UNAUTHORIZED ∧
    ((QuGateTest.new.createGate 1 1000 exampleSplitInput).2.updateGate 2 0
      exampleUpdateInput).1.status = QUGATE_UNAUTHORIZED := by
  have h := authorization (QuGateTest.new.createGate 1 1000 exampleSplitInput).2 2 1 0 0
    exampleUpdateInput (by decide) (by decide) rfl
  exact ⟨h.1, h.2.2.1⟩

/-! ## closeGate by the owner -/

/-- The host context after a successful `closeGate`. -/
theorem closeGate_success_qpi (env : QuGateTest) (caller : m256i) (gateId : Nat) (reward : Int)
    (h : (env.closeGate caller gateId reward).1.status = QUGATE_SUCCESS) :
    (env.closeGate caller gateId reward).2.qpi =
      { callQpi env.qpi caller reward with
        transfers := closeTransfers (env.gate gateId) caller reward } := by
  simp only [QuGateTest.closeGate, QuGateTest.gate] at h ⊢
  by_cases h1 : gateId = 0 ∨ gateId > env.state._gateCount
  · simp only [if_pos h1] at h
    exact absurd h (by decide)
  simp only [if_neg h1] at h ⊢
  by_cases h2 : ¬ (env.state._gates.get (gateId - 1)).owner = caller
  · simp only [if_pos h2] at h
    exact absurd h (by decide)
  simp only [if_neg h2] at h ⊢
  by_cases h3 : (env.state._gates.get (gateId - 1)).active = 0
  · simp only [if_pos h3] at h
    exact absurd h (by decide)
  simp only [if_neg h3] at h ⊢
  unfold closeTransfers
  have hc : ∀ (t : m256i) (x : Int),
      ({ env.qpi.reset with _invocator := caller, _reward := reward } : TestQpiContext).transfer
        t x = { callQpi env.qpi caller reward with transfers := [{ to_ := t, amount := x }] } :=
    fun t x => callQpi_transfer env.qpi caller reward t x
  by_cases hb : (env.state._gates.get (gateId - 1)).currentBalance > 0
  · simp only [if_pos hb, hc]
    by_cases hr : reward > 0
    · simp only [if_pos hr]
      rw [transfer_of_room _ _ _ (by dsimp only; rw [List.length_singleton]; decide)]
    · simp only [if_neg hr]
      rfl
  · simp only [if_neg hb]
    by_cases hr : reward > 0
    · simp only [if_pos hr, hc]
      rfl
    · simp only [if_neg hr]
      rfl

/-- Claim C18, as amended (`closeGate` by the owner). With `gateId` 0 or above
`_gateCount` the status is InvalidGateId and the registry is as it was. For a
`gateId` in range whose slot is owned by the caller: an inactive gate gives
GateNotActive and the registry as it was; an active gate gives Success, the
transfers are the refund of a positive `currentBalance` to the owner, as the
`sint64` amount `(sint64)currentBalance` (the balance itself when it is below
`2^63`), followed by the refund of a positive reward; the slot keeps its fields
but for `currentBalance` 0 and `active` 0; `_activeGates` is decremented and
the index `gateId - 1` is stored at `_freeSlots[_freeCount]` with `_freeCount`
incremented (both in `uint64`, exactly so under the allocator invariant);
`_gateCount`, `_totalBurned` and every other slot are as before. -/
theorem closeGate_by_owner (env : QuGateTest) (caller : m256i) (gateId : Nat) (reward : Int) :
    (gateId = 0 ∨ gateId > env.state._gateCount →
      (env.closeGate caller gateId reward).1.status = QUGATE_INVALID_GATE_ID ∧
      (env.closeGate caller gateId reward).2.state = env.state) ∧
    (1 ≤ gateId ∧ gateId ≤ env.state._gateCount → (env.gate gateId).owner = caller →
      (env.gate gateId).active = 0 →
      (env.closeGate caller gateId reward).1.status = QUGATE_GATE_NOT_ACTIVE ∧
      (env.closeGate caller gateId reward).2.state = env.state) ∧
    (1 ≤ gateId ∧ gateId ≤ env.state._gateCount → (env.gate gateId).owner = caller →
      (env.gate gateId).active ≠ 0 →
      (env.closeGate caller gateId reward).1.status = QUGATE_SUCCESS ∧
      (env.closeGate caller gateId reward).2.qpi.transfers =
        closeTransfers (env.gate gateId) caller reward ∧
      ((env.gate gateId).currentBalance < 2 ^ 63 →
        (env.closeGate caller gateId reward).2.qpi.transfers =
          (if (env.gate gateId).currentBalance > 0 then
            [{ to_ := caller, amount := ((env.gate gateId).currentBalance : Int) }] else []) ++
          (if reward > 0 then [{ to_ := caller, amount := reward }] else [])) ∧
      (env.closeGate caller gateId reward).2.gate gateId =
        { env.gate gateId with currentBalance := 0, active := 0 } ∧
      (∀ i, i ≠ gateId - 1 →
        (env.closeGate caller gateId reward).2.state._gates i = env.state._gates i) ∧
      (env.closeGate caller gateId reward).2.state._activeGates =
        (env.state._activeGates + (U64 - 1)) % U64 ∧
      (env.closeGate caller gateId reward).2.state._freeSlots =
        Function.update env.state._freeSlots env.state._freeCount (gateId - 1) ∧
      (env.closeGate caller gateId reward).2.state._freeCount =
        (env.state._freeCount + 1) % U64 ∧
      (AllocatorInvariant env.state →
        (env.closeGate caller gateId reward).2.state._activeGates + 1 =
          env.state._activeGates ∧
        (env.closeGate caller gateId reward).2.state._freeCount = env.state._freeCount + 1) ∧
      (env.closeGate caller gateId reward).2.state._gateCount = env.state._gateCount ∧
      (env.closeGate caller gateId reward).2.state._totalBurned = env.state._totalBurned) := by
  refine ⟨?_, ?_, ?_⟩
  · intro h1
    constructor <;> simp only [QuGateTest.closeGate, if_pos h1]
  · intro hid hown hact
    have h1 : ¬ (gateId = 0 ∨ gateId > env.state._gateCount) := by omega
    unfold QuGateTest.gate at hown hact
    constructor <;>
      simp only [QuGateTest.closeGate, if_neg h1, if_neg (not_not.mpr hown), if_pos hact]
  · intro hid hown hact
    have h1 : ¬ (gateId = 0 ∨ gateId > env.state._gateCount) := by omega
    have hs : (env.closeGate caller gateId reward).1.status = QUGATE_SUCCESS := by
      unfold QuGateTest.gate at hown hact
      simp only [QuGateTest.closeGate, if_neg h1, if_neg (not_not.mpr hown), if_neg hact]
    obtain ⟨-, -, -, -, heq⟩ := closeGate_success env caller gateId reward hs
    have hq := closeGate_success_qpi env caller gateId reward hs
    refine ⟨hs, ?_, ?_, ?_, ?_, ?_, ?_, ?_, ?_, ?_, ?_⟩
    · rw [hq]
    · intro h63
      rw [hq]
      unfold closeTransfers
      rw [toS64_natCast _ h63, hown]
    · unfold QuGateTest.gate QArray.get
      rw [heq]
      dsimp only
      rw [Function.update_same]
      exact closedGate_eq _
    · intro i hi
      rw [heq]
      exact Function.update_noteq hi _ _
    · rw [heq]
    · rw [heq]
    · rw [heq]
    · intro hinv
      rw [heq]
      dsimp only
      have hidx : gateId - 1 < env.state._gateCount := by omega
      have hpos := activeCount_pos env.state._gates (gateId - 1) env.state._gateCount hidx
        (by
          rcases hinv.2.2.2.1 (gateId - 1) hidx with h | h
          · exact absurd h hact
          · exact h)
      have hag := hinv.2.1
      have hsum := hinv.2.2.1
      have hgc := hinv.1
      have hcap : QUGATE_MAX_GATES = 4096 := rfl
      have hU : U64 = 18446744073709551616 := by norm_num [U64]
      rw [hU]
      omega
    · rw [heq]
    · rw [heq]

theorem closeGate_by_owner_witness :
    ((heldEnv 500 300).closeGate 1 1 0).1.status = QUGATE_SUCCESS ∧
    ((heldEnv 500 300).closeGate 1 1 0).2.qpi.transfers = [{ to_ := 1, amount := 300 }] ∧
    (((heldEnv 500 300).closeGate 1 1 0).2.gate 1).active = 0 ∧
    ((heldEnv 500 300).closeGate 1 999 0).1.status = QUGATE_INVALID_GATE_ID := by
  have h := closeGate_by_owner (heldEnv 500 300) 1 1 0
  have h3 := h.2.2 (by decide) (by decide) (by decide)
  have hg : (((heldEnv 500 300).closeGate 1 1 0).2.gate 1).active = 0 := by
    rw [h3.2.2.2.1]
  exact ⟨h3.1, h3.2.2.1 (by decide), hg,
    ((closeGate_by_owner (heldEnv 500 300) 1 999 0).1 (by decide)).1⟩

/-- Claim C18 as stated fails where the held balance does not fit `sint64`:
after a Threshold gate of threshold `2^63 + 5` has received `2^63 - 10` and
then 10, it is active, owned by 1 and holds `2^63`; `closeGate` by the owner
returns Success and its one transfer is of `-(2^63)`, not of the balance. -/
theorem closeGate_by_owner_counterexample :
    Reachable (heldEnv2 (2 ^ 63 + 5) (2 ^ 63 - 10) 10) ∧
    (heldEnv2 (2 ^ 63 + 5) (2 ^ 63 - 10) 10).state._gateCount = 1 ∧
    ((heldEnv2 (2 ^ 63 + 5) (2 ^ 63 - 10) 10).gate 1).owner = 1 ∧
    ((heldEnv2 (2 ^ 63 + 5) (2 ^ 63 - 10) 10).gate 1).active = 1 ∧
    ((heldEnv2 (2 ^ 63 + 5) (2 ^ 63 - 10) 10).gate 1).currentBalance = 2 ^ 63 ∧
    ((heldEnv2 (2 ^ 63 + 5) (2 ^ 63 - 10) 10).closeGate 1 1 0).1.status = QUGATE_SUCCESS ∧
    ((heldEnv2 (2 ^ 63 + 5) (2 ^ 63 - 10) 10).closeGate 1 1 0).2.qpi.transfers =
      [{ to_ := 1, amount := -(2 ^ 63) }] ∧
    ((heldEnv2 (2 ^ 63 + 5) (2 ^ 63 - 10) 10).closeGate 1 1 0).2.qpi.transfers ≠
      [{ to_ := 1, amount := 2 ^ 63 }] := by
  refine ⟨?_, by decide, by decide, by decide, by decide, by decide, by decide, by decide⟩
  exact Reachable.sendToGate _ 9 1 10
    (Reachable.sendToGate _ 9 1 (2 ^ 63 - 10)
      (Reachable.createGate _ 1 1000 (exampleThresholdInput (2 ^ 63 + 5)) Reachable.init
        (by decide) (by decide))
      (by decide) (by decide))
    (by decide) (by decide)

/-! ## The reward of closeGate -/

/-- A failing `closeGate` makes no transfer at all: none of its three early
returns refunds the reward. -/
theorem closeGate_failure_transfers (env : QuGateTest) (caller : m256i) (gateId : Nat)
    (reward : Int) (h : (env.closeGate caller gateId reward).1.status ≠ QUGATE_SUCCESS) :
    (env.closeGate caller gateId reward).2.qpi.transfers = [] := by
  simp only [QuGateTest.closeGate] at h ⊢
  by_cases h1 : gateId = 0 ∨ gateId > env.state._gateCount
  · simp only [if_pos h1]
    rfl
  simp only [if_neg h1] at h ⊢
  by_cases h2 : ¬ (env.state._gates.get (gateId - 1)).owner = caller
  · simp only [if_pos h2]
    rfl
  simp only [if_neg h2] at h ⊢
  by_cases h3 : (env.state._gates.get (gateId - 1)).active = 0
  · simp only [if_pos h3]
    rfl
  simp only [if_neg h3] at h
  exact absurd rfl h

/-- Claim C19 (the reward of `closeGate`), evaluated where the code departs
from it. With reward 500: on the initial registry `closeGate` of id 999
returns InvalidGateId with no transfer; on a registry whose gate 1 is owned by
1, `closeGate` by 2 returns Unauthorized with no transfer; after that gate has
been closed, `closeGate` by its owner returns GateNotActive with no transfer.
On the same three inputs `updateGate` refunds the reward, and so does
`closeGate` when it succeeds. -/
theorem closeGate_reward_kept :
    (QuGateTest.new.closeGate 1 999 500).1.status = QUGATE_INVALID_GATE_ID ∧
    (QuGateTest.new.closeGate 1 999 500).2.qpi.transfers = [] ∧
    ((QuGateTest.new.createGate 1 1000 exampleSplitInput).2.closeGate 2 1 500).1.status =
      QUGATE_UNAUTHORIZED ∧
    ((QuGateTest.new.createGate 1 1000 exampleSplitInput).2.closeGate 2 1 500).2.qpi.transfers =
      [] ∧
    (((QuGateTest.new.createGate 1 1000 exampleSplitInput).2.closeGate 1 1 0).2.closeGate
      1 1 500).1.status = QUGATE_GATE_NOT_ACTIVE ∧
    (((QuGateTest.new.createGate 1 1000 exampleSplitInput).2.closeGate 1 1 0).2.closeGate
      1 1 500).2.qpi.transfers = [] ∧
    (QuGateTest.new.updateGate 1 500 { exampleUpdateInput with gateId := 999 }).1.status =
      QUGATE_INVALID_GATE_ID ∧
    (QuGateTest.new.updateGate 1 500 { exampleUpdateInput with gateId := 999 }).2.qpi.transfers =
      [{ to_ := 1, amount := 500 }] ∧
    ((QuGateTest.new.createGate 1 1000 exampleSplitInput).2.updateGate 2 500
      exampleUpdateInput).2.qpi.transfers = [{ to_ := 2, amount := 500 }] ∧
    (((QuGateTest.new.createGate 1 1000 exampleSplitInput).2.closeGate 1 1 0).2.updateGate
      1 500 exampleUpdateInput).2.qpi.transfers = [{ to_ := 1, amount := 500 }] ∧
    ((QuGateTest.new.createGate 1 1000 exampleSplitInput).2.closeGate 1 1 500).1.status =
      QUGATE_SUCCESS ∧
    ((QuGateTest.new.createGate 1 1000 exampleSplitInput).2.closeGate 1 1 500).2.qpi.transfers =
      [{ to_ := 1, amount := 500 }] := by
  refine ⟨by decide, by decide, by decide, by decide, by decide, by decide, by decide,
    by decide, by decide, by decide, by decide, by decide⟩

/-! ## Effect of a successful updateGate -/

theorem updateFill_loop (g : GateConfig) (input : updateGate_input) (n : Nat) :
    (List.range n).foldl
      (fun gate i =>
        let gate :=
          if i < input.recipientCount then
            { gate with recipients := gate.recipients.set i (input.recipients.get i),
                        ratios := gate.ratios.set i (input.ratios.get i) }
          else
            { gate with recipients := gate.recipients.set i m256i.zero,
                        ratios := gate.ratios.set i 0 }
        if i < input.allowedSenderCount then
          { gate with allowedSenders := gate.allowedSenders.set i (input.allowedSenders.get i) }
        else
          { gate with allowedSenders := gate.allowedSenders.set i m256i.zero })
      g =
    { g with
      recipients := fun i =>
        if i < n then (if i < input.recipientCount then input.recipients i else 0)
        else g.recipients i,
      ratios := fun i =>
        if i < n then (if i < input.recipientCount then input.ratios i else 0) else g.ratios i,
      allowedSenders := fun i =>
        if i < n then (if i < input.allowedSenderCount then input.allowedSenders i else 0)
        else g.allowedSenders i } := by
  induction n with
  | zero => simp
  | succ m ih =>
    rw [List.range_succ, List.foldl_append, ih]
    simp only [List.foldl_cons, List.foldl_nil, QArray.set, QArray.get, m256i.zero]
    by_cases hm : m < input.recipientCount <;> by_cases ha : m < input.allowedSenderCount
    all_goals simp only [if_pos, if_neg, hm, ha, not_false_eq_true]
    all_goals congr 1
    all_goals funext i
    all_goals by_cases hi : i = m
    all_goals first
      | (subst hi; simp [hm, ha])
      | (have hlt : (i < m + 1) = (i < m) := by apply propext; omega
         simp [Function.update_noteq hi, hlt])

theorem updateFill_eq (gate : GateConfig) (epoch : Nat) (input : updateGate_input) :
    updateFill { gate with
        lastActivityEpoch := epoch, recipientCount := input.recipientCount,
        threshold := input.threshold, allowedSenderCount := input.allowedSenderCount } input =
      updatedGate gate epoch input := by
  unfold updateFill
  simp only [QUGATE_MAX_RECIPIENTS]
  rw [updateFill_loop]
  rfl

/-- A successful `updateGate`: the checks it has passed and the registry it
leaves, the record of the gate replaced by `updatedGate`. -/
theorem updateGate_success (env : QuGateTest) (caller : m256i) (reward : Int)
    (input : updateGate_input)
    (h : (env.updateGate caller reward input).1.status = QUGATE_SUCCESS) :
    input.gateId ≠ 0 ∧ input.gateId ≤ env.state._gateCount ∧
    (env.gate input.gateId).owner = caller ∧ (env.gate input.gateId).active ≠ 0 ∧
    1 ≤ input.recipientCount ∧ input.recipientCount ≤ 8 ∧ input.allowedSenderCount ≤ 8 ∧
    (env.updateGate caller reward input).2.state =
      { env.state with _gates := (env.state._gates.set (input.gateId - 1)
        (updatedGate (env.gate input.gateId) env.qpi._epoch input)) } := by
  simp only [QuGateTest.updateGate, QuGateTest.gate] at h ⊢
  by_cases h1 : input.gateId = 0 ∨ input.gateId > env.state._gateCount
  · simp only [if_pos h1] at h
    exact absurd h (by decide)
  simp only [if_neg h1] at h ⊢
  by_cases h2 : ¬ (env.state._gates.get (input.gateId - 1)).owner = caller
  · simp only [if_pos h2] at h
    exact absurd h (by decide)
  simp only [if_neg h2] at h ⊢
  by_cases h3 : (env.state._gates.get (input.gateId - 1)).active = 0
  · simp only [if_pos h3] at h
    exact absurd h (by decide)
  simp only [if_neg h3] at h ⊢
  by_cases h4 : input.recipientCount = 0 ∨ input.recipientCount > QUGATE_MAX_RECIPIENTS
  · simp only [if_pos h4] at h
    exact absurd h (by decide)
  simp only [if_neg h4] at h ⊢
  by_cases h5 : input.allowedSenderCount > QUGATE_MAX_RECIPIENTS
  · simp only [if_pos h5] at h
    exact absurd h (by decide)
  simp only [if_neg h5] at h ⊢
  by_cases h6 : (env.state._gates.get (input.gateId - 1)).mode = MODE_SPLIT ∧
      updateRatioLoop input.ratios input.recipientCount = none
  · simp only [if_pos h6] at h
    exact absurd h (by decide)
  simp only [if_neg h6] at h ⊢
  by_cases h7 : (env.state._gates.get (input.gateId - 1)).mode = MODE_SPLIT ∧
      updateRatioLoop input.ratios input.recipientCount = some 0
  · simp only [if_pos h7] at h
    exact absurd h (by decide)
  simp only [if_neg h7] at h ⊢
  by_cases h8 : (env.state._gates.get (input.gateId - 1)).mode = MODE_THRESHOLD ∧
      input.threshold = 0
  · simp only [if_pos h8] at h
    exact absurd h (by decide)
  simp only [if_neg h8] at h ⊢
  have h4c : ¬ (input.recipientCount = 0 ∨ input.recipientCount > 8) := h4
  have h5c : ¬ input.allowedSenderCount > 8 := h5
  refine ⟨by omega, by omega, not_not.mp h2, h3, by omega, by omega, by omega, ?_⟩
  have e := updateFill_eq (env.state._gates.get (input.gateId - 1)) env.qpi._epoch input
  exact congrArg (fun g => ({ env.state with
    _gates := env.state._gates.set (input.gateId - 1) g } : QuGateState)) e

/-- Claim C20 (effect of a successful `updateGate`). After a successful
`updateGate` of gate `input.gateId`, its record has `recipientCount`,
`threshold` and `allowedSenderCount` of the input, recipients and ratios of the
input below `recipientCount` and zero from there to index 7, allowed senders of
the input below `allowedSenderCount` and zero from there to index 7,
`lastActivityEpoch` the current epoch, and owner, mode, `active`,
`createdEpoch`, `roundRobinIndex`, `currentBalance`, `totalReceived` and
`totalForwarded` as before; every other slot, `_gateCount`, `_activeGates`,
`_totalBurned` and the free list are as before. -/
theorem updateGate_effect (env : QuGateTest) (caller : m256i) (reward : Int)
    (input : updateGate_input)
    (h : (env.updateGate caller reward input).1.status = QUGATE_SUCCESS) :
    ((env.updateGate caller reward input).2.gate input.gateId).recipientCount =
      input.recipientCount ∧
    ((env.updateGate caller reward input).2.gate input.gateId).threshold = input.threshold ∧
    ((env.updateGate caller reward input).2.gate input.gateId).allowedSenderCount =
      input.allowedSenderCount ∧
    ((env.updateGate caller reward input).2.gate input.gateId).lastActivityEpoch =
      env.qpi._epoch ∧
    (∀ i, i < input.recipientCount →
      ((env.updateGate caller reward input).2.gate input.gateId).recipients i =
        input.recipients i ∧
      ((env.updateGate caller reward input).2.gate input.gateId).ratios i = input.ratios i) ∧
    (∀ i, input.recipientCount ≤ i → i < 8 →
      ((env.updateGate caller reward input).2.gate input.gateId).recipients i = 0 ∧
      ((env.updateGate caller reward input).2.gate input.gateId).ratios i = 0) ∧
    (∀ i, i < input.allowedSenderCount →
      ((env.updateGate caller reward input).2.gate input.gateId).allowedSenders i =
        input.allowedSenders i) ∧
    (∀ i, input.allowedSenderCount ≤ i → i < 8 →
      ((env.updateGate caller reward input).2.gate input.gateId).allowedSenders i = 0) ∧
    ((env.updateGate caller reward input).2.gate input.gateId).owner =
      (env.gate input.gateId).owner ∧
    ((env.updateGate caller reward input).2.gate input.gateId).mode =
      (env.gate input.gateId).mode ∧
    ((env.updateGate caller reward input).2.gate input.gateId).active =
      (env.gate input.gateId).active ∧
    ((env.updateGate caller reward input).2.gate input.gateId).createdEpoch =
      (env.gate input.gateId).createdEpoch ∧
    ((env.updateGate caller reward input).2.gate input.gateId).roundRobinIndex =
      (env.gate input.gateId).roundRobinIndex ∧
    ((env.updateGate caller reward input).2.gate input.gateId).currentBalance =
      (env.gate input.gateId).currentBalance ∧
    ((env.updateGate caller reward input).2.gate input.gateId).totalReceived =
      (env.gate input.gateId).totalReceived ∧
    ((env.updateGate caller reward input).2.gate input.gateId).totalForwarded =
      (env.gate input.gateId).totalForwarded ∧
    (∀ i, i ≠ input.gateId - 1 →
      (env.updateGate caller reward input).2.state._gates i = env.state._gates i) ∧
    (env.updateGate caller reward input).2.state._gateCount = env.state._gateCount ∧
    (env.updateGate caller reward input).2.state._activeGates = env.state._activeGates ∧
    (env.updateGate caller reward input).2.state._totalBurned = env.state._totalBurned ∧
    (env.updateGate caller reward input).2.state._freeSlots = env.state._freeSlots ∧
    (env.updateGate caller reward input).2.state._freeCount = env.state._freeCount := by
  obtain ⟨-, -, -, -, hr1, hr8, ha8, heq⟩ := updateGate_success env caller reward input h
  have hgate : (env.updateGate caller reward input).2.gate input.gateId =
      updatedGate (env.gate input.gateId) env.qpi._epoch input := by
    unfold QuGateTest.gate
    rw [heq]
    exact Function.update_same _ _ _
  rw [hgate, heq]
  unfold updatedGate
  refine ⟨rfl, rfl, rfl, rfl, ?_, ?_, ?_, ?_, rfl, rfl, rfl, rfl, rfl, rfl, rfl, rfl, ?_,
    rfl, rfl, rfl, rfl, rfl⟩
  · intro i hi
    dsimp only
    rw [if_pos (by omega), if_pos hi, if_pos (by omega), if_pos hi]
    exact ⟨rfl, rfl⟩
  · intro i hi hi8
    dsimp only
    rw [if_pos hi8, if_neg (by omega), if_pos hi8, if_neg (by omega)]
    exact ⟨rfl, rfl⟩
  · intro i hi
    dsimp only
    rw [if_pos (by omega), if_pos hi]
  · intro i hi hi8
    dsimp only
    rw [if_pos hi8, if_neg (by omega)]
  · intro i hi
    exact Function.update_noteq hi _ _

theorem updateGate_effect_witness :
    ((QuGateTest.new.createGate 1 1000 exampleSplitInput).2.updateGate 1 0
      exampleUpdateInput).1.status = QUGATE_SUCCESS ∧
    (((QuGateTest.new.createGate 1 1000 exampleSplitInput).2.updateGate 1 0
      exampleUpdateInput).2.gate 1).recipientCount = 1 ∧
    (((QuGateTest.new.createGate 1 1000 exampleSplitInput).2.updateGate 1 0
      exampleUpdateInput).2.gate 1).recipients 0 = 3 ∧
    (((QuGateTest.new.createGate 1 1000 exampleSplitInput).2.updateGate 1 0
      exampleUpdateInput).2.gate 1).recipients 1 = 0 := by
  have hs : ((QuGateTest.new.createGate 1 1000 exampleSplitInput).2.updateGate 1 0
      exampleUpdateInput).1.status = QUGATE_SUCCESS := by decide
  have h := updateGate_effect (QuGateTest.new.createGate 1 1000 exampleSplitInput).2 1 0
    exampleUpdateInput hs
  exact ⟨hs, h.1, (h.2.2.2.2.1 0 (by decide)).1, (h.2.2.2.2.2.1 1 (by decide) (by decide)).1⟩

/-! ## Rejections and reward of updateGate -/

theorem updateRatioLoop_succ (ratios : QArray Nat) (n : Nat) :
    updateRatioLoop ratios (n + 1) =
      match updateRatioLoop ratios n with
      | none => none
      | some totalRatio =>
        if ratios.get n > QUGATE_MAX_RATIO then none
        else some ((totalRatio + ratios.get n) % U64) := by
  unfold updateRatioLoop
  rw [List.range_succ, List.foldl_append]
  rfl

/-- The ratio loop of `updateGate` in closed form: `none` when one of the
first `n` ratios is above the maximum, otherwise their sum in `uint64`. -/
theorem updateRatioLoop_eq (ratios : QArray Nat) (n : Nat) :
    updateRatioLoop ratios n =
      if ∃ i, i < n ∧ ratios i > 10000 then none else some (ratioSum ratios n % U64) := by
  induction n with
  | zero =>
    rw [if_neg (by rintro ⟨i, hi, -⟩; omega)]
    rfl
  | succ m ih =>
    rw [updateRatioLoop_succ, ih]
    by_cases hex : ∃ i, i < m ∧ ratios i > 10000
    · obtain ⟨i, hi, hr⟩ := hex
      rw [if_pos ⟨i, hi, hr⟩, if_pos ⟨i, by omega, hr⟩]
    · rw [if_neg hex]
      dsimp only
      by_cases hm : ratios.get m > QUGATE_MAX_RATIO
      · rw [if_pos hm, if_pos ⟨m, by omega, hm⟩]
      · rw [if_neg hm]
        have hno : ¬ ∃ i, i < m + 1 ∧ ratios i > 10000 := by
          rintro ⟨i, hi, hr⟩
          rcases Nat.lt_or_ge i m with hlt | hge
          · exact hex ⟨i, hlt, hr⟩
          · have : i = m := by omega
            subst this
            exact hm hr
        rw [if_neg hno]
        congr 1
        unfold ratioSum
        rw [List.range_succ, List.map_append, List.sum_append]
        simp [QArray.get, Nat.add_mod]

theorem updateRatio_invalid_iff (ratios : QArray Nat) (n : Nat) (hn : n ≤ 8) :
    (updateRatioLoop ratios n = none ∨ updateRatioLoop ratios n = some 0) ↔
      ((∃ i, i < n ∧ ratios i > 10000) ∨ ratioSum ratios n = 0) := by
  rw [updateRatioLoop_eq]
  by_cases hex : ∃ i, i < n ∧ ratios i > 10000
  · rw [if_pos hex]
    exact ⟨fun _ => Or.inl hex, fun _ => Or.inl rfl⟩
  · rw [if_neg hex]
    have hall : ∀ i, i < n → ratios i ≤ 10000 := by
      intro i hi
      by_contra hc
      exact hex ⟨i, hi, by omega⟩
    have hle := ratioSum_le ratios n 10000 hall
    have hlt : ratioSum ratios n < U64 := by
      have : n * 10000 ≤ 80000 := by omega
      have : (80000 : Nat) < U64 := by norm_num [U64]
      omega
    rw [Nat.mod_eq_of_lt hlt]
    constructor
    · rintro (h | h)
      · exact absurd h (by simp)
      · exact Or.inr (Option.some.inj h)
    · rintro (h | h)
      · exact absurd h hex
      · exact Or.inr (by rw [h])

/-- The status of `updateGate` is the one of the specification, and the host
context it leaves is the refund of a positive reward. -/
theorem updateGate_status (env : QuGateTest) (caller : m256i) (reward : Int)
    (input : updateGate_input) :
    (env.updateGate caller reward input).1.status = specUpdateStatus env caller input ∧
    (env.updateGate caller reward input).2.qpi =
      (if reward > 0 then (callQpi env.qpi caller reward).transfer caller reward
       else callQpi env.qpi caller reward) ∧
    ((env.updateGate caller reward input).1.status ≠ QUGATE_SUCCESS →
      (env.updateGate caller reward input).2.state = env.state) := by
  simp only [QuGateTest.updateGate, specUpdateStatus, QuGateTest.gate, callQpi]
  by_cases h1 : input.gateId = 0 ∨ input.gateId > env.state._gateCount
  · simp only [if_pos h1]
    refine ⟨?_, ?_, ?_⟩ <;>
      first | rfl | trivial
  simp only [if_neg h1]
  by_cases h2 : ¬ (env.state._gates.get (input.gateId - 1)).owner = caller
  · have h2c : (env.state._gates.get (input.gateId - 1)).owner ≠ caller := h2
    simp only [if_pos h2, if_pos h2c]
    refine ⟨?_, ?_, ?_⟩ <;>
      first | rfl | trivial
  have h2c : ¬ (env.state._gates.get (input.gateId - 1)).owner ≠ caller := h2
  simp only [if_neg h2, if_neg h2c]
  by_cases h3 : (env.state._gates.get (input.gateId - 1)).active = 0
  · simp only [if_pos h3]
    refine ⟨?_, ?_, ?_⟩ <;>
      first | rfl | trivial
  simp only [if_neg h3]
  by_cases h4 : input.recipientCount = 0 ∨ input.recipientCount > QUGATE_MAX_RECIPIENTS
  · have h4c : input.recipientCount = 0 ∨ input.recipientCount > 8 := h4
    simp only [if_pos h4, if_pos h4c]
    refine ⟨?_, ?_, ?_⟩ <;>
      first | rfl | trivial
  have h4c : ¬ (input.recipientCount = 0 ∨ input.recipientCount > 8) := h4
  simp only [if_neg h4, if_neg h4c]
  by_cases h5 : input.allowedSenderCount > QUGATE_MAX_RECIPIENTS
  · have h5c : input.allowedSenderCount > 8 := h5
    simp only [if_pos h5, if_pos h5c]
    refine ⟨?_, ?_, ?_⟩ <;>
      first | rfl | trivial
  have h5c : ¬ input.allowedSenderCount > 8 := h5
  simp only [if_neg h5, if_neg h5c]
  have hiff := updateRatio_invalid_iff input.ratios input.recipientCount (by omega)
  by_cases h6 : (env.state._gates.get (input.gateId - 1)).mode = MODE_SPLIT ∧
      updateRatioLoop input.ratios input.recipientCount = none
  · have hs : (env.state._gates.get (input.gateId - 1)).mode = MODE_SPLIT ∧
        ((∃ i, i < input.recipientCount ∧ input.ratios i > 10000) ∨
          ratioSum input.ratios input.recipientCount = 0) := ⟨h6.1, hiff.mp (Or.inl h6.2)⟩
    simp only [if_pos h6, if_pos hs]
    refine ⟨?_, ?_, ?_⟩ <;>
      first | rfl | trivial
  simp only [if_neg h6]
  by_cases h7 : (env.state._gates.get (input.gateId - 1)).mode = MODE_SPLIT ∧
      updateRatioLoop input.ratios input.recipientCount = some 0
  · have hs : (env.state._gates.get (input.gateId - 1)).mode = MODE_SPLIT ∧
        ((∃ i, i < input.recipientCount ∧ input.ratios i > 10000) ∨
          ratioSum input.ratios input.recipientCount = 0) := ⟨h7.1, hiff.mp (Or.inr h7.2)⟩
    simp only [if_pos h7, if_pos hs]
    refine ⟨?_, ?_, ?_⟩ <;>
      first | rfl | trivial
  simp only [if_neg h7]
  have hs : ¬ ((env.state._gates.get (input.gateId - 1)).mode = MODE_SPLIT ∧
      ((∃ i, i < input.recipientCount ∧ input.ratios i > 10000) ∨
        ratioSum input.ratios input.recipientCount = 0)) := by
    rintro ⟨hm, hr⟩
    rcases hiff.mpr hr with h | h
    · exact h6 ⟨hm, h⟩
    · exact h7 ⟨hm, h⟩
  simp only [if_neg hs]
  by_cases h8 : (env.state._gates.get (input.gateId - 1)).mode = MODE_THRESHOLD ∧
      input.threshold = 0
  · simp only [if_pos h8]
    refine ⟨?_, ?_, ?_⟩ <;>
      first | rfl | trivial
  simp only [if_neg h8]
  refine ⟨?_, ?_, ?_⟩ <;>
    first | rfl | trivial | exact fun h => absurd rfl h

/-- Claim C21 (rejections and reward of `updateGate`). The status of
`updateGate` is that of the first failing check in the order: id 0 or above
`_gateCount` (InvalidGateId), caller not the owner (Unauthorized), gate
inactive (GateNotActive), recipient count 0 or above 8
(InvalidRecipientCount), more than 8 allowed senders (InvalidSenderCount), a
Split gate with a new ratio above 10000 or a zero new ratio sum
(InvalidRatio), a Threshold gate with a zero new threshold (InvalidThreshold);
with any such status the registry is as it was; and on every path the
transfers of the call are the one refund of `reward` to the caller when
`reward > 0` and none otherwise. -/
theorem updateGate_rejection_reward (env : QuGateTest) (caller : m256i) (reward : Int)
    (input : updateGate_input) :
    (env.updateGate caller reward input).1.status = specUpdateStatus env caller input ∧
    ((env.updateGate caller reward input).1.status ≠ QUGATE_SUCCESS →
      (env.updateGate caller reward input).2.state = env.state) ∧
    (env.updateGate caller reward input).2.qpi.transfers =
      (if reward > 0 then [{ to_ := caller, amount := reward }] else []) := by
  obtain ⟨h1, h2, h3⟩ := updateGate_status env caller reward input
  refine ⟨h1, h3, ?_⟩
  rw [h2]
  by_cases hr : reward > 0
  · rw [if_pos hr, if_pos hr, callQpi_transfer]
  · rw [if_neg hr, if_neg hr]
    rfl

theorem updateGate_rejection_reward_witness :
    (QuGateTest.new.updateGate 1 500 { exampleUpdateInput with gateId := 999 }).1.status =
      QUGATE_INVALID_GATE_ID ∧
    (QuGateTest.new.updateGate 1 500 { exampleUpdateInput with gateId := 999 }).2.state =
      QuGateTest.new.state ∧
    (QuGateTest.new.updateGate 1 500 { exampleUpdateInput with gateId := 999 }).2.qpi.transfers =
      [{ to_ := 1, amount := 500 }] := by
  have h := updateGate_rejection_reward QuGateTest.new 1 500
    { exampleUpdateInput with gateId := 999 }
  exact ⟨by decide, h.2.1 (by decide), h.2.2⟩

/-! ## Read accessors -/

theorem getGate_loop (out : getGate_output) (g : GateConfig) (n : Nat) :
    (List.range n).foldl
      (fun out i => { out with recipients := out.recipients.set i (g.recipients.get i),
                               ratios := out.ratios.set i (g.ratios.get i) })
      out =
    { out with
      recipients := fun i => if i < n then g.recipients i else out.recipients i,
      ratios := fun i => if i < n then g.ratios i else out.ratios i } := by
  induction n with
  | zero => simp
  | succ m ih =>
    rw [List.range_succ, List.foldl_append, ih]
    simp only [List.foldl_cons, List.foldl_nil, QArray.set, QArray.get]
    congr 1 <;> funext i <;> by_cases hi : i = m
    · subst hi; simp
    · have hlt : (i < m + 1) = (i < m) := by apply propext; omega
      simp [Function.update_noteq hi, hlt]
    · subst hi; simp
    · have hlt : (i < m + 1) = (i < m) := by apply propext; omega
      simp [Function.update_noteq hi, hlt]

/-- The record `getGate` returns for an id in range, in closed form. -/
theorem getGate_inRange (env : QuGateTest) (gateId : Nat)
    (h : ¬ (gateId = 0 ∨ gateId > env.state._gateCount)) :
    env.getGate gateId =
      { mode := (env.gate gateId).mode, recipientCount := (env.gate gateId).recipientCount,
        active := (env.gate gateId).active, owner := (env.gate gateId).owner,
        totalReceived := (env.gate gateId).totalReceived,
        totalForwarded := (env.gate gateId).totalForwarded,
        currentBalance := (env.gate gateId).currentBalance,
        threshold := (env.gate gateId).threshold,
        createdEpoch := (env.gate gateId).createdEpoch,
        lastActivityEpoch := (env.gate gateId).lastActivityEpoch,
        recipients := fun i => if i < 8 then (env.gate gateId).recipients i else 0,
        ratios := fun i => if i < 8 then (env.gate gateId).ratios i else 0 } := by
  simp only [QuGateTest.getGate, if_neg h, QUGATE_MAX_RECIPIENTS]
  rw [getGate_loop]
  rfl

/-- Claim C23 (read accessors). `getGate` of an id that is 0 or above
`_gateCount` returns the record with every field zero; of an id in
`[1, _gateCount]` it returns mode, `recipientCount`, `active`, owner,
`totalReceived`, `totalForwarded`, `currentBalance`, threshold, `createdEpoch`,
`lastActivityEpoch` and the 8 recipients and ratios of slot `gateId - 1`,
whatever its `active` flag; `getGateCount` returns `_gateCount`,
`_activeGates` and `_totalBurned`. The three accessors are functions of the
harness that return an output only: their bodies assign to neither the
registry nor the host context. -/
theorem read_accessors (env : QuGateTest) (gateId : Nat) :
    (gateId = 0 ∨ gateId > env.state._gateCount →
      env.getGate gateId =
        { mode := 0, recipientCount := 0, active := 0, owner := 0, totalReceived := 0,
          totalForwarded := 0, currentBalance := 0, threshold := 0, createdEpoch := 0,
          lastActivityEpoch := 0, recipients := fun _ => 0, ratios := fun _ => 0 }) ∧
    (1 ≤ gateId ∧ gateId ≤ env.state._gateCount →
      (env.getGate gateId).mode = (env.gate gateId).mode ∧
      (env.getGate gateId).recipientCount = (env.gate gateId).recipientCount ∧
      (env.getGate gateId).active = (env.gate gateId).active ∧
      (env.getGate gateId).owner = (env.gate gateId).owner ∧
      (env.getGate gateId).totalReceived = (env.gate gateId).totalReceived ∧
      (env.getGate gateId).totalForwarded = (env.gate gateId).totalForwarded ∧
      (env.getGate gateId).currentBalance = (env.gate gateId).currentBalance ∧
      (env.getGate gateId).threshold = (env.gate gateId).threshold ∧
      (env.getGate gateId).createdEpoch = (env.gate gateId).createdEpoch ∧
      (env.getGate gateId).lastActivityEpoch = (env.gate gateId).lastActivityEpoch ∧
      (∀ i, i < 8 →
        (env.getGate gateId).recipients i = (env.gate gateId).recipients i ∧
        (env.getGate gateId).ratios i = (env.gate gateId).ratios i)) ∧
    env.getGateCount =
      { totalGates := env.state._gateCount, activeGates := env.state._activeGates,
        totalBurned := env.state._totalBurned } ∧
    env.getFees.creationFee = env.state._creationFee ∧
    env.getFees.minSendAmount = env.state._minSendAmount ∧
    env.getFees.expiryEpochs = env.state._expiryEpochs := by
  refine ⟨?_, ?_, rfl, rfl, rfl, rfl⟩
  · intro h
    simp only [QuGateTest.getGate, if_pos h]
  · intro h
    have hr : ¬ (gateId = 0 ∨ gateId > env.state._gateCount) := by omega
    rw [getGate_inRange env gateId hr]
    refine ⟨rfl, rfl, rfl, rfl, rfl, rfl, rfl, rfl, rfl, rfl, ?_⟩
    intro i hi
    dsimp only
    rw [if_pos hi, if_pos hi]
    exact ⟨rfl, rfl⟩

theorem read_accessors_witness :
    (QuGateTest.new.getGate 1).active = 0 ∧
    ((QuGateTest.new.createGate 1 1000 exampleSplitInput).2.getGate 1).owner = 1 ∧
    ((QuGateTest.new.createGate 1 1000 exampleSplitInput).2.getGate 1).recipients 2 = 4 ∧
    ((QuGateTest.new.createGate 1 1000 exampleSplitInput).2.getGate 1).ratios 2 = 34 := by
  have h0 := (read_accessors QuGateTest.new 1).1 (by decide)
  have h := (read_accessors (QuGateTest.new.createGate 1 1000 exampleSplitInput).2 1).2.1
    (by decide)
  have h8 := h.2.2.2.2.2.2.2.2.2.2 2 (by decide)
  refine ⟨by rw [h0], ?_, ?_, ?_⟩
  · rw [h.2.2.2.1]; decide
  · rw [h8.1]; decide
  · rw [h8.2]; decide

/-! ## The allocator invariant in reachable registries -/

theorem endEpochFold_gateCount (l : List Nat) (env : QuGateTest) :
    (l.foldl endEpochStep env).state._gateCount = env.state._gateCount := by
  induction l generalizing env with
  | nil => rfl
  | cons i l ih => rw [List.foldl_cons, ih, endEpochStep_gateCount]

/-- Claim C26 (allocator invariant). In every reachable harness:
`_gateCount ≤ 4096`; `_activeGates` is the number of slots below `_gateCount`
with `active = 1`; `_freeCount = _gateCount - _activeGates`; every slot below
`_gateCount` has `active` 0 or 1; the entries `_freeSlots[0.._freeCount)` are
pairwise distinct, each below `_gateCount`, and are exactly the indices of the
inactive slots below `_gateCount`. So where a gate is released the push index
`_freeCount` is below 4096 and `_activeGates` is at least 1: at a successful
`closeGate`, and at every slot that expires during the loop of `endEpoch`. -/
theorem allocator_invariant (env : QuGateTest) (hr : Reachable env) :
    env.state._gateCount ≤ 4096 ∧
    env.state._activeGates = activeCount env.state._gates env.state._gateCount ∧
    env.state._freeCount = env.state._gateCount - env.state._activeGates ∧
    env.state._activeGates ≤ env.state._gateCount ∧
    (∀ i, i < env.state._gateCount →
      (env.state._gates i).active = 0 ∨ (env.state._gates i).active = 1) ∧
    (∀ j k, j < env.state._freeCount → k < env.state._freeCount →
      env.state._freeSlots j = env.state._freeSlots k → j = k) ∧
    (∀ k, k < env.state._freeCount → env.state._freeSlots k < env.state._gateCount) ∧
    (∀ i, i < env.state._gateCount →
      ((∃ k, k < env.state._freeCount ∧ env.state._freeSlots k = i) ↔
        (env.state._gates i).active = 0)) ∧
    (∀ (caller : m256i) (gateId : Nat) (reward : Int),
      (env.closeGate caller gateId reward).1.status = QUGATE_SUCCESS →
      env.state._freeCount < 4096 ∧ 1 ≤ env.state._activeGates) ∧
    (∀ n, n < env.state._gateCount →
      (((List.range n).foldl endEpochStep env).state._gates n).active = 1 →
      ((List.range n).foldl endEpochStep env).state._freeCount < 4096 ∧
      1 ≤ ((List.range n).foldl endEpochStep env).state._activeGates) := by
  have hinv := reachable_allocatorInvariant env hr
  have key : ∀ (s : QuGateState), AllocatorInvariant s → ∀ i, i < s._gateCount →
      (s._gates i).active = 1 → s._freeCount < 4096 ∧ 1 ≤ s._activeGates := by
    intro s hs i hi ha
    obtain ⟨h1, h2, h3, -, -, -, -⟩ := hs
    have hpos := activeCount_pos s._gates i s._gateCount hi ha
    have hcap : QUGATE_MAX_GATES = 4096 := rfl
    omega
  obtain ⟨h1, h2, h3, h4, h5, h6, h7⟩ := hinv
  refine ⟨h1, h2, by omega, by omega, h4, h6, fun k hk => (h5 k hk).1, ?_, ?_, ?_⟩
  · intro i hi
    constructor
    · rintro ⟨k, hk, rfl⟩
      exact (h5 k hk).2
    · exact h7 i hi
  · intro caller gateId reward hs
    obtain ⟨h0, hle, -, hact, -⟩ := closeGate_success env caller gateId reward hs
    have hidx : gateId - 1 < env.state._gateCount := by omega
    have ha : (env.state._gates (gateId - 1)).active = 1 := by
      rcases h4 (gateId - 1) hidx with h | h
      · exact absurd h hact
      · exact h
    exact key env.state ⟨h1, h2, h3, h4, h5, h6, h7⟩ (gateId - 1) hidx ha
  · intro n hn ha
    have hloop := allocatorInvariant_endEpoch_loop (List.range n) env
      (fun i hi => by have := List.mem_range.mp hi; omega) ⟨h1, h2, h3, h4, h5, h6, h7⟩
    exact key _ hloop n (by rw [endEpochFold_gateCount]; exact hn) ha

theorem allocator_invariant_witness :
    ((QuGateTest.new.createGate 1 1000 exampleSplitInput).2.closeGate 1 1 0).2.state._freeCount =
      ((QuGateTest.new.createGate 1 1000 exampleSplitInput).2.closeGate 1 1 0).2.state._gateCount -
      ((QuGateTest.new.createGate 1 1000 exampleSplitInput).2.closeGate
        1 1 0).2.state._activeGates ∧
    ((QuGateTest.new.createGate 1 1000 exampleSplitInput).2.closeGate 1 1 0).2.state._gateCount ≤
      4096 :=
  have h := allocator_invariant
    ((QuGateTest.new.createGate 1 1000 exampleSplitInput).2.closeGate 1 1 0).2
    (Reachable.closeGate _ 1 1 0
      (Reachable.createGate _ 1 1000 exampleSplitInput Reachable.init (by decide) (by decide))
      (by decide) (by decide))
  ⟨h.2.2.1, h.1⟩

/-- Claim C27 (`createGate` never overwrites a live gate). In every reachable
harness a successful `createGate` writes slot `gateId - 1`, which was inactive
or at or beyond the previous `_gateCount`; every other slot is as before, in
particular every slot below the previous `_gateCount` that held an active
gate, with its held balance. -/
theorem createGate_spares_live_gates (env : QuGateTest) (hr : Reachable env)
    (creator : m256i) (fee : Int) (input : createGate_input)
    (hs : (env.createGate creator fee input).1.status = QUGATE_SUCCESS) :
    1 ≤ (env.createGate creator fee input).1.gateId ∧
    ((env.state._gates ((env.createGate creator fee input).1.gateId - 1)).active = 0 ∨
      env.state._gateCount ≤ (env.createGate creator fee input).1.gateId - 1) ∧
    (env.createGate creator fee input).2.state._gates
        ((env.createGate creator fee input).1.gateId - 1) =
      newGate creator env.qpi._epoch input ∧
    (∀ i, i ≠ (env.createGate creator fee input).1.gateId - 1 →
      (env.createGate creator fee input).2.state._gates i = env.state._gates i) ∧
    (∀ i, i < env.state._gateCount → (env.state._gates i).active ≠ 0 →
      (env.createGate creator fee input).2.state._gates i = env.state._gates i ∧
      ((env.createGate creator fee input).2.state._gates i).currentBalance =
        (env.state._gates i).currentBalance) := by
  have hinv := reachable_allocatorInvariant env hr
  obtain ⟨hid, hgates, -, -, -, -⟩ := createGate_success_state env creator fee input hinv hs
  have hslot : (env.state._gates (allocSlot env.state)).active = 0 ∨
      env.state._gateCount ≤ allocSlot env.state := by
    unfold allocSlot
    by_cases hf : env.state._freeCount > 0
    · rw [if_pos hf]
      exact Or.inl (hinv.2.2.2.2.1 (env.state._freeCount - 1) (by omega)).2
    · rw [if_neg hf]
      exact Or.inr (le_refl _)
  rw [hid, hgates, Nat.add_sub_cancel]
  refine ⟨by omega, hslot, Function.update_same _ _ _,
    fun i hi => Function.update_noteq hi _ _, ?_⟩
  intro i hi ha
  have hne : i ≠ allocSlot env.state := by
    rintro rfl
    rcases hslot with h | h
    · exact ha h
    · omega
  rw [Function.update_noteq hne]
  exact ⟨rfl, rfl⟩

theorem createGate_spares_live_gates_witness :
    ((heldEnv 500 300).createGate 7 1000 exampleSplitInput).1.gateId = 2 ∧
    (((heldEnv 500 300).createGate 7 1000 exampleSplitInput).2.state._gates 0).currentBalance =
      ((heldEnv 500 300).state._gates 0).currentBalance := by
  have h := createGate_spares_live_gates (heldEnv 500 300)
    (Reachable.sendToGate _ 9 1 300
      (Reachable.createGate _ 1 1000 (exampleThresholdInput 500) Reachable.init
        (by decide) (by decide))
      (by decide) (by decide))
    7 1000 exampleSplitInput (by decide)
  exact ⟨by decide, (h.2.2.2.2 0 (by decide) (by decide)).2⟩

/-! ## Predicates on the active gates, operation by operation -/

theorem gatesAll_update (P : GateConfig → Prop) (gates gates2 : QArray GateConfig) (idx : Nat)
    (g : GateConfig) (h2 : gates2 = Function.update gates idx g)
    (hP : ∀ i, (gates i).active ≠ 0 → P (gates i))
    (hg : g.active ≠ 0 → P g) :
    ∀ i, (gates2 i).active ≠ 0 → P (gates2 i) := by
  intro i hact
  rw [h2] at hact ⊢
  by_cases hi : i = idx
  · rw [hi, Function.update_same] at hact ⊢
    exact hg hact
  · rw [Function.update_noteq hi] at hact ⊢
    exact hP i hact

theorem gatesAll_createGate (P : GateConfig → Prop) (env : QuGateTest) (creator : m256i)
    (fee : Int) (input : createGate_input) (hP : GatesAll P env.state)
    (hnew : (env.createGate creator fee input).1.status = QUGATE_SUCCESS →
      P (newGate creator env.qpi._epoch input)) :
    GatesAll P (env.createGate creator fee input).2.state := by
  by_cases hs : (env.createGate creator fee input).1.status = QUGATE_SUCCESS
  · obtain ⟨heq, -⟩ := createGate_success env creator fee input hs
    rw [heq, createGateCommit_state]
    exact gatesAll_update P env.state._gates _ (allocSlot env.state)
      (newGate creator env.qpi._epoch input) rfl hP (fun _ => hnew hs)
  · rw [(createGate_failure env creator fee input hs).1]
    exact hP

theorem gatesAll_sendToGate (P : GateConfig → Prop) (env : QuGateTest) (sender : m256i)
    (gateId : Nat) (amount : Int) (hP : GatesAll P env.state)
    (hsend : gateId ≠ 0 ∧ gateId ≤ env.state._gateCount → (env.gate gateId).active ≠ 0 →
      amount ≠ 0 → ¬ toU64 amount < env.state._minSendAmount → P (env.gate gateId) →
      P (sendByMode (receivedGate (env.gate gateId) env.qpi._epoch amount)
        (callQpi env.qpi sender amount) sender amount).gate) :
    GatesAll P (env.sendToGate sender gateId amount).2.state := by
  by_cases hbad : gateId = 0 ∨ gateId > env.state._gateCount ∨ (env.gate gateId).active = 0
  · rw [sendToGate_badTarget_eq env sender gateId amount hbad]
    exact hP
  have hid : gateId ≠ 0 ∧ gateId ≤ env.state._gateCount := by
    constructor
    · intro h; exact hbad (Or.inl h)
    · by_contra h; exact hbad (Or.inr (Or.inl (by omega)))
  have hactive : (env.gate gateId).active ≠ 0 := fun h => hbad (Or.inr (Or.inr h))
  by_cases hdust : amount = 0 ∨ toU64 amount < env.state._minSendAmount
  · rw [sendToGate_dust_eq env sender gateId amount hid hactive hdust]
    by_cases hz : amount = 0
    · simp only [if_pos hz]
      exact hP
    · simp only [if_neg hz]
      exact hP
  · have hnz : amount ≠ 0 := fun h => hdust (Or.inl h)
    have hmin : ¬ toU64 amount < env.state._minSendAmount := fun h => hdust (Or.inr h)
    rw [sendToGate_accepted env sender gateId amount hid hactive hnz hmin]
    exact gatesAll_update P env.state._gates _ (gateId - 1) _ rfl hP
      (fun _ => hsend hid hactive hnz hmin (hP (gateId - 1) hactive))

theorem gatesAll_closeGate (P : GateConfig → Prop) (env : QuGateTest) (caller : m256i)
    (gateId : Nat) (reward : Int) (hP : GatesAll P env.state) :
    GatesAll P (env.closeGate caller gateId reward).2.state := by
  by_cases hs : (env.closeGate caller gateId reward).1.status = QUGATE_SUCCESS
  · obtain ⟨-, -, -, -, heq⟩ := closeGate_success env caller gateId reward hs
    rw [heq]
    exact gatesAll_update P env.state._gates _ (gateId - 1) _ rfl hP
      (fun h => absurd (by rw [closedGate_eq]) h)
  · rw [closeGate_failure env caller gateId reward hs]
    exact hP

theorem gatesAll_updateGate (P : GateConfig → Prop) (env : QuGateTest) (caller : m256i)
    (reward : Int) (input : updateGate_input) (hP : GatesAll P env.state)
    (hupd : (env.updateGate caller reward input).1.status = QUGATE_SUCCESS →
      P (env.gate input.gateId) →
      P (updatedGate (env.gate input.gateId) env.qpi._epoch input)) :
    GatesAll P (env.updateGate caller reward input).2.state := by
  by_cases hs : (env.updateGate caller reward input).1.status = QUGATE_SUCCESS
  · obtain ⟨-, -, -, hact, -, -, -, heq⟩ := updateGate_success env caller reward input hs
    rw [heq]
    exact gatesAll_update P env.state._gates _ (input.gateId - 1) _ rfl hP
      (fun _ => hupd hs (hP (input.gateId - 1) hact))
  · rw [(updateGate_status env caller reward input).2.2 hs]
    exact hP

theorem gatesAll_endEpochStep (P : GateConfig → Prop) (env : QuGateTest) (i : Nat)
    (hP : GatesAll P env.state) : GatesAll P (endEpochStep env i).state := by
  rcases endEpochStep_cases env i with ⟨-, -, -, heq⟩ | ⟨-, heq⟩
  · rw [heq]
    exact gatesAll_update P env.state._gates _ i _ rfl hP
      (fun h => absurd (by rw [closedGate_eq]) h)
  · rw [heq]
    exact hP

theorem gatesAll_endEpoch (P : GateConfig → Prop) (env : QuGateTest)
    (hP : GatesAll P env.state) : GatesAll P env.endEpoch.state := by
  unfold QuGateTest.endEpoch
  generalize List.range env.state._gateCount = l
  induction l generalizing env with
  | nil => exact hP
  | cons i l ih =>
    rw [List.foldl_cons]
    exact ih (endEpochStep env i) (gatesAll_endEpochStep P env i hP)

/-! ## The gate invariant in reachable registries -/

theorem ratioSum_congr (r1 r2 : QArray Nat) (n : Nat) (h : ∀ i, i < n → r1 i = r2 i) :
    ratioSum r1 n = ratioSum r2 n := by
  unfold ratioSum
  induction n with
  | zero => rfl
  | succ m ih =>
    rw [List.range_succ, List.map_append, List.map_append, List.sum_append, List.sum_append,
      ih (fun i hi => h i (Nat.lt_succ_of_lt hi))]
    simp [h m (Nat.lt_succ_self m)]

theorem filled_apply (ratios tail : QArray Nat) (n : Nat) (hn : n ≤ 8) (i : Nat) (hi : i < n) :
    (fun i => if i < 8 then (if i < n then ratios i else 0) else tail i : QArray Nat) i =
      ratios i := by
  show (if i < 8 then (if i < n then ratios i else 0) else tail i) = ratios i
  rw [if_pos (by omega), if_pos hi]

/-- The gate invariant depends on the mode, the counts, the threshold and the
declared ratios only. -/
theorem gateInvariant_congr (g g2 : GateConfig) (hm : g2.mode = g.mode)
    (hr : g2.recipientCount = g.recipientCount)
    (ha : g2.allowedSenderCount = g.allowedSenderCount)
    (ht : g2.threshold = g.threshold)
    (hrat : ∀ i, i < g.recipientCount → g2.ratios i = g.ratios i)
    (h : GateInvariant g) : GateInvariant g2 := by
  obtain ⟨h1, h2, h3, h4, h5, h6⟩ := h
  refine ⟨by rw [hm]; exact h1, by rw [hr]; exact h2, by rw [hr]; exact h3,
    by rw [ha]; exact h4, ?_, ?_⟩
  · intro hs
    obtain ⟨s1, s2, s3, s4⟩ := h5 (by rw [← hm]; exact hs)
    refine ⟨by rw [hr]; exact s1, by rw [hr]; exact s2, ?_, ?_⟩
    · intro i hi
      rw [hr] at hi
      rw [hrat i hi]
      exact s3 i hi
    · rw [hr, ratioSum_congr g2.ratios g.ratios g.recipientCount hrat]
      exact s4
  · intro hth
    rw [ht]
    exact h6 (by rw [← hm]; exact hth)

/-- The dispatch by mode leaves the configuration of the record as it was. -/
theorem sendByMode_config (gate : GateConfig) (qpi : TestQpiContext) (sender : m256i)
    (amount : Int) :
    (sendByMode gate qpi sender amount).gate.mode = gate.mode ∧
    (sendByMode gate qpi sender amount).gate.recipientCount = gate.recipientCount ∧
    (sendByMode gate qpi sender amount).gate.allowedSenderCount = gate.allowedSenderCount ∧
    (sendByMode gate qpi sender amount).gate.threshold = gate.threshold ∧
    (sendByMode gate qpi sender amount).gate.ratios = gate.ratios ∧
    (sendByMode gate qpi sender amount).gate.recipients = gate.recipients ∧
    (sendByMode gate qpi sender amount).gate.owner = gate.owner := by
  unfold sendByMode
  split_ifs
  · exact ⟨rfl, rfl, rfl, rfl, rfl, rfl, rfl⟩
  · exact ⟨rfl, rfl, rfl, rfl, rfl, rfl, rfl⟩
  · unfold sendThreshold
    dsimp only
    split_ifs <;> exact ⟨rfl, rfl, rfl, rfl, rfl, rfl, rfl⟩
  · exact ⟨rfl, rfl, rfl, rfl, rfl, rfl, rfl⟩
  · unfold sendConditional
    split_ifs <;> exact ⟨rfl, rfl, rfl, rfl, rfl, rfl, rfl⟩
  · exact ⟨rfl, rfl, rfl, rfl, rfl, rfl, rfl⟩

/-- The record of a successful `createGate` satisfies the gate invariant. -/
theorem newGate_invariant (env : QuGateTest) (creator : m256i) (fee : Int)
    (input : createGate_input)
    (h : (env.createGate creator fee input).1.status = QUGATE_SUCCESS) (epoch : Nat) :
    GateInvariant (newGate creator epoch input) := by
  obtain ⟨-, -, hm, hr1, hr8, -, hsum, hover, hth, hasc⟩ :=
    createGate_success env creator fee input h
  have hr8c : input.recipientCount ≤ 8 := hr8
  rw [newGate_eq]
  refine ⟨hm, hr1, hr8, hasc, ?_, ?_⟩
  · intro hs
    have hs2 : input.mode = MODE_SPLIT := hs
    have hchk := (ratio_checks_iff input.ratios input.recipientCount hr8c).not.mp
      (by
        rintro (h0 | h0)
        · exact hsum ⟨hs2, h0⟩
        · exact hover ⟨hs2, h0⟩)
    have hall : ∀ i, i < input.recipientCount → input.ratios i ≤ 10000 := by
      intro i hi
      by_contra hc
      exact hchk (Or.inl ⟨i, hi, by omega⟩)
    have hpos : 0 < ratioSum input.ratios input.recipientCount := by
      rcases Nat.eq_zero_or_pos (ratioSum input.ratios input.recipientCount) with h0 | h0
      · exact absurd (Or.inr h0) hchk
      · exact h0
    refine ⟨hr1, hr8, ?_, ?_⟩
    · intro i hi
      exact le_of_eq_of_le
        (filled_apply input.ratios (fun _ => 0) input.recipientCount hr8c i hi) (hall i hi)
    · exact lt_of_lt_of_eq hpos
        (ratioSum_congr _ input.ratios input.recipientCount
          (filled_apply input.ratios (fun _ => 0) input.recipientCount hr8c)).symm
  · intro ht
    have ht2 : input.mode = MODE_THRESHOLD := ht
    show 0 < input.threshold
    rcases Nat.eq_zero_or_pos input.threshold with h0 | h0
    · exact absurd ⟨ht2, h0⟩ hth
    · exact h0

theorem specUpdateStatus_success (env : QuGateTest) (caller : m256i) (input : updateGate_input)
    (h : specUpdateStatus env caller input = QUGATE_SUCCESS) :
    1 ≤ input.recipientCount ∧ input.recipientCount ≤ 8 ∧ input.allowedSenderCount ≤ 8 ∧
    ¬ ((env.gate input.gateId).mode = MODE_SPLIT ∧
      ((∃ i, i < input.recipientCount ∧ input.ratios i > 10000) ∨
        ratioSum input.ratios input.recipientCount = 0)) ∧
    ¬ ((env.gate input.gateId).mode = MODE_THRESHOLD ∧ input.threshold = 0) := by
  revert h
  unfold specUpdateStatus
  split_ifs with h1 h2 h3 h4 h5 h6 h7
  all_goals intro h
  all_goals first
    | exact absurd h (by decide)
    | exact ⟨by omega, by omega, by omega, h6, h7⟩

/-- The record of a successful `updateGate` satisfies the gate invariant when
the record it replaces did. -/
theorem updatedGate_invariant (env : QuGateTest) (caller : m256i) (reward : Int)
    (input : updateGate_input)
    (h : (env.updateGate caller reward input).1.status = QUGATE_SUCCESS)
    (hg : GateInvariant (env.gate input.gateId)) (epoch : Nat) :
    GateInvariant (updatedGate (env.gate input.gateId) epoch input) := by
  rw [(updateGate_status env caller reward input).1] at h
  obtain ⟨hr1, hr8, hasc, hsplit, hth⟩ := specUpdateStatus_success env caller input h
  unfold updatedGate
  refine ⟨hg.1, hr1, hr8, hasc, ?_, ?_⟩
  · intro hs
    have hs2 : (env.gate input.gateId).mode = MODE_SPLIT := hs
    have hall : ∀ i, i < input.recipientCount → input.ratios i ≤ 10000 := by
      intro i hi
      by_contra hc
      exact hsplit ⟨hs2, Or.inl ⟨i, hi, by omega⟩⟩
    have hpos : 0 < ratioSum input.ratios input.recipientCount := by
      rcases Nat.eq_zero_or_pos (ratioSum input.ratios input.recipientCount) with h0 | h0
      · exact absurd ⟨hs2, Or.inr h0⟩ hsplit
      · exact h0
    refine ⟨hr1, hr8, ?_, ?_⟩
    · intro i hi
      exact le_of_eq_of_le
        (filled_apply input.ratios (env.gate input.gateId).ratios input.recipientCount hr8 i hi)
        (hall i hi)
    · exact lt_of_lt_of_eq hpos
        (ratioSum_congr _ input.ratios input.recipientCount
          (filled_apply input.ratios (env.gate input.gateId).ratios
            input.recipientCount hr8)).symm
  · intro ht
    have ht2 : (env.gate input.gateId).mode = MODE_THRESHOLD := ht
    show 0 < input.threshold
    rcases Nat.eq_zero_or_pos input.threshold with h0 | h0
    · exact absurd ⟨ht2, h0⟩ hth
    · exact h0

/-- Every active gate of a reachable registry satisfies the gate invariant. -/
theorem reachable_gateInvariant (env : QuGateTest) (h : Reachable env) :
    GatesAll GateInvariant env.state := by
  induction h with
  | init => intro i hact; exact absurd rfl hact
  | setTime env epoch tick _ _ _ ih => exact ih
  | resetQpi env _ ih => exact ih
  | createGate env creator fee input _ _ _ ih =>
    exact gatesAll_createGate _ env creator fee input ih
      (fun hs => newGate_invariant env creator fee input hs _)
  | sendToGate env sender gateId amount _ _ _ ih =>
    apply gatesAll_sendToGate _ env sender gateId amount ih
    intro _ _ _ _ hg
    obtain ⟨c1, c2, c3, c4, c5, -, -⟩ := sendByMode_config
      (receivedGate (env.gate gateId) env.qpi._epoch amount)
      (callQpi env.qpi sender amount) sender amount
    exact gateInvariant_congr (env.gate gateId) _ c1 c2 c3 c4 (fun i _ => by rw [c5]; rfl) hg
  | closeGate env caller gateId reward _ _ _ ih =>
    exact gatesAll_closeGate _ env caller gateId reward ih
  | updateGate env caller reward input _ _ _ ih =>
    exact gatesAll_updateGate _ env caller reward input ih
      (fun hs hg => updatedGate_invariant env caller reward input hs hg _)
  | endEpoch env _ ih => exact gatesAll_endEpoch _ env ih

/-- Claim C24 (gate invariant). In every reachable harness every active gate
has `mode ≤ 4`, `1 ≤ recipientCount ≤ 8` and `allowedSenderCount ≤ 8`; a Split
gate has each of its first `recipientCount` ratios at most 10000 and a positive
sum of them; a Threshold gate has a positive threshold. So the divisors of
`sendToGate` are not zero: the ratio sum computed by the Split branch (in
`uint64`) and the `recipientCount` of the RoundRobin and Random branches. -/
theorem gate_invariant (env : QuGateTest) (hr : Reachable env) (i : Nat)
    (hact : (env.state._gates i).active ≠ 0) :
    (env.state._gates i).mode ≤ 4 ∧
    1 ≤ (env.state._gates i).recipientCount ∧ (env.state._gates i).recipientCount ≤ 8 ∧
    (env.state._gates i).allowedSenderCount ≤ 8 ∧
    ((env.state._gates i).mode = MODE_SPLIT →
      (∀ j, j < (env.state._gates i).recipientCount → (env.state._gates i).ratios j ≤ 10000) ∧
      0 < ratioSum (env.state._gates i).ratios (env.state._gates i).recipientCount) ∧
    ((env.state._gates i).mode = MODE_THRESHOLD → 0 < (env.state._gates i).threshold) ∧
    ((env.state._gates i).mode = MODE_SPLIT →
      sumRatios (env.state._gates i).ratios (env.state._gates i).recipientCount ≠ 0) ∧
    (env.state._gates i).recipientCount ≠ 0 := by
  obtain ⟨h1, h2, h3, h4, h5, h6⟩ := reachable_gateInvariant env hr i hact
  refine ⟨h1, h2, h3, h4, fun hs => ⟨(h5 hs).2.2.1, (h5 hs).2.2.2⟩, h6, ?_, by omega⟩
  intro hs
  rw [sumRatios_of_invariant _ (h5 hs)]
  have := (h5 hs).2.2.2
  omega

theorem gate_invariant_witness :
    ((QuGateTest.new.createGate 1 1000 exampleSplitInput).2.state._gates 0).recipientCount ≤ 8 ∧
    sumRatios ((QuGateTest.new.createGate 1 1000 exampleSplitInput).2.state._gates 0).ratios
      ((QuGateTest.new.createGate 1 1000 exampleSplitInput).2.state._gates 0).recipientCount ≠
        0 :=
  have h := gate_invariant (QuGateTest.new.createGate 1 1000 exampleSplitInput).2
    (Reachable.createGate _ 1 1000 exampleSplitInput Reachable.init (by decide) (by decide))
    0 (by decide)
  ⟨h.2.2.1, h.2.2.2.2.2.2.1 (by decide)⟩

/-! ## The round-robin cursor after an update -/

/-- Claim C28 (the round-robin cursor), evaluated where the code departs from
it. After a RoundRobin gate with three recipients has received two sends and
has been updated by its owner to one recipient, the harness is reachable, the
gate is an active RoundRobin gate with `recipientCount = 1` and
`roundRobinIndex = 2`, and the next accepted send returns Success and
transfers the amount to `recipients[2]`, an entry the update has cleared: the
zero identity. -/
theorem roundRobin_cursor_escapes :
    Reachable shrunkRoundRobinEnv ∧
    (((QuGateTest.new.createGate 1 1000 exampleRoundRobin3Input).2.sendToGate 9 1 100).2.sendToGate
      9 1 200).1.status = QUGATE_SUCCESS ∧
    (((((QuGateTest.new.createGate 1 1000 exampleRoundRobin3Input).2.sendToGate
      9 1 100).2.sendToGate 9 1 200).2.updateGate 1 0 exampleUpdateInput).1.status =
        QUGATE_SUCCESS) ∧
    (shrunkRoundRobinEnv.gate 1).active = 1 ∧
    (shrunkRoundRobinEnv.gate 1).mode = MODE_ROUND_ROBIN ∧
    (shrunkRoundRobinEnv.gate 1).recipientCount = 1 ∧
    (shrunkRoundRobinEnv.gate 1).roundRobinIndex = 2 ∧
    ¬ (shrunkRoundRobinEnv.gate 1).roundRobinIndex < (shrunkRoundRobinEnv.gate 1).recipientCount ∧
    (shrunkRoundRobinEnv.gate 1).recipients 0 = 3 ∧
    (shrunkRoundRobinEnv.gate 1).recipients 2 = 0 ∧
    (shrunkRoundRobinEnv.sendToGate 9 1 500).1.status = QUGATE_SUCCESS ∧
    (shrunkRoundRobinEnv.sendToGate 9 1 500).2.qpi.transfers = [{ to_ := 0, amount := 500 }] := by
  refine ⟨?_, by decide, by decide, by decide, by decide, by decide, by decide, by decide,
    by decide, by decide, by decide, by decide⟩
  exact Reachable.updateGate _ 1 0 exampleUpdateInput
    (Reachable.sendToGate _ 9 1 200
      (Reachable.sendToGate _ 9 1 100
        (Reachable.createGate _ 1 1000 exampleRoundRobin3Input Reachable.init
          (by decide) (by decide))
        (by decide) (by decide))
      (by decide) (by decide))
    (by decide) (by decide)

/-! ## Histories of reachable registries -/

/-- A harness with a history is reachable, and so is every harness of its
history. -/
theorem history_reachable (h : List (QuGateTest × Call)) (env : QuGateTest)
    (hh : History h env) : Reachable env ∧ ∀ p, p ∈ h → Reachable p.1 := by
  induction hh with
  | init => exact ⟨Reachable.init, fun p hp => absurd hp (List.not_mem_nil p)⟩
  | setTime h env epoch tick _ h1 h2 ih =>
    refine ⟨Reachable.setTime env epoch tick ih.1 h1 h2, fun p hp => ?_⟩
    rcases List.mem_cons.mp hp with rfl | hp
    · exact ih.1
    · exact ih.2 p hp
  | resetQpi h env _ ih =>
    refine ⟨Reachable.resetQpi env ih.1, fun p hp => ?_⟩
    rcases List.mem_cons.mp hp with rfl | hp
    · exact ih.1
    · exact ih.2 p hp
  | createGate h env creator fee input _ h1 h2 ih =>
    refine ⟨Reachable.createGate env creator fee input ih.1 h1 h2, fun p hp => ?_⟩
    rcases List.mem_cons.mp hp with rfl | hp
    · exact ih.1
    · exact ih.2 p hp
  | sendToGate h env sender gateId amount _ h1 h2 ih =>
    refine ⟨Reachable.sendToGate env sender gateId amount ih.1 h1 h2, fun p hp => ?_⟩
    rcases List.mem_cons.mp hp with rfl | hp
    · exact ih.1
    · exact ih.2 p hp
  | closeGate h env caller gateId reward _ h1 h2 ih =>
    refine ⟨Reachable.closeGate env caller gateId reward ih.1 h1 h2, fun p hp => ?_⟩
    rcases List.mem_cons.mp hp with rfl | hp
    · exact ih.1
    · exact ih.2 p hp
  | updateGate h env caller reward input _ h1 h2 ih =>
    refine ⟨Reachable.updateGate env caller reward input ih.1 h1 h2, fun p hp => ?_⟩
    rcases List.mem_cons.mp hp with rfl | hp
    · exact ih.1
    · exact ih.2 p hp
  | endEpoch h env _ ih =>
    refine ⟨Reachable.endEpoch env ih.1, fun p hp => ?_⟩
    rcases List.mem_cons.mp hp with rfl | hp
    · exact ih.1
    · exact ih.2 p hp

/-- Every reachable harness has a history. -/
theorem reachable_history (env : QuGateTest) (hr : Reachable env) : ∃ h, History h env := by
  induction hr with
  | init => exact ⟨[], History.init⟩
  | setTime env epoch tick _ h1 h2 ih =>
    obtain ⟨h, hh⟩ := ih
    exact ⟨_, History.setTime h env epoch tick hh h1 h2⟩
  | resetQpi env _ ih =>
    obtain ⟨h, hh⟩ := ih
    exact ⟨_, History.resetQpi h env hh⟩
  | createGate env creator fee input _ h1 h2 ih =>
    obtain ⟨h, hh⟩ := ih
    exact ⟨_, History.createGate h env creator fee input hh h1 h2⟩
  | sendToGate env sender gateId amount _ h1 h2 ih =>
    obtain ⟨h, hh⟩ := ih
    exact ⟨_, History.sendToGate h env sender gateId amount hh h1 h2⟩
  | closeGate env caller gateId reward _ h1 h2 ih =>
    obtain ⟨h, hh⟩ := ih
    exact ⟨_, History.closeGate h env caller gateId reward hh h1 h2⟩
  | updateGate env caller reward input _ h1 h2 ih =>
    obtain ⟨h, hh⟩ := ih
    exact ⟨_, History.updateGate h env caller reward input hh h1 h2⟩
  | endEpoch env _ ih =>
    obtain ⟨h, hh⟩ := ih
    exact ⟨_, History.endEpoch h env hh⟩

/-! ## The balance held by a Threshold gate -/

theorem sendByMode_belowThreshold (gate : GateConfig) (qpi : TestQpiContext) (sender : m256i)
    (amount : Int) (hpos : gate.mode = MODE_THRESHOLD → 0 < gate.threshold) :
    BelowThreshold (sendByMode gate qpi sender amount).gate := by
  intro hm
  have hm2 : gate.mode = MODE_THRESHOLD := by
    rw [← (sendByMode_config gate qpi sender amount).1]; exact hm
  rw [sendByMode_threshold gate qpi sender amount hm2]
  unfold sendThreshold
  dsimp only
  by_cases hrel : (gate.currentBalance + toU64 amount) % U64 ≥ gate.threshold
  · rw [if_pos hrel]
    exact hpos hm2
  · rw [if_neg hrel]
    dsimp only
    omega

/-- Claim C30, as amended (a Threshold gate holds less than its threshold). In
every harness reached by a history in which no successful `updateGate` of a
Threshold gate sets a threshold at or below the balance the gate holds, every
active Threshold gate has `currentBalance < threshold`. -/
theorem threshold_balance_below (h : List (QuGateTest × Call)) (env : QuGateTest)
    (hh : History h env)
    (hok : ∀ (env0 : QuGateTest) (caller : m256i) (reward : Int) (input : updateGate_input),
      (env0, Call.updateGate caller reward input) ∈ h →
      (env0.updateGate caller reward input).1.status = QUGATE_SUCCESS →
      (env0.gate input.gateId).mode = MODE_THRESHOLD →
      (env0.gate input.gateId).currentBalance < input.threshold)
    (i : Nat) (hact : (env.state._gates i).active ≠ 0)
    (hmode : (env.state._gates i).mode = MODE_THRESHOLD) :
    (env.state._gates i).currentBalance < (env.state._gates i).threshold := by
  have key : GatesAll BelowThreshold env.state := by
    clear hact hmode i
    induction hh with
    | init => intro i hact; exact absurd rfl hact
    | setTime h env epoch tick _ _ _ ih =>
      exact ih (fun e c r inp hm => hok e c r inp (List.mem_cons_of_mem _ hm))
    | resetQpi h env _ ih =>
      exact ih (fun e c r inp hm => hok e c r inp (List.mem_cons_of_mem _ hm))
    | createGate h env creator fee input _ _ _ ih =>
      apply gatesAll_createGate _ env creator fee input
        (ih (fun e c r inp hm => hok e c r inp (List.mem_cons_of_mem _ hm)))
      intro hs hm
      have hinv := newGate_invariant env creator fee input hs env.qpi._epoch
      have hpos := hinv.2.2.2.2.2 hm
      rw [newGate_eq] at hpos ⊢
      exact hpos
    | sendToGate h env sender gateId amount hprev _ _ ih =>
      apply gatesAll_sendToGate _ env sender gateId amount
        (ih (fun e c r inp hm => hok e c r inp (List.mem_cons_of_mem _ hm)))
      intro _ hactive _ _ _
      have hg := reachable_gateInvariant env (history_reachable h env hprev).1 (gateId - 1)
        hactive
      exact sendByMode_belowThreshold _ _ _ _ (fun hm => hg.2.2.2.2.2 hm)
    | closeGate h env caller gateId reward _ _ _ ih =>
      exact gatesAll_closeGate _ env caller gateId reward
        (ih (fun e c r inp hm => hok e c r inp (List.mem_cons_of_mem _ hm)))
    | updateGate h env caller reward input _ _ _ ih =>
      apply gatesAll_updateGate _ env caller reward input
        (ih (fun e c r inp hm => hok e c r inp (List.mem_cons_of_mem _ hm)))
      intro hs _ hm
      exact hok env caller reward input (List.mem_cons_self _ _) hs hm
    | endEpoch h env _ ih =>
      exact gatesAll_endEpoch _ env
        (ih (fun e c r inp hm => hok e c r inp (List.mem_cons_of_mem _ hm)))
  exact key i hact hmode

theorem threshold_balance_below_witness :
    (((QuGateTest.new.createGate 1 1000 (exampleThresholdInput 500)).2.sendToGate
      9 1 300).2.state._gates 0).currentBalance <
    (((QuGateTest.new.createGate 1 1000 (exampleThresholdInput 500)).2.sendToGate
      9 1 300).2.state._gates 0).threshold :=
  threshold_balance_below _ _
    (History.sendToGate _ _ 9 1 300
      (History.createGate _ _ 1 1000 (exampleThresholdInput 500) History.init
        (by decide) (by decide))
      (by decide) (by decide))
    (fun env0 caller reward input hm _ _ => by
      simp only [List.mem_cons, Prod.mk.injEq, List.mem_nil_iff, or_false] at hm
      rcases hm with ⟨-, hc⟩ | ⟨-, hc⟩ <;> exact absurd hc (by intro hx; cases hx))
    0 (by decide) (by decide)

/-- Claim C30 as stated fails after an update that lowers the threshold: a
Threshold gate of threshold 500 holds 300, its owner updates the threshold to
100, and the harness reached holds an active Threshold gate with
`currentBalance = 300` and `threshold = 100`. -/
theorem threshold_balance_below_counterexample :
    Reachable ((heldEnv 500 300).updateGate 1 0 (exampleThresholdUpdate 100)).2 ∧
    ((heldEnv 500 300).updateGate 1 0 (exampleThresholdUpdate 100)).1.status = QUGATE_SUCCESS ∧
    (((heldEnv 500 300).updateGate 1 0 (exampleThresholdUpdate 100)).2.gate 1).active = 1 ∧
    (((heldEnv 500 300).updateGate 1 0 (exampleThresholdUpdate 100)).2.gate 1).mode =
      MODE_THRESHOLD ∧
    (((heldEnv 500 300).updateGate 1 0 (exampleThresholdUpdate 100)).2.gate 1).currentBalance =
      300 ∧
    (((heldEnv 500 300).updateGate 1 0 (exampleThresholdUpdate 100)).2.gate 1).threshold = 100 ∧
    ¬ (((heldEnv 500 300).updateGate 1 0 (exampleThresholdUpdate 100)).2.gate 1).currentBalance <
      (((heldEnv 500 300).updateGate 1 0 (exampleThresholdUpdate 100)).2.gate 1).threshold := by
  refine ⟨?_, by decide, by decide, by decide, by decide, by decide, by decide⟩
  exact Reachable.updateGate _ 1 0 (exampleThresholdUpdate 100)
    (Reachable.sendToGate _ 9 1 300
      (Reachable.createGate _ 1 1000 (exampleThresholdInput 500) Reachable.init
        (by decide) (by decide))
      (by decide) (by decide))
    (by decide) (by decide)

/-! ## The fee parameters are constant -/

theorem sameParams_createGate (env : QuGateTest) (creator : m256i) (fee : Int)
    (input : createGate_input) :
    SameParams env.state (env.createGate creator fee input).2.state := by
  by_cases hs : (env.createGate creator fee input).1.status = QUGATE_SUCCESS
  · rw [(createGate_success env creator fee input hs).1, createGateCommit_state]
    exact ⟨rfl, rfl, rfl⟩
  · rw [(createGate_failure env creator fee input hs).1]
    exact ⟨rfl, rfl, rfl⟩

theorem sameParams_sendToGate (env : QuGateTest) (sender : m256i) (gateId : Nat)
    (amount : Int) : SameParams env.state (env.sendToGate sender gateId amount).2.state := by
  by_cases hbad : gateId = 0 ∨ gateId > env.state._gateCount ∨ (env.gate gateId).active = 0
  · rw [sendToGate_badTarget_eq env sender gateId amount hbad]
    exact ⟨rfl, rfl, rfl⟩
  have hid : gateId ≠ 0 ∧ gateId ≤ env.state._gateCount := by
    constructor
    · intro h; exact hbad (Or.inl h)
    · by_contra h; exact hbad (Or.inr (Or.inl (by omega)))
  have hactive : (env.gate gateId).active ≠ 0 := fun h => hbad (Or.inr (Or.inr h))
  by_cases hdust : amount = 0 ∨ toU64 amount < env.state._minSendAmount
  · rw [sendToGate_dust_eq env sender gateId amount hid hactive hdust]
    by_cases hz : amount = 0
    · simp only [if_pos hz]
      exact ⟨rfl, rfl, rfl⟩
    · simp only [if_neg hz]
      exact ⟨rfl, rfl, rfl⟩
  · rw [sendToGate_accepted env sender gateId amount hid hactive
      (fun h => hdust (Or.inl h)) (fun h => hdust (Or.inr h))]
    exact ⟨rfl, rfl, rfl⟩

theorem sameParams_closeGate (env : QuGateTest) (caller : m256i) (gateId : Nat)
    (reward : Int) : SameParams env.state (env.closeGate caller gateId reward).2.state := by
  by_cases hs : (env.closeGate caller gateId reward).1.status = QUGATE_SUCCESS
  · rw [(closeGate_success env caller gateId reward hs).2.2.2.2]
    exact ⟨rfl, rfl, rfl⟩
  · rw [closeGate_failure env caller gateId reward hs]
    exact ⟨rfl, rfl, rfl⟩

theorem sameParams_updateGate (env : QuGateTest) (caller : m256i) (reward : Int)
    (input : updateGate_input) :
    SameParams env.state (env.updateGate caller reward input).2.state := by
  by_cases hs : (env.updateGate caller reward input).1.status = QUGATE_SUCCESS
  · rw [(updateGate_success env caller reward input hs).2.2.2.2.2.2.2]
    exact ⟨rfl, rfl, rfl⟩
  · rw [(updateGate_status env caller reward input).2.2 hs]
    exact ⟨rfl, rfl, rfl⟩

theorem sameParams_endEpochStep (env : QuGateTest) (i : Nat) :
    SameParams env.state (endEpochStep env i).state := by
  rcases endEpochStep_cases env i with ⟨-, -, -, heq⟩ | ⟨-, heq⟩
  · rw [heq]
    exact ⟨rfl, rfl, rfl⟩
  · rw [heq]
    exact ⟨rfl, rfl, rfl⟩

theorem sameParams_endEpoch (env : QuGateTest) : SameParams env.state env.endEpoch.state := by
  unfold QuGateTest.endEpoch
  generalize List.range env.state._gateCount = l
  induction l generalizing env with
  | nil => exact ⟨rfl, rfl, rfl⟩
  | cons i l ih =>
    rw [List.foldl_cons]
    obtain ⟨a1, a2, a3⟩ := sameParams_endEpochStep env i
    obtain ⟨b1, b2, b3⟩ := ih (endEpochStep env i)
    exact ⟨b1.trans a1, b2.trans a2, b3.trans a3⟩

/-- In every reachable registry the fee parameters are the defaults: creation
fee 1000, minimum send amount 10, expiry after 50 epochs. -/
theorem reachable_params (env : QuGateTest) (h : Reachable env) :
    env.state._creationFee = 1000 ∧ env.state._minSendAmount = 10 ∧
    env.state._expiryEpochs = 50 := by
  induction h with
  | init => exact ⟨rfl, rfl, rfl⟩
  | setTime env epoch tick _ _ _ ih => exact ih
  | resetQpi env _ ih => exact ih
  | createGate env creator fee input _ _ _ ih =>
    obtain ⟨a1, a2, a3⟩ := sameParams_createGate env creator fee input
    exact ⟨a1.trans ih.1, a2.trans ih.2.1, a3.trans ih.2.2⟩
  | sendToGate env sender gateId amount _ _ _ ih =>
    obtain ⟨a1, a2, a3⟩ := sameParams_sendToGate env sender gateId amount
    exact ⟨a1.trans ih.1, a2.trans ih.2.1, a3.trans ih.2.2⟩
  | closeGate env caller gateId reward _ _ _ ih =>
    obtain ⟨a1, a2, a3⟩ := sameParams_closeGate env caller gateId reward
    exact ⟨a1.trans ih.1, a2.trans ih.2.1, a3.trans ih.2.2⟩
  | updateGate env caller reward input _ _ _ ih =>
    obtain ⟨a1, a2, a3⟩ := sameParams_updateGate env caller reward input
    exact ⟨a1.trans ih.1, a2.trans ih.2.1, a3.trans ih.2.2⟩
  | endEpoch env _ ih =>
    obtain ⟨a1, a2, a3⟩ := sameParams_endEpoch env
    exact ⟨a1.trans ih.1, a2.trans ih.2.1, a3.trans ih.2.2⟩

/-! ## The loop of endEpoch in closed form -/

theorem endEpochStep_eq (env : QuGateTest) (i : Nat) :
    endEpochStep env i =
      if Expires env i then
        { state :=
            { env.state with
              _gates := Function.update env.state._gates i (closedGate (env.state._gates.get i)),
              _activeGates := (env.state._activeGates + (U64 - 1)) % U64,
              _freeSlots := Function.update env.state._freeSlots env.state._freeCount i,
              _freeCount := (env.state._freeCount + 1) % U64 },
          qpi := env.qpi.transferAll (expiryRefund env i) }
      else env := by
  simp only [endEpochStep, Expires, expiryRefund]
  by_cases h1 : (env.state._gates.get i).active = 1 ∧ env.state._expiryEpochs > 0
  · by_cases h2 : toU64 (((env.qpi.epoch : Int) -
        ((env.state._gates.get i).lastActivityEpoch : Int)) % 65536) ≥ env.state._expiryEpochs
    · have hE : (env.state._gates.get i).active = 1 ∧ env.state._expiryEpochs > 0 ∧
          toU64 (((env.qpi.epoch : Int) - ((env.state._gates.get i).lastActivityEpoch : Int))
            % 65536) ≥ env.state._expiryEpochs := ⟨h1.1, h1.2, h2⟩
      rw [if_pos h1, if_pos h2, if_pos hE]
      by_cases hb : (env.state._gates.get i).currentBalance > 0
      · simp only [closedGate, if_pos hb]
        rfl
      · simp only [closedGate, if_neg hb]
        rfl
    · have hE : ¬ ((env.state._gates.get i).active = 1 ∧ env.state._expiryEpochs > 0 ∧
          toU64 (((env.qpi.epoch : Int) - ((env.state._gates.get i).lastActivityEpoch : Int))
            % 65536) ≥ env.state._expiryEpochs) := fun hc => h2 hc.2.2
      rw [if_pos h1, if_neg h2, if_neg hE]
  · have hE : ¬ ((env.state._gates.get i).active = 1 ∧ env.state._expiryEpochs > 0 ∧
        toU64 (((env.qpi.epoch : Int) - ((env.state._gates.get i).lastActivityEpoch : Int))
          % 65536) ≥ env.state._expiryEpochs) := fun hc => h1 ⟨hc.1, hc.2.1⟩
    rw [if_neg h1, if_neg hE]

theorem transfer_epoch (q : TestQpiContext) (a : m256i) (b : Int) :
    (q.transfer a b)._epoch = q._epoch := by
  unfold TestQpiContext.transfer
  split <;> rfl

theorem transferAll_epoch (l : List Transfer) (q : TestQpiContext) :
    (q.transferAll l)._epoch = q._epoch := by
  unfold TestQpiContext.transferAll
  induction l generalizing q with
  | nil => rfl
  | cons t l ih => rw [List.foldl_cons, ih, transfer_epoch]

theorem transferAll_append (q : TestQpiContext) (l1 l2 : List Transfer) :
    q.transferAll (l1 ++ l2) = (q.transferAll l1).transferAll l2 := by
  unfold TestQpiContext.transferAll
  rw [List.foldl_append]

theorem expiredBelow_succ (env : QuGateTest) (n : Nat) :
    expiredBelow env (n + 1) = expiredBelow env n ++ (if Expires env n then [n] else []) := by
  unfold expiredBelow
  rw [List.range_succ, List.filter_append]
  by_cases h : Expires env n
  · rw [if_pos h]
    simp [h]
  · rw [if_neg h]
    simp [h]

theorem expiryTransfers_succ (env : QuGateTest) (n : Nat) :
    expiryTransfers env (n + 1) =
      expiryTransfers env n ++ (if Expires env n then expiryRefund env n else []) := by
  unfold expiryTransfers
  rw [expiredBelow_succ]
  by_cases h : Expires env n
  · rw [if_pos h, if_pos h]
    simp
  · rw [if_neg h, if_neg h]
    simp

theorem activeCount_mono (gates : QArray GateConfig) (n m : Nat) (h : n ≤ m) :
    activeCount gates n ≤ activeCount gates m := by
  induction m with
  | zero =>
    have hn : n = 0 := by omega
    rw [hn]
  | succ k ih =>
    by_cases hk : n = k + 1
    · rw [hk]
    · have h2 := ih (by omega)
      have h3 : activeCount gates (k + 1) =
          activeCount gates k + (if (gates k).active = 1 then 1 else 0) := rfl
      omega

theorem expiredBelow_length_le (env : QuGateTest) (n : Nat) :
    (expiredBelow env n).length ≤ activeCount env.state._gates n := by
  induction n with
  | zero => simp [expiredBelow]
  | succ k ih =>
    rw [expiredBelow_succ, List.length_append]
    unfold activeCount
    by_cases h : Expires env k
    · rw [if_pos h]
      have ha : (env.state._gates k).active = 1 := h.1
      rw [if_pos ha]
      simp only [List.length_singleton]
      omega
    · rw [if_neg h]
      simp only [List.length_nil]
      omega

/-! ## The loop of endEpoch equals its closed form -/

theorem state_alloc_eq (s : QuGateState) (g g2 : QArray GateConfig) (a a2 : Nat)
    (fs fs2 : QArray Nat) (fc fc2 : Nat) (hg : g = g2) (ha : a = a2) (hfs : fs = fs2)
    (hfc : fc = fc2) :
    ({ s with _gates := g, _activeGates := a, _freeSlots := fs, _freeCount := fc } : QuGateState) =
      { s with _gates := g2, _activeGates := a2, _freeSlots := fs2, _freeCount := fc2 } := by
  subst hg ha hfs hfc
  rfl

theorem expiredState_zero (env : QuGateTest) : expiredState env 0 = env.state := by
  have h0 : expiredBelow env 0 = [] := rfl
  unfold expiredState
  rw [h0]
  have hg : (fun i => if i < 0 ∧ Expires env i then closedGate (env.state._gates i)
      else env.state._gates i) = env.state._gates := by
    funext i
    rw [if_neg (fun h => Nat.not_lt_zero i h.1)]
  have hf : (fun k => if env.state._freeCount ≤ k ∧
      k < env.state._freeCount + ([] : List Nat).length then
        ([] : List Nat).getD (k - env.state._freeCount) 0
      else env.state._freeSlots k) = env.state._freeSlots := by
    funext k
    rw [if_neg]
    simp only [List.length_nil]
    omega
  rw [hg, hf]
  rfl

theorem expiredState_succ_neg (env : QuGateTest) (n : Nat) (h : ¬ Expires env n) :
    expiredState env (n + 1) = expiredState env n := by
  unfold expiredState
  rw [expiredBelow_succ, if_neg h, List.append_nil]
  apply state_alloc_eq
  · funext i
    by_cases hi : i = n
    · subst hi
      rw [if_neg (fun hc => h hc.2), if_neg (fun hc => h hc.2)]
    · exact if_congr ⟨fun hc => ⟨by omega, hc.2⟩, fun hc => ⟨by omega, hc.2⟩⟩ rfl rfl
  · rfl
  · rfl
  · rfl

theorem expiredState_succ_pos (env : QuGateTest) (n : Nat) (h : Expires env n)
    (ha : (expiredBelow env n).length + 1 ≤ env.state._activeGates)
    (ha2 : env.state._activeGates < U64)
    (hf : env.state._freeCount + (expiredBelow env n).length + 1 < U64) :
    ({ (expiredState env n) with
        _gates := Function.update (expiredState env n)._gates n
          (closedGate ((expiredState env n)._gates.get n)),
        _activeGates := ((expiredState env n)._activeGates + (U64 - 1)) % U64,
        _freeSlots := Function.update (expiredState env n)._freeSlots
          (expiredState env n)._freeCount n,
        _freeCount := ((expiredState env n)._freeCount + 1) % U64 } : QuGateState) =
      expiredState env (n + 1) := by
  have hU : (1 : Nat) < U64 := by norm_num [U64]
  unfold expiredState
  rw [expiredBelow_succ, if_pos h]
  simp only [QArray.get, List.length_append, List.length_singleton]
  apply state_alloc_eq
  · funext i
    by_cases hi : i = n
    · subst hi
      rw [Function.update_same, if_neg (fun hc => Nat.lt_irrefl _ hc.1),
        if_pos ⟨Nat.lt_succ_self _, h⟩]
    · rw [Function.update_noteq hi]
      exact if_congr ⟨fun hc => ⟨by omega, hc.2⟩, fun hc => ⟨by omega, hc.2⟩⟩ rfl rfl
  · have e : env.state._activeGates - (expiredBelow env n).length + (U64 - 1) =
        (env.state._activeGates - ((expiredBelow env n).length + 1)) + U64 := by omega
    rw [e, Nat.add_mod_right]
    exact Nat.mod_eq_of_lt (by omega)
  · funext k
    by_cases hk : k = env.state._freeCount + (expiredBelow env n).length
    · subst hk
      rw [Function.update_same, if_pos ⟨by omega, by omega⟩,
        List.getD_append_right _ _ _ _ (by omega)]
      have hz : env.state._freeCount + (expiredBelow env n).length - env.state._freeCount -
          (expiredBelow env n).length = 0 := by omega
      rw [hz]
      rfl
    · rw [Function.update_noteq hk]
      by_cases hin : env.state._freeCount ≤ k ∧
          k < env.state._freeCount + (expiredBelow env n).length
      · rw [if_pos hin, if_pos ⟨hin.1, by omega⟩, List.getD_append _ _ _ _ (by omega)]
      · rw [if_neg hin, if_neg (fun hc => hin ⟨hc.1, by omega⟩)]
  · exact Nat.mod_eq_of_lt hf

/-- The loop of `endEpoch` over the slots below `n`, in closed form. -/
theorem endEpochFold_eq (env : QuGateTest) (hinv : AllocatorInvariant env.state) (n : Nat)
    (hn : n ≤ env.state._gateCount) :
    (List.range n).foldl endEpochStep env =
      { state := expiredState env n, qpi := env.qpi.transferAll (expiryTransfers env n) } := by
  induction n with
  | zero =>
    rw [expiredState_zero]
    rfl
  | succ k ih =>
    rw [List.range_succ, List.foldl_append, List.foldl_cons, List.foldl_nil, ih (by omega),
      endEpochStep_eq]
    have hexp : Expires ⟨expiredState env k,
        env.qpi.transferAll (expiryTransfers env k)⟩ k ↔ Expires env k := by
      unfold Expires
      have hg : ((expiredState env k)._gates.get k) = env.state._gates.get k := by
        unfold expiredState QArray.get
        dsimp only
        rw [if_neg (fun hc => Nat.lt_irrefl _ hc.1)]
      have he : (env.qpi.transferAll (expiryTransfers env k)).epoch = env.qpi.epoch :=
        transferAll_epoch _ _
      have hx : (expiredState env k)._expiryEpochs = env.state._expiryEpochs := rfl
      dsimp only
      rw [hg, he, hx]
    have href : expiryRefund ⟨expiredState env k,
        env.qpi.transferAll (expiryTransfers env k)⟩ k = expiryRefund env k := by
      unfold expiryRefund
      have hg : ((expiredState env k)._gates.get k) = env.state._gates.get k := by
        unfold expiredState QArray.get
        dsimp only
        rw [if_neg (fun hc => Nat.lt_irrefl _ hc.1)]
      dsimp only
      rw [hg]
    by_cases h : Expires env k
    · rw [if_pos (hexp.mpr h), href, expiryTransfers_succ, if_pos h, transferAll_append]
      obtain ⟨h1, h2, h3, -, -, -, -⟩ := hinv
      have hlen := expiredBelow_length_le env (k + 1)
      rw [expiredBelow_succ, if_pos h, List.length_append, List.length_singleton] at hlen
      have hmono := activeCount_mono env.state._gates (k + 1) env.state._gateCount hn
      have hcap : QUGATE_MAX_GATES = 4096 := rfl
      have hU : (4096 : Nat) + 1 < U64 := by norm_num [U64]
      dsimp only
      rw [expiredState_succ_pos env k h (by omega) (by omega) (by omega)]
    · rw [if_neg (fun hc => h (hexp.mp hc)), expiryTransfers_succ, if_neg h, List.append_nil,
        expiredState_succ_neg env k h]

/-- The method `endEpoch` in closed form. -/
theorem endEpoch_eq (env : QuGateTest) (hinv : AllocatorInvariant env.state) :
    env.endEpoch =
      { state := expiredState env env.state._gateCount,
        qpi := env.qpi.transferAll (expiryTransfers env env.state._gateCount) } := by
  unfold QuGateTest.endEpoch
  exact endEpochFold_eq env hinv _ (Nat.le_refl _)

/-! ## Helpers for epoch expiry -/

theorem transferAll_of_room (l : List Transfer) (q : TestQpiContext)
    (h : q.transfers.length + l.length ≤ TestQpiContext.MAX_TRANSFERS) :
    q.transferAll l = { q with transfers := q.transfers ++ l } := by
  induction l generalizing q with
  | nil =>
    unfold TestQpiContext.transferAll
    rw [List.foldl_nil, List.append_nil]
  | cons t l ih =>
    have hstep : q.transferAll (t :: l) = (q.transfer t.to_ t.amount).transferAll l := rfl
    rw [List.length_cons] at h
    rw [hstep, transfer_of_room q _ _ (by omega), ih]
    · dsimp only
      rw [List.append_assoc]
      rfl
    · dsimp only
      rw [List.length_append, List.length_singleton]
      omega

theorem expires_iff (env : QuGateTest) (i : Nat) :
    Expires env i ↔
      (env.state._gates i).active = 1 ∧ 0 < env.state._expiryEpochs ∧
      (env.state._expiryEpochs : Int) ≤
        ((env.qpi._epoch : Int) - ((env.state._gates i).lastActivityEpoch : Int)) % 65536 := by
  unfold Expires TestQpiContext.epoch QArray.get
  have h0 : 0 ≤ ((env.qpi._epoch : Int) - ((env.state._gates i).lastActivityEpoch : Int))
      % 65536 := Int.emod_nonneg _ (by norm_num)
  have h1 : ((env.qpi._epoch : Int) - ((env.state._gates i).lastActivityEpoch : Int))
      % 65536 < 65536 := Int.emod_lt_of_pos _ (by norm_num)
  rw [toU64_of_nonneg _ h0 (by linarith)]
  constructor
  · rintro ⟨a, b, c⟩
    exact ⟨a, b, by omega⟩
  · rintro ⟨a, b, c⟩
    exact ⟨a, b, by omega⟩

theorem mem_expiredBelow (env : QuGateTest) (n i : Nat) :
    i ∈ expiredBelow env n ↔ i < n ∧ Expires env i := by
  unfold expiredBelow
  rw [List.mem_filter, List.mem_range, decide_eq_true_iff]

theorem expiryRefund_of_range (env : QuGateTest) (i : Nat)
    (h : (env.state._gates i).currentBalance < 2 ^ 63) :
    expiryRefund env i =
      if (env.state._gates i).currentBalance > 0 then
        [{ to_ := (env.state._gates i).owner,
           amount := ((env.state._gates i).currentBalance : Int) }]
      else [] := by
  unfold expiryRefund QArray.get
  rw [toS64_natCast _ h]

/-! ## Epoch expiry -/

/-- Claim C22, as amended (epoch expiry). In every reachable harness, with
current epoch `e`, a slot expires when it is active, `_expiryEpochs > 0` and
`((e - lastActivityEpoch) mod 2^16) ≥ _expiryEpochs`. After `endEpoch` a slot
below `_gateCount` is active exactly when it was active and does not expire;
each expiring slot keeps its fields but for `currentBalance` 0 and `active` 0;
every other slot is unchanged; `_activeGates` drops by the number of expired
slots and their indices are pushed on the free list in slot order above the
old entries; `_gateCount` and `_totalBurned` are as before. The calls of
`transfer` are, in slot order, one per expiring slot with a positive balance,
to its owner, of the `sint64` amount `(sint64)currentBalance` (the balance
itself when it is below `2^63`); they are appended to the log where it has
room. In particular with `E ≤ e < 2^16` an active gate with
`lastActivityEpoch = E` is closed when `e ≥ E + _expiryEpochs` and unchanged
when `e < E + _expiryEpochs`. -/
theorem epoch_expiry (env : QuGateTest) (hr : Reachable env) :
    (∀ i, Expires env i ↔
      (env.state._gates i).active = 1 ∧ 0 < env.state._expiryEpochs ∧
      (env.state._expiryEpochs : Int) ≤
        ((env.qpi._epoch : Int) - ((env.state._gates i).lastActivityEpoch : Int)) % 2 ^ 16) ∧
    (∀ i, i < env.state._gateCount →
      ((env.endEpoch.state._gates i).active = 1 ↔
        (env.state._gates i).active = 1 ∧ ¬ Expires env i)) ∧
    (∀ i, i < env.state._gateCount → Expires env i →
      env.endEpoch.state._gates i =
        { env.state._gates i with currentBalance := 0, active := 0 }) ∧
    (∀ i, ¬ (i < env.state._gateCount ∧ Expires env i) →
      env.endEpoch.state._gates i = env.state._gates i) ∧
    (∀ i, i ∈ expiredBelow env env.state._gateCount ↔
      i < env.state._gateCount ∧ Expires env i) ∧
    (expiredBelow env env.state._gateCount).length ≤ env.state._activeGates ∧
    env.endEpoch.state._activeGates =
      env.state._activeGates - (expiredBelow env env.state._gateCount).length ∧
    env.endEpoch.state._freeCount =
      env.state._freeCount + (expiredBelow env env.state._gateCount).length ∧
    (∀ k, k < env.state._freeCount →
      env.endEpoch.state._freeSlots k = env.state._freeSlots k) ∧
    (∀ j, j < (expiredBelow env env.state._gateCount).length →
      env.endEpoch.state._freeSlots (env.state._freeCount + j) =
        (expiredBelow env env.state._gateCount).getD j 0) ∧
    env.endEpoch.state._gateCount = env.state._gateCount ∧
    env.endEpoch.state._totalBurned = env.state._totalBurned ∧
    env.endEpoch.qpi = env.qpi.transferAll (expiryTransfers env env.state._gateCount) ∧
    (env.qpi.transfers.length + (expiryTransfers env env.state._gateCount).length ≤ 64 →
      env.endEpoch.qpi.transfers =
        env.qpi.transfers ++ expiryTransfers env env.state._gateCount) ∧
    (∀ i, (env.state._gates i).currentBalance < 2 ^ 63 →
      expiryRefund env i =
        if (env.state._gates i).currentBalance > 0 then
          [{ to_ := (env.state._gates i).owner,
             amount := ((env.state._gates i).currentBalance : Int) }]
        else []) ∧
    (∀ i, i < env.state._gateCount → (env.state._gates i).active = 1 →
      (env.state._gates i).lastActivityEpoch ≤ env.qpi._epoch → env.qpi._epoch < 2 ^ 16 →
      ((env.state._gates i).lastActivityEpoch + env.state._expiryEpochs ≤ env.qpi._epoch →
        (env.endEpoch.state._gates i).active = 0) ∧
      (env.qpi._epoch < (env.state._gates i).lastActivityEpoch + env.state._expiryEpochs →
        env.endEpoch.state._gates i = env.state._gates i)) := by
  have hinv := reachable_allocatorInvariant env hr
  have hpar := reachable_params env hr
  have heq := endEpoch_eq env hinv
  have hgate : ∀ i, env.endEpoch.state._gates i =
      if i < env.state._gateCount ∧ Expires env i then closedGate (env.state._gates i)
      else env.state._gates i := by
    intro i
    rw [heq]
    rfl
  have hlen : (expiredBelow env env.state._gateCount).length ≤ env.state._activeGates := by
    rw [hinv.2.1]
    exact expiredBelow_length_le env _
  have hfs : ∀ k, env.endEpoch.state._freeSlots k =
      if env.state._freeCount ≤ k ∧
          k < env.state._freeCount + (expiredBelow env env.state._gateCount).length then
        (expiredBelow env env.state._gateCount).getD (k - env.state._freeCount) 0
      else env.state._freeSlots k := by
    intro k
    rw [heq]
    rfl
  have h16 : (2 : Int) ^ 16 = 65536 := by norm_num
  refine ⟨?_, ?_, ?_, ?_, ?_, hlen, ?_, ?_, ?_, ?_, ?_, ?_, ?_, ?_, ?_, ?_⟩
  · intro i
    rw [h16]
    exact expires_iff env i
  · intro i hi
    rw [hgate i]
    by_cases h : Expires env i
    · rw [if_pos ⟨hi, h⟩, closedGate_eq]
      constructor
      · intro hc
        exact absurd (show (0 : Nat) = 1 from hc) (by decide)
      · intro hc
        exact absurd h hc.2
    · rw [if_neg (fun hc => h hc.2)]
      exact ⟨fun hc => ⟨hc, h⟩, fun hc => hc.1⟩
  · intro i hi h
    rw [hgate i, if_pos ⟨hi, h⟩, closedGate_eq]
  · intro i h
    rw [hgate i, if_neg h]
  · intro i
    exact mem_expiredBelow env _ i
  · rw [heq]
    rfl
  · rw [heq]
    rfl
  · intro k hk
    rw [hfs k, if_neg (fun hc => by omega)]
  · intro j hj
    rw [hfs _, if_pos ⟨by omega, by omega⟩]
    have e : env.state._freeCount + j - env.state._freeCount = j := by omega
    rw [e]
  · rw [heq]
    rfl
  · rw [heq]
    rfl
  · rw [heq]
  · intro hroom
    rw [heq]
    dsimp only
    rw [transferAll_of_room _ _ hroom]
  · intro i h
    exact expiryRefund_of_range env i h
  · intro i hi hact hle hlt
    have hexp := expires_iff env i
    have hmod : ((env.qpi._epoch : Int) - ((env.state._gates i).lastActivityEpoch : Int))
        % 65536 = (env.qpi._epoch : Int) - ((env.state._gates i).lastActivityEpoch : Int) := by
      have h2 : (2 : Nat) ^ 16 = 65536 := by norm_num
      rw [h2] at hlt
      exact Int.emod_eq_of_lt (by omega) (by omega)
    rw [hmod] at hexp
    constructor
    · intro hge
      have hE : Expires env i := hexp.mpr ⟨hact, by omega, by omega⟩
      rw [hgate i, if_pos ⟨hi, hE⟩, closedGate_eq]
    · intro hlt2
      have hE : ¬ Expires env i := fun hc => by
        have := (hexp.mp hc).2.2
        omega
      rw [hgate i, if_neg (fun hc => hE hc.2)]

/-- The test `GateExpiryRefundsBalance`: a Threshold gate holding 500, created
and last touched at epoch 100, expires at epoch 150; 500 is sent to the owner
and the slot is released. -/
theorem epoch_expiry_witness :
    Reachable (atEpoch (heldEnv 10000 500) 150) ∧
    ((atEpoch (heldEnv 10000 500) 150).endEpoch.state._gates 0).active = 0 ∧
    (atEpoch (heldEnv 10000 500) 150).endEpoch.state._activeGates = 0 ∧
    (atEpoch (heldEnv 10000 500) 150).endEpoch.state._freeCount = 1 ∧
    (atEpoch (heldEnv 10000 500) 150).endEpoch.qpi.transfers = [{ to_ := 1, amount := 500 }] := by
  have hr : Reachable (atEpoch (heldEnv 10000 500) 150) :=
    Reachable.setTime _ 150 _
      (Reachable.sendToGate _ 9 1 500
        (Reachable.createGate _ 1 1000 (exampleThresholdInput 10000) Reachable.init
          (by decide) (by decide))
        (by decide) (by decide))
      (by decide) (by decide)
  have h := epoch_expiry (atEpoch (heldEnv 10000 500) 150) hr
  obtain ⟨-, -, -, -, -, -, h7, h8, -, -, -, -, -, h14, -, h16⟩ := h
  refine ⟨hr, ?_, ?_, ?_, ?_⟩
  · exact (h16 0 (by decide) (by decide) (by decide) (by decide)).1 (by decide)
  · rw [h7]
    decide
  · rw [h8]
    decide
  · rw [h14 (by decide)]
    decide

/-- Claim C22 as stated fails where the held balance does not fit `sint64`:
a Threshold gate of threshold `2^63 + 5` that received `2^63 - 10` and then 10
at epoch 100 holds `2^63`; at epoch 150 it expires, and the one transfer of
`endEpoch` is of `-(2^63)`, not of the balance. -/
theorem epoch_expiry_counterexample :
    Reachable (atEpoch (heldEnv2 (2 ^ 63 + 5) (2 ^ 63 - 10) 10) 150) ∧
    (atEpoch (heldEnv2 (2 ^ 63 + 5) (2 ^ 63 - 10) 10) 150).state._gateCount = 1 ∧
    Expires (atEpoch (heldEnv2 (2 ^ 63 + 5) (2 ^ 63 - 10) 10) 150) 0 ∧
    ((atEpoch (heldEnv2 (2 ^ 63 + 5) (2 ^ 63 - 10) 10) 150).state._gates 0).owner = 1 ∧
    ((atEpoch (heldEnv2 (2 ^ 63 + 5) (2 ^ 63 - 10) 10) 150).state._gates 0).currentBalance =
      2 ^ 63 ∧
    (atEpoch (heldEnv2 (2 ^ 63 + 5) (2 ^ 63 - 10) 10) 150).endEpoch.qpi.transfers =
      [{ to_ := 1, amount := -(2 ^ 63) }] ∧
    (atEpoch (heldEnv2 (2 ^ 63 + 5) (2 ^ 63 - 10) 10) 150).endEpoch.qpi.transfers ≠
      [{ to_ := 1, amount := 2 ^ 63 }] := by
  refine ⟨?_, by decide, by decide, by decide, by decide, by decide, by decide⟩
  exact Reachable.setTime _ 150 _
    (Reachable.sendToGate _ 9 1 10
      (Reachable.sendToGate _ 9 1 (2 ^ 63 - 10)
        (Reachable.createGate _ 1 1000 (exampleThresholdInput (2 ^ 63 + 5)) Reachable.init
          (by decide) (by decide))
        (by decide) (by decide))
      (by decide) (by decide))
    (by decide) (by decide)

/-! ## What each call burns -/

theorem reachable_fee (env : QuGateTest) (hr : Reachable env) :
    env.currentEscalatedFee = 1000 * (1 + env.state._activeGates / 1024) ∧
    env.currentEscalatedFee ≤ 5000 := by
  obtain ⟨h1, h2, h3, -, -, -, -⟩ := reachable_allocatorInvariant env hr
  have hp := (reachable_params env hr).1
  have hcap : QUGATE_MAX_GATES = 4096 := rfl
  have hU : (5000 : Nat) < U64 := by norm_num [U64]
  have hdiv : env.state._activeGates / 1024 ≤ 4 := by
    have := Nat.div_le_div_right (c := 1024) (show env.state._activeGates ≤ 4096 by omega)
    omega
  have hlt : env.state._creationFee * (1 + env.state._activeGates / 1024) < U64 := by
    rw [hp]
    omega
  have he := currentEscalatedFee_exact env hlt
  rw [hp] at he
  exact ⟨he, by omega⟩

theorem burn_createGate (env : QuGateTest) (creator : m256i) (fee : Int)
    (input : createGate_input) (hfee : env.currentEscalatedFee < 2 ^ 63) :
    ((env.createGate creator fee input).1.status = QUGATE_SUCCESS →
      (env.createGate creator fee input).2.qpi.totalBurned = (env.currentEscalatedFee : Int) ∧
      (env.createGate creator fee input).2.state._totalBurned =
        (env.state._totalBurned + env.currentEscalatedFee) % U64) ∧
    ((env.createGate creator fee input).1.status ≠ QUGATE_SUCCESS →
      (env.createGate creator fee input).2.qpi.totalBurned = 0 ∧
      (env.createGate creator fee input).2.state._totalBurned = env.state._totalBurned) := by
  constructor
  · intro hs
    rw [(createGate_success env creator fee input hs).1, createGateCommit_state,
      createGateCommit_qpi _ _ _ _ _ _ rfl]
    dsimp only
    rw [toS64_natCast _ hfee]
    exact ⟨zero_add _, rfl⟩
  · intro hs
    obtain ⟨h1, h2, -⟩ := createGate_failure env creator fee input hs
    exact ⟨h2, by rw [h1]⟩

theorem burn_sendToGate (env : QuGateTest) (sender : m256i) (gateId : Nat) (amount : Int)
    (hmin : env.state._minSendAmount < 2 ^ 63) (ha : InS64 amount) :
    ((gateId ≠ 0 ∧ gateId ≤ env.state._gateCount) ∧ (env.gate gateId).active ≠ 0 ∧
        0 < amount ∧ amount < (env.state._minSendAmount : Int) →
      (env.sendToGate sender gateId amount).2.qpi.totalBurned = amount ∧
      (env.sendToGate sender gateId amount).2.state._totalBurned =
        (env.state._totalBurned + amount.toNat) % U64) ∧
    (¬ ((gateId ≠ 0 ∧ gateId ≤ env.state._gateCount) ∧ (env.gate gateId).active ≠ 0 ∧
        0 < amount ∧ amount < (env.state._minSendAmount : Int)) →
      (env.sendToGate sender gateId amount).2.qpi.totalBurned = 0 ∧
      (env.sendToGate sender gateId amount).2.state._totalBurned = env.state._totalBurned) := by
  have hU : (2 : Nat) ^ 63 < U64 := by norm_num [U64]
  constructor
  · rintro ⟨hid, hactive, hpos, hlt⟩
    obtain ⟨e1, e2⟩ := toU64_below env.state._minSendAmount amount hpos hlt (by omega)
    rw [sendToGate_dust_eq env sender gateId amount hid hactive (Or.inr e2)]
    dsimp only
    rw [if_neg (ne_of_gt hpos), if_neg (ne_of_gt hpos), e1]
    exact ⟨zero_add _, rfl⟩
  · intro hn
    by_cases hbad : gateId = 0 ∨ gateId > env.state._gateCount ∨ (env.gate gateId).active = 0
    · rw [sendToGate_badTarget_eq env sender gateId amount hbad]
      dsimp only
      by_cases hp : amount > 0
      · rw [if_pos hp, transfer_totalBurned]
        exact ⟨rfl, rfl⟩
      · rw [if_neg hp]
        exact ⟨rfl, rfl⟩
    have hid : gateId ≠ 0 ∧ gateId ≤ env.state._gateCount := by
      constructor
      · intro h; exact hbad (Or.inl h)
      · by_contra h; exact hbad (Or.inr (Or.inl (by omega)))
    have hactive : (env.gate gateId).active ≠ 0 := fun h => hbad (Or.inr (Or.inr h))
    by_cases hz : amount = 0
    · rw [sendToGate_dust_eq env sender gateId amount hid hactive (Or.inl hz)]
      dsimp only
      rw [if_pos hz, if_pos hz]
      exact ⟨rfl, rfl⟩
    have hnd : ¬ toU64 amount < env.state._minSendAmount := by
      intro hd
      apply hn
      refine ⟨hid, hactive, ?_⟩
      obtain ⟨a1, a2⟩ := ha
      have h64 : (2 : Int) ^ 64 = 18446744073709551616 := by norm_num
      have h63 : (2 : Int) ^ 63 = 9223372036854775808 := by norm_num
      have hn63 : (2 : Nat) ^ 63 = 9223372036854775808 := by norm_num
      rw [h63] at a1 a2
      rw [hn63] at hmin
      unfold toU64 at hd
      rw [h64] at hd
      by_cases hneg : amount < 0
      · have e : amount % 18446744073709551616 = amount + 18446744073709551616 := by
          rw [← Int.add_emod_self]
          exact Int.emod_eq_of_lt (by omega) (by omega)
        rw [e] at hd
        omega
      · have e : amount % 18446744073709551616 = amount :=
          Int.emod_eq_of_lt (by omega) (by omega)
        rw [e] at hd
        omega
    rw [sendToGate_accepted env sender gateId amount hid hactive hz hnd]
    dsimp only
    rw [sendByMode_totalBurned]
    exact ⟨rfl, rfl⟩

theorem burn_closeGate (env : QuGateTest) (caller : m256i) (gateId : Nat) (reward : Int) :
    (env.closeGate caller gateId reward).2.qpi.totalBurned = 0 ∧
    (env.closeGate caller gateId reward).2.state._totalBurned = env.state._totalBurned := by
  by_cases hs : (env.closeGate caller gateId reward).1.status = QUGATE_SUCCESS
  · rw [closeGate_success_qpi env caller gateId reward hs,
      (closeGate_success env caller gateId reward hs).2.2.2.2]
    exact ⟨rfl, rfl⟩
  · rw [closeGate_failure env caller gateId reward hs]
    refine ⟨?_, rfl⟩
    simp only [QuGateTest.closeGate] at hs ⊢
    by_cases h1 : gateId = 0 ∨ gateId > env.state._gateCount
    · simp only [if_pos h1]
      rfl
    simp only [if_neg h1] at hs ⊢
    by_cases h2 : ¬ (env.state._gates.get (gateId - 1)).owner = caller
    · simp only [if_pos h2]
      rfl
    simp only [if_neg h2] at hs ⊢
    by_cases h3 : (env.state._gates.get (gateId - 1)).active = 0
    · simp only [if_pos h3]
      rfl
    · simp only [if_neg h3] at hs
      exact absurd trivial hs

theorem burn_updateGate (env : QuGateTest) (caller : m256i) (reward : Int)
    (input : updateGate_input) :
    (env.updateGate caller reward input).2.qpi.totalBurned = 0 ∧
    (env.updateGate caller reward input).2.state._totalBurned = env.state._totalBurned := by
  constructor
  · rw [(updateGate_status env caller reward input).2.1]
    by_cases hp : reward > 0
    · rw [if_pos hp, transfer_totalBurned]
      rfl
    · rw [if_neg hp]
      rfl
  · by_cases hs : (env.updateGate caller reward input).1.status = QUGATE_SUCCESS
    · rw [(updateGate_success env caller reward input hs).2.2.2.2.2.2.2]
    · rw [(updateGate_status env caller reward input).2.2 hs]

theorem transferAll_totalBurned (l : List Transfer) (q : TestQpiContext) :
    (q.transferAll l).totalBurned = q.totalBurned := by
  unfold TestQpiContext.transferAll
  induction l generalizing q with
  | nil => rfl
  | cons t l ih => rw [List.foldl_cons, ih, transfer_totalBurned]

theorem burn_endEpoch (env : QuGateTest) (hinv : AllocatorInvariant env.state) :
    env.endEpoch.qpi.totalBurned = env.qpi.totalBurned ∧
    env.endEpoch.state._totalBurned = env.state._totalBurned := by
  rw [endEpoch_eq env hinv]
  exact ⟨transferAll_totalBurned _ _, rfl⟩

/-! ## The burn log of a reachable harness -/

theorem burnLog_reachable (l : List Int) (env : QuGateTest) (h : BurnLog l env) :
    Reachable env := by
  induction h with
  | init => exact Reachable.init
  | setTime l env epoch tick _ h1 h2 ih => exact Reachable.setTime env epoch tick ih h1 h2
  | resetQpi l env _ ih => exact Reachable.resetQpi env ih
  | createGate l env creator fee input _ h1 h2 ih =>
    exact Reachable.createGate env creator fee input ih h1 h2
  | sendToGate l env sender gateId amount _ h1 h2 ih =>
    exact Reachable.sendToGate env sender gateId amount ih h1 h2
  | closeGate l env caller gateId reward _ h1 h2 ih =>
    exact Reachable.closeGate env caller gateId reward ih h1 h2
  | updateGate l env caller reward input _ h1 h2 ih =>
    exact Reachable.updateGate env caller reward input ih h1 h2
  | endEpoch l env _ ih => exact Reachable.endEpoch env ih

theorem reachable_burnLog (env : QuGateTest) (h : Reachable env) : ∃ l, BurnLog l env := by
  induction h with
  | init => exact ⟨[], BurnLog.init⟩
  | setTime env epoch tick _ h1 h2 ih =>
    obtain ⟨l, hl⟩ := ih
    exact ⟨l, BurnLog.setTime l env epoch tick hl h1 h2⟩
  | resetQpi env _ ih =>
    obtain ⟨l, hl⟩ := ih
    exact ⟨l, BurnLog.resetQpi l env hl⟩
  | createGate env creator fee input _ h1 h2 ih =>
    obtain ⟨l, hl⟩ := ih
    exact ⟨_, BurnLog.createGate l env creator fee input hl h1 h2⟩
  | sendToGate env sender gateId amount _ h1 h2 ih =>
    obtain ⟨l, hl⟩ := ih
    exact ⟨_, BurnLog.sendToGate l env sender gateId amount hl h1 h2⟩
  | closeGate env caller gateId reward _ h1 h2 ih =>
    obtain ⟨l, hl⟩ := ih
    exact ⟨_, BurnLog.closeGate l env caller gateId reward hl h1 h2⟩
  | updateGate env caller reward input _ h1 h2 ih =>
    obtain ⟨l, hl⟩ := ih
    exact ⟨_, BurnLog.updateGate l env caller reward input hl h1 h2⟩
  | endEpoch env _ ih =>
    obtain ⟨l, hl⟩ := ih
    exact ⟨_, BurnLog.endEpoch l env hl⟩

theorem burn_step (tb tb2 : Nat) (b : Int) (s : Int) (hb : 0 ≤ b)
    (h1 : (tb : Int) = s % 2 ^ 64) (h2 : tb2 = (tb + b.toNat) % U64) :
    (tb2 : Int) = (b + s) % 2 ^ 64 := by
  have h64 : (2 : Int) ^ 64 = 18446744073709551616 := by norm_num
  rw [h64] at h1 ⊢
  rw [h2]
  push_cast
  rw [Int.toNat_of_nonneg hb, h1, Int.emod_add_emod, add_comm]

theorem nonneg_cons (x : Int) (l : List Int) (hx : 0 ≤ x) (hl : ∀ b, b ∈ l → 0 ≤ b) :
    ∀ b, b ∈ x :: l → 0 ≤ b := by
  intro b hmem
  rcases List.mem_cons.mp hmem with hb | hmem
  · rw [hb]
    exact hx
  · exact hl b hmem

/-- The registry's `_totalBurned` is the sum of the burn log modulo `2^64`,
and no entry of the log is negative. -/
theorem burnLog_sum (l : List Int) (env : QuGateTest) (h : BurnLog l env) :
    (env.state._totalBurned : Int) = l.sum % 2 ^ 64 ∧ ∀ b, b ∈ l → 0 ≤ b := by
  induction h with
  | init => exact ⟨rfl, fun b hb => absurd hb (List.not_mem_nil b)⟩
  | setTime l env epoch tick _ _ _ ih => exact ih
  | resetQpi l env _ ih => exact ih
  | createGate l env creator fee input hl _ _ ih =>
    have hr := burnLog_reachable l env hl
    have hfee : env.currentEscalatedFee < 2 ^ 63 := by
      have := (reachable_fee env hr).2
      have h63 : (2 : Nat) ^ 63 = 9223372036854775808 := by norm_num
      omega
    obtain ⟨hs1, hs2⟩ := burn_createGate env creator fee input hfee
    rw [List.sum_cons]
    by_cases hs : (env.createGate creator fee input).1.status = QUGATE_SUCCESS
    · obtain ⟨a1, a2⟩ := hs1 hs
      have hb : (0 : Int) ≤ (env.createGate creator fee input).2.qpi.totalBurned := by
        rw [a1]
        exact Int.ofNat_nonneg _
      refine ⟨burn_step _ _ _ _ hb ih.1 ?_, ?_⟩
      · rw [a2, a1, Int.toNat_ofNat]
      · exact nonneg_cons _ l hb ih.2
    · obtain ⟨a1, a2⟩ := hs2 hs
      rw [a1, a2, zero_add]
      exact ⟨ih.1, nonneg_cons 0 l (le_refl _) ih.2⟩
  | sendToGate l env sender gateId amount hl _ ha ih =>
    have hr := burnLog_reachable l env hl
    have hmin : env.state._minSendAmount < 2 ^ 63 := by
      rw [(reachable_params env hr).2.1]
      norm_num
    obtain ⟨hs1, hs2⟩ := burn_sendToGate env sender gateId amount hmin ha
    rw [List.sum_cons]
    by_cases hd : (gateId ≠ 0 ∧ gateId ≤ env.state._gateCount) ∧ (env.gate gateId).active ≠ 0 ∧
        0 < amount ∧ amount < (env.state._minSendAmount : Int)
    · obtain ⟨a1, a2⟩ := hs1 hd
      have hb : (0 : Int) ≤ (env.sendToGate sender gateId amount).2.qpi.totalBurned := by
        rw [a1]
        exact le_of_lt hd.2.2.1
      refine ⟨burn_step _ _ _ _ hb ih.1 ?_, ?_⟩
      · rw [a2, a1]
      · exact nonneg_cons _ l hb ih.2
    · obtain ⟨a1, a2⟩ := hs2 hd
      rw [a1, a2, zero_add]
      exact ⟨ih.1, nonneg_cons 0 l (le_refl _) ih.2⟩
  | closeGate l env caller gateId reward _ _ _ ih =>
    obtain ⟨a1, a2⟩ := burn_closeGate env caller gateId reward
    rw [List.sum_cons, a1, a2, zero_add]
    exact ⟨ih.1, nonneg_cons 0 l (le_refl _) ih.2⟩
  | updateGate l env caller reward input _ _ _ ih =>
    obtain ⟨a1, a2⟩ := burn_updateGate env caller reward input
    rw [List.sum_cons, a1, a2, zero_add]
    exact ⟨ih.1, nonneg_cons 0 l (le_refl _) ih.2⟩
  | endEpoch l env hl ih =>
    have hr := burnLog_reachable l env hl
    obtain ⟨a1, a2⟩ := burn_endEpoch env (reachable_allocatorInvariant env hr)
    rw [List.sum_cons, a1, a2, sub_self, zero_add]
    exact ⟨ih.1, nonneg_cons 0 l (le_refl _) ih.2⟩

/-! ## A family of dust sends -/

theorem dustEnv_succ (k : Nat) : dustEnv (k + 1) = ((dustEnv k).sendToGate 9 1 9).2 := by
  unfold dustEnv
  rw [Function.iterate_succ_apply']

theorem dustEnv_spec (k : Nat) :
    Reachable (dustEnv k) ∧ (dustEnv k).state._gateCount = 1 ∧
    ((dustEnv k).state._gates 0).active = 1 ∧
    (dustEnv k).state._totalBurned = (1000 + 9 * k) % U64 ∧
    ((dustEnv k).sendToGate 9 1 9).2.qpi.totalBurned = 9 ∧
    ((dustEnv k).sendToGate 9 1 9).2.state._totalBurned = (1000 + 9 * (k + 1)) % U64 := by
  have hU : U64 = 18446744073709551616 := by norm_num [U64]
  have key : ∀ env : QuGateTest, Reachable env → env.state._gateCount = 1 →
      (env.state._gates 0).active = 1 →
      (env.sendToGate 9 1 9).2.state._gateCount = 1 ∧
      ((env.sendToGate 9 1 9).2.state._gates 0).active = 1 ∧
      (env.sendToGate 9 1 9).2.qpi.totalBurned = 9 ∧
      (env.sendToGate 9 1 9).2.state._totalBurned = (env.state._totalBurned + 9) % U64 := by
    intro env hr hgc hact
    have hmin := (reachable_params env hr).2.1
    have hid : (1 : Nat) ≠ 0 ∧ 1 ≤ env.state._gateCount := ⟨by decide, by rw [hgc]⟩
    have hactive : (env.gate 1).active ≠ 0 := by
      have e : (env.gate 1).active = 1 := hact
      rw [e]
      decide
    have hdust : (9 : Int) = 0 ∨ toU64 9 < env.state._minSendAmount := by
      right
      rw [hmin]
      decide
    rw [sendToGate_dust_eq env 9 1 9 hid hactive hdust]
    dsimp only
    rw [if_neg (by decide), if_neg (by decide)]
    exact ⟨hgc, hact, rfl, rfl⟩
  have main : Reachable (dustEnv k) ∧ (dustEnv k).state._gateCount = 1 ∧
      ((dustEnv k).state._gates 0).active = 1 ∧
      (dustEnv k).state._totalBurned = (1000 + 9 * k) % U64 := by
    induction k with
    | zero =>
      refine ⟨?_, by decide, by decide, by decide⟩
      exact Reachable.createGate _ 1 1000 exampleSplitInput Reachable.init
        (by decide) (by decide)
    | succ n ih =>
      obtain ⟨hr, hgc, hact, htb⟩ := ih
      obtain ⟨k1, k2, -, k4⟩ := key (dustEnv n) hr hgc hact
      rw [dustEnv_succ]
      refine ⟨Reachable.sendToGate _ 9 1 9 hr (by norm_num [U64]) (by decide), k1, k2, ?_⟩
      rw [k4, htb, hU]
      omega
  obtain ⟨hr, hgc, hact, htb⟩ := main
  obtain ⟨-, -, k3, k4⟩ := key (dustEnv k) hr hgc hact
  refine ⟨hr, hgc, hact, htb, k3, ?_⟩
  rw [k4, htb, hU]
  omega

/-! ## The accounting of totalBurned -/

/-- Claim C25, as amended (`_totalBurned` accounting). Let `env` be reached
from the initial harness by calls whose host burns are `l`. Then no entry of
`l` is negative and `_totalBurned` is the sum of `l` modulo `2^64`, the sum
itself while that is below `2^64`. A call on `env` adds to `_totalBurned`, in
`uint64`, exactly what it hands to the host burn: `currentFee` for a successful
`createGate`, `amount` for a `sendToGate` with `0 < amount < _minSendAmount` on
an active gate, and 0 for every other call (failed `createGate`, any other
`sendToGate`, `closeGate`, `updateGate`, `endEpoch`); so `_totalBurned` does not
decrease in a call whose burn keeps it below `2^64`. -/
theorem totalBurned_accounting (l : List Int) (env : QuGateTest) (hl : BurnLog l env) :
    (∀ b, b ∈ l → 0 ≤ b) ∧
    (env.state._totalBurned : Int) = l.sum % 2 ^ 64 ∧
    (l.sum < 2 ^ 64 → (env.state._totalBurned : Int) = l.sum) ∧
    (∀ (creator : m256i) (fee : Int) (input : createGate_input),
      ((env.createGate creator fee input).1.status = QUGATE_SUCCESS →
        (env.createGate creator fee input).2.qpi.totalBurned = (env.currentEscalatedFee : Int) ∧
        (env.createGate creator fee input).2.state._totalBurned =
          (env.state._totalBurned + env.currentEscalatedFee) % U64 ∧
        (env.state._totalBurned + env.currentEscalatedFee < U64 →
          (env.createGate creator fee input).2.state._totalBurned =
            env.state._totalBurned + env.currentEscalatedFee)) ∧
      ((env.createGate creator fee input).1.status ≠ QUGATE_SUCCESS →
        (env.createGate creator fee input).2.qpi.totalBurned = 0 ∧
        (env.createGate creator fee input).2.state._totalBurned = env.state._totalBurned)) ∧
    (∀ (sender : m256i) (gateId : Nat) (amount : Int), InS64 amount →
      ((gateId ≠ 0 ∧ gateId ≤ env.state._gateCount) ∧ (env.gate gateId).active ≠ 0 ∧
          0 < amount ∧ amount < (env.state._minSendAmount : Int) →
        (env.sendToGate sender gateId amount).2.qpi.totalBurned = amount ∧
        (env.sendToGate sender gateId amount).2.state._totalBurned =
          (env.state._totalBurned + amount.toNat) % U64 ∧
        (env.state._totalBurned + amount.toNat < U64 →
          (env.sendToGate sender gateId amount).2.state._totalBurned =
            env.state._totalBurned + amount.toNat)) ∧
      (¬ ((gateId ≠ 0 ∧ gateId ≤ env.state._gateCount) ∧ (env.gate gateId).active ≠ 0 ∧
          0 < amount ∧ amount < (env.state._minSendAmount : Int)) →
        (env.sendToGate sender gateId amount).2.qpi.totalBurned = 0 ∧
        (env.sendToGate sender gateId amount).2.state._totalBurned =
          env.state._totalBurned)) ∧
    (∀ (caller : m256i) (gateId : Nat) (reward : Int),
      (env.closeGate caller gateId reward).2.qpi.totalBurned = 0 ∧
      (env.closeGate caller gateId reward).2.state._totalBurned = env.state._totalBurned) ∧
    (∀ (caller : m256i) (reward : Int) (input : updateGate_input),
      (env.updateGate caller reward input).2.qpi.totalBurned = 0 ∧
      (env.updateGate caller reward input).2.state._totalBurned = env.state._totalBurned) ∧
    (env.endEpoch.qpi.totalBurned = env.qpi.totalBurned ∧
      env.endEpoch.state._totalBurned = env.state._totalBurned) := by
  have hr := burnLog_reachable l env hl
  obtain ⟨hsum, hnn⟩ := burnLog_sum l env hl
  have hfee : env.currentEscalatedFee < 2 ^ 63 := by
    have := (reachable_fee env hr).2
    have h63 : (2 : Nat) ^ 63 = 9223372036854775808 := by norm_num
    omega
  have hmin : env.state._minSendAmount < 2 ^ 63 := by
    rw [(reachable_params env hr).2.1]
    norm_num
  refine ⟨hnn, hsum, ?_, ?_, ?_, ?_, ?_, ?_⟩
  · intro hlt
    rw [hsum]
    exact Int.emod_eq_of_lt (List.sum_nonneg hnn) hlt
  · intro creator fee input
    obtain ⟨h1, h2⟩ := burn_createGate env creator fee input hfee
    refine ⟨fun hs => ⟨(h1 hs).1, (h1 hs).2, fun hlt => ?_⟩, h2⟩
    rw [(h1 hs).2]
    exact Nat.mod_eq_of_lt hlt
  · intro sender gateId amount ha
    obtain ⟨h1, h2⟩ := burn_sendToGate env sender gateId amount hmin ha
    refine ⟨fun hs => ⟨(h1 hs).1, (h1 hs).2, fun hlt => ?_⟩, h2⟩
    rw [(h1 hs).2]
    exact Nat.mod_eq_of_lt hlt
  · intro caller gateId reward
    exact burn_closeGate env caller gateId reward
  · intro caller reward input
    exact burn_updateGate env caller reward input
  · exact burn_endEpoch env (reachable_allocatorInvariant env hr)

/-- The test `TotalBurnedTracking`: the burns 1000, 5 and 1000 add up to the
`_totalBurned` of 2005. -/
theorem totalBurned_accounting_witness :
    BurnLog [1000, 5, 1000] burnedEnv ∧ (burnedEnv.state._totalBurned : Int) = 2005 := by
  have h1 := BurnLog.createGate [] QuGateTest.new 1 1000 exampleSplitInput BurnLog.init
    (by decide) (by decide)
  rw [show (QuGateTest.new.createGate 1 1000 exampleSplitInput).2.qpi.totalBurned = 1000
    from by decide] at h1
  have h2 := BurnLog.sendToGate _ _ 1 1 5 h1 (by norm_num [U64]) (by decide)
  rw [show ((QuGateTest.new.createGate 1 1000 exampleSplitInput).2.sendToGate
    1 1 5).2.qpi.totalBurned = 5 from by decide] at h2
  have h3 := BurnLog.createGate _ _ 1 1000 exampleSplitInput h2 (by decide) (by decide)
  rw [show (((QuGateTest.new.createGate 1 1000 exampleSplitInput).2.sendToGate
    1 1 5).2.createGate 1 1000 exampleSplitInput).2.qpi.totalBurned = 1000 from by decide] at h3
  have hl : BurnLog [1000, 5, 1000] burnedEnv := h3
  exact ⟨hl, (totalBurned_accounting [1000, 5, 1000] burnedEnv hl).2.2.1 (by decide)⟩

/-- Claim C25 as stated fails where `_totalBurned` wraps around: after a gate
is created and 2049638230412172290 dust sends of 9 are made to it, the
reachable registry has `_totalBurned = 2^64 - 6`; one more dust send of 9 hands
9 to the host burn and leaves `_totalBurned = 3`, which is less than before. -/
theorem totalBurned_accounting_counterexample :
    Reachable (dustEnv 2049638230412172290) ∧
    (dustEnv 2049638230412172290).state._totalBurned = 18446744073709551610 ∧
    ((dustEnv 2049638230412172290).sendToGate 9 1 9).2.qpi.totalBurned = 9 ∧
    ((dustEnv 2049638230412172290).sendToGate 9 1 9).2.state._totalBurned = 3 ∧
    ((dustEnv 2049638230412172290).sendToGate 9 1 9).2.state._totalBurned <
      (dustEnv 2049638230412172290).state._totalBurned := by
  obtain ⟨h1, -, -, h4, h5, h6⟩ := dustEnv_spec 2049638230412172290
  have e4 : (1000 + 9 * 2049638230412172290) % U64 = 18446744073709551610 := by
    norm_num [U64]
  have e6 : (1000 + 9 * (2049638230412172290 + 1)) % U64 = 3 := by
    norm_num [U64]
  rw [e4] at h4
  rw [e6] at h6
  refine ⟨h1, h4, h5, h6, ?_⟩
  rw [h4, h6]
  norm_num

/-! ## Per-gate accounting of a send -/

theorem accounted_congr (rej : Nat) (g g2 : GateConfig) (hm : g2.mode = g.mode)
    (hr : g2.totalReceived = g.totalReceived) (hf : g2.totalForwarded = g.totalForwarded)
    (hb : g2.currentBalance = g.currentBalance) (h : Accounted rej g) : Accounted rej g2 := by
  unfold Accounted at h ⊢
  rw [hm, hr, hf, hb]
  exact h

theorem sendByMode_accounted (g : GateConfig) (q : TestQpiContext) (sender : m256i) (a : Nat)
    (rej epoch : Nat) (hq : q.transfers = []) (hinv : GateInvariant g) (ha : a < 2 ^ 63)
    (hov : g.totalReceived + a < U64) (hacc : Accounted rej g) :
    Accounted
      (if (sendByMode (receivedGate g epoch (a : Int)) q sender (a : Int)).status =
          QUGATE_CONDITIONAL_REJECTED then rej + a else rej)
      (sendByMode (receivedGate g epoch (a : Int)) q sender (a : Int)).gate := by
  have ha64 : a < U64 := by
    have : (2 : Nat) ^ 63 < U64 := by norm_num [U64]
    omega
  have hU : toU64 (a : Int) = a := toU64_natCast a ha64
  have hrecv : (receivedGate g epoch (a : Int)).totalReceived = g.totalReceived + a := by
    unfold receivedGate
    dsimp only
    rw [hU]
    exact Nat.mod_eq_of_lt hov
  obtain ⟨hle, hfull, hthr, hcond⟩ := hacc
  obtain ⟨hmode, -, -, -, hsplit, -⟩ := hinv
  have hm : (receivedGate g epoch (a : Int)).mode = g.mode := rfl
  have hf0 : (receivedGate g epoch (a : Int)).totalForwarded = g.totalForwarded := rfl
  have hb0 : (receivedGate g epoch (a : Int)).currentBalance = g.currentBalance := rfl
  have hcases : g.mode = MODE_SPLIT ∨ g.mode = MODE_ROUND_ROBIN ∨ g.mode = MODE_THRESHOLD ∨
      g.mode = MODE_RANDOM ∨ g.mode = MODE_CONDITIONAL := by
    have : g.mode ≤ 4 := hmode
    show g.mode = 0 ∨ g.mode = 1 ∨ g.mode = 2 ∨ g.mode = 3 ∨ g.mode = 4
    omega
  rcases hcases with h0 | h1 | h2 | h3 | h4
  · -- Split
    have hd : sendByMode (receivedGate g epoch (a : Int)) q sender (a : Int) =
        sendSplit (receivedGate g epoch (a : Int)) q (a : Int) := by
      unfold sendByMode
      rw [if_pos (hm.trans h0)]
    rw [hd]
    have hS : SplitInvariant (receivedGate g epoch (a : Int)) := hsplit h0
    obtain ⟨e1, e2⟩ := hfull (Or.inl h0)
    have hst : (sendSplit (receivedGate g epoch (a : Int)) q (a : Int)).status =
        QUGATE_SUCCESS := rfl
    have hg : (sendSplit (receivedGate g epoch (a : Int)) q (a : Int)).gate =
        { receivedGate g epoch (a : Int) with
          totalForwarded := ((receivedGate g epoch (a : Int)).totalForwarded + a) % U64 } := by
      unfold sendSplit
      dsimp only
      rw [sumRatios_of_invariant _ hS, splitLoop_eq _ a q hq hS ha]
    rw [hst, if_neg (by decide), hg]
    unfold Accounted
    dsimp only
    rw [hrecv, hf0, hb0, Nat.mod_eq_of_lt (by omega), hm]
    refine ⟨by omega, fun _ => ⟨by omega, e2⟩, fun h => ?_, fun h => ?_⟩
    · rw [h0] at h
      exact absurd h (by decide)
    · rw [h0] at h
      exact absurd h (by decide)
  · -- RoundRobin
    rw [sendByMode_roundRobin _ _ _ _ (hm.trans h1)]
    obtain ⟨e1, e2⟩ := hfull (Or.inr (Or.inl h1))
    unfold sendRoundRobin
    dsimp only
    rw [if_neg (by decide)]
    unfold Accounted
    dsimp only
    rw [hrecv, hf0, hb0, hU, Nat.mod_eq_of_lt (by omega), hm]
    refine ⟨by omega, fun _ => ⟨by omega, e2⟩, fun h => ?_, fun h => ?_⟩
    · rw [h1] at h
      exact absurd h (by decide)
    · rw [h1] at h
      exact absurd h (by decide)
  · -- Threshold
    rw [sendByMode_threshold _ _ _ _ (hm.trans h2)]
    have e := hthr h2
    unfold sendThreshold
    dsimp only
    rw [hb0, hU, Nat.mod_eq_of_lt (by omega)]
    by_cases hge : g.currentBalance + a ≥ (receivedGate g epoch (a : Int)).threshold
    · rw [if_pos hge]
      dsimp only
      rw [if_neg (by decide)]
      unfold Accounted
      dsimp only
      rw [hrecv, hf0, Nat.mod_eq_of_lt (by omega), hm]
      refine ⟨by omega, fun h => ?_, fun _ => by omega, fun h => ?_⟩
      · rw [h2] at h
        rcases h with h | h | h <;> exact absurd h (by decide)
      · rw [h2] at h
        exact absurd h (by decide)
    · rw [if_neg hge]
      dsimp only
      rw [if_neg (by decide)]
      unfold Accounted
      dsimp only
      rw [hrecv, hf0, hm]
      refine ⟨by omega, fun h => ?_, fun _ => by omega, fun h => ?_⟩
      · rw [h2] at h
        rcases h with h | h | h <;> exact absurd h (by decide)
      · rw [h2] at h
        exact absurd h (by decide)
  · -- Random
    rw [sendByMode_random _ _ _ _ (hm.trans h3)]
    obtain ⟨e1, e2⟩ := hfull (Or.inr (Or.inr h3))
    unfold sendRandom
    dsimp only
    rw [if_neg (by decide)]
    unfold Accounted
    dsimp only
    rw [hrecv, hf0, hb0, hU, Nat.mod_eq_of_lt (by omega), hm]
    refine ⟨by omega, fun _ => ⟨by omega, e2⟩, fun h => ?_, fun h => ?_⟩
    · rw [h3] at h
      exact absurd h (by decide)
    · rw [h3] at h
      exact absurd h (by decide)
  · -- Conditional
    rw [sendByMode_conditional _ _ _ _ (hm.trans h4)]
    obtain ⟨e1, e2⟩ := hcond h4
    unfold sendConditional
    by_cases hal : senderAllowed (receivedGate g epoch (a : Int)) sender = true
    · rw [if_pos hal]
      dsimp only
      rw [if_neg (by decide)]
      unfold Accounted
      dsimp only
      rw [hrecv, hf0, hb0, hU, Nat.mod_eq_of_lt (by omega), hm]
      refine ⟨by omega, fun h => ?_, fun h => ?_, fun _ => ⟨e1, by omega⟩⟩
      · rw [h4] at h
        rcases h with h | h | h <;> exact absurd h (by decide)
      · rw [h4] at h
        exact absurd h (by decide)
    · rw [if_neg hal]
      dsimp only
      rw [if_pos rfl]
      unfold Accounted
      rw [hrecv, hf0, hb0, hm]
      refine ⟨by omega, fun h => ?_, fun h => ?_, fun _ => ⟨e1, by omega⟩⟩
      · rw [h4] at h
        rcases h with h | h | h <;> exact absurd h (by decide)
      · rw [h4] at h
        exact absurd h (by decide)

/-! ## The ledger of a reachable harness -/

theorem ledger_reachable (rej : Nat → Nat) (env : QuGateTest) (h : Ledger rej env) :
    Reachable env := by
  induction h with
  | init => exact Reachable.init
  | setTime rej env epoch tick _ h1 h2 ih => exact Reachable.setTime env epoch tick ih h1 h2
  | resetQpi rej env _ ih => exact Reachable.resetQpi env ih
  | createGate rej env creator fee input _ h1 h2 ih =>
    exact Reachable.createGate env creator fee input ih h1 h2
  | sendToGate rej env sender gateId amount _ h1 h2 _ _ ih =>
    exact Reachable.sendToGate env sender gateId amount ih h1 h2
  | closeGate rej env caller gateId reward _ h1 h2 ih =>
    exact Reachable.closeGate env caller gateId reward ih h1 h2
  | updateGate rej env caller reward input _ h1 h2 ih =>
    exact Reachable.updateGate env caller reward input ih h1 h2
  | endEpoch rej env _ ih => exact Reachable.endEpoch env ih

theorem accounted_update (rej rej2 : Nat → Nat) (gates gates2 : QArray GateConfig) (idx : Nat)
    (g : GateConfig) (h2 : gates2 = Function.update gates idx g)
    (hr : ∀ i, i ≠ idx → rej2 i = rej i)
    (hP : ∀ i, (gates i).active ≠ 0 → Accounted (rej i) (gates i))
    (hg : g.active ≠ 0 → Accounted (rej2 idx) g) :
    ∀ i, (gates2 i).active ≠ 0 → Accounted (rej2 i) (gates2 i) := by
  intro i hact
  rw [h2] at hact ⊢
  by_cases hi : i = idx
  · rw [hi, Function.update_same] at hact ⊢
    exact hg hact
  · rw [Function.update_noteq hi] at hact ⊢
    rw [hr i hi]
    exact hP i hact

theorem accounted_createGate (rej : Nat → Nat) (env : QuGateTest) (creator : m256i)
    (fee : Int) (input : createGate_input) (hinv : AllocatorInvariant env.state)
    (hP : ∀ i, (env.state._gates i).active ≠ 0 → Accounted (rej i) (env.state._gates i)) :
    ∀ i, ((env.createGate creator fee input).2.state._gates i).active ≠ 0 →
      Accounted
        ((if (env.createGate creator fee input).1.status = QUGATE_SUCCESS then
          Function.update rej ((env.createGate creator fee input).1.gateId - 1) 0
        else rej) i)
        ((env.createGate creator fee input).2.state._gates i) := by
  by_cases hs : (env.createGate creator fee input).1.status = QUGATE_SUCCESS
  · obtain ⟨hid, hg, -⟩ := createGate_success_state env creator fee input hinv hs
    rw [if_pos hs, hid, Nat.add_sub_cancel]
    apply accounted_update rej _ env.state._gates _ (allocSlot env.state)
      (newGate creator env.qpi._epoch input) hg
      (fun i hi => Function.update_noteq hi _ _) hP
    intro _
    rw [Function.update_same, newGate_eq]
    unfold Accounted
    dsimp only
    exact ⟨le_refl _, fun _ => ⟨rfl, rfl⟩, fun _ => rfl, fun _ => ⟨rfl, rfl⟩⟩
  · rw [if_neg hs, (createGate_failure env creator fee input hs).1]
    exact hP

theorem accounted_sendToGate (rej : Nat → Nat) (env : QuGateTest) (sender : m256i)
    (gateId : Nat) (amount : Int) (hr : Reachable env) (ha : InS64 amount) (h0 : 0 ≤ amount)
    (hov : gateId ≠ 0 → gateId ≤ env.state._gateCount →
      ((env.gate gateId).totalReceived : Int) + amount < 2 ^ 64)
    (hP : ∀ i, (env.state._gates i).active ≠ 0 → Accounted (rej i) (env.state._gates i)) :
    ∀ i, ((env.sendToGate sender gateId amount).2.state._gates i).active ≠ 0 →
      Accounted
        ((if (env.sendToGate sender gateId amount).1.status = QUGATE_CONDITIONAL_REJECTED then
          Function.update rej (gateId - 1) (rej (gateId - 1) + amount.toNat)
        else rej) i)
        ((env.sendToGate sender gateId amount).2.state._gates i) := by
  by_cases hbad : gateId = 0 ∨ gateId > env.state._gateCount ∨ (env.gate gateId).active = 0
  · rw [sendToGate_badTarget_eq env sender gateId amount hbad]
    dsimp only
    by_cases hx : gateId = 0 ∨ gateId > env.state._gateCount
    · rw [if_pos hx, if_neg (by decide)]
      exact hP
    · rw [if_neg hx, if_neg (by decide)]
      exact hP
  have hid : gateId ≠ 0 ∧ gateId ≤ env.state._gateCount := by
    constructor
    · intro h; exact hbad (Or.inl h)
    · by_contra h; exact hbad (Or.inr (Or.inl (by omega)))
  have hactive : (env.gate gateId).active ≠ 0 := fun h => hbad (Or.inr (Or.inr h))
  by_cases hdust : amount = 0 ∨ toU64 amount < env.state._minSendAmount
  · rw [sendToGate_dust_eq env sender gateId amount hid hactive hdust]
    dsimp only
    have hne : ¬ (QUGATE_DUST_AMOUNT = QUGATE_CONDITIONAL_REJECTED) := by decide
    rw [if_neg hne]
    by_cases hz : amount = 0
    · rw [if_pos hz]
      exact hP
    · rw [if_neg hz]
      exact hP
  · have hnz : amount ≠ 0 := fun h => hdust (Or.inl h)
    have hmin : ¬ toU64 amount < env.state._minSendAmount := fun h => hdust (Or.inr h)
    rw [sendToGate_accepted env sender gateId amount hid hactive hnz hmin]
    dsimp only
    obtain ⟨a, rfl⟩ := Int.eq_ofNat_of_zero_le h0
    have h63 : (2 : Int) ^ 63 = 9223372036854775808 := by norm_num
    have h64 : (2 : Int) ^ 64 = 18446744073709551616 := by norm_num
    have hn63 : (2 : Nat) ^ 63 = 9223372036854775808 := by norm_num
    have hU : U64 = 18446744073709551616 := by norm_num [U64]
    have ha63 : a < 2 ^ 63 := by
      have := ha.2
      rw [h63] at this
      rw [hn63]
      omega
    have hov2 : (env.gate gateId).totalReceived + a < U64 := by
      have := hov hid.1 hid.2
      rw [h64] at this
      rw [hU]
      omega
    have hinv := reachable_gateInvariant env hr (gateId - 1) hactive
    have hstep := sendByMode_accounted (env.gate gateId) (callQpi env.qpi sender (a : Int))
      sender a (rej (gateId - 1)) env.qpi._epoch rfl hinv ha63 hov2 (hP (gateId - 1) hactive)
    rw [Int.toNat_ofNat]
    apply accounted_update rej _ env.state._gates _ (gateId - 1) _ rfl _ hP
    · intro _
      by_cases hst : (sendByMode (receivedGate (env.gate gateId) env.qpi._epoch (a : Int))
          (callQpi env.qpi sender (a : Int)) sender (a : Int)).status =
          QUGATE_CONDITIONAL_REJECTED
      · rw [if_pos hst] at hstep ⊢
        rw [Function.update_same]
        exact hstep
      · rw [if_neg hst] at hstep ⊢
        exact hstep
    · intro i hi
      by_cases hst : (sendByMode (receivedGate (env.gate gateId) env.qpi._epoch (a : Int))
          (callQpi env.qpi sender (a : Int)) sender (a : Int)).status =
          QUGATE_CONDITIONAL_REJECTED
      · rw [if_pos hst, Function.update_noteq hi]
      · rw [if_neg hst]

/-! ## Per-gate accounting -/

theorem accounted_closeGate (rej : Nat → Nat) (env : QuGateTest) (caller : m256i)
    (gateId : Nat) (reward : Int)
    (hP : ∀ i, (env.state._gates i).active ≠ 0 → Accounted (rej i) (env.state._gates i)) :
    ∀ i, ((env.closeGate caller gateId reward).2.state._gates i).active ≠ 0 →
      Accounted (rej i) ((env.closeGate caller gateId reward).2.state._gates i) := by
  by_cases hs : (env.closeGate caller gateId reward).1.status = QUGATE_SUCCESS
  · obtain ⟨-, -, -, -, heq⟩ := closeGate_success env caller gateId reward hs
    rw [heq]
    exact accounted_update rej rej env.state._gates _ (gateId - 1) _ rfl (fun _ _ => rfl) hP
      (fun h => absurd (by rw [closedGate_eq]) h)
  · rw [closeGate_failure env caller gateId reward hs]
    exact hP

theorem accounted_updateGate (rej : Nat → Nat) (env : QuGateTest) (caller : m256i)
    (reward : Int) (input : updateGate_input)
    (hP : ∀ i, (env.state._gates i).active ≠ 0 → Accounted (rej i) (env.state._gates i)) :
    ∀ i, ((env.updateGate caller reward input).2.state._gates i).active ≠ 0 →
      Accounted (rej i) ((env.updateGate caller reward input).2.state._gates i) := by
  by_cases hs : (env.updateGate caller reward input).1.status = QUGATE_SUCCESS
  · obtain ⟨-, -, -, hact, -, -, -, heq⟩ := updateGate_success env caller reward input hs
    rw [heq]
    exact accounted_update rej rej env.state._gates _ (input.gateId - 1) _ rfl
      (fun _ _ => rfl) hP
      (fun _ => accounted_congr _ (env.gate input.gateId) _ rfl rfl rfl rfl
        (hP (input.gateId - 1) hact))
  · rw [(updateGate_status env caller reward input).2.2 hs]
    exact hP

theorem accounted_endEpoch (rej : Nat → Nat) (env : QuGateTest)
    (hinv : AllocatorInvariant env.state)
    (hP : ∀ i, (env.state._gates i).active ≠ 0 → Accounted (rej i) (env.state._gates i)) :
    ∀ i, (env.endEpoch.state._gates i).active ≠ 0 →
      Accounted (rej i) (env.endEpoch.state._gates i) := by
  intro i
  have hg : env.endEpoch.state._gates i =
      if i < env.state._gateCount ∧ Expires env i then closedGate (env.state._gates i)
      else env.state._gates i := by
    rw [endEpoch_eq env hinv]
    rfl
  rw [hg]
  by_cases h : i < env.state._gateCount ∧ Expires env i
  · rw [if_pos h, closedGate_eq]
    intro hact
    exact absurd rfl hact
  · rw [if_neg h]
    exact hP i

/-- In a harness with a ledger every active gate is accounted for. -/
theorem ledger_accounted (rej : Nat → Nat) (env : QuGateTest) (h : Ledger rej env) :
    ∀ i, (env.state._gates i).active ≠ 0 → Accounted (rej i) (env.state._gates i) := by
  induction h with
  | init =>
    intro i hact
    exact absurd rfl hact
  | setTime rej env epoch tick _ _ _ ih => exact ih
  | resetQpi rej env _ ih => exact ih
  | createGate rej env creator fee input hl _ _ ih =>
    exact accounted_createGate rej env creator fee input
      (reachable_allocatorInvariant env (ledger_reachable rej env hl)) ih
  | sendToGate rej env sender gateId amount hl _ ha h0 hov ih =>
    exact accounted_sendToGate rej env sender gateId amount (ledger_reachable rej env hl)
      ha h0 hov ih
  | closeGate rej env caller gateId reward _ _ _ ih =>
    exact accounted_closeGate rej env caller gateId reward ih
  | updateGate rej env caller reward input _ _ _ ih =>
    exact accounted_updateGate rej env caller reward input ih
  | endEpoch rej env hl ih =>
    exact accounted_endEpoch rej env
      (reachable_allocatorInvariant env (ledger_reachable rej env hl)) ih

/-- Claim C29 (per-gate accounting). In every harness reached from the initial
one by calls in which every send has a non-negative amount and does not
overflow the `totalReceived` of its target, with `rej i` the total of the sends
rejected by slot `i` since its gate was created, every active gate has
`totalForwarded + currentBalance ≤ totalReceived`; a Split, RoundRobin or
Random gate has `totalForwarded = totalReceived` and `currentBalance = 0`; a
Threshold gate has `totalReceived = totalForwarded + currentBalance`; a
Conditional gate has `currentBalance = 0` and `totalReceived - totalForwarded`
equal to the total of its rejected sends. -/
theorem gate_accounting (rej : Nat → Nat) (env : QuGateTest) (h : Ledger rej env) (i : Nat)
    (hact : (env.state._gates i).active ≠ 0) :
    (env.state._gates i).totalForwarded + (env.state._gates i).currentBalance ≤
      (env.state._gates i).totalReceived ∧
    ((env.state._gates i).mode = MODE_SPLIT ∨ (env.state._gates i).mode = MODE_ROUND_ROBIN ∨
        (env.state._gates i).mode = MODE_RANDOM →
      (env.state._gates i).totalForwarded = (env.state._gates i).totalReceived ∧
      (env.state._gates i).currentBalance = 0) ∧
    ((env.state._gates i).mode = MODE_THRESHOLD →
      (env.state._gates i).totalReceived =
        (env.state._gates i).totalForwarded + (env.state._gates i).currentBalance) ∧
    ((env.state._gates i).mode = MODE_CONDITIONAL →
      (env.state._gates i).currentBalance = 0 ∧
      (env.state._gates i).totalReceived - (env.state._gates i).totalForwarded = rej i ∧
      (env.state._gates i).totalForwarded ≤ (env.state._gates i).totalReceived) := by
  obtain ⟨h1, h2, h3, h4⟩ := ledger_accounted rej env h i hact
  refine ⟨h1, h2, h3, fun hm => ?_⟩
  obtain ⟨a, b⟩ := h4 hm
  exact ⟨a, by omega, by omega⟩

/-- On `ledgerEnv` the Conditional gate 1 has received 1200 and forwarded 700;
the difference is the one rejected send of 500. -/
theorem gate_accounting_witness :
    (ledgerEnv.state._gates 0).mode = MODE_CONDITIONAL ∧
    (ledgerEnv.state._gates 0).totalReceived = 1200 ∧
    (ledgerEnv.state._gates 0).totalForwarded = 700 ∧
    ∃ rej : Nat → Nat, Ledger rej ledgerEnv ∧ rej 0 = 500 ∧
      (ledgerEnv.state._gates 0).currentBalance = 0 ∧
      (ledgerEnv.state._gates 0).totalReceived - (ledgerEnv.state._gates 0).totalForwarded =
        rej 0 := by
  have h1 := Ledger.createGate _ _ 1 1000 exampleConditionalInput Ledger.init
    (by decide) (by decide)
  have h2 := Ledger.setTime _ _ 120
    (QuGateTest.new.createGate 1 1000 exampleConditionalInput).2.qpi._tick h1
    (by decide) (by decide)
  have h3 := Ledger.sendToGate _ _ 3 1 500 h2 (by norm_num [U64]) (by decide) (by decide)
    (fun _ _ => by decide)
  have h4 := Ledger.sendToGate _ _ 2 1 700 h3 (by norm_num [U64]) (by decide) (by decide)
    (fun _ _ => by decide)
  have h := gate_accounting _ ledgerEnv h4 0 (by decide)
  have hc := h.2.2.2 (by decide)
  exact ⟨by decide, by decide, by decide, _, h4, by decide, hc.1, hc.2.1⟩

/-! ## endEpoch is idempotent -/

/-- A loop of `endEpoch` over slots none of which expires changes nothing. -/
theorem endEpochFold_none (l : List Nat) (env : QuGateTest)
    (h : ∀ i, i ∈ l → ¬ Expires env i) : l.foldl endEpochStep env = env := by
  induction l with
  | nil => rfl
  | cons i l ih =>
    rw [List.foldl_cons, endEpochStep_eq, if_neg (h i (List.mem_cons_self _ _))]
    exact ih (fun j hj => h j (List.mem_cons_of_mem _ hj))

/-- After `endEpoch` no slot below `_gateCount` expires at the same epoch. -/
theorem endEpoch_none_expires (env : QuGateTest) (hinv : AllocatorInvariant env.state)
    (i : Nat) (hi : i < env.state._gateCount) : ¬ Expires env.endEpoch i := by
  have heq := endEpoch_eq env hinv
  have hg : env.endEpoch.state._gates.get i =
      if i < env.state._gateCount ∧ Expires env i then closedGate (env.state._gates i)
      else env.state._gates i := by
    rw [heq]
    rfl
  have hx : env.endEpoch.state._expiryEpochs = env.state._expiryEpochs := by
    rw [heq]
    rfl
  have he : env.endEpoch.qpi.epoch = env.qpi.epoch := by
    rw [heq]
    exact transferAll_epoch _ _
  intro hexp
  unfold Expires at hexp
  rw [hg, hx, he] at hexp
  by_cases h : Expires env i
  · rw [if_pos ⟨hi, h⟩, closedGate_eq] at hexp
    exact absurd (show (0 : Nat) = 1 from hexp.1) (by decide)
  · rw [if_neg (fun hc => h hc.2)] at hexp
    exact h hexp

/-- Claim C32 (`endEpoch` is idempotent at a fixed epoch). In every reachable
harness, whatever its current epoch, a second run of `endEpoch` right after a
first one gives back the harness the first run left: the registry is exactly
as the first run left it and the transfer log, which `endEpoch` does not
reset, is the log after the first run, so the second run makes no transfer.
The same holds after the host has set any epoch before the first run. -/
theorem endEpoch_idempotent (env : QuGateTest) (hr : Reachable env) :
    env.endEpoch.endEpoch = env.endEpoch ∧
    env.endEpoch.endEpoch.state = env.endEpoch.state ∧
    env.endEpoch.endEpoch.qpi.transfers = env.endEpoch.qpi.transfers ∧
    (∀ epoch : Nat,
      (atEpoch env epoch).endEpoch.endEpoch = (atEpoch env epoch).endEpoch) := by
  have key : ∀ e : QuGateTest, AllocatorInvariant e.state →
      e.endEpoch.endEpoch = e.endEpoch := by
    intro e hinv
    have hgc : e.endEpoch.state._gateCount = e.state._gateCount := by
      unfold QuGateTest.endEpoch
      exact endEpochFold_gateCount _ e
    have hstep : (List.range e.endEpoch.state._gateCount).foldl endEpochStep e.endEpoch =
        e.endEpoch :=
      endEpochFold_none _ e.endEpoch (fun i hi =>
        endEpoch_none_expires e hinv i (by rw [← hgc]; exact List.mem_range.mp hi))
    exact hstep
  have hinv := reachable_allocatorInvariant env hr
  have h1 := key env hinv
  refine ⟨h1, by rw [h1], by rw [h1], ?_⟩
  intro epoch
  exact key (atEpoch env epoch) hinv

/-- The harness of the test `GateExpiryRefundsBalance` at epoch 150: the first
run of `endEpoch` refunds the 500 held; the second changes nothing. -/
theorem endEpoch_idempotent_witness :
    Reachable (atEpoch (heldEnv 10000 500) 150) ∧
    (atEpoch (heldEnv 10000 500) 150).endEpoch.qpi.transfers = [{ to_ := 1, amount := 500 }] ∧
    (atEpoch (heldEnv 10000 500) 150).endEpoch.endEpoch =
      (atEpoch (heldEnv 10000 500) 150).endEpoch ∧
    (atEpoch (heldEnv 10000 500) 150).endEpoch.endEpoch.qpi.transfers =
      [{ to_ := 1, amount := 500 }] := by
  have hr : Reachable (atEpoch (heldEnv 10000 500) 150) :=
    Reachable.setTime _ 150 _
      (Reachable.sendToGate _ 9 1 500
        (Reachable.createGate _ 1 1000 (exampleThresholdInput 10000) Reachable.init
          (by decide) (by decide))
        (by decide) (by decide))
      (by decide) (by decide)
  have h := endEpoch_idempotent (atEpoch (heldEnv 10000 500) 150) hr
  have ht : (atEpoch (heldEnv 10000 500) 150).endEpoch.qpi.transfers =
      [{ to_ := 1, amount := 500 }] := by decide
  exact ⟨hr, ht, h.1, h.2.2.1.trans ht⟩

/-! ## The configuration checks of updateGate -/

theorem specUpdateStatus_success_iff (env : QuGateTest) (caller : m256i)
    (input : updateGate_input)
    (hid : input.gateId ≠ 0 ∧ input.gateId ≤ env.state._gateCount)
    (hown : (env.gate input.gateId).owner = caller)
    (hact : (env.gate input.gateId).active ≠ 0) :
    specUpdateStatus env caller input = QUGATE_SUCCESS ↔
      (¬ (input.recipientCount = 0 ∨ input.recipientCount > 8) ∧
        ¬ input.allowedSenderCount > 8 ∧
        ¬ ((env.gate input.gateId).mode = MODE_SPLIT ∧
          ((∃ i, i < input.recipientCount ∧ input.ratios i > 10000) ∨
            ratioSum input.ratios input.recipientCount = 0)) ∧
        ¬ ((env.gate input.gateId).mode = MODE_THRESHOLD ∧ input.threshold = 0)) := by
  unfold specUpdateStatus
  have h1 : ¬ (input.gateId = 0 ∨ input.gateId > env.state._gateCount) := by omega
  have h2 : ¬ (env.gate input.gateId).owner ≠ caller := fun h => h hown
  rw [if_neg h1, if_neg h2, if_neg hact]
  by_cases h4 : input.recipientCount = 0 ∨ input.recipientCount > 8
  · rw [if_pos h4]
    exact ⟨fun h => absurd h (by decide), fun h => absurd h4 h.1⟩
  rw [if_neg h4]
  by_cases h5 : input.allowedSenderCount > 8
  · rw [if_pos h5]
    exact ⟨fun h => absurd h (by decide), fun h => absurd h5 h.2.1⟩
  rw [if_neg h5]
  by_cases h6 : (env.gate input.gateId).mode = MODE_SPLIT ∧
      ((∃ i, i < input.recipientCount ∧ input.ratios i > 10000) ∨
        ratioSum input.ratios input.recipientCount = 0)
  · rw [if_pos h6]
    exact ⟨fun h => absurd h (by decide), fun h => absurd h6 h.2.2.1⟩
  rw [if_neg h6]
  by_cases h7 : (env.gate input.gateId).mode = MODE_THRESHOLD ∧ input.threshold = 0
  · rw [if_pos h7]
    exact ⟨fun h => absurd h (by decide), fun h => absurd h7 h.2.2.2⟩
  rw [if_neg h7]
  exact ⟨fun _ => ⟨h4, h5, h6, h7⟩, fun _ => rfl⟩

theorem overMax_congr (r1 r2 : QArray Nat) (n : Nat) (h : ∀ i, i < n → r1 i = r2 i) :
    (∃ i, i < n ∧ r1 i > 10000) ↔ (∃ i, i < n ∧ r2 i > 10000) := by
  constructor
  · rintro ⟨i, hi, hgt⟩
    exact ⟨i, hi, by rw [← h i hi]; exact hgt⟩
  · rintro ⟨i, hi, hgt⟩
    exact ⟨i, hi, by rw [h i hi]; exact hgt⟩

/-! ## createGate and updateGate accept the same configurations -/

/-- Claim C31 (`createGate` and `updateGate` accept the same configurations).
Take a `createGate` that passes the checks that are not about the
configuration (the fee is covered, the mode is at most 4, a slot is free) and
an `updateGate` that passes its own (the gate id is in range, the caller owns
the gate, the gate is active), the gate having the mode of the `createGate`
input and the two inputs the same recipient count, ratios below that count,
threshold and allowed sender count. Then `createGate` returns Success exactly
when `updateGate` does, and that is exactly when the recipient count is in
`[1, 8]`, the sender count at most 8, for Split every declared ratio at most
10000 and their sum not 0, and for Threshold the threshold not 0: the order of
the Split checks and the sum modulo `2^64` make no difference. -/
theorem same_configurations (env env2 : QuGateTest) (creator caller : m256i)
    (fee reward : Int) (cin : createGate_input) (uin : updateGate_input)
    (hfee : ¬ fee < toS64 (env.currentEscalatedFee : Int))
    (hmode : cin.mode ≤ 4)
    (hslot : ¬ (env.state._freeCount = 0 ∧ env.state._gateCount ≥ 4096))
    (hid : uin.gateId ≠ 0 ∧ uin.gateId ≤ env2.state._gateCount)
    (hown : (env2.gate uin.gateId).owner = caller)
    (hact : (env2.gate uin.gateId).active ≠ 0)
    (hm : (env2.gate uin.gateId).mode = cin.mode)
    (hrc : uin.recipientCount = cin.recipientCount)
    (hrat : ∀ i, i < cin.recipientCount → uin.ratios i = cin.ratios i)
    (hth : uin.threshold = cin.threshold)
    (hasc : uin.allowedSenderCount = cin.allowedSenderCount) :
    ((env.createGate creator fee cin).1.status = QUGATE_SUCCESS ↔
      (env2.updateGate caller reward uin).1.status = QUGATE_SUCCESS) ∧
    ((env.createGate creator fee cin).1.status = QUGATE_SUCCESS ↔
      (1 ≤ cin.recipientCount ∧ cin.recipientCount ≤ 8 ∧ cin.allowedSenderCount ≤ 8 ∧
        (cin.mode = MODE_SPLIT →
          (∀ i, i < cin.recipientCount → cin.ratios i ≤ 10000) ∧
          0 < ratioSum cin.ratios cin.recipientCount) ∧
        (cin.mode = MODE_THRESHOLD → cin.threshold ≠ 0))) := by
  have hc : (env.createGate creator fee cin).1.status = QUGATE_SUCCESS ↔
      (¬ (cin.recipientCount = 0 ∨ cin.recipientCount > 8) ∧
        ¬ cin.allowedSenderCount > 8 ∧
        ¬ (cin.mode = MODE_SPLIT ∧
          ((∃ i, i < cin.recipientCount ∧ cin.ratios i > 10000) ∨
            ratioSum cin.ratios cin.recipientCount = 0)) ∧
        ¬ (cin.mode = MODE_THRESHOLD ∧ cin.threshold = 0)) := by
    rw [createGate_status_signed, specCreateStatus_success_iff]
    constructor
    · rintro ⟨-, -, a3, -, a5, a6, a7⟩
      exact ⟨a3, a7, a5, a6⟩
    · rintro ⟨a3, a7, a5, a6⟩
      exact ⟨hfee, by omega, a3, hslot, a5, a6, a7⟩
  have hu : (env2.updateGate caller reward uin).1.status = QUGATE_SUCCESS ↔
      (¬ (cin.recipientCount = 0 ∨ cin.recipientCount > 8) ∧
        ¬ cin.allowedSenderCount > 8 ∧
        ¬ (cin.mode = MODE_SPLIT ∧
          ((∃ i, i < cin.recipientCount ∧ cin.ratios i > 10000) ∨
            ratioSum cin.ratios cin.recipientCount = 0)) ∧
        ¬ (cin.mode = MODE_THRESHOLD ∧ cin.threshold = 0)) := by
    rw [(updateGate_status env2 caller reward uin).1,
      specUpdateStatus_success_iff env2 caller uin hid hown hact, hm, hrc, hth, hasc,
      overMax_congr uin.ratios cin.ratios cin.recipientCount hrat,
      ratioSum_congr uin.ratios cin.ratios cin.recipientCount hrat]
  refine ⟨hc.trans hu.symm, hc.trans ?_⟩
  constructor
  · rintro ⟨a3, a7, a5, a6⟩
    refine ⟨by omega, by omega, by omega, fun hs => ⟨?_, ?_⟩, fun ht h0 => a6 ⟨ht, h0⟩⟩
    · intro i hi
      by_contra hgt
      exact a5 ⟨hs, Or.inl ⟨i, hi, by omega⟩⟩
    · rcases Nat.eq_zero_or_pos (ratioSum cin.ratios cin.recipientCount) with h0 | h0
      · exact absurd ⟨hs, Or.inr h0⟩ a5
      · exact h0
  · rintro ⟨b1, b2, b3, b4, b5⟩
    refine ⟨by omega, by omega, ?_, fun hc2 => b5 hc2.1 hc2.2⟩
    rintro ⟨hs, hbad⟩
    obtain ⟨c1, c2⟩ := b4 hs
    rcases hbad with ⟨i, hi, hgt⟩ | h0
    · have := c1 i hi
      omega
    · omega

/-- The configuration of `exampleSplitInput` is accepted by both procedures;
the Split ratios `2^63, 2^63`, whose sum is 0 modulo `2^64`, are rejected by
both. -/
theorem same_configurations_witness :
    ((QuGateTest.new.createGate 1 1000 exampleSplitInput).1.status = QUGATE_SUCCESS ∧
      ((QuGateTest.new.createGate 1 1000 exampleSplitInput).2.updateGate 1 0
        exampleSplitUpdate).1.status = QUGATE_SUCCESS) ∧
    ((QuGateTest.new.createGate 1 1000 wrapSplitInput).1.status ≠ QUGATE_SUCCESS ∧
      ((QuGateTest.new.createGate 1 1000 exampleSplitInput).2.updateGate 1 0
        wrapSplitUpdate).1.status ≠ QUGATE_SUCCESS) := by
  have h1 := same_configurations QuGateTest.new
    (QuGateTest.new.createGate 1 1000 exampleSplitInput).2 1 1 1000 0
    exampleSplitInput exampleSplitUpdate (by decide) (by decide) (by decide) (by decide)
    (by decide) (by decide) (by decide) (by decide) (by decide) (by decide) (by decide)
  have h2 := same_configurations QuGateTest.new
    (QuGateTest.new.createGate 1 1000 exampleSplitInput).2 1 1 1000 0
    wrapSplitInput wrapSplitUpdate (by decide) (by decide) (by decide) (by decide)
    (by decide) (by decide) (by decide) (by decide) (by decide) (by decide) (by decide)
  have hs : (QuGateTest.new.createGate 1 1000 exampleSplitInput).1.status = QUGATE_SUCCESS := by
    decide
  have hw : (QuGateTest.new.createGate 1 1000 wrapSplitInput).1.status ≠ QUGATE_SUCCESS := by
    decide
  exact ⟨⟨hs, h1.1.mp hs⟩, ⟨hw, fun hx => hw (h2.1.mpr hx)⟩⟩

end QuGate
